import Mathlib

/-!
# PAC52xx / PAC55xx NOR-flash drivers

A shallow embedding of `src/flash/nor/pac52xx.c` (DeviceA) and
`src/flash/nor/pac55xx.c` (DeviceB) and the properties of their erase, write
and status-poll routines.

Conventions of the embedding:

* `uint32_t` values are `Nat`, reduced `% 2^32` wherever the C arithmetic can
  wrap; `int` values are `Int`.
* The debug target is an explicit state: it records every access the driver
  makes (`log`) and answers each access as a function of the accesses made so
  far, so that any deterministic target behaviour can be expressed.
* A routine that would dereference `bank->sectors` out of range (or through a
  null table) returns `none`.
-/

namespace Pac5xxx

/-! ## Host side: return codes, target, bank -/

/-- Modelled from the spec: the host return code OK (§6), declared in the host
headers outside this driver; the drivers only ever compare against it. -/
def ERROR_OK : Int := 0

/-- Modelled from the spec: the host return code TIMEOUT/FAIL (§6), declared in
the host headers outside this driver (value of the host's log header). -/
def ERROR_FAIL : Int := -4

/-- Modelled from the spec: the host return code TARGET_NOT_HALTED (§6),
declared in the host headers outside this driver. -/
def ERROR_TARGET_NOT_HALTED : Int := -304

/-- Modelled from the spec: the host return code FLASH_DST_BREAKS_ALIGNMENT
(§6), declared in the host headers outside this driver. -/
def ERROR_FLASH_DST_BREAKS_ALIGNMENT : Int := -903

/-- Modelled from the spec: the target states of §6 (`target_state()`), an enum
of the host declared outside this driver. -/
inductive target_state where
  | TARGET_UNKNOWN
  | TARGET_RUNNING
  | TARGET_HALTED
  | TARGET_RESET
  | TARGET_DEBUG_RUNNING
  deriving DecidableEq, Repr

open target_state

/-- One observable action of the driver on its host: a 32-bit read, a 32-bit
write, or a cooperative sleep. -/
inductive Access where
  | read (address : Nat)
  | write (address : Nat) (value : Nat)
  | sleep (ms : Nat)
  deriving DecidableEq, Repr

/-- Modelled from the spec: the debug target behind the host primitives of §6.
`log` lists the accesses made so far, oldest first; `on_read` and `on_write`
give the status (and, for a read, the value) with which the target answers the
next access, as a function of everything that happened before. -/
structure target where
  state : target_state
  log : List Access
  on_read : List Access → Nat → Int × Nat
  on_write : List Access → Nat → Nat → Int

/-- Modelled from the spec: `read_u32(addr) -> (value, status)` of §6. The
result is the status, the value stored through the out pointer, and the
target after the access. -/
def target_read_u32 (t : target) (address : Nat) : Int × Nat × target :=
  ((t.on_read t.log address).1, (t.on_read t.log address).2 % 2 ^ 32,
    { t with log := t.log ++ [Access.read address] })

/-- Modelled from the spec: `write_u32(addr, value) -> status` of §6. -/
def target_write_u32 (t : target) (address value : Nat) : Int × target :=
  (t.on_write t.log address value,
    { t with log := t.log ++ [Access.write address value] })

/-- Modelled from the spec: `sleep_ms(1)` of §6, the host's cooperative
yield. -/
def alive_sleep (t : target) (ms : Nat) : target :=
  { t with log := t.log ++ [Access.sleep ms] }

/-- The sector record of the bank model (`struct flash_sector`). -/
structure flash_sector where
  offset : Nat
  size : Nat
  is_erased : Int
  is_protected : Int
  deriving DecidableEq, Repr

/-- Driver-private state of DeviceA (`struct pac52xx_flash_bank`). -/
structure pac52xx_flash_bank where
  probed : Int
  deriving DecidableEq, Repr

/-- Driver-private state of DeviceB (`struct pac55xx_flash_bank`). -/
structure pac55xx_flash_bank where
  probed : Int
  user_bank_size : Nat
  deriving DecidableEq, Repr

/-- The fields of the host's `struct flash_bank` that the drivers touch.
`sectors = none` is the null table; `driver_priv` is the driver's private
record. -/
structure flash_bank (P : Type) where
  target : target
  base : Nat
  size : Nat
  num_sectors : Int
  sectors : Option (List flash_sector)
  driver_priv : P

/-- The store `bank->sectors[i].is_erased = 1`; `none` when the table is null
or `i` is outside it. -/
def set_is_erased {P : Type} (bank : flash_bank P) (i : Int) : Option (flash_bank P) :=
  match bank.sectors with
  | none => none
  | some tbl =>
    if 0 ≤ i ∧ i.toNat < tbl.length then
      some { bank with
        sectors := some (tbl.modify (fun s => { s with is_erased := 1 }) i.toNat) }
    else none

/-! ## DeviceA (pac52xx.c) -/

def PAC5XXX_FLASH_BASE : Nat := 0x00000000
def PAC5XXX_MEMCTL_FLASHLOCK : Nat := 0x40020000
def PAC5XXX_MEMCTL_FLASHSTATUS : Nat := 0x40020004
def PAC5XXX_MEMCTL_FLASHSTATUS_PERASE : Nat := 1 <<< 1
def PAC5XXX_MEMCTL_FLASHSTATUS_WRITE : Nat := 1 <<< 0
def PAC5XXX_MEMCTL_FLASHPAGE : Nat := 0x40020008
def PAC5XXX_MEMCTL_FLASHPERASE : Nat := 0x40020014
def PAC5XXX_FLASH_LOCK_FLASHWRITE_KEY : Nat := 0xAAAAAAAA
def PAC5XXX_FLASH_LOCK_PERASE_KEY : Nat := 0xA5A55A5A
def FLASH_ERASE_TIMEOUT : Int := 100
def FLASH_WRITE_TIMEOUT : Int := 5
def PAC5XXX_NUM_FLASH_PAGES : Nat := 32

def pac52xx_get_flash_status (t : target) : Int × Nat × target :=
  target_read_u32 t PAC5XXX_MEMCTL_FLASHSTATUS

/-- The `for(;;)` loop of `pac52xx_wait_status_busy`, by recursion on the
non-negative part of `timeout`: a busy sample with `timeout <= 0` fails, one
with `timeout > 0` decrements, sleeps and polls again. -/
def pac52xx_wait_status_busy_loop (t : target) (timeout : Nat) : Int × target :=
  let r := pac52xx_get_flash_status t
  if r.1 ≠ ERROR_OK then (r.1, r.2.2)
  else if (decide ((r.2.1 &&& PAC5XXX_MEMCTL_FLASHSTATUS_PERASE) ≠ 0)
      && decide ((r.2.1 &&& PAC5XXX_MEMCTL_FLASHSTATUS_WRITE) ≠ 0)) = false then
    (r.1, r.2.2)
  else
    match timeout with
    | 0 => (ERROR_FAIL, r.2.2)
    | n + 1 => pac52xx_wait_status_busy_loop (alive_sleep r.2.2 1) n

/-- `pac52xx_wait_status_busy(bank, timeout)`; only `bank->target` is used. -/
def pac52xx_wait_status_busy (t : target) (timeout : Int) : Int × target :=
  pac52xx_wait_status_busy_loop t timeout.toNat

/-- Conversion of a C `int` to `uint32_t`, as done when `i` is passed to
`target_write_u32`. -/
def int_to_u32 (i : Int) : Nat := (i % 2 ^ 32).toNat

/-- Modelled from the spec: target addresses are 32 bits wide (§6, "32-bit
memory-space accesses"); the address type of the host is declared outside this
driver. -/
def target_addr (a : Nat) : Nat := a % 2 ^ 32

/-- The body of `for( i = first; i <= last; ++i )` in `pac52xx_erase`, run for
the `n` remaining values of `i` (`n = last + 1 - i`, or `0` once `i > last`). -/
def pac52xx_erase_loop {P : Type} (bank : flash_bank P) (i : Int) (n : Nat) :
    Option (Int × flash_bank P) :=
  match n with
  | 0 => some (ERROR_OK, bank)
  | n + 1 =>
    let w1 := target_write_u32 bank.target PAC5XXX_MEMCTL_FLASHLOCK
      PAC5XXX_FLASH_LOCK_FLASHWRITE_KEY
    if w1.1 ≠ ERROR_OK then some (w1.1, { bank with target := w1.2 }) else
    let w2 := target_write_u32 w1.2 PAC5XXX_MEMCTL_FLASHPAGE (int_to_u32 i)
    if w2.1 ≠ ERROR_OK then some (w2.1, { bank with target := w2.2 }) else
    let w3 := target_write_u32 w2.2 PAC5XXX_MEMCTL_FLASHPERASE PAC5XXX_FLASH_LOCK_PERASE_KEY
    if w3.1 ≠ ERROR_OK then some (w3.1, { bank with target := w3.2 }) else
    let w4 := pac52xx_wait_status_busy w3.2 FLASH_ERASE_TIMEOUT
    if w4.1 ≠ ERROR_OK then some (w4.1, { bank with target := w4.2 }) else
    match set_is_erased { bank with target := w4.2 } i with
    | none => none
    | some bank1 => pac52xx_erase_loop bank1 (i + 1) n

def pac52xx_erase {P : Type} (bank : flash_bank P) (first last : Int) :
    Option (Int × flash_bank P) :=
  if bank.target.state ≠ TARGET_HALTED then some (ERROR_TARGET_NOT_HALTED, bank)
  else pac52xx_erase_loop bank first (last + 1 - first).toNat

def pac52xx_protect {P : Type} (bank : flash_bank P) (_set : Int) (_first _last : Int) :
    Int × flash_bank P :=
  (ERROR_OK, bank)

/-- The value `memcpy(&value, buffer, sizeof(uint32_t))` leaves in `value` on a
little-endian host, from the four bytes at `buffer[pos..pos+3]`. -/
def load_u32 (buffer : Nat → Nat) (pos : Nat) : Nat :=
  buffer pos % 256 + 256 * (buffer (pos + 1) % 256) + 65536 * (buffer (pos + 2) % 256)
    + 16777216 * (buffer (pos + 3) % 256)

/-- The `while( words_remaining > 0 )` loop of `pac52xx_write`; `pos` is the
distance the `buffer` pointer has advanced. A failing step breaks out with its
status. -/
def pac52xx_write_loop {P : Type} (bank : flash_bank P) (buffer : Nat → Nat)
    (pos offset : Nat) (words_remaining : Nat) : Int × flash_bank P :=
  match words_remaining with
  | 0 => (ERROR_OK, bank)
  | n + 1 =>
    let value := load_u32 buffer pos
    let w1 := target_write_u32 bank.target PAC5XXX_MEMCTL_FLASHLOCK
      PAC5XXX_FLASH_LOCK_FLASHWRITE_KEY
    if w1.1 ≠ ERROR_OK then (w1.1, { bank with target := w1.2 }) else
    let w2 := target_write_u32 w1.2 (target_addr (bank.base + offset)) value
    if w2.1 ≠ ERROR_OK then (w2.1, { bank with target := w2.2 }) else
    let w3 := pac52xx_wait_status_busy w2.2 FLASH_WRITE_TIMEOUT
    if w3.1 ≠ ERROR_OK then (w3.1, { bank with target := w3.2 }) else
    pac52xx_write_loop { bank with target := w3.2 } buffer (pos + 4)
      ((offset + 4) % 2 ^ 32) n

/-- `pac52xx_write`. `malloc n` tells whether the host allocator grants a block
of `n` bytes. `buffer i` is the byte `buffer[i]` of the caller's memory. The
result is `none` when the padding copy would overrun its block (the 32-bit sum
`count + additional_bytes` wrapped to 0). -/
def pac52xx_write {P : Type} (malloc : Nat → Bool) (bank : flash_bank P)
    (buffer : Nat → Nat) (offset count : Nat) : Option (Int × flash_bank P) :=
  if bank.target.state ≠ TARGET_HALTED then some (ERROR_TARGET_NOT_HALTED, bank)
  else if offset &&& 0x3 ≠ 0 then some (ERROR_FLASH_DST_BREAKS_ALIGNMENT, bank)
  else if count &&& 0x3 ≠ 0 then
    let additional_bytes := 4 - (count % 4)
    if malloc ((count + additional_bytes) % 2 ^ 32) = false then some (ERROR_FAIL, bank)
    else if (count + additional_bytes) % 2 ^ 32 < count then none
    else
      let new_buffer : Nat → Nat := fun j => if j < count then buffer j % 256 else 0xff
      some (pac52xx_write_loop bank new_buffer 0 offset ((count + additional_bytes) / 4))
  else some (pac52xx_write_loop bank buffer 0 offset (count / 4))

/-! ## DeviceB (pac55xx.c) -/

def PAC55XX_MEMCTL : Nat := 0x400D0000
def PAC55XX_MEMSTATUS : Nat := 0x400D0004
def PAC55XX_MEMCTL_FLASHLOCK : Nat := 0x400D0008
def PAC55XX_MEMCTL_FLASHPAGE : Nat := 0x400D000C
def PAC55XX_MEMCTL_FLASHERASE : Nat := 0x400D0020
def PAC55XX_CCSCTL : Nat := 0x400D0400
def PAC55XX_CCSPLLCTL : Nat := 0x400D0404
def PAC55XX_FLASH_LOCK : Nat := 0x400D0008
def FLASH_LOCK_ALLOW_WRITE_MEMCTL : Nat := 0xD513B490
def FLASH_LOCK_ALLOW_WRITE_ERASE_FLASH : Nat := 0x43DF140A
def FLASH_START_PAGE_ERASE : Nat := 0x8C799CA7
def FLASH_START_MASS_PAGE_ERASE : Nat := 0x09EE76C9
def FLASH_START_MASS_PROG_INFO_ERASE : Nat := 0x856E0E70
def PAC55XX_FLASH_BASE : Nat := 0x00000000
def PAC55XX_NUM_FLASH_PAGES : Nat := 128

def pac55xx_get_flash_status (t : target) : Int × Nat × target :=
  target_read_u32 t PAC55XX_MEMSTATUS

/-- The `for(;;)` loop of `pac55xx_wait_status_busy`, by recursion on the
non-negative part of `timeout`. -/
def pac55xx_wait_status_busy_loop (t : target) (timeout : Nat) : Int × target :=
  let r := pac55xx_get_flash_status t
  if r.1 ≠ ERROR_OK then (r.1, r.2.2)
  else if r.2.1 &&& 0x3 = 0 then (r.1, r.2.2)
  else
    match timeout with
    | 0 => (ERROR_FAIL, r.2.2)
    | n + 1 => pac55xx_wait_status_busy_loop (alive_sleep r.2.2 1) n

/-- `pac55xx_wait_status_busy(bank, timeout)`; only `bank->target` is used. -/
def pac55xx_wait_status_busy (t : target) (timeout : Int) : Int × target :=
  pac55xx_wait_status_busy_loop t timeout.toNat

/-- The `for( i = first; i <= last; ++i )` loop of `pac55xx_erase`, run for the
`n` remaining values of `i`; the right summand is the bank with which the code
goes on after the loop. -/
def pac55xx_erase_loop {P : Type} (bank : flash_bank P) (i : Int) (n : Nat) :
    Option ((Int × flash_bank P) ⊕ flash_bank P) :=
  match n with
  | 0 => some (Sum.inr bank)
  | n + 1 =>
    let w1 := target_write_u32 bank.target PAC55XX_MEMCTL_FLASHLOCK
      FLASH_LOCK_ALLOW_WRITE_ERASE_FLASH
    if w1.1 ≠ ERROR_OK then some (Sum.inl (w1.1, { bank with target := w1.2 })) else
    let w2 := target_write_u32 w1.2 PAC55XX_MEMCTL_FLASHPAGE (int_to_u32 i)
    if w2.1 ≠ ERROR_OK then some (Sum.inl (w2.1, { bank with target := w2.2 })) else
    let w3 := target_write_u32 w2.2 PAC55XX_MEMCTL_FLASHERASE FLASH_START_PAGE_ERASE
    if w3.1 ≠ ERROR_OK then some (Sum.inl (w3.1, { bank with target := w3.2 })) else
    let w4 := pac55xx_wait_status_busy w3.2 FLASH_ERASE_TIMEOUT
    if w4.1 ≠ ERROR_OK then some (Sum.inl (w4.1, { bank with target := w4.2 })) else
    match set_is_erased { bank with target := w4.2 } i with
    | none => none
    | some bank1 => pac55xx_erase_loop bank1 (i + 1) n

def pac55xx_erase {P : Type} (bank : flash_bank P) (first last : Int) :
    Option (Int × flash_bank P) :=
  if bank.target.state ≠ TARGET_HALTED then some (ERROR_TARGET_NOT_HALTED, bank)
  else
    match pac55xx_erase_loop bank first (last + 1 - first).toNat with
    | none => none
    | some (Sum.inl r) => some r
    | some (Sum.inr bank1) =>
      let w := target_write_u32 bank1.target PAC55XX_MEMCTL_FLASHLOCK 0
      if w.1 ≠ ERROR_OK then some (w.1, { bank1 with target := w.2 })
      else some (ERROR_OK, { bank1 with target := w.2 })

/-- The loop `for (i = 0; i < PAC55XX_NUM_FLASH_PAGES; i++)` of
`pac55xx_erase_key`, from index `i` for `n` more entries. -/
def pac55xx_mark_all {P : Type} (bank : flash_bank P) (i : Nat) (n : Nat) :
    Option (flash_bank P) :=
  match n with
  | 0 => some bank
  | n + 1 =>
    match set_is_erased bank (i : Int) with
    | none => none
    | some bank1 => pac55xx_mark_all bank1 (i + 1) n

def pac55xx_erase_key {P : Type} (bank : flash_bank P) (key : Nat) :
    Option (Int × flash_bank P) :=
  if bank.target.state ≠ TARGET_HALTED then some (ERROR_TARGET_NOT_HALTED, bank)
  else
    let w1 := target_write_u32 bank.target PAC55XX_MEMCTL_FLASHLOCK
      FLASH_LOCK_ALLOW_WRITE_ERASE_FLASH
    if w1.1 ≠ ERROR_OK then some (w1.1, { bank with target := w1.2 }) else
    let w2 := target_write_u32 w1.2 PAC55XX_MEMCTL_FLASHERASE key
    if w2.1 ≠ ERROR_OK then some (w2.1, { bank with target := w2.2 }) else
    let w3 := pac55xx_wait_status_busy w2.2 FLASH_ERASE_TIMEOUT
    if w3.1 ≠ ERROR_OK then some (w3.1, { bank with target := w3.2 }) else
    match pac55xx_mark_all { bank with target := w3.2 } 0 PAC55XX_NUM_FLASH_PAGES with
    | none => none
    | some bank1 =>
      let w4 := target_write_u32 bank1.target PAC55XX_MEMCTL_FLASHLOCK 0
      if w4.1 ≠ ERROR_OK then some (w4.1, { bank1 with target := w4.2 })
      else some (ERROR_OK, { bank1 with target := w4.2 })

def pac55xx_protect {P : Type} (bank : flash_bank P) (_set : Int) (_first _last : Int) :
    Int × flash_bank P :=
  (ERROR_OK, bank)

/-- The store `buff.b[i] = v` into the 16-byte row buffer. -/
def buff_set (b : Nat → Nat) (i v : Nat) : Nat → Nat :=
  fun j => if j = i then v % 256 else b j

/-- The word `buff.w[i]` of the row buffer, the union's view of bytes
`4i..4i+3` on a little-endian host. -/
def buff_w (b : Nat → Nat) (i : Nat) : Nat := load_u32 b (4 * i)

/-- The loop `for(i=a; i < n; i++) buff.b[i] = 0xFF;` as the list of its stores,
for `i = a, ..., n-1`. -/
def buff_fill (b : Nat → Nat) (a n : Nat) : Nat → Nat :=
  (List.range' a (n - a)).foldl (fun b i => buff_set b i 0xFF) b

/-- The loop `for(i=0; i < 4; i++)` that sends the row: each word goes out
through `target_write_u32`, whose status is dropped, and `address` advances by
`sizeof(uint32_t)`. -/
def pac55xx_write_row (t : target) (address : Nat) (b : Nat → Nat) : target × Nat :=
  (List.range 4).foldl
    (fun (s : target × Nat) i =>
      ((target_write_u32 s.1 s.2 (buff_w b i)).2, (s.2 + 4) % 2 ^ 32))
    (t, address)

/-- The local variables of `pac55xx_write` that its loops update. -/
structure pac55xx_write_locals where
  target : target
  buff : Nat → Nat
  buff_index : Nat
  src_index : Nat
  address : Nat

/-- The loop `while(size_bytes--)` of `pac55xx_write`; `Except.error` carries an
early `return retval`. -/
def pac55xx_write_loop (p_src : Nat → Nat) (size_bytes : Nat) (s : pac55xx_write_locals) :
    Except (Int × target) pac55xx_write_locals :=
  match size_bytes with
  | 0 => Except.ok s
  | n + 1 =>
    let buff := buff_set s.buff s.buff_index (p_src s.src_index)
    let buff_index := (s.buff_index + 1) % 256
    let src_index := (s.src_index + 1) % 2 ^ 32
    if buff_index = 16 then
      let r := pac55xx_write_row s.target s.address buff
      let w := pac55xx_wait_status_busy r.1 FLASH_WRITE_TIMEOUT
      if w.1 ≠ ERROR_OK then Except.error (w.1, w.2)
      else pac55xx_write_loop p_src n
        { target := w.2, buff := buff, buff_index := 0, src_index := src_index,
          address := r.2 }
    else pac55xx_write_loop p_src n
      { s with buff := buff, buff_index := buff_index, src_index := src_index }

/-- `pac55xx_write`. `buff0` is the indeterminate initial content of the
automatic variable `buff`; `buffer i` is the byte `buffer[i]` of the caller's
memory. -/
def pac55xx_write {P : Type} (buff0 : Nat → Nat) (bank : flash_bank P)
    (buffer : Nat → Nat) (offset count : Nat) : Int × flash_bank P :=
  if bank.target.state ≠ TARGET_HALTED then (ERROR_TARGET_NOT_HALTED, bank) else
  let w1 := target_write_u32 bank.target PAC55XX_FLASH_LOCK 0xD513B490
  if w1.1 ≠ ERROR_OK then (w1.1, { bank with target := w1.2 }) else
  let w2 := target_write_u32 w1.2 PAC55XX_MEMCTL 0x00720046
  if w2.1 ≠ ERROR_OK then (w2.1, { bank with target := w2.2 }) else
  let w3 := target_write_u32 w2.2 PAC55XX_MEMCTL_FLASHLOCK FLASH_LOCK_ALLOW_WRITE_ERASE_FLASH
  if w3.1 ≠ ERROR_OK then (w3.1, { bank with target := w3.2 }) else
  let address := offset &&& 0xFFFFFFF0
  let buff_index := offset &&& 0xF
  let buff := buff_fill buff0 0 buff_index
  match pac55xx_write_loop buffer count
      { target := w3.2, buff := buff, buff_index := buff_index, src_index := 0,
        address := address } with
  | Except.error r => (r.1, { bank with target := r.2 })
  | Except.ok s =>
    let tail : Except (Int × target) target :=
      if s.buff_index ≠ 0 then
        let r := pac55xx_write_row s.target s.address (buff_fill s.buff s.buff_index 16)
        let w := pac55xx_wait_status_busy r.1 FLASH_WRITE_TIMEOUT
        if w.1 ≠ ERROR_OK then Except.error (w.1, w.2) else Except.ok w.2
      else Except.ok s.target
    match tail with
    | Except.error r => (r.1, { bank with target := r.2 })
    | Except.ok t =>
      let w4 := target_write_u32 (alive_sleep t 1) PAC55XX_MEMCTL_FLASHLOCK 0
      if w4.1 ≠ ERROR_OK then (w4.1, { bank with target := w4.2 })
      else (ERROR_OK, { bank with target := w4.2 })

/-! ## Auxiliary definitions for the statements -/

/-- The accesses of `k` rounds of (status poll, 1 ms sleep) on the status
register at `addr`. -/
def poll_pairs (addr : Nat) : Nat → List Access
  | 0 => []
  | k + 1 => Access.read addr :: Access.sleep 1 :: poll_pairs addr k

/-- The number of sleeps in a log. -/
def count_sleeps (l : List Access) : Nat :=
  (l.filter fun a => match a with
    | Access.sleep _ => true
    | _ => false).length

/-- The number of reads in a log. -/
def count_reads (l : List Access) : Nat :=
  (l.filter fun a => match a with
    | Access.read _ => true
    | _ => false).length

/-- A sector table of `n` pages of 1024 bytes with the flags `probe` gives
them (`is_erased = -1`, `is_protected = 1`), used in the concrete instances. -/
def sample_table (n : Nat) : List flash_sector :=
  (List.range n).map fun i =>
    { offset := i * 1024, size := 1024, is_erased := -1, is_protected := 1 }

/-- A target in the given state whose writes all succeed and whose reads all
succeed with the value `status`. -/
def const_target (st : target_state) (status : Nat) : target :=
  { state := st, log := [], on_read := fun _ _ => (ERROR_OK, status),
    on_write := fun _ _ _ => ERROR_OK }

/-- A probed DeviceA bank on the given target. -/
def sample_bank52 (t : target) : flash_bank pac52xx_flash_bank :=
  { target := t, base := 0, size := 32768, num_sectors := 32,
    sectors := some (sample_table 32), driver_priv := { probed := 1 } }

/-- A probed DeviceB bank on the given target. -/
def sample_bank55 (t : target) : flash_bank pac55xx_flash_bank :=
  { target := t, base := 0, size := 131072, num_sectors := 128,
    sectors := some (sample_table 128), driver_priv := { probed := 1, user_bank_size := 0 } }

/-- The poll loop shared by the two drivers, over the status register at
`addr` and the busy test `busy` (a proof device: each driver's loop is shown
equal to an instance of it). -/
def wait_loop (addr : Nat) (busy : Nat → Bool) (t : target) (timeout : Nat) : Int × target :=
  let r := target_read_u32 t addr
  if r.1 ≠ ERROR_OK then (r.1, r.2.2)
  else if busy r.2.1 = false then (r.1, r.2.2)
  else
    match timeout with
    | 0 => (ERROR_FAIL, r.2.2)
    | n + 1 => wait_loop addr busy (alive_sleep r.2.2 1) n

/-- The busy test of `pac52xx_wait_status_busy`: the logical AND of the two
masked status bits. -/
def busy52 (status : Nat) : Bool :=
  decide ((status &&& PAC5XXX_MEMCTL_FLASHSTATUS_PERASE) ≠ 0)
    && decide ((status &&& PAC5XXX_MEMCTL_FLASHSTATUS_WRITE) ≠ 0)

/-- The busy test of `pac55xx_wait_status_busy`. -/
def busy55 (status : Nat) : Bool := decide (status &&& 0x3 ≠ 0)

/-- The number of (poll, sleep) pairs in a log: the places where a read is
directly followed by a sleep. -/
def count_poll_sleep : List Access → Nat
  | [] => 0
  | a :: rest =>
    (match a, rest with
      | Access.read _, Access.sleep _ :: _ => 1
      | _, _ => 0) + count_poll_sleep rest
/-- A halted target whose status register reads `busy` (with all higher bits
set) until `k` sleeps have gone by and `idle` afterwards; every access
succeeds. -/
def settling_target (k busy idle : Nat) : target :=
  { state := TARGET_HALTED, log := [],
    on_read := fun l _ => (ERROR_OK, if count_sleeps l < k then busy else idle),
    on_write := fun _ _ _ => ERROR_OK }

/-- The per-page erase loop shared by the two drivers, over the lock register
and key, the page register, the erase register and key, and the driver's
erase wait (a proof device: each driver's loop is shown equal to an instance
of it). `Sum.inl` is an early return, `Sum.inr` the normal end of the loop. -/
def erase_loop {P : Type} (lock key page ereg ekey : Nat) (wait : target → Int × target)
    (bank : flash_bank P) (i : Int) (n : Nat) : Option ((Int × flash_bank P) ⊕ flash_bank P) :=
  match n with
  | 0 => some (Sum.inr bank)
  | n + 1 =>
    let w1 := target_write_u32 bank.target lock key
    if w1.1 ≠ ERROR_OK then some (Sum.inl (w1.1, { bank with target := w1.2 })) else
    let w2 := target_write_u32 w1.2 page (int_to_u32 i)
    if w2.1 ≠ ERROR_OK then some (Sum.inl (w2.1, { bank with target := w2.2 })) else
    let w3 := target_write_u32 w2.2 ereg ekey
    if w3.1 ≠ ERROR_OK then some (Sum.inl (w3.1, { bank with target := w3.2 })) else
    let w4 := wait w3.2
    if w4.1 ≠ ERROR_OK then some (Sum.inl (w4.1, { bank with target := w4.2 })) else
    match set_is_erased { bank with target := w4.2 } i with
    | none => none
    | some bank1 => erase_loop lock key page ereg ekey wait bank1 (i + 1) n

/-- The bank held by a loop result. -/
def loop_bank {P : Type} (r : (Int × flash_bank P) ⊕ flash_bank P) : flash_bank P :=
  match r with
  | Sum.inl x => x.2
  | Sum.inr b => b

/-- The return value a loop result stands for: the early return's status, or
`ERROR_OK` at the normal end of the loop. -/
def loop_result {P : Type} (r : (Int × flash_bank P) ⊕ flash_bank P) : Int × flash_bank P :=
  match r with
  | Sum.inl x => x
  | Sum.inr b => (ERROR_OK, b)

/-- Sector `j` after pages `first .. first + m - 1` have been marked erased. -/
def mark_erased (first : Int) (m : Nat) (j : Nat) (s : flash_sector) : flash_sector :=
  if first ≤ (j : Int) ∧ (j : Int) < first + m then { s with is_erased := 1 } else s

/-- The content of a mock register at `addr` that holds the last value written
to it: `init` before any write, then the value of the latest write to `addr`
in the log. -/
def reg_value (addr : Nat) (init : Nat) (log : List Access) : Nat :=
  log.foldl (fun v a =>
    match a with
    | Access.write a1 x => if a1 = addr then x else v
    | _ => v) init

/-- The accesses `f 0 ++ f 1 ++ ... ++ f (n-1)`. -/
def accesses_upto (f : Nat → List Access) : Nat → List Access
  | 0 => []
  | n + 1 => accesses_upto f n ++ f n

/-- Byte `j` of the first `count` bytes of `buffer` extended with `0xFF`. -/
def padded_byte (buffer : Nat → Nat) (count : Nat) (j : Nat) : Nat :=
  if j < count then buffer j % 256 else 0xFF

/-- The accesses DeviceA makes for data word `k` of a write: the write key to
FLASHLOCK, the word to `base + offset + 4k`, and one status poll. -/
def pac52xx_word_accesses (base offset : Nat) (bytes : Nat → Nat) (k : Nat) : List Access :=
  [Access.write PAC5XXX_MEMCTL_FLASHLOCK PAC5XXX_FLASH_LOCK_FLASHWRITE_KEY,
    Access.write ((base + offset + 4 * k) % 2 ^ 32) (load_u32 bytes (4 * k)),
    Access.read PAC5XXX_MEMCTL_FLASHSTATUS]

/-- The four bytes of a 32-bit word, least significant first. -/
def u32_bytes (v : Nat) : List Nat :=
  [v % 256, v / 256 % 256, v / 65536 % 256, v / 16777216 % 256]

/-- The bytes carried by the writes of a log, in order, each word as its four
little-endian bytes. -/
def written_bytes : List Access → List Nat
  | [] => []
  | Access.write _ v :: rest => u32_bytes v ++ written_bytes rest
  | Access.read _ :: rest => written_bytes rest
  | Access.sleep _ :: rest => written_bytes rest

/-- Byte `j` of the rows of a DeviceB write: `offset & 0xF` bytes of `0xFF`,
the `count` source bytes, then `0xFF`. -/
def row_stream (buffer : Nat → Nat) (offset count : Nat) (j : Nat) : Nat :=
  if j < (offset &&& 0xF) then 0xFF
  else if j < (offset &&& 0xF) + count then buffer (j - (offset &&& 0xF)) % 256
  else 0xFF

/-- The accesses DeviceB makes for row `r` of a write that starts at
`address0`: four word writes to `address0 + 16r + {0,4,8,12}` with bytes
`16r .. 16r+15` of `bytes`, and one status poll. -/
def pac55xx_row_accesses (address0 : Nat) (bytes : Nat → Nat) (r : Nat) : List Access :=
  [Access.write ((address0 + 16 * r) % 2 ^ 32) (load_u32 bytes (16 * r)),
    Access.write ((address0 + 16 * r + 4) % 2 ^ 32) (load_u32 bytes (16 * r + 4)),
    Access.write ((address0 + 16 * r + 8) % 2 ^ 32) (load_u32 bytes (16 * r + 8)),
    Access.write ((address0 + 16 * r + 12) % 2 ^ 32) (load_u32 bytes (16 * r + 12)),
    Access.read PAC55XX_MEMSTATUS]

/-! ## Probe, initialisation and host commands -/

/-- Modelled from the spec: the host return code SYNTAX_ERROR (§6), declared in
the host headers outside this driver. -/
def ERROR_COMMAND_SYNTAX_ERROR : Int := -601

/-- Modelled from the spec: the size in bytes of the host's
`struct flash_sector`, whose declaration is outside this driver; §3 gives it
four 32-bit fields. It only appears as the argument of `malloc`. -/
def sizeof_flash_sector : Nat := 16

/-- The table that the loop `for( i = 0; i < num_pages; i++ )` of the probe
routines stores into the freshly allocated block: every field of every entry
is assigned. -/
def probe_sectors (num_pages page_size : Nat) : List flash_sector :=
  (List.range num_pages).map fun i =>
    { offset := i * page_size, size := page_size, is_erased := -1, is_protected := 1 }

/-- `pac52xx_probe`. `bank->driver_priv` is `none` for a null pointer;
`malloc n` tells whether the host allocator grants `n` bytes. The result is
`none` when the routine stores through a null pointer (no private record, or
a refused sector table). -/
def pac52xx_probe (malloc : Nat → Bool) (bank : flash_bank (Option pac52xx_flash_bank)) :
    Option (Int × flash_bank (Option pac52xx_flash_bank)) :=
  match bank.driver_priv with
  | none => none
  | some pac52xx_info =>
    let base_address := PAC5XXX_FLASH_BASE
    let info0 : pac52xx_flash_bank := { pac52xx_info with probed := 0 }
    let num_pages := 32
    let page_size := 1024
    if malloc (sizeof_flash_sector * num_pages) = false then none
    else
      some (ERROR_OK,
        { bank with
          base := base_address
          size := num_pages * page_size
          num_sectors := num_pages
          sectors := some (probe_sectors num_pages page_size)
          driver_priv := some { info0 with probed := 1 } })

def pac52xx_auto_probe (malloc : Nat → Bool) (bank : flash_bank (Option pac52xx_flash_bank)) :
    Option (Int × flash_bank (Option pac52xx_flash_bank)) :=
  match bank.driver_priv with
  | none => none
  | some pac52xx_info =>
    if pac52xx_info.probed ≠ 0 then some (ERROR_OK, bank)
    else pac52xx_probe malloc bank

def pac52xx_protect_check {P : Type} (bank : flash_bank P) : Int × flash_bank P :=
  (ERROR_OK, bank)

/-- `pac52xx_flash_bank_command`; `CMD_ARGC` is the argument count of the host
command. The result is `none` when the private record is refused by `malloc`
and `probed` is stored through the null pointer. -/
def pac52xx_flash_bank_command (malloc : Nat → Bool) (CMD_ARGC : Nat)
    (bank : flash_bank (Option pac52xx_flash_bank)) :
    Option (Int × flash_bank (Option pac52xx_flash_bank)) :=
  if CMD_ARGC < 6 then some (ERROR_COMMAND_SYNTAX_ERROR, bank)
  else if malloc 4 = false then none
  else some (ERROR_OK, { bank with driver_priv := some { probed := 0 } })

/-- The loop `do { target_read_u32(CCSPLLCTL, &value); } while ((value & 0x01000000) == 0)`
of `pac55xx_init`. The source puts no bound on it; `fuel` bounds the number of
reads and `none` means the lock bit was not seen within it. The status of the
read is dropped, as in the source. -/
def pac55xx_pll_wait (t : target) (fuel : Nat) : Option target :=
  match fuel with
  | 0 => none
  | fuel + 1 =>
    let r := target_read_u32 t PAC55XX_CCSPLLCTL
    let pll_locked := r.2.1 &&& 0x01000000
    if pll_locked = 0 then pac55xx_pll_wait r.2.2 fuel else some r.2.2

/-- `pac55xx_init(bank)`; only `bank->target` is used. -/
def pac55xx_init (fuel : Nat) (t : target) : Option (Int × target) :=
  let w1 := target_write_u32 t PAC55XX_CCSCTL 0x0000F105
  if w1.1 ≠ ERROR_OK then some (w1.1, w1.2) else
  let w2 := target_write_u32 w1.2 PAC55XX_CCSPLLCTL 0x00012C45
  if w2.1 ≠ ERROR_OK then some (w2.1, w2.2) else
  match pac55xx_pll_wait w2.2 fuel with
  | none => none
  | some t3 =>
    let w4 := target_write_u32 t3 PAC55XX_CCSCTL 0x0100F115
    if w4.1 ≠ ERROR_OK then some (w4.1, w4.2) else
    let w5 := target_write_u32 w4.2 PAC55XX_FLASH_LOCK 0xD513B490
    if w5.1 ≠ ERROR_OK then some (w5.1, w5.2) else
    let w6 := target_write_u32 w5.2 PAC55XX_MEMCTL 0x00720046
    if w6.1 ≠ ERROR_OK then some (w6.1, w6.2) else
    let w7 := target_write_u32 w6.2 PAC55XX_FLASH_LOCK 0x00000000
    if w7.1 ≠ ERROR_OK then some (w7.1, w7.2) else
    some (ERROR_OK, w7.2)

/-- `pac55xx_probe`. The call `pac55xx_init(bank);` is a statement of its own:
its return value is not used. -/
def pac55xx_probe (malloc : Nat → Bool) (fuel : Nat)
    (bank : flash_bank (Option pac55xx_flash_bank)) :
    Option (Int × flash_bank (Option pac55xx_flash_bank)) :=
  match bank.driver_priv with
  | none => none
  | some pac55xx_info =>
    let base_address := PAC55XX_FLASH_BASE
    let info0 : pac55xx_flash_bank := { pac55xx_info with probed := 0 }
    let num_pages := 128
    let page_size := 1024
    if malloc (sizeof_flash_sector * num_pages) = false then none
    else
      match pac55xx_init fuel bank.target with
      | none => none
      | some r =>
        some (ERROR_OK,
          { bank with
            target := r.2
            base := base_address
            size := num_pages * page_size
            num_sectors := num_pages
            sectors := some (probe_sectors num_pages page_size)
            driver_priv := some { info0 with probed := 1 } })

def pac55xx_auto_probe (malloc : Nat → Bool) (fuel : Nat)
    (bank : flash_bank (Option pac55xx_flash_bank)) :
    Option (Int × flash_bank (Option pac55xx_flash_bank)) :=
  match bank.driver_priv with
  | none => none
  | some pac55xx_info =>
    if pac55xx_info.probed ≠ 0 then some (ERROR_OK, bank)
    else pac55xx_probe malloc fuel bank

def pac55xx_protect_check {P : Type} (bank : flash_bank P) : Int × flash_bank P :=
  (ERROR_OK, bank)

/-- `pac55xx_flash_bank_command`, as `pac52xx_flash_bank_command`;
`user_bank_size` remembers `bank->size`. -/
def pac55xx_flash_bank_command (malloc : Nat → Bool) (CMD_ARGC : Nat)
    (bank : flash_bank (Option pac55xx_flash_bank)) :
    Option (Int × flash_bank (Option pac55xx_flash_bank)) :=
  if CMD_ARGC < 6 then some (ERROR_COMMAND_SYNTAX_ERROR, bank)
  else if malloc 8 = false then none
  else some (ERROR_OK,
    { bank with driver_priv := some { probed := 0, user_bank_size := bank.size } })

/-- `pac55xx_handle_mass_erase_command`. `get_bank` is the status of the
host's bank lookup and `bank` the bank it yields. The loop
`for (i = 0; i < bank->num_sectors; i++) bank->sectors[i].is_erased = 1;` has
the body of the marking loop of `pac55xx_erase_key`. -/
def pac55xx_handle_mass_erase_command {P : Type} (CMD_ARGC : Nat) (get_bank : Int)
    (bank : flash_bank P) : Option (Int × flash_bank P) :=
  if CMD_ARGC < 1 then some (ERROR_COMMAND_SYNTAX_ERROR, bank)
  else if get_bank ≠ ERROR_OK then some (get_bank, bank)
  else
    match pac55xx_erase_key bank FLASH_START_MASS_PROG_INFO_ERASE with
    | none => none
    | some r =>
      if r.1 = ERROR_OK then
        match pac55xx_mark_all r.2 0 r.2.num_sectors.toNat with
        | none => none
        | some bank1 => some (r.1, bank1)
      else some r

/-- A halted target that answers every read with OK and the value `rd`, and
every write with OK except the writes to `addr`, which fail with
`ERROR_FAIL`. -/
def failing_write_target (addr rd : Nat) : target :=
  { state := TARGET_HALTED, log := [], on_read := fun _ _ => (ERROR_OK, rd),
    on_write := fun _ a _ => if a = addr then ERROR_FAIL else ERROR_OK }

/-- A bank as the host hands it to the driver after `flash bank`: no sector
table yet, a private record with `probed = 0`. -/
def fresh_bank52 (t : target) : flash_bank (Option pac52xx_flash_bank) :=
  { target := t, base := 0, size := 0, num_sectors := 0, sectors := none,
    driver_priv := some { probed := 0 } }

/-- The DeviceB counterpart of `fresh_bank52`. -/
def fresh_bank55 (t : target) : flash_bank (Option pac55xx_flash_bank) :=
  { target := t, base := 0, size := 0, num_sectors := 0, sectors := none,
    driver_priv := some { probed := 0, user_bank_size := 0 } }

/-- The device geometry of a bank with `N` pages of 1024 bytes: base 0, size
`N*1024`, and a sector table of exactly `N` entries with `offset = i*1024` and
`size = 1024`. -/
def geometry_holds {P : Type} (N : Nat) (bank : flash_bank P) : Prop :=
  bank.base = 0 ∧ bank.size = N * 1024 ∧
    ∃ tbl, bank.sectors = some tbl ∧ tbl.length = N ∧
      ∀ (i : Nat) (s : flash_sector), tbl[i]? = some s → s.offset = i * 1024 ∧ s.size = 1024

/-- The DeviceA bank states reachable from a successful `flash_bank_command`
by calls of the driver operations, each with any arguments and any allocator;
between calls the target may become any other target. -/
inductive reachable52 : flash_bank (Option pac52xx_flash_bank) → Prop
  | flash_bank_command (malloc : Nat → Bool) (CMD_ARGC : Nat)
      (bank0 b : flash_bank (Option pac52xx_flash_bank)) :
      pac52xx_flash_bank_command malloc CMD_ARGC bank0 = some (ERROR_OK, b) → reachable52 b
  | probe (malloc : Nat → Bool) (b b1 : flash_bank (Option pac52xx_flash_bank)) (r : Int) :
      reachable52 b → pac52xx_probe malloc b = some (r, b1) → reachable52 b1
  | auto_probe (malloc : Nat → Bool) (b b1 : flash_bank (Option pac52xx_flash_bank))
      (r : Int) :
      reachable52 b → pac52xx_auto_probe malloc b = some (r, b1) → reachable52 b1
  | erase (first last : Int) (b b1 : flash_bank (Option pac52xx_flash_bank)) (r : Int) :
      reachable52 b → pac52xx_erase b first last = some (r, b1) → reachable52 b1
  | write (malloc : Nat → Bool) (buffer : Nat → Nat) (offset count : Nat)
      (b b1 : flash_bank (Option pac52xx_flash_bank)) (r : Int) :
      reachable52 b → pac52xx_write malloc b buffer offset count = some (r, b1) →
      reachable52 b1
  | protect (set first last : Int) (b : flash_bank (Option pac52xx_flash_bank)) :
      reachable52 b → reachable52 (pac52xx_protect b set first last).2
  | protect_check (b : flash_bank (Option pac52xx_flash_bank)) :
      reachable52 b → reachable52 (pac52xx_protect_check b).2
  | target_change (t : target) (b : flash_bank (Option pac52xx_flash_bank)) :
      reachable52 b → reachable52 { b with target := t }

/-- The DeviceB counterpart of `reachable52`, with the keyed erase and the
`mass_erase` command in addition; `fuel` bounds the PLL wait of a probe. -/
inductive reachable55 : flash_bank (Option pac55xx_flash_bank) → Prop
  | flash_bank_command (malloc : Nat → Bool) (CMD_ARGC : Nat)
      (bank0 b : flash_bank (Option pac55xx_flash_bank)) :
      pac55xx_flash_bank_command malloc CMD_ARGC bank0 = some (ERROR_OK, b) → reachable55 b
  | probe (malloc : Nat → Bool) (fuel : Nat) (b b1 : flash_bank (Option pac55xx_flash_bank))
      (r : Int) :
      reachable55 b → pac55xx_probe malloc fuel b = some (r, b1) → reachable55 b1
  | auto_probe (malloc : Nat → Bool) (fuel : Nat)
      (b b1 : flash_bank (Option pac55xx_flash_bank)) (r : Int) :
      reachable55 b → pac55xx_auto_probe malloc fuel b = some (r, b1) → reachable55 b1
  | erase (first last : Int) (b b1 : flash_bank (Option pac55xx_flash_bank)) (r : Int) :
      reachable55 b → pac55xx_erase b first last = some (r, b1) → reachable55 b1
  | erase_key (key : Nat) (b b1 : flash_bank (Option pac55xx_flash_bank)) (r : Int) :
      reachable55 b → pac55xx_erase_key b key = some (r, b1) → reachable55 b1
  | mass_erase (CMD_ARGC : Nat) (get_bank : Int)
      (b b1 : flash_bank (Option pac55xx_flash_bank)) (r : Int) :
      reachable55 b → pac55xx_handle_mass_erase_command CMD_ARGC get_bank b = some (r, b1) →
      reachable55 b1
  | write (buff0 buffer : Nat → Nat) (offset count : Nat)
      (b : flash_bank (Option pac55xx_flash_bank)) :
      reachable55 b → reachable55 (pac55xx_write buff0 b buffer offset count).2
  | protect (set first last : Int) (b : flash_bank (Option pac55xx_flash_bank)) :
      reachable55 b → reachable55 (pac55xx_protect b set first last).2
  | protect_check (b : flash_bank (Option pac55xx_flash_bank)) :
      reachable55 b → reachable55 (pac55xx_protect_check b).2
  | target_change (t : target) (b : flash_bank (Option pac55xx_flash_bank)) :
      reachable55 b → reachable55 { b with target := t }
/-- The bank the host creates for `flash bank`, before the driver has seen it:
arbitrary base and size, no sector table, no private record. -/
def host_bank (P : Type) (t : target) : flash_bank (Option P) :=
  { target := t, base := 5, size := 77, num_sectors := 0, sectors := none, driver_priv := none }

/-- A DeviceA bank after `flash_bank_command`, `auto_probe` and `erase(3, 5)` on
a halted, idle target. -/
def sample_run52 : Option (Int × flash_bank (Option pac52xx_flash_bank)) :=
  (pac52xx_flash_bank_command (fun _ => true) 6
      (host_bank pac52xx_flash_bank (const_target TARGET_HALTED 0))).bind fun r1 =>
    (pac52xx_auto_probe (fun _ => true) r1.2).bind fun r2 => pac52xx_erase r2.2 3 5

/-- A DeviceB bank after `flash_bank_command`, `auto_probe` and `erase(3, 5)` on
a halted target whose reads all give `0x01000000` (PLL locked, status idle). -/
def sample_run55 : Option (Int × flash_bank (Option pac55xx_flash_bank)) :=
  (pac55xx_flash_bank_command (fun _ => true) 6
      (host_bank pac55xx_flash_bank (const_target TARGET_HALTED 0x01000000))).bind fun r1 =>
    (pac55xx_auto_probe (fun _ => true) 1 r1.2).bind fun r2 => pac55xx_erase r2.2 3 5

/-- The access `a`, made after the accesses `pre`, is a failing step with
error code `c` on target `t`: a write that `t` answers with `c`, not OK; a
read that `t` answers with `c`, not OK; or a status read that `t` answers
with OK and a busy value when the poll gives up, `c` being `ERROR_FAIL`. -/
def step_failed (t : target) (busy : Nat → Bool) (pre : List Access) (a : Access) (c : Int) :
    Prop :=
  match a with
  | Access.write addr v => t.on_write pre addr v = c ∧ c ≠ ERROR_OK
  | Access.read addr =>
    ((t.on_read pre addr).1 = c ∧ c ≠ ERROR_OK) ∨
      ((t.on_read pre addr).1 = ERROR_OK ∧ busy ((t.on_read pre addr).2 % 2 ^ 32) = true ∧
        c = ERROR_FAIL)
  | Access.sleep _ => False

/-- A halted target that answers every read with OK and the value `rd`, and
every write with OK except the write of the value `v` to `addr`, which fails
with `ERROR_FAIL`. -/
def failing_value_target (addr v rd : Nat) : target :=
  { state := TARGET_HALTED, log := [], on_read := fun _ _ => (ERROR_OK, rd),
    on_write := fun _ a x => if a = addr ∧ x = v then ERROR_FAIL else ERROR_OK }

/-- The accesses of the per-page erase of the `k`-th page of a range that
starts at `first`: lock key, page number, erase key, one status poll. -/
def page_accesses (lock key page ereg ekey status : Nat) (first : Int) (k : Nat) :
    List Access :=
  [Access.write lock key, Access.write page (int_to_u32 (first + k)), Access.write ereg ekey,
    Access.read status]

/-- A sector table with every `is_erased` flag set to 1 and nothing else
changed. -/
def all_erased (tbl : List flash_sector) : List flash_sector :=
  tbl.map fun s => { s with is_erased := 1 }

/-- How a run of the status poller that made `k` (poll, sleep) pairs ends, in
terms of the answer to its last status read (made with the accesses `pre`
behind it) and the timeout count `N`: the read failed and its status is
returned; or it succeeded with an idle value and `ERROR_OK` is returned; or it
succeeded with a busy value when the `N` sleeps were used up and `ERROR_FAIL`
is returned. -/
def poll_outcome (t : target) (busy : Nat → Bool) (addr : Nat) (pre : List Access)
    (k N : Nat) (res : Int) : Prop :=
  ((t.on_read pre addr).1 ≠ ERROR_OK ∧ res = (t.on_read pre addr).1) ∨
  ((t.on_read pre addr).1 = ERROR_OK ∧ busy ((t.on_read pre addr).2 % 2 ^ 32) = false ∧
    res = ERROR_OK) ∨
  ((t.on_read pre addr).1 = ERROR_OK ∧ busy ((t.on_read pre addr).2 % 2 ^ 32) = true ∧
    k = N ∧ res = ERROR_FAIL)

/-- The accesses of a run of `pac55xx_init` in which every write succeeds and
the PLL lock bit is seen on the `m`-th read of CCSPLLCTL. -/
def pac55xx_init_accesses (m : Nat) : List Access :=
  [Access.write 0x400D0400 0x0000F105, Access.write 0x400D0404 0x00012C45] ++
    List.replicate m (Access.read 0x400D0404) ++
    [Access.write 0x400D0400 0x0100F115, Access.write 0x400D0008 0xD513B490,
      Access.write 0x400D0000 0x00720046, Access.write 0x400D0008 0]

/-- Every write among the accesses `seg`, made after the accesses `base`, was
answered with OK by the target `t`. -/
def writes_ok (t : target) : List Access → List Access → Prop
  | _, [] => True
  | base, a :: rest =>
    (match a with
      | Access.write addr v => t.on_write base addr v = ERROR_OK
      | _ => True) ∧ writes_ok t (base ++ [a]) rest

/-- A halted target whose writes all succeed and whose reads all succeed, with
the value 0 until `k` reads have been made and `0x01000000` (the PLL lock bit)
from then on. -/
def pll_target (k : Nat) : target :=
  { state := TARGET_HALTED, log := [],
    on_read := fun l _ => (ERROR_OK, if count_reads l < k then 0 else 0x01000000),
    on_write := fun _ _ _ => ERROR_OK }

/-- The accesses a call added to the log `log0`, giving `log1`, contain the
arming write `FLASHLOCK <- 0x43DF140A` and no write to FLASHLOCK after it. -/
def left_unlocked (log0 log1 : List Access) : Prop :=
  ∃ seg1 seg2,
    log1 = log0 ++ seg1 ++
      [Access.write PAC55XX_MEMCTL_FLASHLOCK FLASH_LOCK_ALLOW_WRITE_ERASE_FLASH] ++ seg2 ∧
    ∀ a, a ∈ seg2 → ∀ v, a ≠ Access.write PAC55XX_MEMCTL_FLASHLOCK v

/-- Every access of `seg` is a status poll, a 1 ms sleep, or a write to an
address below `L`. -/
def writes_below (L : Nat) (seg : List Access) : Prop :=
  ∀ a, a ∈ seg → a = Access.read PAC55XX_MEMSTATUS ∨ a = Access.sleep 1 ∨
    ∃ addr v, a = Access.write addr v ∧ addr < L

/-- What the target does to a status poll that starts after the accesses `L`:
the first `q` status reads succeed with busy values (each is followed by a
1 ms sleep), `q` is within the timeout count `N`, and read `q + 1` ends the
poll with the result `res` (see `poll_outcome`: a failed read, an idle value,
or a busy value when `q = N`). -/
def poll_ends (t : target) (busy : Nat → Bool) (addr N : Nat) (L : List Access) (q : Nat)
    (res : Int) : Prop :=
  q ≤ N ∧
  (∀ i, i < q → (t.on_read (L ++ poll_pairs addr i) addr).1 = ERROR_OK ∧
    busy ((t.on_read (L ++ poll_pairs addr i) addr).2 % 2 ^ 32) = true) ∧
  poll_outcome t busy addr (L ++ poll_pairs addr q) q N res

/-- The accesses of the erase of page `first + j` when all its steps succeed
and its poll sees `q j` busy samples before the idle one. -/
def page_run (lock key page ereg ekey status : Nat) (first : Int) (q : Nat → Nat) (j : Nat) :
    List Access :=
  [Access.write lock key, Access.write page (int_to_u32 (first + j)), Access.write ereg ekey]
    ++ poll_pairs status (q j) ++ [Access.read status]

/-- What the target does to the erase of one page that starts after the
accesses `L`: the three writes are answered with OK and the poll ends with
`ERROR_OK` after `q` busy samples. -/
def page_completes (t : target) (busy : Nat → Bool) (lock key page ereg ekey status N : Nat)
    (L : List Access) (pageno q : Nat) : Prop :=
  t.on_write L lock key = ERROR_OK ∧
  t.on_write (L ++ [Access.write lock key]) page pageno = ERROR_OK ∧
  t.on_write (L ++ [Access.write lock key, Access.write page pageno]) ereg ekey = ERROR_OK ∧
  poll_ends t busy status N
    (L ++ [Access.write lock key, Access.write page pageno, Access.write ereg ekey]) q ERROR_OK

/-- What the target does to the erase of one page, started after the accesses
`L`, whose first failing step has the code `c`; `seg` is the list of the
page's accesses up to and including that step. The step is the lock write, the
page-number write, the erase-key write (each answered with `c`, the steps
before it with OK), or the poll, which ends with `c` after `q` busy samples (a
failed status read, or the timeout). -/
def page_fails (t : target) (busy : Nat → Bool) (lock key page ereg ekey status N : Nat)
    (L : List Access) (pageno : Nat) (c : Int) (seg : List Access) : Prop :=
  c ≠ ERROR_OK ∧
  ((seg = [Access.write lock key] ∧ t.on_write L lock key = c) ∨
   (seg = [Access.write lock key, Access.write page pageno] ∧
     t.on_write L lock key = ERROR_OK ∧
     t.on_write (L ++ [Access.write lock key]) page pageno = c) ∨
   (seg = [Access.write lock key, Access.write page pageno, Access.write ereg ekey] ∧
     t.on_write L lock key = ERROR_OK ∧
     t.on_write (L ++ [Access.write lock key]) page pageno = ERROR_OK ∧
     t.on_write (L ++ [Access.write lock key, Access.write page pageno]) ereg ekey = c) ∨
   (∃ q, seg = [Access.write lock key, Access.write page pageno, Access.write ereg ekey]
        ++ poll_pairs status q ++ [Access.read status] ∧
     t.on_write L lock key = ERROR_OK ∧
     t.on_write (L ++ [Access.write lock key]) page pageno = ERROR_OK ∧
     t.on_write (L ++ [Access.write lock key, Access.write page pageno]) ereg ekey
       = ERROR_OK ∧
     poll_ends t busy status N
       (L ++ [Access.write lock key, Access.write page pageno, Access.write ereg ekey]) q c))

/-- What the target does to a status poll that starts after the accesses `L`
and times out: all `N + 1` status reads succeed with busy values. -/
def poll_times_out (t : target) (busy : Nat → Bool) (addr N : Nat) (L : List Access) : Prop :=
  ∀ i, i ≤ N → (t.on_read (L ++ poll_pairs addr i) addr).1 = ERROR_OK ∧
    busy ((t.on_read (L ++ poll_pairs addr i) addr).2 % 2 ^ 32) = true

/-- The four word writes of row `r` of a DeviceB write that starts at
`address0`, with bytes `16r .. 16r+15` of `bytes`. -/
def pac55xx_row_words (address0 : Nat) (bytes : Nat → Nat) (r : Nat) : List Access :=
  [Access.write ((address0 + 16 * r) % 2 ^ 32) (load_u32 bytes (16 * r)),
    Access.write ((address0 + 16 * r + 4) % 2 ^ 32) (load_u32 bytes (16 * r + 4)),
    Access.write ((address0 + 16 * r + 8) % 2 ^ 32) (load_u32 bytes (16 * r + 8)),
    Access.write ((address0 + 16 * r + 12) % 2 ^ 32) (load_u32 bytes (16 * r + 12))]

/-- The accesses of row `r` of a DeviceB write whose poll sees `q r` busy
samples before the idle one. -/
def pac55xx_row_run (address0 : Nat) (bytes : Nat → Nat) (q : Nat → Nat) (r : Nat) :
    List Access :=
  pac55xx_row_words address0 bytes r ++ poll_pairs PAC55XX_MEMSTATUS (q r)
    ++ [Access.read PAC55XX_MEMSTATUS]

/-! ## Theorems -/

/-! ### The status pollers -/

theorem pac52xx_wait_loop_eq (t : target) (n : Nat) :
    pac52xx_wait_status_busy_loop t n = wait_loop PAC5XXX_MEMCTL_FLASHSTATUS busy52 t n := by
  induction n generalizing t with
  | zero => simp [pac52xx_wait_status_busy_loop, wait_loop, busy52, pac52xx_get_flash_status]
  | succ n ih =>
    rw [pac52xx_wait_status_busy_loop, wait_loop]
    simp only [ih, busy52, pac52xx_get_flash_status]

theorem pac55xx_wait_loop_eq (t : target) (n : Nat) :
    pac55xx_wait_status_busy_loop t n = wait_loop PAC55XX_MEMSTATUS busy55 t n := by
  induction n generalizing t with
  | zero => simp [pac55xx_wait_status_busy_loop, wait_loop, busy55, pac55xx_get_flash_status]
  | succ n ih =>
    rw [pac55xx_wait_status_busy_loop, wait_loop]
    simp [ih, busy55, pac55xx_get_flash_status]

theorem poll_pairs_succ_append (l : List Access) (addr k : Nat) :
    l ++ poll_pairs addr (k + 1) = (l ++ [Access.read addr] ++ [Access.sleep 1]) ++ poll_pairs addr k := by
  simp [poll_pairs]

/-- The poll loop on a target that answers the first `k` polls with busy values
and the next one with an idle value, `k` not above the timeout. -/
theorem wait_loop_idle_at (addr : Nat) (busy : Nat → Bool) (k : Nat) :
    ∀ (t : target) (N : Nat) (s : Nat → Nat), k ≤ N →
      (∀ i, i ≤ k → t.on_read (t.log ++ poll_pairs addr i) addr = (ERROR_OK, s i)) →
      (∀ i, i < k → busy (s i % 2 ^ 32) = true) → busy (s k % 2 ^ 32) = false →
      wait_loop addr busy t N
        = (ERROR_OK, { t with log := t.log ++ poll_pairs addr k ++ [Access.read addr] }) := by
  induction k with
  | zero =>
    intro t N s _ hr _ hk
    have h0 := hr 0 (Nat.le_refl 0)
    simp only [poll_pairs, List.append_nil] at h0
    have hk1 : busy (s 0 % 4294967296) = false := by simpa using hk
    unfold wait_loop
    simp [target_read_u32, h0, hk1, poll_pairs, ERROR_OK]
  | succ k ih =>
    intro t N s hN hr hb hk
    obtain ⟨M, rfl⟩ : ∃ M, N = M + 1 := ⟨N - 1, by omega⟩
    have h0 := hr 0 (Nat.zero_le _)
    simp only [poll_pairs, List.append_nil] at h0
    have hb0 := hb 0 (Nat.succ_pos k)
    unfold wait_loop
    simp only [target_read_u32, h0, hb0, alive_sleep]
    simp only [ERROR_OK, ne_eq, not_true_eq_false, if_false]
    have := ih { t with log := t.log ++ [Access.read addr] ++ [Access.sleep 1] } M
      (fun i => s (i + 1)) (by omega)
      (fun i hi => by
        have := hr (i + 1) (by omega)
        rw [poll_pairs_succ_append] at this
        exact this)
      (fun i hi => hb (i + 1) (by omega)) hk
    simp only [ERROR_OK, poll_pairs, List.append_assoc, List.cons_append, List.nil_append]
      at this ⊢
    exact this

/-- The poll loop on a target that answers polls `0..N` with busy values. -/
theorem wait_loop_stuck (addr : Nat) (busy : Nat → Bool) (N : Nat) :
    ∀ (t : target) (s : Nat → Nat),
      (∀ i, i ≤ N → t.on_read (t.log ++ poll_pairs addr i) addr = (ERROR_OK, s i)) →
      (∀ i, i ≤ N → busy (s i % 2 ^ 32) = true) →
      wait_loop addr busy t N
        = (ERROR_FAIL, { t with log := t.log ++ poll_pairs addr N ++ [Access.read addr] }) := by
  induction N with
  | zero =>
    intro t s hr hb
    have h0 := hr 0 (Nat.le_refl 0)
    simp only [poll_pairs, List.append_nil] at h0
    have hb0 := hb 0 (Nat.le_refl 0)
    have hb1 : busy (s 0 % 4294967296) = true := by simpa using hb0
    unfold wait_loop
    simp [target_read_u32, h0, hb1, poll_pairs, ERROR_OK, ERROR_FAIL]
  | succ N ih =>
    intro t s hr hb
    have h0 := hr 0 (Nat.zero_le _)
    simp only [poll_pairs, List.append_nil] at h0
    have hb0 := hb 0 (Nat.zero_le _)
    unfold wait_loop
    simp only [target_read_u32, h0, hb0, alive_sleep]
    simp only [ERROR_OK, ne_eq, not_true_eq_false, if_false]
    have := ih { t with log := t.log ++ [Access.read addr] ++ [Access.sleep 1] }
      (fun i => s (i + 1))
      (fun i hi => by
        have := hr (i + 1) (by omega)
        rw [poll_pairs_succ_append] at this
        exact this)
      (fun i hi => hb (i + 1) (by omega))
    simp only [poll_pairs, List.append_assoc, List.cons_append, List.nil_append] at this ⊢
    exact this

theorem count_sleeps_poll_pairs (addr k : Nat) : count_sleeps (poll_pairs addr k) = k := by
  induction k with
  | zero => rfl
  | succ k ih =>
    simp only [count_sleeps, poll_pairs, List.filter] at ih ⊢
    simp [ih]

theorem count_reads_poll_pairs (addr k : Nat) : count_reads (poll_pairs addr k) = k := by
  induction k with
  | zero => rfl
  | succ k ih =>
    simp only [count_reads, poll_pairs, List.filter] at ih ⊢
    simp [ih]

theorem and3_eq_mod (x : Nat) : x &&& 3 = x % 4 := Nat.and_pow_two_sub_one_eq_mod x 2

theorem and3_mod_u32 (x : Nat) : (x % 2 ^ 32) &&& 3 = x &&& 3 := by
  rw [and3_eq_mod, and3_eq_mod]; omega


/-! ### Entry gates -/

/-- C1. Target-halted gate: when the target is not halted, `pac52xx_erase`,
`pac52xx_write`, `pac55xx_erase`, `pac55xx_erase_key` and `pac55xx_write` all
return `ERROR_TARGET_NOT_HALTED` together with the bank they were given: the
access log of its target has gained no read and no write, and its sector table
is the same. -/
theorem target_not_halted_gate {P : Type} (bank : flash_bank P) (first last : Int)
    (malloc : Nat → Bool) (buff0 buffer : Nat → Nat) (offset count key : Nat)
    (h : bank.target.state ≠ TARGET_HALTED) :
    pac52xx_erase bank first last = some (ERROR_TARGET_NOT_HALTED, bank) ∧
    pac52xx_write malloc bank buffer offset count = some (ERROR_TARGET_NOT_HALTED, bank) ∧
    pac55xx_erase bank first last = some (ERROR_TARGET_NOT_HALTED, bank) ∧
    pac55xx_erase_key bank key = some (ERROR_TARGET_NOT_HALTED, bank) ∧
    pac55xx_write buff0 bank buffer offset count = (ERROR_TARGET_NOT_HALTED, bank) := by
  refine ⟨?_, ?_, ?_, ?_, ?_⟩
  · simp [pac52xx_erase, h]
  · simp [pac52xx_write, h]
  · simp [pac55xx_erase, h]
  · simp [pac55xx_erase_key, h]
  · simp [pac55xx_write, h]

/-- Instance of `target_not_halted_gate` on a running target. -/
theorem target_not_halted_gate_witness :
    (sample_bank55 (const_target TARGET_RUNNING 0)).target.state ≠ TARGET_HALTED ∧
    (pac52xx_erase (sample_bank55 (const_target TARGET_RUNNING 0)) 3 5
        = some (ERROR_TARGET_NOT_HALTED, sample_bank55 (const_target TARGET_RUNNING 0)) ∧
      pac52xx_write (fun _ => true) (sample_bank55 (const_target TARGET_RUNNING 0))
          (fun _ => 0xAA) 4 1
        = some (ERROR_TARGET_NOT_HALTED, sample_bank55 (const_target TARGET_RUNNING 0)) ∧
      pac55xx_erase (sample_bank55 (const_target TARGET_RUNNING 0)) 3 5
        = some (ERROR_TARGET_NOT_HALTED, sample_bank55 (const_target TARGET_RUNNING 0)) ∧
      pac55xx_erase_key (sample_bank55 (const_target TARGET_RUNNING 0)) 0x856E0E70
        = some (ERROR_TARGET_NOT_HALTED, sample_bank55 (const_target TARGET_RUNNING 0)) ∧
      pac55xx_write (fun _ => 0) (sample_bank55 (const_target TARGET_RUNNING 0))
          (fun _ => 0xAA) 4 1
        = (ERROR_TARGET_NOT_HALTED, sample_bank55 (const_target TARGET_RUNNING 0))) :=
  ⟨by decide,
    target_not_halted_gate (sample_bank55 (const_target TARGET_RUNNING 0)) 3 5
      (fun _ => true) (fun _ => 0) (fun _ => 0xAA) 4 1 0x856E0E70 (by decide)⟩

/-- C4. Alignment gate (DeviceA): on a halted target, an offset that is not a
multiple of 4 makes `pac52xx_write` return `ERROR_FLASH_DST_BREAKS_ALIGNMENT`
with the bank it was given, so no read or write reached the target. -/
theorem pac52xx_write_alignment_gate {P : Type} (malloc : Nat → Bool) (bank : flash_bank P)
    (buffer : Nat → Nat) (offset count : Nat)
    (hh : bank.target.state = TARGET_HALTED) (ha : offset &&& 0x3 ≠ 0) :
    pac52xx_write malloc bank buffer offset count
      = some (ERROR_FLASH_DST_BREAKS_ALIGNMENT, bank) := by
  simp [pac52xx_write, hh, ha]

/-- Instance of `pac52xx_write_alignment_gate` at offset 1. -/
theorem pac52xx_write_alignment_gate_witness :
    (sample_bank52 (const_target TARGET_HALTED 0)).target.state = TARGET_HALTED ∧
    (1 : Nat) &&& 0x3 ≠ 0 ∧
    pac52xx_write (fun _ => true) (sample_bank52 (const_target TARGET_HALTED 0))
        (fun _ => 0x11) 1 3
      = some (ERROR_FLASH_DST_BREAKS_ALIGNMENT, sample_bank52 (const_target TARGET_HALTED 0)) :=
  ⟨rfl, by decide,
    pac52xx_write_alignment_gate (fun _ => true) (sample_bank52 (const_target TARGET_HALTED 0))
      (fun _ => 0x11) 1 3 rfl (by decide)⟩

/-! ### Idle predicate and timeout of the pollers -/

theorem count_poll_sleep_poll_pairs (addr k : Nat) :
    count_poll_sleep (poll_pairs addr k ++ [Access.read addr]) = k := by
  induction k with
  | zero => rfl
  | succ k ih =>
    have e : count_poll_sleep (poll_pairs addr (k + 1) ++ [Access.read addr])
        = 1 + (0 + count_poll_sleep (poll_pairs addr k ++ [Access.read addr])) := rfl
    rw [e, ih]
    omega

theorem count_reads_append (l1 l2 : List Access) :
    count_reads (l1 ++ l2) = count_reads l1 + count_reads l2 := by
  simp [count_reads]

theorem count_sleeps_append (l1 l2 : List Access) :
    count_sleeps (l1 ++ l2) = count_sleeps l1 + count_sleeps l2 := by
  simp [count_sleeps]

theorem busy55_mod (x : Nat) : busy55 (x % 2 ^ 32) = decide (x &&& 0x3 ≠ 0) := by
  simp only [busy55, and3_mod_u32]

theorem and2_eq (x : Nat) : x &&& 2 = if x % 4 / 2 = 1 then 2 else 0 := by
  have h : x &&& 2 = (x % 4) &&& 2 := by
    have e : (3 : Nat) &&& 2 = 2 := by decide
    rw [← and3_eq_mod, Nat.and_assoc, e]
  rw [h]
  have : x % 4 < 4 := Nat.mod_lt _ (by decide)
  interval_cases (x % 4) <;> decide

theorem busy52_iff (x : Nat) : busy52 x = decide (x % 4 = 3) := by
  have hA : x &&& (1 <<< 1) = if x % 4 / 2 = 1 then 2 else 0 := and2_eq x
  have hB : x &&& (1 <<< 0) = x % 2 := Nat.and_one_is_mod x
  simp only [busy52, PAC5XXX_MEMCTL_FLASHSTATUS_PERASE, PAC5XXX_MEMCTL_FLASHSTATUS_WRITE, hA, hB]
  have : x % 4 < 4 := Nat.mod_lt _ (by decide)
  have h2 : x % 2 = (x % 4) % 2 := by omega
  rw [h2]
  interval_cases (x % 4) <;> decide

theorem busy52_mod (x : Nat) : busy52 (x % 2 ^ 32) = decide (x % 4 = 3) := by
  rw [busy52_iff]
  congr 1
  apply propext
  constructor <;> intro h <;> omega

/-- C9. DeviceB idle predicate: when the status reads succeed, samples
`0..k-1` have a bit of `0x3` set, sample `k` has `status & 0x3 == 0` and
`k <= N`, then `pac55xx_wait_status_busy(bank, N)` returns `ERROR_OK` and the
accesses it made are `k` (poll, sleep) pairs followed by the poll of the idle
sample: `k+1` reads, `k` sleeps, nothing after the idle sample. A second target
whose samples agree with these in bits 0 and 1 gives the same result and the
same accesses, whatever its higher status bits. -/
theorem pac55xx_wait_status_busy_idle_at (t : target) (N k : Nat) (s : Nat → Nat)
    (hk : k ≤ N)
    (hr : ∀ i, i ≤ k →
      t.on_read (t.log ++ poll_pairs PAC55XX_MEMSTATUS i) PAC55XX_MEMSTATUS = (ERROR_OK, s i))
    (hb : ∀ i, i < k → s i &&& 0x3 ≠ 0) (hi : s k &&& 0x3 = 0) :
    pac55xx_wait_status_busy t (N : Int)
        = (ERROR_OK, { t with log := t.log ++ poll_pairs PAC55XX_MEMSTATUS k
                                ++ [Access.read PAC55XX_MEMSTATUS] }) ∧
      count_reads (poll_pairs PAC55XX_MEMSTATUS k ++ [Access.read PAC55XX_MEMSTATUS]) = k + 1 ∧
      count_sleeps (poll_pairs PAC55XX_MEMSTATUS k ++ [Access.read PAC55XX_MEMSTATUS]) = k ∧
      ∀ (t2 : target) (s2 : Nat → Nat), t2.log = t.log →
        (∀ i, i ≤ k →
          t2.on_read (t2.log ++ poll_pairs PAC55XX_MEMSTATUS i) PAC55XX_MEMSTATUS
            = (ERROR_OK, s2 i)) →
        (∀ i, i ≤ k → s2 i % 4 = s i % 4) →
        (pac55xx_wait_status_busy t2 (N : Int)).1 = (pac55xx_wait_status_busy t (N : Int)).1 ∧
        (pac55xx_wait_status_busy t2 (N : Int)).2.log
          = (pac55xx_wait_status_busy t (N : Int)).2.log := by
  have main : ∀ (t : target) (s : Nat → Nat),
      (∀ i, i ≤ k →
        t.on_read (t.log ++ poll_pairs PAC55XX_MEMSTATUS i) PAC55XX_MEMSTATUS = (ERROR_OK, s i)) →
      (∀ i, i < k → s i % 4 ≠ 0) → s k % 4 = 0 →
      pac55xx_wait_status_busy t (N : Int)
        = (ERROR_OK, { t with log := t.log ++ poll_pairs PAC55XX_MEMSTATUS k
                                ++ [Access.read PAC55XX_MEMSTATUS] }) := by
    intro t s hr hb hi
    rw [pac55xx_wait_status_busy, Int.toNat_ofNat, pac55xx_wait_loop_eq]
    apply wait_loop_idle_at _ _ k t N s hk hr
    · intro i hlt
      rw [busy55_mod, and3_eq_mod]
      simpa using hb i hlt
    · rw [busy55_mod, and3_eq_mod]
      simpa using hi
  have hb4 : ∀ i, i < k → s i % 4 ≠ 0 := fun i hlt => by
    have := hb i hlt
    rwa [and3_eq_mod] at this
  have hi4 : s k % 4 = 0 := by rwa [and3_eq_mod] at hi
  refine ⟨main t s hr hb4 hi4, ?_, ?_, ?_⟩
  · rw [count_reads_append, count_reads_poll_pairs]; rfl
  · rw [count_sleeps_append, count_sleeps_poll_pairs]; rfl
  · intro t2 s2 hlog hr2 hs2
    rw [main t s hr hb4 hi4,
      main t2 s2 hr2 (fun i hlt => by rw [hs2 i (by omega)]; exact hb4 i hlt)
        (by rw [hs2 k (Nat.le_refl k)]; exact hi4)]
    simp [hlog]

/-- Instance of `pac55xx_wait_status_busy_idle_at`: two busy samples `0xFFFFFFF1`, then
`0xFFFFFFF0`, timeout 5. -/
theorem pac55xx_wait_status_busy_idle_at_witness :
    (2 ≤ 5) ∧
    (∀ i, i ≤ 2 →
      (settling_target 2 0xFFFFFFF1 0xFFFFFFF0).on_read
        ((settling_target 2 0xFFFFFFF1 0xFFFFFFF0).log ++ poll_pairs PAC55XX_MEMSTATUS i)
        PAC55XX_MEMSTATUS
        = (ERROR_OK, (fun i => if i < 2 then 0xFFFFFFF1 else 0xFFFFFFF0) i)) ∧
    (∀ i, i < 2 → (fun i => if i < 2 then 0xFFFFFFF1 else 0xFFFFFFF0) i &&& 0x3 ≠ 0) ∧
    ((fun i => if i < 2 then 0xFFFFFFF1 else 0xFFFFFFF0) 2 &&& 0x3 = 0) ∧
    (pac55xx_wait_status_busy (settling_target 2 0xFFFFFFF1 0xFFFFFFF0) ((5 : Nat) : Int)).1
      = ERROR_OK ∧
    (pac55xx_wait_status_busy (settling_target 2 0xFFFFFFF1 0xFFFFFFF0) ((5 : Nat) : Int)).2.log
      = [Access.read 0x400D0004, Access.sleep 1, Access.read 0x400D0004, Access.sleep 1,
          Access.read 0x400D0004] :=
  have hr : ∀ i, i ≤ 2 →
      (settling_target 2 0xFFFFFFF1 0xFFFFFFF0).on_read
        ((settling_target 2 0xFFFFFFF1 0xFFFFFFF0).log ++ poll_pairs PAC55XX_MEMSTATUS i)
        PAC55XX_MEMSTATUS
        = (ERROR_OK, (fun i => if i < 2 then 0xFFFFFFF1 else 0xFFFFFFF0) i) := by
    intro i hi
    interval_cases i <;> rfl
  have hb : ∀ i, i < 2 → (fun i => if i < 2 then 0xFFFFFFF1 else 0xFFFFFFF0) i &&& 0x3 ≠ 0 := by
    intro i hi
    interval_cases i <;> decide
  have h := pac55xx_wait_status_busy_idle_at (settling_target 2 0xFFFFFFF1 0xFFFFFFF0) 5 2
    (fun i => if i < 2 then 0xFFFFFFF1 else 0xFFFFFFF0) (by decide) hr hb (by decide)
  ⟨by decide, hr, hb, by decide, by rw [h.1], by rw [h.1]; rfl⟩

theorem wait_loop_stuck_always (addr : Nat) (busy : Nat → Bool) (t : target) (N : Nat)
    (h : ∀ l, (t.on_read l addr).1 = ERROR_OK ∧ busy ((t.on_read l addr).2 % 2 ^ 32) = true) :
    wait_loop addr busy t N
      = (ERROR_FAIL, { t with log := t.log ++ poll_pairs addr N ++ [Access.read addr] }) :=
  wait_loop_stuck addr busy N t (fun i => (t.on_read (t.log ++ poll_pairs addr i) addr).2)
    (fun _ _ => Prod.ext (h _).1 rfl) (fun _ _ => (h _).2)

/-- C10. Timeout path: on a target whose status reads all succeed and all
report busy (DeviceB: a bit of `0x3` set; DeviceA: PERASE and WRITE both set),
`wait_status_busy(bank, N)` returns `ERROR_FAIL` after `N` (status poll, 1 ms
sleep) pairs and the poll that finds the counter exhausted: `N` pairs, `N`
sleeps, `N + 1` reads. With `FLASH_ERASE_TIMEOUT` that is 100 pairs and with
`FLASH_WRITE_TIMEOUT` 5 pairs. -/
theorem wait_status_busy_timeout (t : target) (N : Nat) :
    ((∀ l, (t.on_read l PAC55XX_MEMSTATUS).1 = ERROR_OK ∧
          (t.on_read l PAC55XX_MEMSTATUS).2 &&& 0x3 ≠ 0) →
      pac55xx_wait_status_busy t (N : Int)
        = (ERROR_FAIL, { t with log := t.log ++ poll_pairs PAC55XX_MEMSTATUS N
                                  ++ [Access.read PAC55XX_MEMSTATUS] }) ∧
      pac55xx_wait_status_busy t FLASH_ERASE_TIMEOUT
        = (ERROR_FAIL, { t with log := t.log ++ poll_pairs PAC55XX_MEMSTATUS 100
                                  ++ [Access.read PAC55XX_MEMSTATUS] }) ∧
      pac55xx_wait_status_busy t FLASH_WRITE_TIMEOUT
        = (ERROR_FAIL, { t with log := t.log ++ poll_pairs PAC55XX_MEMSTATUS 5
                                  ++ [Access.read PAC55XX_MEMSTATUS] })) ∧
    ((∀ l, (t.on_read l PAC5XXX_MEMCTL_FLASHSTATUS).1 = ERROR_OK ∧
          (t.on_read l PAC5XXX_MEMCTL_FLASHSTATUS).2 &&& PAC5XXX_MEMCTL_FLASHSTATUS_PERASE ≠ 0 ∧
          (t.on_read l PAC5XXX_MEMCTL_FLASHSTATUS).2 &&& PAC5XXX_MEMCTL_FLASHSTATUS_WRITE ≠ 0) →
      pac52xx_wait_status_busy t (N : Int)
        = (ERROR_FAIL, { t with log := t.log ++ poll_pairs PAC5XXX_MEMCTL_FLASHSTATUS N
                                  ++ [Access.read PAC5XXX_MEMCTL_FLASHSTATUS] }) ∧
      pac52xx_wait_status_busy t FLASH_ERASE_TIMEOUT
        = (ERROR_FAIL, { t with log := t.log ++ poll_pairs PAC5XXX_MEMCTL_FLASHSTATUS 100
                                  ++ [Access.read PAC5XXX_MEMCTL_FLASHSTATUS] }) ∧
      pac52xx_wait_status_busy t FLASH_WRITE_TIMEOUT
        = (ERROR_FAIL, { t with log := t.log ++ poll_pairs PAC5XXX_MEMCTL_FLASHSTATUS 5
                                  ++ [Access.read PAC5XXX_MEMCTL_FLASHSTATUS] })) ∧
    (∀ addr, count_poll_sleep (poll_pairs addr N ++ [Access.read addr]) = N ∧
      count_sleeps (poll_pairs addr N ++ [Access.read addr]) = N ∧
      count_reads (poll_pairs addr N ++ [Access.read addr]) = N + 1) := by
  refine ⟨?_, ?_, ?_⟩
  · intro h
    have hb : ∀ l, (t.on_read l PAC55XX_MEMSTATUS).1 = ERROR_OK ∧
        busy55 ((t.on_read l PAC55XX_MEMSTATUS).2 % 2 ^ 32) = true := fun l =>
      ⟨(h l).1, by rw [busy55_mod]; exact decide_eq_true (h l).2⟩
    have e : ∀ M : Nat, pac55xx_wait_status_busy t (M : Int)
        = (ERROR_FAIL, { t with log := t.log ++ poll_pairs PAC55XX_MEMSTATUS M
                                  ++ [Access.read PAC55XX_MEMSTATUS] }) := fun M => by
      rw [pac55xx_wait_status_busy, Int.toNat_ofNat, pac55xx_wait_loop_eq]
      exact wait_loop_stuck_always _ _ t M hb
    exact ⟨e N, e 100, e 5⟩
  · intro h
    have hb : ∀ l, (t.on_read l PAC5XXX_MEMCTL_FLASHSTATUS).1 = ERROR_OK ∧
        busy52 ((t.on_read l PAC5XXX_MEMCTL_FLASHSTATUS).2) = true := fun l =>
      ⟨(h l).1, by
        simp only [busy52, Bool.and_eq_true, decide_eq_true_eq]
        exact (h l).2⟩
    have hb2 : ∀ l, (t.on_read l PAC5XXX_MEMCTL_FLASHSTATUS).1 = ERROR_OK ∧
        busy52 ((t.on_read l PAC5XXX_MEMCTL_FLASHSTATUS).2 % 2 ^ 32) = true := fun l =>
      ⟨(h l).1, by
        have := (hb l).2
        rw [busy52_iff] at this
        rw [busy52_mod]
        exact this⟩
    have e : ∀ M : Nat, pac52xx_wait_status_busy t (M : Int)
        = (ERROR_FAIL, { t with log := t.log ++ poll_pairs PAC5XXX_MEMCTL_FLASHSTATUS M
                                  ++ [Access.read PAC5XXX_MEMCTL_FLASHSTATUS] }) := fun M => by
      rw [pac52xx_wait_status_busy, Int.toNat_ofNat, pac52xx_wait_loop_eq]
      exact wait_loop_stuck_always _ _ t M hb2
    exact ⟨e N, e 100, e 5⟩
  · intro addr
    refine ⟨count_poll_sleep_poll_pairs addr N, ?_, ?_⟩
    · rw [count_sleeps_append, count_sleeps_poll_pairs]; rfl
    · rw [count_reads_append, count_reads_poll_pairs]; rfl

/-- Instance of `wait_status_busy_timeout`: status stuck at `0x3`, timeout 2. -/
theorem wait_status_busy_timeout_witness :
    (∀ l, ((const_target TARGET_HALTED 3).on_read l PAC55XX_MEMSTATUS).1 = ERROR_OK ∧
          ((const_target TARGET_HALTED 3).on_read l PAC55XX_MEMSTATUS).2 &&& 0x3 ≠ 0) ∧
    (∀ l, ((const_target TARGET_HALTED 3).on_read l PAC5XXX_MEMCTL_FLASHSTATUS).1 = ERROR_OK ∧
          ((const_target TARGET_HALTED 3).on_read l PAC5XXX_MEMCTL_FLASHSTATUS).2
            &&& PAC5XXX_MEMCTL_FLASHSTATUS_PERASE ≠ 0 ∧
          ((const_target TARGET_HALTED 3).on_read l PAC5XXX_MEMCTL_FLASHSTATUS).2
            &&& PAC5XXX_MEMCTL_FLASHSTATUS_WRITE ≠ 0) ∧
    (pac55xx_wait_status_busy (const_target TARGET_HALTED 3) ((2 : Nat) : Int)).1 = ERROR_FAIL ∧
    (pac55xx_wait_status_busy (const_target TARGET_HALTED 3) ((2 : Nat) : Int)).2.log
      = [Access.read 0x400D0004, Access.sleep 1, Access.read 0x400D0004, Access.sleep 1,
          Access.read 0x400D0004] ∧
    (pac52xx_wait_status_busy (const_target TARGET_HALTED 3) ((2 : Nat) : Int)).1 = ERROR_FAIL ∧
    (pac52xx_wait_status_busy (const_target TARGET_HALTED 3) ((2 : Nat) : Int)).2.log
      = [Access.read 0x40020004, Access.sleep 1, Access.read 0x40020004, Access.sleep 1,
          Access.read 0x40020004] :=
  have hB : ∀ l, ((const_target TARGET_HALTED 3).on_read l PAC55XX_MEMSTATUS).1 = ERROR_OK ∧
      ((const_target TARGET_HALTED 3).on_read l PAC55XX_MEMSTATUS).2 &&& 0x3 ≠ 0 :=
    fun _ => ⟨rfl, by show (3 : Nat) &&& 0x3 ≠ 0; decide⟩
  have hA : ∀ l,
      ((const_target TARGET_HALTED 3).on_read l PAC5XXX_MEMCTL_FLASHSTATUS).1 = ERROR_OK ∧
      ((const_target TARGET_HALTED 3).on_read l PAC5XXX_MEMCTL_FLASHSTATUS).2
        &&& PAC5XXX_MEMCTL_FLASHSTATUS_PERASE ≠ 0 ∧
      ((const_target TARGET_HALTED 3).on_read l PAC5XXX_MEMCTL_FLASHSTATUS).2
        &&& PAC5XXX_MEMCTL_FLASHSTATUS_WRITE ≠ 0 :=
    fun _ => ⟨rfl, by show (3 : Nat) &&& PAC5XXX_MEMCTL_FLASHSTATUS_PERASE ≠ 0; decide,
      by show (3 : Nat) &&& PAC5XXX_MEMCTL_FLASHSTATUS_WRITE ≠ 0; decide⟩
  have h := wait_status_busy_timeout (const_target TARGET_HALTED 3) 2
  ⟨hB, hA, by rw [(h.1 hB).1], by rw [(h.1 hB).1]; rfl,
    by rw [(h.2.1 hA).1], by rw [(h.2.1 hA).1]; rfl⟩

/-- C8 (what the code does). A status sample with only the write-busy bit set
(`0x1`), or only the erase-busy bit set (`0x2`), ends
`pac52xx_wait_status_busy` at once with `ERROR_OK`: one status read and no
sleep. Only a sample with both bits set is polled again. -/
theorem pac52xx_wait_status_busy_single_busy_bit :
    pac52xx_wait_status_busy (const_target TARGET_HALTED 0x1) 5
        = (ERROR_OK, { const_target TARGET_HALTED 0x1 with
                        log := [Access.read PAC5XXX_MEMCTL_FLASHSTATUS] }) ∧
      pac52xx_wait_status_busy (const_target TARGET_HALTED 0x2) 5
        = (ERROR_OK, { const_target TARGET_HALTED 0x2 with
                        log := [Access.read PAC5XXX_MEMCTL_FLASHSTATUS] }) ∧
      (pac52xx_wait_status_busy (const_target TARGET_HALTED 0x3) 5).1 = ERROR_FAIL ∧
      (pac52xx_wait_status_busy (const_target TARGET_HALTED 0x3) 5).2.log.length = 11 :=
  ⟨rfl, rfl, by decide, by decide⟩

/-! ### The erase loops and the sector table -/

theorem pac55xx_erase_loop_eq {P : Type} (n : Nat) : ∀ (bank : flash_bank P) (i : Int),
    pac55xx_erase_loop bank i n
      = erase_loop PAC55XX_MEMCTL_FLASHLOCK FLASH_LOCK_ALLOW_WRITE_ERASE_FLASH
          PAC55XX_MEMCTL_FLASHPAGE PAC55XX_MEMCTL_FLASHERASE FLASH_START_PAGE_ERASE
          (fun t => pac55xx_wait_status_busy t FLASH_ERASE_TIMEOUT) bank i n := by
  induction n with
  | zero => intro bank i; rfl
  | succ n ih =>
    intro bank i
    simp only [pac55xx_erase_loop, erase_loop]
    split_ifs <;> try rfl
    cases set_is_erased _ i with
    | none => rfl
    | some bank1 => exact ih bank1 (i + 1)

theorem pac52xx_erase_loop_eq {P : Type} (n : Nat) : ∀ (bank : flash_bank P) (i : Int),
    pac52xx_erase_loop bank i n
      = (erase_loop PAC5XXX_MEMCTL_FLASHLOCK PAC5XXX_FLASH_LOCK_FLASHWRITE_KEY
          PAC5XXX_MEMCTL_FLASHPAGE PAC5XXX_MEMCTL_FLASHPERASE PAC5XXX_FLASH_LOCK_PERASE_KEY
          (fun t => pac52xx_wait_status_busy t FLASH_ERASE_TIMEOUT) bank i n).map loop_result := by
  induction n with
  | zero => intro bank i; rfl
  | succ n ih =>
    intro bank i
    simp only [pac52xx_erase_loop, erase_loop]
    split_ifs <;> try rfl
    cases set_is_erased _ i with
    | none => rfl
    | some bank1 => exact ih bank1 (i + 1)

theorem set_is_erased_eq {P : Type} (bank bank1 : flash_bank P) (i : Int)
    (h : set_is_erased bank i = some bank1) :
    ∃ tbl, bank.sectors = some tbl ∧ 0 ≤ i ∧ i.toNat < tbl.length ∧
      bank1 = { bank with
        sectors := some (tbl.modify (fun s => { s with is_erased := 1 }) i.toNat) } := by
  unfold set_is_erased at h
  cases hs : bank.sectors with
  | none => simp [hs] at h
  | some tbl =>
    simp only [hs] at h
    by_cases hc : 0 ≤ i ∧ i.toNat < tbl.length
    · simp only [hc, and_self, if_true, Option.some.injEq] at h
      exact ⟨tbl, rfl, hc.1, hc.2, h.symm⟩
    · simp [hc] at h

theorem mark_erased_zero (first : Int) (tbl : List flash_sector) :
    tbl.mapIdx (mark_erased first 0) = tbl := by
  apply List.ext_getElem?
  intro j
  rw [List.getElem?_mapIdx]
  cases tbl[j]? with
  | none => rfl
  | some s =>
    have : ¬ (first ≤ (j : Int) ∧ (j : Int) < first + ((0 : Nat) : Int)) := by omega
    simp [mark_erased, this]

theorem mark_erased_step (i : Int) (m : Nat) (tbl : List flash_sector) (hi : 0 ≤ i) :
    (tbl.modify (fun s => { s with is_erased := 1 }) i.toNat).mapIdx (mark_erased (i + 1) m)
      = tbl.mapIdx (mark_erased i (m + 1)) := by
  apply List.ext_getElem?
  intro j
  rw [List.getElem?_mapIdx, List.getElem?_mapIdx, List.getElem?_modify]
  cases tbl[j]? with
  | none => rfl
  | some s =>
    simp only [Option.map_eq_map, Option.map_some', mark_erased, Option.some.injEq,
      Nat.cast_add, Nat.cast_one]
    by_cases hj : i.toNat = j
    · have h1 : ¬ (i + 1 ≤ (j : Int) ∧ (j : Int) < i + 1 + (m : Int)) := by omega
      have h2 : i ≤ (j : Int) ∧ (j : Int) < i + ((m : Int) + 1) := by omega
      simp [hj, h1, h2]
    · by_cases h1 : i + 1 ≤ (j : Int) ∧ (j : Int) < i + 1 + (m : Int)
      · have h2 : i ≤ (j : Int) ∧ (j : Int) < i + ((m : Int) + 1) := by omega
        simp [hj, h1, h2]
      · have h2 : ¬ (i ≤ (j : Int) ∧ (j : Int) < i + ((m : Int) + 1)) := by omega
        simp [hj, h1, h2]

/-- What the erase loop does to the bank: some number `m` of pages, all `n` of
them at a normal end, have been marked; nothing but the target and the
`is_erased` flags of those pages differs. -/
theorem erase_loop_sectors {P : Type} (lock key page ereg ekey : Nat)
    (wait : target → Int × target) (n : Nat) :
    ∀ (bank : flash_bank P) (i : Int) (r : (Int × flash_bank P) ⊕ flash_bank P),
      erase_loop lock key page ereg ekey wait bank i n = some r →
      ∃ m, m ≤ n ∧ (r.isRight = true → m = n) ∧
        (∀ x, r = Sum.inl x → x.1 ≠ ERROR_OK) ∧
        (loop_bank r).sectors = bank.sectors.map (fun tbl => tbl.mapIdx (mark_erased i m)) ∧
        (loop_bank r).base = bank.base ∧ (loop_bank r).size = bank.size ∧
        (loop_bank r).num_sectors = bank.num_sectors ∧
        (loop_bank r).driver_priv = bank.driver_priv := by
  induction n with
  | zero =>
    intro bank i r h
    simp only [erase_loop, Option.some.injEq] at h
    subst h
    refine ⟨0, Nat.le_refl 0, fun _ => rfl, fun x hx => by simp at hx, ?_, rfl, rfl, rfl, rfl⟩
    simp only [loop_bank]
    cases bank.sectors with
    | none => rfl
    | some tbl => simp [mark_erased_zero]
  | succ n ih =>
    intro bank i r h
    have stop : ∀ (c : Int) (t : target), c ≠ ERROR_OK →
        r = Sum.inl (c, { bank with target := t }) →
        ∃ m, m ≤ n + 1 ∧ (r.isRight = true → m = n + 1) ∧
        (∀ x, r = Sum.inl x → x.1 ≠ ERROR_OK) ∧
        (loop_bank r).sectors = bank.sectors.map (fun tbl => tbl.mapIdx (mark_erased i m)) ∧
        (loop_bank r).base = bank.base ∧ (loop_bank r).size = bank.size ∧
        (loop_bank r).num_sectors = bank.num_sectors ∧
        (loop_bank r).driver_priv = bank.driver_priv := by
      intro c t hc hr
      subst hr
      refine ⟨0, Nat.zero_le _, fun h => by simp at h,
        fun x hx => by rw [← Sum.inl.inj hx]; exact hc, ?_, rfl, rfl, rfl, rfl⟩
      simp only [loop_bank]
      cases bank.sectors with
      | none => rfl
      | some tbl => simp [mark_erased_zero]
    rw [erase_loop] at h
    simp only at h
    split_ifs at h with h1 h2 h3 h4
    · exact stop _ _ h1 (Option.some.inj h).symm
    · exact stop _ _ h2 (Option.some.inj h).symm
    · exact stop _ _ h3 (Option.some.inj h).symm
    · exact stop _ _ h4 (Option.some.inj h).symm
    · split at h
      · simp at h
      · rename_i bank1 hset
        obtain ⟨tbl, hs, hi0, hlt, hb1⟩ := set_is_erased_eq _ _ _ hset
        obtain ⟨m, hm, hright, hleft, hsec, hbase, hsize, hnum, hpriv⟩ := ih bank1 (i + 1) r h
        refine ⟨m + 1, by omega, fun hr => by rw [hright hr], hleft, ?_, ?_, ?_, ?_, ?_⟩
        · rw [hsec, hb1]
          simp only at hs
          simp only [hs, Option.map_some', mark_erased_step i m tbl hi0]
        · rw [hbase, hb1]
        · rw [hsize, hb1]
        · rw [hnum, hb1]
        · rw [hpriv, hb1]

theorem mark_erased_range (first last : Int) (j : Nat) (s : flash_sector) :
    mark_erased first (last + 1 - first).toNat j s
      = if first ≤ (j : Int) ∧ (j : Int) ≤ last then { s with is_erased := 1 } else s := by
  unfold mark_erased
  by_cases h : first ≤ (j : Int) ∧ (j : Int) ≤ last
  · have h2 : first ≤ (j : Int) ∧ (j : Int) < first + ((last + 1 - first).toNat : Int) := by omega
    rw [if_pos h, if_pos h2]
  · have h2 : ¬ (first ≤ (j : Int) ∧ (j : Int) < first + ((last + 1 - first).toNat : Int)) := by
      omega
    rw [if_neg h, if_neg h2]

/-- C5. Erase marks sectors and nothing else: on a bank with a sector table,
when `pac52xx_erase` or `pac55xx_erase` returns `ERROR_OK` the new table has
the same length, sector `j` has `is_erased = 1` if `first <= j <= last` and is
otherwise the sector it was, and `offset`, `size` and `is_protected` of every
sector are as before; `base`, `size`, `num_sectors` and the private state of
the bank are unchanged too. (An `ERROR_OK` return means every index of
`first..last` was inside the table, so no range hypothesis is needed.) -/
theorem erase_marks_sectors {P : Type} (bank bank1 : flash_bank P) (tbl : List flash_sector)
    (first last : Int) (hs : bank.sectors = some tbl)
    (h : pac52xx_erase bank first last = some (ERROR_OK, bank1) ∨
      pac55xx_erase bank first last = some (ERROR_OK, bank1)) :
    ∃ tbl1, bank1.sectors = some tbl1 ∧ tbl1.length = tbl.length ∧
      (∀ (j : Nat) (s : flash_sector), tbl[j]? = some s →
        tbl1[j]? = some (if first ≤ (j : Int) ∧ (j : Int) ≤ last
          then { s with is_erased := 1 } else s)) ∧
      bank1.base = bank.base ∧ bank1.size = bank.size ∧
      bank1.num_sectors = bank.num_sectors ∧ bank1.driver_priv = bank.driver_priv := by
  have key : ∀ (b : flash_bank P),
      b.sectors = bank.sectors.map
        (fun tbl => tbl.mapIdx (mark_erased first (last + 1 - first).toNat)) →
      ∃ tbl1, b.sectors = some tbl1 ∧ tbl1.length = tbl.length ∧
      (∀ (j : Nat) (s : flash_sector), tbl[j]? = some s →
        tbl1[j]? = some (if first ≤ (j : Int) ∧ (j : Int) ≤ last
          then { s with is_erased := 1 } else s)) := by
    intro b hb
    rw [hs] at hb
    refine ⟨_, hb, by simp, ?_⟩
    intro j s hj
    rw [List.getElem?_mapIdx, hj, Option.map_some', mark_erased_range]
  rcases h with h | h
  · unfold pac52xx_erase at h
    split_ifs at h with hh
    · simp [ERROR_TARGET_NOT_HALTED, ERROR_OK] at h
    · rw [pac52xx_erase_loop_eq] at h
      obtain ⟨r, hr, hres⟩ := Option.map_eq_some'.mp h
      obtain ⟨m, _, hright, hleft, hsec, hbase, hsize, hnum, hpriv⟩ :=
        erase_loop_sectors _ _ _ _ _ _ _ bank first r hr
      cases r with
      | inl x =>
        simp only [loop_result] at hres
        exact absurd (by rw [hres]) (hleft x rfl)
      | inr b =>
        simp only [loop_result, Prod.mk.injEq, true_and] at hres
        subst hres
        have hm := hright rfl
        subst hm
        obtain ⟨tbl1, h1, h2, h3⟩ := key b hsec
        exact ⟨tbl1, h1, h2, h3, hbase, hsize, hnum, hpriv⟩
  · unfold pac55xx_erase at h
    split_ifs at h with hh
    · simp [ERROR_TARGET_NOT_HALTED, ERROR_OK] at h
    · rw [pac55xx_erase_loop_eq] at h
      split at h
      · simp at h
      · rename_i x hr
        obtain ⟨m, _, _, hleft, _⟩ := erase_loop_sectors _ _ _ _ _ _ _ bank first _ hr
        simp only [Option.some.injEq] at h
        exact absurd (by rw [h]) (hleft x rfl)
      · rename_i b hr
        obtain ⟨m, _, hright, _, hsec, hbase, hsize, hnum, hpriv⟩ :=
          erase_loop_sectors _ _ _ _ _ _ _ bank first _ hr
        have hm := hright rfl
        subst hm
        simp only [loop_bank] at hsec hbase hsize hnum hpriv
        obtain ⟨tbl1, h1, h2, h3⟩ := key b hsec
        simp only at h
        split_ifs at h
        all_goals
          simp only [Option.some.injEq, Prod.mk.injEq] at h
          obtain ⟨_, hb1⟩ := h
          subst hb1
          exact ⟨tbl1, h1, h2, h3, hbase, hsize, hnum, hpriv⟩

set_option maxRecDepth 8192 in
/-- Instance of `erase_marks_sectors`: `erase(first=3, last=5)` on probed banks of both
devices. -/
theorem erase_marks_sectors_witness :
    (∃ b1 : flash_bank pac52xx_flash_bank,
      (sample_bank52 (const_target TARGET_HALTED 0)).sectors = some (sample_table 32) ∧
      pac52xx_erase (sample_bank52 (const_target TARGET_HALTED 0)) 3 5 = some (ERROR_OK, b1) ∧
      ∃ tbl1, b1.sectors = some tbl1 ∧ tbl1.length = (sample_table 32).length ∧
        (∀ (j : Nat) (s : flash_sector), (sample_table 32)[j]? = some s →
          tbl1[j]? = some (if (3 : Int) ≤ (j : Int) ∧ (j : Int) ≤ 5
            then { s with is_erased := 1 } else s)) ∧
        b1.base = (sample_bank52 (const_target TARGET_HALTED 0)).base ∧
        b1.size = (sample_bank52 (const_target TARGET_HALTED 0)).size ∧
        b1.num_sectors = (sample_bank52 (const_target TARGET_HALTED 0)).num_sectors ∧
        b1.driver_priv = (sample_bank52 (const_target TARGET_HALTED 0)).driver_priv) ∧
    (∃ b1 : flash_bank pac55xx_flash_bank,
      (sample_bank55 (const_target TARGET_HALTED 0)).sectors = some (sample_table 128) ∧
      pac55xx_erase (sample_bank55 (const_target TARGET_HALTED 0)) 3 5 = some (ERROR_OK, b1) ∧
      ∃ tbl1, b1.sectors = some tbl1 ∧ tbl1.length = (sample_table 128).length ∧
        (∀ (j : Nat) (s : flash_sector), (sample_table 128)[j]? = some s →
          tbl1[j]? = some (if (3 : Int) ≤ (j : Int) ∧ (j : Int) ≤ 5
            then { s with is_erased := 1 } else s)) ∧
        b1.base = (sample_bank55 (const_target TARGET_HALTED 0)).base ∧
        b1.size = (sample_bank55 (const_target TARGET_HALTED 0)).size ∧
        b1.num_sectors = (sample_bank55 (const_target TARGET_HALTED 0)).num_sectors ∧
        b1.driver_priv = (sample_bank55 (const_target TARGET_HALTED 0)).driver_priv) :=
  have hA : pac52xx_erase (sample_bank52 (const_target TARGET_HALTED 0)) 3 5
      = some (ERROR_OK,
          ((pac52xx_erase (sample_bank52 (const_target TARGET_HALTED 0)) 3 5).getD
            (0, sample_bank52 (const_target TARGET_HALTED 0))).2) := rfl
  have hB : pac55xx_erase (sample_bank55 (const_target TARGET_HALTED 0)) 3 5
      = some (ERROR_OK,
          ((pac55xx_erase (sample_bank55 (const_target TARGET_HALTED 0)) 3 5).getD
            (0, sample_bank55 (const_target TARGET_HALTED 0))).2) := rfl
  ⟨⟨_, rfl, hA, erase_marks_sectors _ _ (sample_table 32) 3 5 rfl (Or.inl hA)⟩,
    ⟨_, rfl, hB, erase_marks_sectors _ _ (sample_table 128) 3 5 rfl (Or.inr hB)⟩⟩

/-! ### Locked at rest -/

theorem reg_value_append (addr init : Nat) (l1 l2 : List Access) :
    reg_value addr init (l1 ++ l2) = reg_value addr (reg_value addr init l1) l2 := by
  simp [reg_value]

theorem reg_value_concat_write (addr init : Nat) (l : List Access) (x : Nat) :
    reg_value addr init (l ++ [Access.write addr x]) = x := by
  simp [reg_value]

/-- The end of the three DeviceB operations: a checked write of 0 to
FLASHLOCK. -/
theorem final_lock_write {P : Type} (b bank1 : flash_bank P) (t : target) (init : Nat)
    (h : (if (target_write_u32 t PAC55XX_MEMCTL_FLASHLOCK 0).1 ≠ ERROR_OK
          then ((target_write_u32 t PAC55XX_MEMCTL_FLASHLOCK 0).1,
            { b with target := (target_write_u32 t PAC55XX_MEMCTL_FLASHLOCK 0).2 })
          else (ERROR_OK, { b with target := (target_write_u32 t PAC55XX_MEMCTL_FLASHLOCK 0).2 }))
        = (ERROR_OK, bank1)) :
    (∃ l, bank1.target.log = l ++ [Access.write PAC55XX_MEMCTL_FLASHLOCK 0] ∧
        bank1.target.on_write l PAC55XX_MEMCTL_FLASHLOCK 0 = ERROR_OK) ∧
      bank1.target.log.getLast? = some (Access.write PAC55XX_MEMCTL_FLASHLOCK 0) ∧
      reg_value PAC55XX_MEMCTL_FLASHLOCK init bank1.target.log = 0 := by
  split_ifs at h with hw
  · exact absurd (Prod.mk.inj h).1 hw
  · have hb := (Prod.mk.inj h).2
    subst hb
    simp only [target_write_u32] at hw ⊢
    refine ⟨⟨t.log, rfl, by simpa using hw⟩, List.getLast?_concat _, reg_value_concat_write _ _ _ _⟩

/-- An early return of the DeviceB write loop never carries `ERROR_OK`. -/
theorem pac55xx_write_loop_error (p_src : Nat → Nat) (n : Nat) :
    ∀ (s : pac55xx_write_locals) (r : Int × target),
      pac55xx_write_loop p_src n s = Except.error r → r.1 ≠ ERROR_OK := by
  induction n with
  | zero =>
    intro s r h
    simp [pac55xx_write_loop] at h
  | succ n ih =>
    intro s r h
    rw [pac55xx_write_loop] at h
    simp only at h
    split_ifs at h with h16 hw
    · rw [← Except.error.inj h]
      exact hw
    · exact ih _ r h
    · exact ih _ r h

/-- C6. Locked at rest (DeviceB): when `pac55xx_erase`, `pac55xx_erase_key` or
`pac55xx_write` returns `ERROR_OK`, the last access of the call is the write
`FLASHLOCK <- 0`, which the target answered with OK; so a mock FLASHLOCK
register that holds the last value written to it reads 0 afterwards, whatever
it held before. No condition is put on `first`, `last` or `count`: an erase
with `first > last` and a write with `count = 0` are included. -/
theorem pac55xx_locked_at_rest {P : Type} (bank bank1 : flash_bank P) (first last : Int)
    (key : Nat) (buff0 buffer : Nat → Nat) (offset count init : Nat)
    (h : pac55xx_erase bank first last = some (ERROR_OK, bank1) ∨
      pac55xx_erase_key bank key = some (ERROR_OK, bank1) ∨
      pac55xx_write buff0 bank buffer offset count = (ERROR_OK, bank1)) :
    (∃ l, bank1.target.log = l ++ [Access.write PAC55XX_MEMCTL_FLASHLOCK 0] ∧
        bank1.target.on_write l PAC55XX_MEMCTL_FLASHLOCK 0 = ERROR_OK) ∧
      bank1.target.log.getLast? = some (Access.write PAC55XX_MEMCTL_FLASHLOCK 0) ∧
      reg_value PAC55XX_MEMCTL_FLASHLOCK init bank1.target.log = 0 := by
  have nh : (ERROR_TARGET_NOT_HALTED, bank) ≠ (ERROR_OK, bank1) := by
    intro e
    have := (Prod.mk.inj e).1
    simp [ERROR_TARGET_NOT_HALTED, ERROR_OK] at this
  rcases h with h | h | h
  · unfold pac55xx_erase at h
    split_ifs at h with hh
    · exact absurd (Option.some.inj h) nh
    · split at h
      · simp at h
      · rename_i x hr
        rw [pac55xx_erase_loop_eq] at hr
        obtain ⟨m, _, _, hleft, _⟩ := erase_loop_sectors _ _ _ _ _ _ _ bank first _ hr
        simp only [Option.some.injEq] at h
        exact absurd (by rw [h]) (hleft x rfl)
      · rename_i b hr
        simp only at h
        apply final_lock_write b bank1 b.target init
        split_ifs at h ⊢ <;> exact Option.some.inj h
  · unfold pac55xx_erase_key at h
    simp only at h
    split_ifs at h with hh h1 h2 h3
    · exact absurd (Option.some.inj h) nh
    · exact absurd (Prod.mk.inj (Option.some.inj h)).1 h1
    · exact absurd (Prod.mk.inj (Option.some.inj h)).1 h2
    · exact absurd (Prod.mk.inj (Option.some.inj h)).1 h3
    · split at h
      · simp at h
      · rename_i b hr
        apply final_lock_write b bank1 b.target init
        split_ifs at h ⊢ <;> exact Option.some.inj h
  · unfold pac55xx_write at h
    simp only at h
    split_ifs at h with hh h1 h2 h3
    · exact absurd h nh
    · exact absurd (Prod.mk.inj h).1 h1
    · exact absurd (Prod.mk.inj h).1 h2
    · exact absurd (Prod.mk.inj h).1 h3
    · split at h
      · rename_i r hr
        exact absurd (Prod.mk.inj h).1 (pac55xx_write_loop_error _ _ _ r hr)
      · rename_i s hs
        split at h
        · rename_i r hr
          split_ifs at hr with hb hw
          · exact absurd (Prod.mk.inj h).1 (by rw [← Except.error.inj hr]; exact hw)
        · rename_i t ht
          exact final_lock_write bank bank1 (alive_sleep t 1) init h

set_option maxRecDepth 8192 in
/-- Instance of `pac55xx_locked_at_rest`: an erase with `first > last`, a keyed erase and a
write with `count = 0`. -/
theorem pac55xx_locked_at_rest_witness :
    (∃ b1 : flash_bank pac55xx_flash_bank,
      pac55xx_erase (sample_bank55 (const_target TARGET_HALTED 0)) 5 3 = some (ERROR_OK, b1) ∧
      ((∃ l, b1.target.log = l ++ [Access.write PAC55XX_MEMCTL_FLASHLOCK 0] ∧
          b1.target.on_write l PAC55XX_MEMCTL_FLASHLOCK 0 = ERROR_OK) ∧
        b1.target.log.getLast? = some (Access.write PAC55XX_MEMCTL_FLASHLOCK 0) ∧
        reg_value PAC55XX_MEMCTL_FLASHLOCK 0 b1.target.log = 0)) ∧
    (∃ b1 : flash_bank pac55xx_flash_bank,
      pac55xx_erase_key (sample_bank55 (const_target TARGET_HALTED 0)) 0x856E0E70
        = some (ERROR_OK, b1) ∧
      ((∃ l, b1.target.log = l ++ [Access.write PAC55XX_MEMCTL_FLASHLOCK 0] ∧
          b1.target.on_write l PAC55XX_MEMCTL_FLASHLOCK 0 = ERROR_OK) ∧
        b1.target.log.getLast? = some (Access.write PAC55XX_MEMCTL_FLASHLOCK 0) ∧
        reg_value PAC55XX_MEMCTL_FLASHLOCK 0 b1.target.log = 0)) ∧
    (∃ b1 : flash_bank pac55xx_flash_bank,
      pac55xx_write (fun _ => 0) (sample_bank55 (const_target TARGET_HALTED 0)) (fun _ => 0xAA) 4 0
        = (ERROR_OK, b1) ∧
      ((∃ l, b1.target.log = l ++ [Access.write PAC55XX_MEMCTL_FLASHLOCK 0] ∧
          b1.target.on_write l PAC55XX_MEMCTL_FLASHLOCK 0 = ERROR_OK) ∧
        b1.target.log.getLast? = some (Access.write PAC55XX_MEMCTL_FLASHLOCK 0) ∧
        reg_value PAC55XX_MEMCTL_FLASHLOCK 0 b1.target.log = 0)) :=
  have hA : pac55xx_erase (sample_bank55 (const_target TARGET_HALTED 0)) 5 3
      = some (ERROR_OK,
          ((pac55xx_erase (sample_bank55 (const_target TARGET_HALTED 0)) 5 3).getD
            (0, sample_bank55 (const_target TARGET_HALTED 0))).2) := rfl
  have hB : pac55xx_erase_key (sample_bank55 (const_target TARGET_HALTED 0)) 0x856E0E70
      = some (ERROR_OK,
          ((pac55xx_erase_key (sample_bank55 (const_target TARGET_HALTED 0)) 0x856E0E70).getD
            (0, sample_bank55 (const_target TARGET_HALTED 0))).2) := rfl
  have hC : pac55xx_write (fun _ => 0) (sample_bank55 (const_target TARGET_HALTED 0))
        (fun _ => 0xAA) 4 0
      = (ERROR_OK,
          (pac55xx_write (fun _ => 0) (sample_bank55 (const_target TARGET_HALTED 0))
            (fun _ => 0xAA) 4 0).2) := rfl
  ⟨⟨_, hA, pac55xx_locked_at_rest _ _ 5 3 0 (fun _ => 0) (fun _ => 0) 0 0 0 (Or.inl hA)⟩,
    ⟨_, hB, pac55xx_locked_at_rest _ _ 0 0 0x856E0E70 (fun _ => 0) (fun _ => 0) 0 0 0
      (Or.inr (Or.inl hB))⟩,
    ⟨_, hC, pac55xx_locked_at_rest _ _ 0 0 0 (fun _ => 0) (fun _ => 0xAA) 4 0 0
      (Or.inr (Or.inr hC))⟩⟩

/-- The poll loop only reads the status register and sleeps: its accesses are
appended to the log and the target is otherwise the same. -/
theorem wait_loop_log (addr : Nat) (busy : Nat → Bool) (N : Nat) :
    ∀ t : target, ∃ seg, (wait_loop addr busy t N).2 = { t with log := t.log ++ seg } ∧
      ∀ a, a ∈ seg → a = Access.read addr ∨ a = Access.sleep 1 := by
  induction N with
  | zero =>
    intro t
    refine ⟨[Access.read addr], ?_, fun a ha => Or.inl (List.mem_singleton.mp ha)⟩
    unfold wait_loop
    simp only [target_read_u32]
    split_ifs <;> rfl
  | succ N ih =>
    intro t
    unfold wait_loop
    simp only [target_read_u32]
    split_ifs
    · exact ⟨[Access.read addr], rfl, fun a ha => Or.inl (List.mem_singleton.mp ha)⟩
    · exact ⟨[Access.read addr], rfl, fun a ha => Or.inl (List.mem_singleton.mp ha)⟩
    · obtain ⟨seg, hseg, hp⟩ := ih (alive_sleep
        { t with log := t.log ++ [Access.read addr] } 1)
      refine ⟨Access.read addr :: Access.sleep 1 :: seg, ?_, ?_⟩
      · rw [hseg]
        simp [alive_sleep]
      · intro a ha
        simp only [List.mem_cons] at ha
        rcases ha with ha | ha | ha
        · exact Or.inl ha
        · exact Or.inr ha
        · exact hp a ha

theorem reg_value_polls (addr init : Nat) (seg : List Access) (status : Nat)
    (h : ∀ a, a ∈ seg → a = Access.read status ∨ a = Access.sleep 1) :
    reg_value addr init seg = init := by
  induction seg with
  | nil => rfl
  | cons a seg ih =>
    have ha := h a (List.mem_cons_self a seg)
    have := ih (fun b hb => h b (List.mem_cons_of_mem a hb))
    rcases ha with ha | ha <;> subst ha <;> simpa [reg_value] using this

theorem pac52xx_wait_log (t : target) (timeout : Int) :
    ∃ seg, (pac52xx_wait_status_busy t timeout).2 = { t with log := t.log ++ seg } ∧
      ∀ a, a ∈ seg → a = Access.read PAC5XXX_MEMCTL_FLASHSTATUS ∨ a = Access.sleep 1 := by
  rw [pac52xx_wait_status_busy, pac52xx_wait_loop_eq]
  exact wait_loop_log _ _ _ t

theorem pac55xx_wait_log (t : target) (timeout : Int) :
    ∃ seg, (pac55xx_wait_status_busy t timeout).2 = { t with log := t.log ++ seg } ∧
      ∀ a, a ∈ seg → a = Access.read PAC55XX_MEMSTATUS ∨ a = Access.sleep 1 := by
  rw [pac55xx_wait_status_busy, pac55xx_wait_loop_eq]
  exact wait_loop_log _ _ _ t

/-- The lock register after a completed erase loop: the key if a page was
processed, its former value otherwise. -/
theorem erase_loop_lock {P : Type} (lock key page ereg ekey status : Nat)
    (wait : target → Int × target) (init : Nat) (hp : page ≠ lock) (he : ereg ≠ lock)
    (hw : ∀ t, ∃ seg, (wait t).2 = { t with log := t.log ++ seg } ∧
      ∀ a, a ∈ seg → a = Access.read status ∨ a = Access.sleep 1) (n : Nat) :
    ∀ (bank b : flash_bank P) (i : Int),
      erase_loop lock key page ereg ekey wait bank i n = some (Sum.inr b) →
      reg_value lock init b.target.log
        = if n = 0 then reg_value lock init bank.target.log else key := by
  induction n with
  | zero =>
    intro bank b i h
    simp only [erase_loop, Option.some.injEq, Sum.inr.injEq] at h
    subst h
    rfl
  | succ n ih =>
    intro bank b i h
    rw [erase_loop] at h
    simp only at h
    split_ifs at h with h1 h2 h3 h4
    · simp at h
    · simp at h
    · simp at h
    · simp at h
    split at h
    · simp at h
    · rename_i bank1 hset
      obtain ⟨tbl, hs, hi0, hlt, hb1⟩ := set_is_erased_eq _ _ _ hset
      have := ih bank1 b (i + 1) h
      rw [this]
      obtain ⟨seg, hseg, hpolls⟩ := hw (target_write_u32 (target_write_u32
        (target_write_u32 bank.target lock key).2 page (int_to_u32 i)).2 ereg ekey).2
      have hlog : bank1.target.log = bank.target.log ++
          ([Access.write lock key, Access.write page (int_to_u32 i), Access.write ereg ekey]
            ++ seg) := by
        rw [hb1]
        simp only [hseg]
        simp [target_write_u32]
      by_cases hn : n = 0
      · rw [if_pos hn, if_neg (Nat.succ_ne_zero n), hlog, reg_value_append, reg_value_append,
          reg_value_polls _ _ seg status hpolls]
        simp [reg_value, hp, he]
      · rw [if_neg hn, if_neg (Nat.succ_ne_zero n)]

/-- The lock register after a DeviceA write loop that ended with `ERROR_OK`,
when the words written lie below the controller registers. -/
theorem pac52xx_write_loop_lock {P : Type} (buffer : Nat → Nat) (init : Nat) (n : Nat) :
    ∀ (bank bank1 : flash_bank P) (pos offset : Nat),
      pac52xx_write_loop bank buffer pos offset n = (ERROR_OK, bank1) →
      bank.base + offset + 4 * n ≤ PAC5XXX_MEMCTL_FLASHLOCK →
      reg_value PAC5XXX_MEMCTL_FLASHLOCK init bank1.target.log
        = if n = 0 then reg_value PAC5XXX_MEMCTL_FLASHLOCK init bank.target.log
          else PAC5XXX_FLASH_LOCK_FLASHWRITE_KEY := by
  induction n with
  | zero =>
    intro bank bank1 pos offset h _
    simp only [pac52xx_write_loop, Prod.mk.injEq, true_and] at h
    subst h
    rfl
  | succ n ih =>
    intro bank bank1 pos offset h hb
    rw [pac52xx_write_loop] at h
    simp only at h
    split_ifs at h with h1 h2 h3
    · exact absurd (Prod.mk.inj h).1 h1
    · exact absurd (Prod.mk.inj h).1 h2
    · exact absurd (Prod.mk.inj h).1 h3
    · have hlock : PAC5XXX_MEMCTL_FLASHLOCK = 0x40020000 := rfl
      have ho : (offset + 4) % 2 ^ 32 = offset + 4 := by
        apply Nat.mod_eq_of_lt
        omega
      have ha : target_addr (bank.base + offset) ≠ PAC5XXX_MEMCTL_FLASHLOCK := by
        have : target_addr (bank.base + offset) = bank.base + offset := by
          apply Nat.mod_eq_of_lt
          omega
        omega
      have := ih _ bank1 (pos + 4) ((offset + 4) % 2 ^ 32) h (by
        simp only [ho]
        omega)
      rw [this]
      obtain ⟨seg, hseg, hpolls⟩ := pac52xx_wait_log (target_write_u32
        (target_write_u32 bank.target PAC5XXX_MEMCTL_FLASHLOCK
          PAC5XXX_FLASH_LOCK_FLASHWRITE_KEY).2
        (target_addr (bank.base + offset)) (load_u32 buffer pos)).2 FLASH_WRITE_TIMEOUT
      by_cases hn : n = 0
      · rw [if_pos hn, if_neg (Nat.succ_ne_zero n)]
        simp only [hseg]
        simp only [target_write_u32]
        rw [reg_value_append, reg_value_polls _ _ seg _ hpolls]
        simp [reg_value, ha]
      · rw [if_neg hn, if_neg (Nat.succ_ne_zero n)]

/-- C7 (amended). DeviceA does not re-lock: on a mock FLASHLOCK register that
holds the last value written to it, after `pac52xx_erase` returns `ERROR_OK`
the register holds the write key `0xAAAAAAAA` if `first <= last` and its
former value if `first > last`; after `pac52xx_write` returns `ERROR_OK` with
the written range below the controller registers, it holds `0xAAAAAAAA` if
`count > 0` and its former value if `count = 0`. So a register that started at
0 reads 0 after a successful call only when the call processed no page and no
word. -/
theorem pac52xx_flashlock_after_success {P : Type} (bank bank1 : flash_bank P)
    (first last : Int) (malloc : Nat → Bool) (buffer : Nat → Nat) (offset count init : Nat) :
    (pac52xx_erase bank first last = some (ERROR_OK, bank1) →
      reg_value PAC5XXX_MEMCTL_FLASHLOCK init bank1.target.log
        = if first ≤ last then PAC5XXX_FLASH_LOCK_FLASHWRITE_KEY
          else reg_value PAC5XXX_MEMCTL_FLASHLOCK init bank.target.log) ∧
    (pac52xx_write malloc bank buffer offset count = some (ERROR_OK, bank1) →
      bank.base + offset + count + 3 < PAC5XXX_MEMCTL_FLASHLOCK →
      reg_value PAC5XXX_MEMCTL_FLASHLOCK init bank1.target.log
        = if count = 0 then reg_value PAC5XXX_MEMCTL_FLASHLOCK init bank.target.log
          else PAC5XXX_FLASH_LOCK_FLASHWRITE_KEY) := by
  constructor
  · intro h
    unfold pac52xx_erase at h
    split_ifs at h with hh
    · simp [ERROR_TARGET_NOT_HALTED, ERROR_OK] at h
    · rw [pac52xx_erase_loop_eq] at h
      obtain ⟨r, hr, hres⟩ := Option.map_eq_some'.mp h
      obtain ⟨m, _, _, hleft, _⟩ := erase_loop_sectors _ _ _ _ _ _ _ bank first r hr
      cases r with
      | inl x =>
        simp only [loop_result] at hres
        exact absurd (by rw [hres]) (hleft x rfl)
      | inr b =>
        simp only [loop_result, Prod.mk.injEq, true_and] at hres
        subst hres
        rw [erase_loop_lock _ _ _ _ _ PAC5XXX_MEMCTL_FLASHSTATUS _ init (by decide) (by decide)
          (fun t => pac52xx_wait_log t FLASH_ERASE_TIMEOUT) _ bank b first hr]
        by_cases hfl : first ≤ last
        · rw [if_pos hfl, if_neg (by omega)]
        · rw [if_neg hfl, if_pos (by omega)]
  · intro h hb
    unfold pac52xx_write at h
    have h3 : ∀ x : Nat, x &&& 0x3 = x % 4 := and3_eq_mod
    simp only [h3] at h
    split_ifs at h with hh ha hc hm ho
    · simp [ERROR_TARGET_NOT_HALTED, ERROR_OK] at h
    · simp [ERROR_FLASH_DST_BREAKS_ALIGNMENT, ERROR_OK] at h
    · simp [ERROR_FAIL, ERROR_OK] at h
    · have := pac52xx_write_loop_lock _ init _ bank bank1 0 offset (Option.some.inj h)
        (by omega)
      rw [this, if_neg (by omega), if_neg (by omega)]
    · have := pac52xx_write_loop_lock _ init _ bank bank1 0 offset (Option.some.inj h)
        (by omega)
      rw [this]
      by_cases hz : count = 0
      · rw [if_pos hz, if_pos (by omega)]
      · rw [if_neg hz, if_neg (by omega)]

/-- Instance of `pac52xx_flashlock_after_success`: `erase(3, 5)` and a three-byte write. -/
theorem pac52xx_flashlock_after_success_witness :
    (∃ b1 : flash_bank pac52xx_flash_bank,
      pac52xx_erase (sample_bank52 (const_target TARGET_HALTED 0)) 3 5 = some (ERROR_OK, b1) ∧
      reg_value PAC5XXX_MEMCTL_FLASHLOCK 0 b1.target.log
        = if (3 : Int) ≤ 5 then PAC5XXX_FLASH_LOCK_FLASHWRITE_KEY
          else reg_value PAC5XXX_MEMCTL_FLASHLOCK 0
            (sample_bank52 (const_target TARGET_HALTED 0)).target.log) ∧
    (∃ b1 : flash_bank pac52xx_flash_bank,
      pac52xx_write (fun _ => true) (sample_bank52 (const_target TARGET_HALTED 0))
          (fun i => [0x11, 0x22, 0x33].getD i 0) 0 3 = some (ERROR_OK, b1) ∧
      (sample_bank52 (const_target TARGET_HALTED 0)).base + 0 + 3 + 3 < PAC5XXX_MEMCTL_FLASHLOCK ∧
      reg_value PAC5XXX_MEMCTL_FLASHLOCK 0 b1.target.log
        = if 3 = 0 then reg_value PAC5XXX_MEMCTL_FLASHLOCK 0
            (sample_bank52 (const_target TARGET_HALTED 0)).target.log
          else PAC5XXX_FLASH_LOCK_FLASHWRITE_KEY) :=
  have hA : pac52xx_erase (sample_bank52 (const_target TARGET_HALTED 0)) 3 5
      = some (ERROR_OK,
          ((pac52xx_erase (sample_bank52 (const_target TARGET_HALTED 0)) 3 5).getD
            (0, sample_bank52 (const_target TARGET_HALTED 0))).2) := rfl
  have hB : pac52xx_write (fun _ => true) (sample_bank52 (const_target TARGET_HALTED 0))
        (fun i => [0x11, 0x22, 0x33].getD i 0) 0 3
      = some (ERROR_OK,
          ((pac52xx_write (fun _ => true) (sample_bank52 (const_target TARGET_HALTED 0))
            (fun i => [0x11, 0x22, 0x33].getD i 0) 0 3).getD
            (0, sample_bank52 (const_target TARGET_HALTED 0))).2) := rfl
  ⟨⟨_, hA, (pac52xx_flashlock_after_success _ _ 3 5 (fun _ => true) (fun _ => 0) 0 0 0).1 hA⟩,
    ⟨_, hB, by decide,
      (pac52xx_flashlock_after_success _ _ 0 0 (fun _ => true)
        (fun i => [0x11, 0x22, 0x33].getD i 0) 0 3 0).2 hB (by decide)⟩⟩

/-- C7 (as stated, refuted). On a halted target that answers every access
with OK and an idle status, with FLASHLOCK at 0 before the call,
`pac52xx_erase(bank, 0, 0)` and `pac52xx_write` of three bytes at offset 0
both return `ERROR_OK` and leave `0xAAAAAAAA`, not 0, as the last value
written to FLASHLOCK. -/
theorem pac52xx_flashlock_not_relocked :
    reg_value PAC5XXX_MEMCTL_FLASHLOCK 0
        (sample_bank52 (const_target TARGET_HALTED 0)).target.log = 0 ∧
      (pac52xx_erase (sample_bank52 (const_target TARGET_HALTED 0)) 0 0).map
          (fun r => (r.1, reg_value PAC5XXX_MEMCTL_FLASHLOCK 0 r.2.target.log))
        = some (ERROR_OK, 0xAAAAAAAA) ∧
      (pac52xx_write (fun _ => true) (sample_bank52 (const_target TARGET_HALTED 0))
          (fun i => [0x11, 0x22, 0x33].getD i 0) 0 3).map
          (fun r => (r.1, reg_value PAC5XXX_MEMCTL_FLASHLOCK 0 r.2.target.log))
        = some (ERROR_OK, 0xAAAAAAAA) := by
  refine ⟨by decide, by decide, by decide⟩

/-! ### DeviceA write -/

theorem accesses_upto_succ_front (f : Nat → List Access) (n : Nat) :
    accesses_upto f (n + 1) = f 0 ++ accesses_upto (fun k => f (k + 1)) n := by
  induction n with
  | zero => simp [accesses_upto]
  | succ n ih =>
    rw [accesses_upto, ih]
    simp [accesses_upto, List.append_assoc]

theorem accesses_upto_congr (f g : Nat → List Access) (n : Nat)
    (h : ∀ k, k < n → f k = g k) : accesses_upto f n = accesses_upto g n := by
  induction n with
  | zero => rfl
  | succ n ih =>
    rw [accesses_upto, accesses_upto, ih (fun k hk => h k (by omega)), h n (by omega)]

/-- The poll loop on a target whose status register always reads idle: one
read, `ERROR_OK`. -/
theorem wait_loop_idle_now (addr : Nat) (busy : Nat → Bool) (t : target) (N : Nat)
    (h : ∀ l, (t.on_read l addr).1 = ERROR_OK ∧ busy ((t.on_read l addr).2 % 2 ^ 32) = false) :
    wait_loop addr busy t N = (ERROR_OK, { t with log := t.log ++ [Access.read addr] }) := by
  have := wait_loop_idle_at addr busy 0 t N (fun _ => (t.on_read t.log addr).2) (Nat.zero_le _)
    (fun i hi => by
      have : i = 0 := by omega
      subst this
      simp only [poll_pairs, List.append_nil]
      exact Prod.ext (h _).1 rfl)
    (fun i hi => absurd hi (Nat.not_lt_zero i)) (h _).2
  simpa [poll_pairs] using this

theorem pac52xx_wait_idle_now (t : target) (timeout : Int)
    (h : ∀ l, (t.on_read l PAC5XXX_MEMCTL_FLASHSTATUS).1 = ERROR_OK ∧
      (t.on_read l PAC5XXX_MEMCTL_FLASHSTATUS).2 &&& 0x3 = 0) :
    pac52xx_wait_status_busy t timeout
      = (ERROR_OK, { t with log := t.log ++ [Access.read PAC5XXX_MEMCTL_FLASHSTATUS] }) := by
  rw [pac52xx_wait_status_busy, pac52xx_wait_loop_eq]
  apply wait_loop_idle_now
  intro l
  refine ⟨(h l).1, ?_⟩
  rw [busy52_mod]
  have := (h l).2
  rw [and3_eq_mod] at this
  simp only [decide_eq_false_iff_not]
  omega

theorem pac55xx_wait_idle_now (t : target) (timeout : Int)
    (h : ∀ l, (t.on_read l PAC55XX_MEMSTATUS).1 = ERROR_OK ∧
      (t.on_read l PAC55XX_MEMSTATUS).2 &&& 0x3 = 0) :
    pac55xx_wait_status_busy t timeout
      = (ERROR_OK, { t with log := t.log ++ [Access.read PAC55XX_MEMSTATUS] }) := by
  rw [pac55xx_wait_status_busy, pac55xx_wait_loop_eq]
  apply wait_loop_idle_now
  intro l
  refine ⟨(h l).1, ?_⟩
  rw [busy55_mod]
  simp only [decide_eq_false_iff_not, not_not]
  exact (h l).2

/-- The DeviceA write loop on a target that answers every access with OK and
an idle status: `n` words, each as key write, data write and one poll. -/
theorem pac52xx_write_loop_trace {P : Type} (buffer : Nat → Nat) (n : Nat) :
    ∀ (bank : flash_bank P) (pos offset : Nat),
      (∀ l a v, bank.target.on_write l a v = ERROR_OK) →
      (∀ l, (bank.target.on_read l PAC5XXX_MEMCTL_FLASHSTATUS).1 = ERROR_OK ∧
        (bank.target.on_read l PAC5XXX_MEMCTL_FLASHSTATUS).2 &&& 0x3 = 0) →
      pac52xx_write_loop bank buffer pos offset n
        = (ERROR_OK, { bank with target := { bank.target with
            log := bank.target.log ++ accesses_upto (fun k =>
              [Access.write PAC5XXX_MEMCTL_FLASHLOCK PAC5XXX_FLASH_LOCK_FLASHWRITE_KEY,
                Access.write ((bank.base + offset + 4 * k) % 2 ^ 32) (load_u32 buffer (pos + 4 * k)),
                Access.read PAC5XXX_MEMCTL_FLASHSTATUS]) n } }) := by
  induction n with
  | zero =>
    intro bank pos offset _ _
    simp [pac52xx_write_loop, accesses_upto]
  | succ n ih =>
    intro bank pos offset hw hr
    rw [pac52xx_write_loop]
    simp only
    have e1 : (target_write_u32 bank.target PAC5XXX_MEMCTL_FLASHLOCK
        PAC5XXX_FLASH_LOCK_FLASHWRITE_KEY).1 = ERROR_OK := hw _ _ _
    have e2 : (target_write_u32 (target_write_u32 bank.target PAC5XXX_MEMCTL_FLASHLOCK
        PAC5XXX_FLASH_LOCK_FLASHWRITE_KEY).2 (target_addr (bank.base + offset))
        (load_u32 buffer pos)).1 = ERROR_OK := hw _ _ _
    have e3 := pac52xx_wait_idle_now (target_write_u32 (target_write_u32 bank.target
        PAC5XXX_MEMCTL_FLASHLOCK PAC5XXX_FLASH_LOCK_FLASHWRITE_KEY).2
        (target_addr (bank.base + offset)) (load_u32 buffer pos)).2 FLASH_WRITE_TIMEOUT
        (fun l => hr l)
    rw [if_neg (not_not.mpr e1), if_neg (not_not.mpr e2), e3]
    rw [if_neg (not_not.mpr rfl), ih]
    rotate_left
    · exact fun l a v => hw l a v
    · exact fun l => hr l
    rw [accesses_upto_succ_front]
    simp only [target_write_u32, target_addr, List.append_assoc, List.cons_append,
      List.nil_append, Nat.mul_zero, Nat.add_zero]
    have hf : (fun k => [Access.write PAC5XXX_MEMCTL_FLASHLOCK PAC5XXX_FLASH_LOCK_FLASHWRITE_KEY,
          Access.write ((bank.base + (offset + 4) % 2 ^ 32 + 4 * k) % 2 ^ 32)
            (load_u32 buffer (pos + 4 + 4 * k)),
          Access.read PAC5XXX_MEMCTL_FLASHSTATUS])
        = (fun k => [Access.write PAC5XXX_MEMCTL_FLASHLOCK PAC5XXX_FLASH_LOCK_FLASHWRITE_KEY,
          Access.write ((bank.base + offset + 4 * (k + 1)) % 2 ^ 32)
            (load_u32 buffer (pos + 4 * (k + 1))),
          Access.read PAC5XXX_MEMCTL_FLASHSTATUS]) := by
      funext k
      have a1 : (bank.base + (offset + 4) % 2 ^ 32 + 4 * k) % 2 ^ 32
          = (bank.base + offset + 4 * (k + 1)) % 2 ^ 32 := by omega
      have a2 : pos + 4 + 4 * k = pos + 4 * (k + 1) := by omega
      rw [a1, a2]
    rw [hf]

theorem load_u32_padded (buffer : Nat → Nat) (count pos : Nat) (h : pos + 3 < count) :
    load_u32 (padded_byte buffer count) pos = load_u32 buffer pos := by
  have h0 : pos < count := by omega
  have h1 : pos + 1 < count := by omega
  have h2 : pos + 2 < count := by omega
  simp only [load_u32, padded_byte, if_pos h0, if_pos h1, if_pos h2, if_pos h, Nat.mod_mod]

/-- C3 (amended). Tail padding (DeviceA): on a halted target that answers every
access with OK and an idle status, for an offset with `offset & 3 == 0`, a
count with `count + 3 < 2^32`, and an allocator that grants the padding buffer
when `count & 3 != 0`, `pac52xx_write` returns `ERROR_OK` and its accesses are,
for `k = 0 .. ceil(count/4) - 1` in order: the write key to FLASHLOCK, data
word `k` to address `bank.base + offset + 4k (mod 2^32)` with the
little-endian value of bytes `4k..4k+3` of the buffer extended with `0xFF`, and
one status poll. -/
theorem pac52xx_write_tail_padding {P : Type} (malloc : Nat → Bool) (bank : flash_bank P)
    (buffer : Nat → Nat) (offset count : Nat)
    (hh : bank.target.state = TARGET_HALTED)
    (hw : ∀ l a v, bank.target.on_write l a v = ERROR_OK)
    (hr : ∀ l, (bank.target.on_read l PAC5XXX_MEMCTL_FLASHSTATUS).1 = ERROR_OK ∧
      (bank.target.on_read l PAC5XXX_MEMCTL_FLASHSTATUS).2 &&& 0x3 = 0)
    (ha : offset &&& 0x3 = 0) (hc : count + 3 < 2 ^ 32)
    (hm : count &&& 0x3 ≠ 0 → malloc (count + (4 - count % 4)) = true) :
    pac52xx_write malloc bank buffer offset count
      = some (ERROR_OK, { bank with target := { bank.target with
          log := bank.target.log ++
            accesses_upto (pac52xx_word_accesses bank.base offset (padded_byte buffer count))
              ((count + 3) / 4) } }) := by
  unfold pac52xx_write
  rw [if_neg (not_not.mpr hh), if_neg (not_not.mpr ha)]
  by_cases hc3 : count &&& 0x3 ≠ 0
  · have hm1 := hm hc3
    have c4 : count % 4 ≠ 0 := by rwa [and3_eq_mod] at hc3
    have hsz : (count + (4 - count % 4)) % 2 ^ 32 = count + (4 - count % 4) := by
      apply Nat.mod_eq_of_lt
      omega
    rw [if_pos hc3]
    simp only [hsz, hm1, Bool.true_eq_false, if_false]
    rw [if_neg (by omega), pac52xx_write_loop_trace _ _ bank 0 offset hw hr]
    have hn : (count + (4 - count % 4)) / 4 = (count + 3) / 4 := by omega
    rw [hn]
    simp only [Nat.zero_add]
    rfl
  · rw [if_neg hc3, pac52xx_write_loop_trace _ _ bank 0 offset hw hr]
    have c4 : count % 4 = 0 := by
      rw [and3_eq_mod] at hc3
      omega
    have hn : (count + 3) / 4 = count / 4 := by omega
    rw [hn]
    simp only [Nat.zero_add]
    rw [accesses_upto_congr _ (pac52xx_word_accesses bank.base offset (padded_byte buffer count))]
    intro k hk
    simp only [pac52xx_word_accesses]
    rw [load_u32_padded buffer count (4 * k) (by omega)]

/-- Instance of `pac52xx_write_tail_padding`: `buf=[0x11,0x22,0x33]`, `offset=0`, `count=3`
gives the single data word `0xFF332211` at address 0. -/
theorem pac52xx_write_tail_padding_witness :
    (sample_bank52 (const_target TARGET_HALTED 0)).target.state = TARGET_HALTED ∧
    (∀ l a v, (sample_bank52 (const_target TARGET_HALTED 0)).target.on_write l a v = ERROR_OK) ∧
    (∀ l, ((sample_bank52 (const_target TARGET_HALTED 0)).target.on_read l
          PAC5XXX_MEMCTL_FLASHSTATUS).1 = ERROR_OK ∧
      ((sample_bank52 (const_target TARGET_HALTED 0)).target.on_read l
          PAC5XXX_MEMCTL_FLASHSTATUS).2 &&& 0x3 = 0) ∧
    (0 : Nat) &&& 0x3 = 0 ∧ 3 + 3 < 2 ^ 32 ∧
    ((3 : Nat) &&& 0x3 ≠ 0 → (fun _ => true) (3 + (4 - 3 % 4)) = true) ∧
    pac52xx_write (fun _ => true) (sample_bank52 (const_target TARGET_HALTED 0))
        (fun i => [0x11, 0x22, 0x33].getD i 0) 0 3
      = some (ERROR_OK, { sample_bank52 (const_target TARGET_HALTED 0) with
          target := { (sample_bank52 (const_target TARGET_HALTED 0)).target with
            log := (sample_bank52 (const_target TARGET_HALTED 0)).target.log ++
              accesses_upto (pac52xx_word_accesses
                (sample_bank52 (const_target TARGET_HALTED 0)).base 0
                (padded_byte (fun i => [0x11, 0x22, 0x33].getD i 0) 3)) ((3 + 3) / 4) } }) ∧
    accesses_upto (pac52xx_word_accesses (sample_bank52 (const_target TARGET_HALTED 0)).base 0
        (padded_byte (fun i => [0x11, 0x22, 0x33].getD i 0) 3)) ((3 + 3) / 4)
      = [Access.write 0x40020000 0xAAAAAAAA, Access.write 0 0xFF332211,
          Access.read 0x40020004] :=
  ⟨rfl, fun _ _ _ => rfl, fun _ => ⟨rfl, by show (0 : Nat) &&& 0x3 = 0; decide⟩, by decide, by decide, fun _ => rfl,
    pac52xx_write_tail_padding (fun _ => true) (sample_bank52 (const_target TARGET_HALTED 0))
      (fun i => [0x11, 0x22, 0x33].getD i 0) 0 3 rfl (fun _ _ _ => rfl) (fun _ => ⟨rfl, by show (0 : Nat) &&& 0x3 = 0; decide⟩)
      (by decide) (by decide) (fun _ => rfl),
    by decide⟩

/-- C3 (as stated, refuted). With `count & 3 != 0` the padding buffer comes from
`malloc`; when the allocator refuses it, `pac52xx_write` of the three bytes
`11 22 33` at offset 0, on a halted target that answers every access with OK
and an idle status, returns `ERROR_FAIL` and writes no word at all. -/
theorem pac52xx_write_padding_alloc_refused :
    (sample_bank52 (const_target TARGET_HALTED 0)).target.state = TARGET_HALTED ∧
      (0 : Nat) &&& 0x3 = 0 ∧ 3 + 3 < 2 ^ 32 ∧
      (pac52xx_write (fun _ => false) (sample_bank52 (const_target TARGET_HALTED 0))
          (fun i => [0x11, 0x22, 0x33].getD i 0) 0 3).map (fun r => (r.1, r.2.target.log))
        = some (ERROR_FAIL, []) := by
  decide

/-! ### DeviceB write -/

theorem u32_bytes_load_u32 (b : Nat → Nat) (p : Nat) :
    u32_bytes (load_u32 b p)
      = [b p % 256, b (p + 1) % 256, b (p + 2) % 256, b (p + 3) % 256] := by
  simp only [u32_bytes, load_u32]
  have h0 : b p % 256 < 256 := Nat.mod_lt _ (by decide)
  have h1 : b (p + 1) % 256 < 256 := Nat.mod_lt _ (by decide)
  have h2 : b (p + 2) % 256 < 256 := Nat.mod_lt _ (by decide)
  have h3 : b (p + 3) % 256 < 256 := Nat.mod_lt _ (by decide)
  generalize b p % 256 = x0 at *
  generalize b (p + 1) % 256 = x1 at *
  generalize b (p + 2) % 256 = x2 at *
  generalize b (p + 3) % 256 = x3 at *
  have e0 : (x0 + 256 * x1 + 65536 * x2 + 16777216 * x3) % 256 = x0 := by omega
  have e1 : (x0 + 256 * x1 + 65536 * x2 + 16777216 * x3) / 256 % 256 = x1 := by omega
  have e2 : (x0 + 256 * x1 + 65536 * x2 + 16777216 * x3) / 65536 % 256 = x2 := by omega
  have e3 : (x0 + 256 * x1 + 65536 * x2 + 16777216 * x3) / 16777216 % 256 = x3 := by omega
  rw [e0, e1, e2, e3]

theorem load_u32_congr (b c : Nat → Nat) (p q : Nat)
    (h : ∀ j, j < 4 → b (p + j) % 256 = c (q + j) % 256) :
    load_u32 b p = load_u32 c q := by
  have h0 := h 0 (by decide)
  have h1 := h 1 (by decide)
  have h2 := h 2 (by decide)
  have h3 := h 3 (by decide)
  simp only [Nat.add_zero] at h0
  simp only [load_u32, h0, h1, h2, h3]

theorem pac55xx_write_row_eq (t : target) (address : Nat) (b : Nat → Nat) :
    pac55xx_write_row t address b
      = ({ t with log := t.log ++
            [Access.write address (load_u32 b 0),
              Access.write ((address + 4) % 2 ^ 32) (load_u32 b 4),
              Access.write (((address + 4) % 2 ^ 32 + 4) % 2 ^ 32) (load_u32 b 8),
              Access.write ((((address + 4) % 2 ^ 32 + 4) % 2 ^ 32 + 4) % 2 ^ 32)
                (load_u32 b 12)] },
        ((((address + 4) % 2 ^ 32 + 4) % 2 ^ 32 + 4) % 2 ^ 32 + 4) % 2 ^ 32) := by
  have hr : List.range 4 = [0, 1, 2, 3] := by decide
  simp [pac55xx_write_row, hr, target_write_u32, buff_w]

theorem buff_fill_apply (b : Nat → Nat) (a n j : Nat) :
    buff_fill b a n j = if a ≤ j ∧ j < n then 0xFF else b j := by
  unfold buff_fill
  generalize hm : n - a = m
  induction m generalizing b a n with
  | zero =>
    have : ¬ (a ≤ j ∧ j < n) := by omega
    simp [this]
  | succ m ih =>
    rw [List.range'_succ, List.foldl_cons]
    have := ih (buff_set b a 0xFF) (a + 1) n (by omega)
    rw [this]
    by_cases h1 : a + 1 ≤ j ∧ j < n
    · have h2 : a ≤ j ∧ j < n := by omega
      rw [if_pos h1, if_pos h2]
    · rw [if_neg h1]
      by_cases h3 : j = a
      · have h2 : a ≤ j ∧ j < n := by omega
        rw [if_pos h2]
        simp [buff_set, h3]
      · have h2 : ¬ (a ≤ j ∧ j < n) := by omega
        rw [if_neg h2]
        simp [buff_set, h3]

/-- One full row leaves the loop: the four writes and the poll are the accesses
of row `r` when the buffer holds bytes `16r .. 16r+15` of `str`. -/
theorem pac55xx_emit_row (t : target) (a0 r address : Nat) (b str : Nat → Nat)
    (hr : ∀ l, (t.on_read l PAC55XX_MEMSTATUS).1 = ERROR_OK ∧
      (t.on_read l PAC55XX_MEMSTATUS).2 &&& 0x3 = 0)
    (ha : address = (a0 + 16 * r) % 2 ^ 32)
    (hb : ∀ j, j < 16 → b j % 256 = str (16 * r + j) % 256) :
    pac55xx_wait_status_busy (pac55xx_write_row t address b).1 FLASH_WRITE_TIMEOUT
        = (ERROR_OK, { t with log := t.log ++ pac55xx_row_accesses a0 str r }) ∧
      (pac55xx_write_row t address b).2 = (a0 + 16 * (r + 1)) % 2 ^ 32 := by
  subst ha
  generalize hadr : (a0 + 16 * r) % 2 ^ 32 = address
  rw [pac55xx_write_row_eq]
  constructor
  · simp only
    rw [pac55xx_wait_idle_now { t with log := t.log ++
        [Access.write address (load_u32 b 0),
          Access.write ((address + 4) % 2 ^ 32) (load_u32 b 4),
          Access.write (((address + 4) % 2 ^ 32 + 4) % 2 ^ 32) (load_u32 b 8),
          Access.write ((((address + 4) % 2 ^ 32 + 4) % 2 ^ 32 + 4) % 2 ^ 32)
            (load_u32 b 12)] } FLASH_WRITE_TIMEOUT (fun l => hr l)]
    have w0 : load_u32 b 0 = load_u32 str (16 * r) :=
      load_u32_congr b str 0 (16 * r) (fun j hj => by
        have := hb (0 + j) (by omega)
        simpa using this)
    have w1 : load_u32 b 4 = load_u32 str (16 * r + 4) :=
      load_u32_congr b str 4 (16 * r + 4) (fun j hj => by
        have := hb (4 + j) (by omega)
        rw [this]
        congr 2
        omega)
    have w2 : load_u32 b 8 = load_u32 str (16 * r + 8) :=
      load_u32_congr b str 8 (16 * r + 8) (fun j hj => by
        have := hb (8 + j) (by omega)
        rw [this]
        congr 2
        omega)
    have w3 : load_u32 b 12 = load_u32 str (16 * r + 12) :=
      load_u32_congr b str 12 (16 * r + 12) (fun j hj => by
        have := hb (12 + j) (by omega)
        rw [this]
        congr 2
        omega)
    have a1 : (address + 4) % 2 ^ 32 = (a0 + 16 * r + 4) % 2 ^ 32 := by omega
    have a2 : ((address + 4) % 2 ^ 32 + 4) % 2 ^ 32 = (a0 + 16 * r + 8) % 2 ^ 32 := by omega
    have a3 : (((address + 4) % 2 ^ 32 + 4) % 2 ^ 32 + 4) % 2 ^ 32
        = (a0 + 16 * r + 12) % 2 ^ 32 := by omega
    rw [a3, a2, a1, w0, w1, w2, w3]
    simp only [pac55xx_row_accesses, hadr, List.append_assoc, List.cons_append,
      List.nil_append]
  · simp only
    omega

/-- The byte loop of `pac55xx_write` on a target that answers every access with
OK and an idle status. `p` counts the bytes of the stream `str` taken so far
(the leading `0xFF` included); the loop takes `n` more, sends each row as it
fills, and leaves the bytes of the unfinished row in the buffer. -/
theorem pac55xx_write_loop_rows (buffer str : Nat → Nat) (a0 : Nat) (L0 : List Access)
    (n : Nat) :
    ∀ (s : pac55xx_write_locals) (p : Nat),
      (∀ l, (s.target.on_read l PAC55XX_MEMSTATUS).1 = ERROR_OK ∧
        (s.target.on_read l PAC55XX_MEMSTATUS).2 &&& 0x3 = 0) →
      s.buff_index = p % 16 →
      (∀ j, j < p % 16 → s.buff j % 256 = str (16 * (p / 16) + j) % 256) →
      (∀ i, i < n → buffer (s.src_index + i) % 256 = str (p + i) % 256) →
      s.src_index + n < 2 ^ 32 →
      s.address = (a0 + 16 * (p / 16)) % 2 ^ 32 →
      s.target.log = L0 ++ accesses_upto (pac55xx_row_accesses a0 str) (p / 16) →
      ∃ s1, pac55xx_write_loop buffer n s = Except.ok s1 ∧
        s1.buff_index = (p + n) % 16 ∧
        (∀ j, j < (p + n) % 16 → s1.buff j % 256 = str (16 * ((p + n) / 16) + j) % 256) ∧
        s1.address = (a0 + 16 * ((p + n) / 16)) % 2 ^ 32 ∧
        s1.target = { s.target with
          log := L0 ++ accesses_upto (pac55xx_row_accesses a0 str) ((p + n) / 16) } := by
  induction n with
  | zero =>
    intro s p _ hbi hbuf _ _ haddr hlog
    refine ⟨s, rfl, hbi, hbuf, haddr, ?_⟩
    rw [Nat.add_zero, ← hlog]
  | succ n ih =>
    intro s p hr hbi hbuf hsrc hlen haddr hlog
    rw [pac55xx_write_loop]
    simp only
    have hsrc0 : buffer s.src_index % 256 = str p % 256 := by
      have := hsrc 0 (Nat.succ_pos n)
      simpa using this
    have hsi : (s.src_index + 1) % 2 ^ 32 = s.src_index + 1 := by
      apply Nat.mod_eq_of_lt
      omega
    have hbi1 : (s.buff_index + 1) % 256 = p % 16 + 1 := by
      rw [hbi]
      omega
    have hnew : ∀ j, j < p % 16 + 1 →
        buff_set s.buff s.buff_index (buffer s.src_index) j % 256
          = str (16 * (p / 16) + j) % 256 := by
      intro j hj
      unfold buff_set
      by_cases hjb : j = s.buff_index
      · rw [if_pos hjb, Nat.mod_mod, hsrc0]
        congr 2
        omega
      · rw [if_neg hjb]
        exact hbuf j (by omega)
    have e : p + (n + 1) = p + 1 + n := by omega
    rw [hsi, hbi1, e]
    by_cases h16 : p % 16 + 1 = 16
    · rw [if_pos h16]
      obtain ⟨hwait, hnext⟩ := pac55xx_emit_row s.target a0 (p / 16) s.address
        (buff_set s.buff s.buff_index (buffer s.src_index)) str hr haddr
        (fun j hj => hnew j (by omega))
      rw [hwait]
      rw [if_neg (not_not.mpr rfl)]
      have hq : (p + 1) / 16 = p / 16 + 1 := by omega
      obtain ⟨s1, h1, h2, h3, h4, h5⟩ := ih
        { target := { s.target with log := s.target.log ++ pac55xx_row_accesses a0 str (p / 16) },
          buff := buff_set s.buff s.buff_index (buffer s.src_index),
          buff_index := 0, src_index := s.src_index + 1,
          address := (pac55xx_write_row s.target s.address
            (buff_set s.buff s.buff_index (buffer s.src_index))).2 }
        (p + 1) (fun l => hr l) (by simp only; omega)
        (fun j hj => by omega)
        (fun i hi => by
          have := hsrc (i + 1) (by omega)
          simp only
          rw [show s.src_index + 1 + i = s.src_index + (i + 1) by omega,
            show p + 1 + i = p + (i + 1) by omega]
          exact this)
        (by simp only; omega)
        (by simp only; rw [hnext, hq])
        (by simp only; rw [hlog, hq, accesses_upto, List.append_assoc])
      exact ⟨s1, h1, h2, h3, h4, h5⟩
    · rw [if_neg h16]
      have hq : (p + 1) / 16 = p / 16 := by omega
      obtain ⟨s1, h1, h2, h3, h4, h5⟩ := ih
        { s with buff := buff_set s.buff s.buff_index (buffer s.src_index),
                 buff_index := p % 16 + 1, src_index := s.src_index + 1 }
        (p + 1) (fun l => hr l) (by simp only; omega)
        (fun j hj => by
          simp only
          rw [hq]
          exact hnew j (by omega))
        (fun i hi => by
          have := hsrc (i + 1) (by omega)
          simp only
          rw [show s.src_index + 1 + i = s.src_index + (i + 1) by omega,
            show p + 1 + i = p + (i + 1) by omega]
          exact this)
        (by simp only; omega)
        (by simp only; rw [hq]; exact haddr)
        (by simp only; rw [hq]; exact hlog)
      exact ⟨s1, h1, h2, h3, h4, h5⟩

theorem written_bytes_append (l1 l2 : List Access) :
    written_bytes (l1 ++ l2) = written_bytes l1 ++ written_bytes l2 := by
  induction l1 with
  | nil => rfl
  | cons a l1 ih =>
    cases a <;> simp [written_bytes, ih]

theorem written_bytes_rows (a0 : Nat) (str : Nat → Nat) (R : Nat) :
    written_bytes (accesses_upto (pac55xx_row_accesses a0 str) R)
      = (List.range (16 * R)).map (fun j => str j % 256) := by
  induction R with
  | zero => rfl
  | succ R ih =>
    have h16 : List.range 16 = [0, 1, 2, 3, 4, 5, 6, 7, 8, 9, 10, 11, 12, 13, 14, 15] := by
      decide
    rw [accesses_upto, written_bytes_append, ih, show 16 * (R + 1) = 16 * R + 16 by omega,
      List.range_add, List.map_append, h16]
    simp only [pac55xx_row_accesses, written_bytes, u32_bytes_load_u32, List.map_cons,
      List.map_nil, List.cons_append, List.nil_append, List.append_nil, Nat.add_zero,
      Nat.add_assoc, Nat.reduceAdd]

theorem row_stream_bytes (buffer : Nat → Nat) (offset count pad : Nat) :
    (List.range ((offset &&& 0xF) + count + pad)).map
        (fun j => row_stream buffer offset count j % 256)
      = List.replicate (offset &&& 0xF) 0xFF ++ (List.range count).map (fun i => buffer i % 256)
          ++ List.replicate pad 0xFF := by
  rw [List.range_add, List.range_add, List.map_append, List.map_append, List.map_map,
    List.map_map]
  congr 1
  · congr 1
    · rw [List.eq_replicate_iff]
      refine ⟨by simp, ?_⟩
      intro b hb
      obtain ⟨j, hj, rfl⟩ := List.mem_map.mp hb
      have : j < (offset &&& 0xF) := List.mem_range.mp hj
      simp [row_stream, this]
    · apply List.map_congr_left
      intro i hi
      have : i < count := List.mem_range.mp hi
      have h1 : ¬ ((offset &&& 0xF) + i < (offset &&& 0xF)) := by omega
      have h2 : (offset &&& 0xF) + i < (offset &&& 0xF) + count := by omega
      simp only [Function.comp, row_stream, if_neg h1, if_pos h2, Nat.mod_mod,
        Nat.add_sub_cancel_left]
  · rw [List.eq_replicate_iff]
    refine ⟨by simp, ?_⟩
    intro b hb
    obtain ⟨j, hj, rfl⟩ := List.mem_map.mp hb
    have h1 : ¬ ((offset &&& 0xF) + count + j < (offset &&& 0xF)) := by omega
    have h2 : ¬ ((offset &&& 0xF) + count + j < (offset &&& 0xF) + count) := by omega
    simp only [Function.comp, row_stream, if_neg h1, if_neg h2]

theorem and15_eq_mod (x : Nat) : x &&& 0xF = x % 16 := Nat.and_pow_two_sub_one_eq_mod x 4

/-- The whole of `pac55xx_write` on a halted target that answers every access
with OK and an idle status: the three control writes, the rows of the padded
stream, the settle sleep and the re-lock. -/
theorem pac55xx_write_trace {P : Type} (buff0 : Nat → Nat) (bank : flash_bank P)
    (buffer : Nat → Nat) (offset count : Nat)
    (hh : bank.target.state = TARGET_HALTED)
    (hw : ∀ l a v, bank.target.on_write l a v = ERROR_OK)
    (hr : ∀ l, (bank.target.on_read l PAC55XX_MEMSTATUS).1 = ERROR_OK ∧
      (bank.target.on_read l PAC55XX_MEMSTATUS).2 &&& 0x3 = 0)
    (hc : count < 2 ^ 32) :
    pac55xx_write buff0 bank buffer offset count
      = (ERROR_OK, { bank with target := { bank.target with
          log := bank.target.log ++
            [Access.write PAC55XX_MEMCTL_FLASHLOCK 0xD513B490,
              Access.write PAC55XX_MEMCTL 0x00720046,
              Access.write PAC55XX_MEMCTL_FLASHLOCK 0x43DF140A] ++
            accesses_upto
              (pac55xx_row_accesses (offset &&& 0xFFFFFFF0) (row_stream buffer offset count))
              (((offset &&& 0xF) + count + 15) / 16) ++
            [Access.sleep 1, Access.write PAC55XX_MEMCTL_FLASHLOCK 0] } }) := by
  have hhead : (offset &&& 0xF) < 16 := by
    rw [and15_eq_mod]
    exact Nat.mod_lt _ (by decide)
  have ha0 : (offset &&& 0xFFFFFFF0) < 2 ^ 32 :=
    Nat.lt_of_le_of_lt Nat.and_le_right (by decide)
  obtain ⟨s1, h1, h2, h3, h4, h5⟩ := pac55xx_write_loop_rows buffer
    (row_stream buffer offset count) (offset &&& 0xFFFFFFF0)
    (bank.target.log ++
      [Access.write PAC55XX_MEMCTL_FLASHLOCK 0xD513B490,
        Access.write PAC55XX_MEMCTL 0x00720046,
        Access.write PAC55XX_MEMCTL_FLASHLOCK 0x43DF140A]) count
    { target := (target_write_u32 (target_write_u32 (target_write_u32 bank.target
          PAC55XX_FLASH_LOCK 0xD513B490).2 PAC55XX_MEMCTL 0x00720046).2
          PAC55XX_MEMCTL_FLASHLOCK FLASH_LOCK_ALLOW_WRITE_ERASE_FLASH).2,
      buff := buff_fill buff0 0 (offset &&& 0xF), buff_index := offset &&& 0xF,
      src_index := 0, address := offset &&& 0xFFFFFFF0 }
    (offset &&& 0xF) (fun l => hr l)
    (by simp only; omega)
    (fun j hj => by
      have hj1 : j < (offset &&& 0xF) := by omega
      have hq : (offset &&& 0xF) / 16 = 0 := by omega
      simp only [buff_fill_apply, hq, Nat.mul_zero, Nat.zero_add, row_stream, if_pos hj1]
      rw [if_pos ⟨Nat.zero_le _, hj1⟩])
    (fun i hi => by
      have h1 : ¬ ((offset &&& 0xF) + i < (offset &&& 0xF)) := by omega
      have h2 : (offset &&& 0xF) + i < (offset &&& 0xF) + count := by omega
      simp only [Nat.zero_add, row_stream, if_neg h1, if_pos h2, Nat.mod_mod,
        Nat.add_sub_cancel_left])
    (by simp only; omega)
    (by
      have hq : (offset &&& 0xF) / 16 = 0 := by omega
      simp only [hq]
      omega)
    (by
      have hq : (offset &&& 0xF) / 16 = 0 := by omega
      simp only [hq, accesses_upto, List.append_nil, target_write_u32, PAC55XX_FLASH_LOCK,
        PAC55XX_MEMCTL_FLASHLOCK, FLASH_LOCK_ALLOW_WRITE_ERASE_FLASH, List.append_assoc,
        List.cons_append, List.nil_append])
  unfold pac55xx_write
  rw [if_neg (not_not.mpr hh)]
  simp only
  have e1 : (target_write_u32 bank.target PAC55XX_FLASH_LOCK 0xD513B490).1 = ERROR_OK :=
    hw _ _ _
  have e2 : (target_write_u32 (target_write_u32 bank.target PAC55XX_FLASH_LOCK 0xD513B490).2
      PAC55XX_MEMCTL 0x00720046).1 = ERROR_OK := hw _ _ _
  have e3 : (target_write_u32 (target_write_u32 (target_write_u32 bank.target
      PAC55XX_FLASH_LOCK 0xD513B490).2 PAC55XX_MEMCTL 0x00720046).2
      PAC55XX_MEMCTL_FLASHLOCK FLASH_LOCK_ALLOW_WRITE_ERASE_FLASH).1 = ERROR_OK := hw _ _ _
  rw [if_neg (not_not.mpr e1), if_neg (not_not.mpr e2), if_neg (not_not.mpr e3), h1]
  simp only
  by_cases hbi : s1.buff_index ≠ 0
  · have hrow := pac55xx_emit_row s1.target (offset &&& 0xFFFFFFF0)
      (((offset &&& 0xF) + count) / 16) s1.address (buff_fill s1.buff s1.buff_index 16)
      (row_stream buffer offset count)
      (fun l => by rw [h5]; exact hr l) h4
      (fun j hj => by
        rw [buff_fill_apply]
        by_cases hj1 : s1.buff_index ≤ j ∧ j < 16
        · have g1 : ¬ (16 * (((offset &&& 0xF) + count) / 16) + j < (offset &&& 0xF)) := by
            omega
          have g2 : ¬ (16 * (((offset &&& 0xF) + count) / 16) + j
              < (offset &&& 0xF) + count) := by omega
          rw [if_pos hj1]
          simp only [row_stream, if_neg g1, if_neg g2]
        · rw [if_neg hj1]
          exact h3 j (by omega))
    rw [if_pos hbi, hrow.1, if_neg (not_not.mpr rfl)]
    simp only
    have e4 : (target_write_u32 (alive_sleep { s1.target with
        log := s1.target.log ++ pac55xx_row_accesses (offset &&& 0xFFFFFFF0)
          (row_stream buffer offset count) (((offset &&& 0xF) + count) / 16) } 1)
        PAC55XX_MEMCTL_FLASHLOCK 0).1 = ERROR_OK := by
      rw [h5]
      exact hw _ _ _
    rw [if_neg (not_not.mpr e4)]
    have hR : ((offset &&& 0xF) + count + 15) / 16 = ((offset &&& 0xF) + count) / 16 + 1 := by
      omega
    rw [hR, accesses_upto, h5]
    simp [target_write_u32, alive_sleep, List.append_assoc]
  · rw [if_neg hbi]
    simp only
    have e4 : (target_write_u32 (alive_sleep s1.target 1) PAC55XX_MEMCTL_FLASHLOCK 0).1
        = ERROR_OK := by
      rw [h5]
      exact hw _ _ _
    rw [if_neg (not_not.mpr e4)]
    have hR : ((offset &&& 0xF) + count + 15) / 16 = ((offset &&& 0xF) + count) / 16 := by
      omega
    rw [hR, h5]
    simp [target_write_u32, alive_sleep, List.append_assoc]

/-- C2. Row padding (DeviceB): on a halted target that answers every access
with OK and an idle status, for every buffer, offset and count (a `uint32_t`),
`pac55xx_write` returns `ERROR_OK`; between its three control writes and the
final sleep and re-lock it sends the data rows (four word writes and a poll
each), and the bytes of those words, in emission order and least significant
byte first, are `offset & 0xF` bytes of `0xFF`, the `count` source bytes, and
`0xFF` up to the next multiple of 16. So every byte of a touched row outside
`[offset, offset+count)` is written as `0xFF`. -/
theorem pac55xx_write_row_padding {P : Type} (buff0 : Nat → Nat) (bank : flash_bank P)
    (buffer : Nat → Nat) (offset count : Nat)
    (hh : bank.target.state = TARGET_HALTED)
    (hw : ∀ l a v, bank.target.on_write l a v = ERROR_OK)
    (hr : ∀ l, (bank.target.on_read l PAC55XX_MEMSTATUS).1 = ERROR_OK ∧
      (bank.target.on_read l PAC55XX_MEMSTATUS).2 &&& 0x3 = 0)
    (hc : count < 2 ^ 32) :
    pac55xx_write buff0 bank buffer offset count
      = (ERROR_OK, { bank with target := { bank.target with
          log := bank.target.log ++
            [Access.write PAC55XX_MEMCTL_FLASHLOCK 0xD513B490,
              Access.write PAC55XX_MEMCTL 0x00720046,
              Access.write PAC55XX_MEMCTL_FLASHLOCK 0x43DF140A] ++
            accesses_upto
              (pac55xx_row_accesses (offset &&& 0xFFFFFFF0) (row_stream buffer offset count))
              (((offset &&& 0xF) + count + 15) / 16) ++
            [Access.sleep 1, Access.write PAC55XX_MEMCTL_FLASHLOCK 0] } }) ∧
    written_bytes (accesses_upto
        (pac55xx_row_accesses (offset &&& 0xFFFFFFF0) (row_stream buffer offset count))
        (((offset &&& 0xF) + count + 15) / 16))
      = List.replicate (offset &&& 0xF) 0xFF ++ (List.range count).map (fun i => buffer i % 256)
          ++ List.replicate ((16 - ((offset &&& 0xF) + count) % 16) % 16) 0xFF ∧
    (written_bytes (accesses_upto
        (pac55xx_row_accesses (offset &&& 0xFFFFFFF0) (row_stream buffer offset count))
        (((offset &&& 0xF) + count + 15) / 16))).length
      = 16 * (((offset &&& 0xF) + count + 15) / 16) := by
  have hbytes : written_bytes (accesses_upto
        (pac55xx_row_accesses (offset &&& 0xFFFFFFF0) (row_stream buffer offset count))
        (((offset &&& 0xF) + count + 15) / 16))
      = List.replicate (offset &&& 0xF) 0xFF ++ (List.range count).map (fun i => buffer i % 256)
          ++ List.replicate ((16 - ((offset &&& 0xF) + count) % 16) % 16) 0xFF := by
    rw [written_bytes_rows, ← row_stream_bytes]
    congr 2
    omega
  refine ⟨pac55xx_write_trace buff0 bank buffer offset count hh hw hr hc, hbytes, ?_⟩
  rw [written_bytes_rows]
  simp

/-- Instance of `pac55xx_write_row_padding`: `buf=[0xAA]`, `offset=4`, `count=1` gives the
single row `FF FF FF FF AA FF .. FF` at addresses 0, 4, 8, 12. -/
theorem pac55xx_write_row_padding_witness :
    (sample_bank55 (const_target TARGET_HALTED 0)).target.state = TARGET_HALTED ∧
    (∀ l a v, (sample_bank55 (const_target TARGET_HALTED 0)).target.on_write l a v = ERROR_OK) ∧
    (∀ l, ((sample_bank55 (const_target TARGET_HALTED 0)).target.on_read l
          PAC55XX_MEMSTATUS).1 = ERROR_OK ∧
      ((sample_bank55 (const_target TARGET_HALTED 0)).target.on_read l
          PAC55XX_MEMSTATUS).2 &&& 0x3 = 0) ∧
    1 < 2 ^ 32 ∧
    (pac55xx_write (fun _ => 0) (sample_bank55 (const_target TARGET_HALTED 0))
        (fun i => [0xAA].getD i 0) 4 1).1 = ERROR_OK ∧
    (pac55xx_write (fun _ => 0) (sample_bank55 (const_target TARGET_HALTED 0))
        (fun i => [0xAA].getD i 0) 4 1).2.target.log
      = [Access.write 0x400D0008 0xD513B490, Access.write 0x400D0000 0x00720046,
          Access.write 0x400D0008 0x43DF140A,
          Access.write 0 0xFFFFFFFF, Access.write 4 0xFFFFFFAA, Access.write 8 0xFFFFFFFF,
          Access.write 12 0xFFFFFFFF, Access.read 0x400D0004,
          Access.sleep 1, Access.write 0x400D0008 0] ∧
    written_bytes (accesses_upto
        (pac55xx_row_accesses (4 &&& 0xFFFFFFF0) (row_stream (fun i => [0xAA].getD i 0) 4 1))
        (((4 &&& 0xF) + 1 + 15) / 16))
      = [0xFF, 0xFF, 0xFF, 0xFF, 0xAA, 0xFF, 0xFF, 0xFF, 0xFF, 0xFF, 0xFF, 0xFF, 0xFF, 0xFF,
          0xFF, 0xFF] :=
  have h := pac55xx_write_row_padding (fun _ => 0) (sample_bank55 (const_target TARGET_HALTED 0))
    (fun i => [0xAA].getD i 0) 4 1 rfl (fun _ _ _ => rfl)
    (fun _ => ⟨rfl, by show (0 : Nat) &&& 0x3 = 0; decide⟩) (by decide)
  ⟨rfl, fun _ _ _ => rfl, fun _ => ⟨rfl, by show (0 : Nat) &&& 0x3 = 0; decide⟩, by decide,
    by rw [h.1], by rw [h.1]; decide, by rw [h.2.1]; decide⟩

/-! ### Probe and auto-probe -/

theorem probe_sectors_length (n ps : Nat) : (probe_sectors n ps).length = n := by
  simp [probe_sectors]

theorem probe_sectors_getElem? (n ps i : Nat) (h : i < n) :
    (probe_sectors n ps)[i]?
      = some { offset := i * ps, size := ps, is_erased := -1, is_protected := 1 } := by
  simp [probe_sectors, List.getElem?_map, List.getElem?_range h]

theorem pac55xx_pll_wait_log (fuel : Nat) : ∀ (t t1 : target),
    pac55xx_pll_wait t fuel = some t1 →
    ∃ seg, t1 = { t with log := t.log ++ seg } ∧
      ∀ a, a ∈ seg → a = Access.read PAC55XX_CCSPLLCTL := by
  induction fuel with
  | zero =>
    intro t t1 h
    simp [pac55xx_pll_wait] at h
  | succ fuel ih =>
    intro t t1 h
    rw [pac55xx_pll_wait] at h
    split_ifs at h with hl
    · obtain ⟨seg, hseg, hp⟩ := ih _ t1 h
      refine ⟨Access.read PAC55XX_CCSPLLCTL :: seg, ?_, ?_⟩
      · rw [hseg]
        simp [target_read_u32]
      · intro a ha
        rcases List.mem_cons.mp ha with ha | ha
        · exact ha
        · exact hp a ha
    · refine ⟨[Access.read PAC55XX_CCSPLLCTL], ?_, fun a ha => List.mem_singleton.mp ha⟩
      rw [← Option.some.inj h]
      rfl

/-- Every run of `pac55xx_init` that returns starts with the write to CCSCTL
and leaves the target otherwise as it was. -/
theorem pac55xx_init_log (fuel : Nat) (t : target) (r : Int × target)
    (h : pac55xx_init fuel t = some r) :
    ∃ rest, r.2 = { t with log := t.log ++ Access.write PAC55XX_CCSCTL 0x0000F105 :: rest } := by
  unfold pac55xx_init at h
  simp only at h
  split_ifs at h with h1 h2
  · exact ⟨[], by rw [← Option.some.inj h]; rfl⟩
  · exact ⟨[Access.write PAC55XX_CCSPLLCTL 0x00012C45], by
      rw [← Option.some.inj h]; simp [target_write_u32]⟩
  · split at h
    · simp at h
    · rename_i t3 ht3
      obtain ⟨seg, hseg, _⟩ := pac55xx_pll_wait_log _ _ _ ht3
      subst hseg
      split_ifs at h
      all_goals
        rw [← Option.some.inj h]
        simp only [target_write_u32, List.append_assoc, List.singleton_append]
        exact ⟨_, rfl⟩

/-- C13. Probe builds the device geometry: whenever `pac52xx_probe` (N = 32) or
`pac55xx_probe` (N = 128) returns, from any prior bank state, it returns
`ERROR_OK` and the bank has `base = 0`, `size = N*1024`, `num_sectors = N`, a
table of exactly `N` sectors with `offset = i*1024`, `size = 1024`,
`is_erased = -1`, `is_protected = 1`, and `probed = 1`. The routine does
return when the private record exists, `malloc` grants the table and (DeviceB)
`pac55xx_init` comes back within the fuel. -/
theorem probe_builds_geometry (malloc : Nat → Bool) (fuel : Nat)
    (bankA : flash_bank (Option pac52xx_flash_bank))
    (bankB : flash_bank (Option pac55xx_flash_bank)) :
    (∀ r b1, pac52xx_probe malloc bankA = some (r, b1) →
      r = ERROR_OK ∧ b1.base = 0 ∧ b1.size = 32 * 1024 ∧ b1.num_sectors = 32 ∧
      b1.sectors = some (probe_sectors 32 1024) ∧
      ∃ info, b1.driver_priv = some info ∧ info.probed = 1) ∧
    (∀ r b1, pac55xx_probe malloc fuel bankB = some (r, b1) →
      r = ERROR_OK ∧ b1.base = 0 ∧ b1.size = 128 * 1024 ∧ b1.num_sectors = 128 ∧
      b1.sectors = some (probe_sectors 128 1024) ∧
      ∃ info, b1.driver_priv = some info ∧ info.probed = 1) ∧
    (∀ N : Nat, (probe_sectors N 1024).length = N ∧
      ∀ i, i < N → (probe_sectors N 1024)[i]?
        = some { offset := i * 1024, size := 1024, is_erased := -1, is_protected := 1 }) ∧
    (bankA.driver_priv ≠ none → malloc (sizeof_flash_sector * 32) = true →
      ∃ b1, pac52xx_probe malloc bankA = some (ERROR_OK, b1)) ∧
    (bankB.driver_priv ≠ none → malloc (sizeof_flash_sector * 128) = true →
      (pac55xx_init fuel bankB.target).isSome = true →
      ∃ b1, pac55xx_probe malloc fuel bankB = some (ERROR_OK, b1)) := by
  refine ⟨?_, ?_, ?_, ?_, ?_⟩
  · intro r b1 h
    unfold pac52xx_probe at h
    split at h
    · simp at h
    · rename_i info hinfo
      simp only at h
      split_ifs at h with hm
      simp only [Option.some.injEq, Prod.mk.injEq] at h
      obtain ⟨hr, hb⟩ := h
      subst hb
      exact ⟨hr.symm, rfl, rfl, rfl, rfl, _, rfl, rfl⟩
  · intro r b1 h
    unfold pac55xx_probe at h
    split at h
    · simp at h
    · rename_i info hinfo
      simp only at h
      split_ifs at h with hm
      split at h
      · simp at h
      · simp only [Option.some.injEq, Prod.mk.injEq] at h
        obtain ⟨hr, hb⟩ := h
        subst hb
        exact ⟨hr.symm, rfl, rfl, rfl, rfl, _, rfl, rfl⟩
  · intro N
    exact ⟨probe_sectors_length N 1024, fun i hi => probe_sectors_getElem? N 1024 i hi⟩
  · intro hp hm
    unfold pac52xx_probe
    cases hd : bankA.driver_priv with
    | none => exact absurd hd hp
    | some info =>
      simp only [hm, Bool.true_eq_false, if_false]
      exact ⟨_, rfl⟩
  · intro hp hm hi
    unfold pac55xx_probe
    cases hd : bankB.driver_priv with
    | none => exact absurd hd hp
    | some info =>
      simp only [hm, Bool.true_eq_false, if_false]
      cases hinit : pac55xx_init fuel bankB.target with
      | none => simp [hinit] at hi
      | some r => exact ⟨_, rfl⟩

set_option maxRecDepth 8192 in
/-- Instance of `probe_builds_geometry`: fresh banks whose fields differ from
the geometry, on a target whose PLL reads locked at the first poll. -/
theorem probe_builds_geometry_witness :
    (∃ b1, pac52xx_probe (fun _ => true)
          { fresh_bank52 (const_target TARGET_HALTED 0x01000000) with base := 5, size := 77 }
        = some (ERROR_OK, b1) ∧
      b1.base = 0 ∧ b1.size = 32 * 1024 ∧ b1.num_sectors = 32 ∧
      b1.sectors = some (probe_sectors 32 1024) ∧
      ∃ info, b1.driver_priv = some info ∧ info.probed = 1) ∧
    (∃ b1, pac55xx_probe (fun _ => true) 1
          { fresh_bank55 (const_target TARGET_HALTED 0x01000000) with base := 5, size := 77 }
        = some (ERROR_OK, b1) ∧
      b1.base = 0 ∧ b1.size = 128 * 1024 ∧ b1.num_sectors = 128 ∧
      b1.sectors = some (probe_sectors 128 1024) ∧
      ∃ info, b1.driver_priv = some info ∧ info.probed = 1) := by
  have h := probe_builds_geometry (fun _ => true) 1
    { fresh_bank52 (const_target TARGET_HALTED 0x01000000) with base := 5, size := 77 }
    { fresh_bank55 (const_target TARGET_HALTED 0x01000000) with base := 5, size := 77 }
  obtain ⟨bA, hA⟩ := h.2.2.2.1 (by simp [fresh_bank52]) rfl
  obtain ⟨bB, hB⟩ := h.2.2.2.2 (by simp [fresh_bank55]) rfl rfl
  exact ⟨⟨bA, hA, (h.1 _ _ hA).2⟩, ⟨bB, hB, (h.2.1 _ _ hB).2⟩⟩

/-- C14. Probe idempotence: when a first `auto_probe` call returns (with any
status, from any bank, `probed == 0` included), a second call returns
`ERROR_OK` together with the very bank the first call left: no target access
is added to the log and `base`, `size`, the sector table with its `is_erased`
flags and `probed` are the same, whatever the allocator and the target would
do. For DeviceA the first call makes no target access either; for DeviceB a
first call on a bank with `probed == 0` does (it begins with the CCSCTL
write). -/
theorem auto_probe_idempotent (malloc malloc2 : Nat → Bool) (fuel fuel2 : Nat)
    (bankA : flash_bank (Option pac52xx_flash_bank))
    (bankB : flash_bank (Option pac55xx_flash_bank)) :
    (∀ r1 b1, pac52xx_auto_probe malloc bankA = some (r1, b1) →
      pac52xx_auto_probe malloc2 b1 = some (ERROR_OK, b1) ∧ b1.target = bankA.target) ∧
    (∀ r1 b1, pac55xx_auto_probe malloc fuel bankB = some (r1, b1) →
      pac55xx_auto_probe malloc2 fuel2 b1 = some (ERROR_OK, b1) ∧
      ((∃ info, bankB.driver_priv = some info ∧ info.probed = 0) →
        ∃ rest, b1.target.log
          = bankB.target.log ++ Access.write PAC55XX_CCSCTL 0x0000F105 :: rest)) := by
  constructor
  · intro r1 b1 h
    unfold pac52xx_auto_probe at h
    split at h
    · simp at h
    · rename_i info hinfo
      split_ifs at h with hp
      · simp only [Option.some.injEq, Prod.mk.injEq] at h
        obtain ⟨_, hb⟩ := h
        subst hb
        refine ⟨?_, rfl⟩
        unfold pac52xx_auto_probe
        simp only [hinfo]
        rw [if_pos hp]
      · unfold pac52xx_probe at h
        simp only [hinfo] at h
        split_ifs at h with hm
        simp only [Option.some.injEq, Prod.mk.injEq] at h
        obtain ⟨_, hb⟩ := h
        subst hb
        refine ⟨?_, rfl⟩
        unfold pac52xx_auto_probe
        simp
  · intro r1 b1 h
    unfold pac55xx_auto_probe at h
    split at h
    · simp at h
    · rename_i info hinfo
      split_ifs at h with hp
      · simp only [Option.some.injEq, Prod.mk.injEq] at h
        obtain ⟨_, hb⟩ := h
        subst hb
        constructor
        · unfold pac55xx_auto_probe
          simp only [hinfo]
          rw [if_pos hp]
        · rintro ⟨info2, h2, h0⟩
          rw [hinfo] at h2
          rw [← Option.some.inj h2] at h0
          exact absurd h0 hp
      · unfold pac55xx_probe at h
        simp only [hinfo] at h
        split_ifs at h with hm
        split at h
        · simp at h
        · rename_i r hinit
          simp only [Option.some.injEq, Prod.mk.injEq] at h
          obtain ⟨_, hb⟩ := h
          subst hb
          constructor
          · unfold pac55xx_auto_probe
            simp
          · intro _
            obtain ⟨rest, hrest⟩ := pac55xx_init_log _ _ _ hinit
            exact ⟨rest, by rw [hrest]⟩

set_option maxRecDepth 8192 in
/-- Instance of `auto_probe_idempotent`: two `auto_probe` calls on fresh banks
with `probed = 0`; the second allocator refuses everything and the second
fuel is 0. -/
theorem auto_probe_idempotent_witness :
    (∃ b1, pac52xx_auto_probe (fun _ => true)
          (fresh_bank52 (const_target TARGET_HALTED 0x01000000)) = some (ERROR_OK, b1) ∧
      pac52xx_auto_probe (fun _ => false) b1 = some (ERROR_OK, b1) ∧
      b1.target = (fresh_bank52 (const_target TARGET_HALTED 0x01000000)).target) ∧
    (∃ b1, pac55xx_auto_probe (fun _ => true) 1
          (fresh_bank55 (const_target TARGET_HALTED 0x01000000)) = some (ERROR_OK, b1) ∧
      pac55xx_auto_probe (fun _ => false) 0 b1 = some (ERROR_OK, b1) ∧
      b1.target.log.length = 7) := by
  have h := auto_probe_idempotent (fun _ => true) (fun _ => false) 1 0
    (fresh_bank52 (const_target TARGET_HALTED 0x01000000))
    (fresh_bank55 (const_target TARGET_HALTED 0x01000000))
  have hA : pac52xx_auto_probe (fun _ => true)
      (fresh_bank52 (const_target TARGET_HALTED 0x01000000))
      = some (ERROR_OK, ((pac52xx_auto_probe (fun _ => true)
          (fresh_bank52 (const_target TARGET_HALTED 0x01000000))).getD
            (0, fresh_bank52 (const_target TARGET_HALTED 0x01000000))).2) := rfl
  have hB : pac55xx_auto_probe (fun _ => true) 1
      (fresh_bank55 (const_target TARGET_HALTED 0x01000000))
      = some (ERROR_OK, ((pac55xx_auto_probe (fun _ => true) 1
          (fresh_bank55 (const_target TARGET_HALTED 0x01000000))).getD
            (0, fresh_bank55 (const_target TARGET_HALTED 0x01000000))).2) := rfl
  exact ⟨⟨_, hA, (h.1 _ _ hA).1, (h.1 _ _ hA).2⟩, ⟨_, hB, (h.2 _ _ hB).1, by decide⟩⟩

/-- C11 (what the code does). On a target whose write to CCSCTL fails,
`pac55xx_init` returns that `ERROR_FAIL` after the one write, but
`pac55xx_probe`, and `pac55xx_auto_probe` on the unprobed bank, return
`ERROR_OK` with `probed = 1`. -/
theorem pac55xx_probe_drops_init_status :
    (pac55xx_init 1 (failing_write_target PAC55XX_CCSCTL 0x01000000)).map
        (fun r => (r.1, r.2.log))
      = some (ERROR_FAIL, [Access.write PAC55XX_CCSCTL 0x0000F105]) ∧
    (pac55xx_probe (fun _ => true) 1
        (fresh_bank55 (failing_write_target PAC55XX_CCSCTL 0x01000000))).map
        (fun r => (r.1, r.2.target.log, r.2.driver_priv))
      = some (ERROR_OK, [Access.write PAC55XX_CCSCTL 0x0000F105],
          some { probed := 1, user_bank_size := 0 }) ∧
    (pac55xx_auto_probe (fun _ => true) 1
        (fresh_bank55 (failing_write_target PAC55XX_CCSCTL 0x01000000))).map
        (fun r => (r.1, r.2.target.log, r.2.driver_priv))
      = some (ERROR_OK, [Access.write PAC55XX_CCSCTL 0x0000F105],
          some { probed := 1, user_bank_size := 0 }) := by
  refine ⟨by decide, by decide, by decide⟩

/-! ### Frame of the operations and the reachable states -/

theorem mark_erased_offset_size (first : Int) (m j : Nat) (s : flash_sector) :
    (mark_erased first m j s).offset = s.offset ∧ (mark_erased first m j s).size = s.size ∧
      (mark_erased first m j s).is_protected = s.is_protected := by
  unfold mark_erased
  split_ifs <;> exact ⟨rfl, rfl, rfl⟩

/-- Marking pages erased keeps the geometry. -/
theorem geometry_holds_mark {P : Type} (N : Nat) (b b1 : flash_bank P) (first : Int) (m : Nat)
    (hg : geometry_holds N b) (hbase : b1.base = b.base) (hsize : b1.size = b.size)
    (hsec : b1.sectors = b.sectors.map (fun tbl => tbl.mapIdx (mark_erased first m))) :
    geometry_holds N b1 := by
  obtain ⟨h0, h1, tbl, hs, hl, ht⟩ := hg
  refine ⟨by rw [hbase, h0], by rw [hsize, h1], tbl.mapIdx (mark_erased first m), ?_, ?_, ?_⟩
  · rw [hsec, hs]
    rfl
  · rw [List.length_mapIdx, hl]
  · intro i s hi
    rw [List.getElem?_mapIdx] at hi
    cases hti : tbl[i]? with
    | none => simp [hti] at hi
    | some s0 =>
      simp only [hti, Option.map_some', Option.some.injEq] at hi
      subst hi
      obtain ⟨e1, e2, _⟩ := mark_erased_offset_size first m i s0
      rw [e1, e2]
      exact ht i s0 hti

/-- The marking loop of `pac55xx_erase_key` touches the `is_erased` flags of
entries `i .. i+n-1` and nothing else. -/
theorem pac55xx_mark_all_eq {P : Type} (n : Nat) : ∀ (bank b1 : flash_bank P) (i : Nat),
    pac55xx_mark_all bank i n = some b1 →
    b1 = { bank with
      sectors := bank.sectors.map (fun tbl => tbl.mapIdx (mark_erased (i : Int) n)) } := by
  induction n with
  | zero =>
    intro bank b1 i h
    simp only [pac55xx_mark_all, Option.some.injEq] at h
    subst h
    obtain ⟨t, ba, sz, ns, sec, dp⟩ := bank
    cases sec with
    | none => rfl
    | some tbl => simp [mark_erased_zero]
  | succ n ih =>
    intro bank b1 i h
    rw [pac55xx_mark_all] at h
    split at h
    · simp at h
    · rename_i bank1 hset
      obtain ⟨tbl, hs, hi0, hlt, hb1⟩ := set_is_erased_eq _ _ _ hset
      have := ih bank1 b1 (i + 1) h
      rw [this, hb1]
      simp only [hs, Option.map_some']
      have e : (((i + 1 : Nat) : Int)) = (i : Int) + 1 := by push_cast; rfl
      rw [e, mark_erased_step (i : Int) n tbl hi0]

/-- What `pac52xx_erase` can change: the target and the `is_erased` flags of
the first `m` pages of the range, for some `m`. -/
theorem pac52xx_erase_frame {P : Type} (bank b1 : flash_bank P) (first last : Int) (r : Int)
    (h : pac52xx_erase bank first last = some (r, b1)) :
    ∃ m, b1.sectors = bank.sectors.map (fun tbl => tbl.mapIdx (mark_erased first m)) ∧
      b1.base = bank.base ∧ b1.size = bank.size ∧ b1.num_sectors = bank.num_sectors ∧
      b1.driver_priv = bank.driver_priv := by
  unfold pac52xx_erase at h
  split_ifs at h with hh
  · simp only [Option.some.injEq, Prod.mk.injEq] at h
    rw [← h.2]
    refine ⟨0, ?_, rfl, rfl, rfl, rfl⟩
    cases bank.sectors with
    | none => rfl
    | some tbl => simp [mark_erased_zero]
  · rw [pac52xx_erase_loop_eq] at h
    obtain ⟨x, hx, hres⟩ := Option.map_eq_some'.mp h
    obtain ⟨m, _, _, _, hsec, hbase, hsize, hnum, hpriv⟩ :=
      erase_loop_sectors _ _ _ _ _ _ _ bank first x hx
    have hb : loop_bank x = b1 := by
      cases x with
      | inl y => simp only [loop_result] at hres; rw [loop_bank, hres]
      | inr y =>
        simp only [loop_result, Prod.mk.injEq] at hres
        rw [loop_bank, hres.2]
    rw [hb] at hsec hbase hsize hnum hpriv
    exact ⟨m, hsec, hbase, hsize, hnum, hpriv⟩

/-- What `pac55xx_erase` can change, as for `pac52xx_erase`. -/
theorem pac55xx_erase_frame {P : Type} (bank b1 : flash_bank P) (first last : Int) (r : Int)
    (h : pac55xx_erase bank first last = some (r, b1)) :
    ∃ m, b1.sectors = bank.sectors.map (fun tbl => tbl.mapIdx (mark_erased first m)) ∧
      b1.base = bank.base ∧ b1.size = bank.size ∧ b1.num_sectors = bank.num_sectors ∧
      b1.driver_priv = bank.driver_priv := by
  unfold pac55xx_erase at h
  split_ifs at h with hh
  · simp only [Option.some.injEq, Prod.mk.injEq] at h
    rw [← h.2]
    refine ⟨0, ?_, rfl, rfl, rfl, rfl⟩
    cases bank.sectors with
    | none => rfl
    | some tbl => simp [mark_erased_zero]
  · rw [pac55xx_erase_loop_eq] at h
    split at h
    · simp at h
    · rename_i x hx
      obtain ⟨m, _, _, _, hsec, hbase, hsize, hnum, hpriv⟩ :=
        erase_loop_sectors _ _ _ _ _ _ _ bank first _ hx
      simp only [Option.some.injEq] at h
      subst h
      exact ⟨m, hsec, hbase, hsize, hnum, hpriv⟩
    · rename_i b hx
      obtain ⟨m, _, _, _, hsec, hbase, hsize, hnum, hpriv⟩ :=
        erase_loop_sectors _ _ _ _ _ _ _ bank first _ hx
      simp only [loop_bank] at hsec hbase hsize hnum hpriv
      simp only at h
      split_ifs at h
      all_goals
        simp only [Option.some.injEq, Prod.mk.injEq] at h
        rw [← h.2]
        exact ⟨m, hsec, hbase, hsize, hnum, hpriv⟩

/-- What `pac55xx_erase_key` can change: the target and, once the erase has
completed, the `is_erased` flags of entries 0..127. -/
theorem pac55xx_erase_key_frame {P : Type} (bank b1 : flash_bank P) (key : Nat) (r : Int)
    (h : pac55xx_erase_key bank key = some (r, b1)) :
    ∃ m, b1.sectors = bank.sectors.map (fun tbl => tbl.mapIdx (mark_erased 0 m)) ∧
      b1.base = bank.base ∧ b1.size = bank.size ∧ b1.num_sectors = bank.num_sectors ∧
      b1.driver_priv = bank.driver_priv := by
  have unchanged : ∀ t : target, b1 = { bank with target := t } →
      ∃ m, b1.sectors = bank.sectors.map (fun tbl => tbl.mapIdx (mark_erased 0 m)) ∧
      b1.base = bank.base ∧ b1.size = bank.size ∧ b1.num_sectors = bank.num_sectors ∧
      b1.driver_priv = bank.driver_priv := by
    intro t hb
    subst hb
    refine ⟨0, ?_, rfl, rfl, rfl, rfl⟩
    cases bank.sectors with
    | none => rfl
    | some tbl => simp [mark_erased_zero]
  unfold pac55xx_erase_key at h
  simp only at h
  split_ifs at h with hh h1 h2 h3
  · simp only [Option.some.injEq, Prod.mk.injEq] at h
    exact unchanged bank.target (by rw [← h.2])
  · simp only [Option.some.injEq, Prod.mk.injEq] at h
    exact unchanged _ h.2.symm
  · simp only [Option.some.injEq, Prod.mk.injEq] at h
    exact unchanged _ h.2.symm
  · simp only [Option.some.injEq, Prod.mk.injEq] at h
    exact unchanged _ h.2.symm
  · split at h
    · simp at h
    · rename_i bm hbm
      have hm := pac55xx_mark_all_eq _ _ _ _ hbm
      split_ifs at h
      all_goals
        simp only [Option.some.injEq, Prod.mk.injEq] at h
        rw [← h.2, hm]
        exact ⟨PAC55XX_NUM_FLASH_PAGES, rfl, rfl, rfl, rfl, rfl⟩

/-- The `mass_erase` command changes the target and `is_erased` flags only. -/
theorem pac55xx_mass_erase_frame {P : Type} (bank b1 : flash_bank P) (CMD_ARGC : Nat)
    (get_bank r : Int)
    (h : pac55xx_handle_mass_erase_command CMD_ARGC get_bank bank = some (r, b1)) :
    ∃ m k, b1.sectors = (bank.sectors.map (fun tbl => tbl.mapIdx (mark_erased 0 m))).map
        (fun tbl => tbl.mapIdx (mark_erased 0 k)) ∧
      b1.base = bank.base ∧ b1.size = bank.size ∧ b1.num_sectors = bank.num_sectors ∧
      b1.driver_priv = bank.driver_priv := by
  have unchanged : b1 = bank →
      ∃ m k, b1.sectors = (bank.sectors.map (fun tbl => tbl.mapIdx (mark_erased 0 m))).map
        (fun tbl => tbl.mapIdx (mark_erased 0 k)) ∧
      b1.base = bank.base ∧ b1.size = bank.size ∧ b1.num_sectors = bank.num_sectors ∧
      b1.driver_priv = bank.driver_priv := by
    intro hb
    subst hb
    refine ⟨0, 0, ?_, rfl, rfl, rfl, rfl⟩
    cases b1.sectors with
    | none => rfl
    | some tbl => simp [mark_erased_zero]
  unfold pac55xx_handle_mass_erase_command at h
  split_ifs at h with ha hg
  · simp only [Option.some.injEq, Prod.mk.injEq] at h
    exact unchanged h.2.symm
  · simp only [Option.some.injEq, Prod.mk.injEq] at h
    exact unchanged h.2.symm
  · split at h
    · simp at h
    · rename_i x hx
      obtain ⟨m, hsec, hbase, hsize, hnum, hpriv⟩ := pac55xx_erase_key_frame bank x.2 _ x.1 hx
      split_ifs at h with hok
      · split at h
        · simp at h
        · rename_i bm hbm
          have hm := pac55xx_mark_all_eq _ _ _ _ hbm
          simp only [Option.some.injEq, Prod.mk.injEq] at h
          rw [← h.2, hm]
          refine ⟨m, x.2.num_sectors.toNat, ?_, hbase, hsize, hnum, hpriv⟩
          simp only [hsec]
          rfl
      · simp only [Option.some.injEq] at h
        rw [h] at hsec hbase hsize hnum hpriv
        refine ⟨m, 0, ?_, hbase, hsize, hnum, hpriv⟩
        rw [hsec]
        cases bank.sectors with
        | none => rfl
        | some tbl => simp [mark_erased_zero]

/-- The DeviceA write loop changes the target only. -/
theorem pac52xx_write_loop_frame {P : Type} (buffer : Nat → Nat) (n : Nat) :
    ∀ (bank : flash_bank P) (pos offset : Nat),
      ∃ t, (pac52xx_write_loop bank buffer pos offset n).2 = { bank with target := t } := by
  induction n with
  | zero => intro bank pos offset; exact ⟨bank.target, rfl⟩
  | succ n ih =>
    intro bank pos offset
    rw [pac52xx_write_loop]
    simp only
    split_ifs
    · exact ⟨_, rfl⟩
    · exact ⟨_, rfl⟩
    · exact ⟨_, rfl⟩
    · obtain ⟨t, ht⟩ := ih _ (pos + 4) ((offset + 4) % 2 ^ 32)
      exact ⟨t, by rw [ht]⟩

/-- `pac52xx_write` changes the target only. -/
theorem pac52xx_write_frame {P : Type} (malloc : Nat → Bool) (bank b1 : flash_bank P)
    (buffer : Nat → Nat) (offset count : Nat) (r : Int)
    (h : pac52xx_write malloc bank buffer offset count = some (r, b1)) :
    ∃ t, b1 = { bank with target := t } := by
  unfold pac52xx_write at h
  simp only at h
  split_ifs at h
  · exact ⟨bank.target, by rw [← (Prod.mk.inj (Option.some.inj h)).2]⟩
  · exact ⟨bank.target, by rw [← (Prod.mk.inj (Option.some.inj h)).2]⟩
  · exact ⟨bank.target, by rw [← (Prod.mk.inj (Option.some.inj h)).2]⟩
  · obtain ⟨t, ht⟩ := pac52xx_write_loop_frame
      (fun j => if j < count then buffer j % 256 else 0xff)
      ((count + (4 - count % 4)) / 4) bank 0 offset
    refine ⟨t, ?_⟩
    rw [← ht, Option.some.inj h]
  · obtain ⟨t, ht⟩ := pac52xx_write_loop_frame buffer (count / 4) bank 0 offset
    refine ⟨t, ?_⟩
    rw [← ht, Option.some.inj h]

/-- `pac55xx_write` changes the target only. -/
theorem pac55xx_write_frame {P : Type} (buff0 : Nat → Nat) (bank : flash_bank P)
    (buffer : Nat → Nat) (offset count : Nat) :
    ∃ t, (pac55xx_write buff0 bank buffer offset count).2 = { bank with target := t } := by
  unfold pac55xx_write
  simp only
  split_ifs
  · exact ⟨bank.target, rfl⟩
  · exact ⟨_, rfl⟩
  · exact ⟨_, rfl⟩
  · exact ⟨_, rfl⟩
  · split
    · exact ⟨_, rfl⟩
    · split
      · exact ⟨_, rfl⟩
      · split_ifs <;> exact ⟨_, rfl⟩

theorem geometry_holds_probe {P : Type} (N : Nat) (b : flash_bank P) (h0 : b.base = 0)
    (h1 : b.size = N * 1024) (hs : b.sectors = some (probe_sectors N 1024)) :
    geometry_holds N b := by
  refine ⟨h0, h1, _, hs, probe_sectors_length N 1024, ?_⟩
  intro i s hi
  have hlt : i < N := by
    have := (List.getElem?_eq_some_iff.mp hi).1
    rwa [probe_sectors_length] at this
  rw [probe_sectors_getElem? N 1024 i hlt] at hi
  rw [← Option.some.inj hi]
  exact ⟨rfl, rfl⟩

theorem geometry_holds_of_eq {P : Type} (N : Nat) (b b1 : flash_bank P)
    (hg : geometry_holds N b) (hbase : b1.base = b.base) (hsize : b1.size = b.size)
    (hsec : b1.sectors = b.sectors) : geometry_holds N b1 := by
  obtain ⟨h0, h1, tbl, hs, hl, ht⟩ := hg
  exact ⟨by rw [hbase, h0], by rw [hsize, h1], tbl, by rw [hsec, hs], hl, ht⟩

/-- What `pac52xx_probe` leaves when it returns. -/
theorem pac52xx_probe_result (malloc : Nat → Bool)
    (b b1 : flash_bank (Option pac52xx_flash_bank)) (r : Int)
    (h : pac52xx_probe malloc b = some (r, b1)) :
    b1.base = 0 ∧ b1.size = 32 * 1024 ∧ b1.sectors = some (probe_sectors 32 1024) := by
  unfold pac52xx_probe at h
  split at h
  · simp at h
  · simp only at h
    split_ifs at h
    simp only [Option.some.injEq, Prod.mk.injEq] at h
    rw [← h.2]
    exact ⟨rfl, rfl, rfl⟩

/-- What `pac55xx_probe` leaves when it returns. -/
theorem pac55xx_probe_result (malloc : Nat → Bool) (fuel : Nat)
    (b b1 : flash_bank (Option pac55xx_flash_bank)) (r : Int)
    (h : pac55xx_probe malloc fuel b = some (r, b1)) :
    b1.base = 0 ∧ b1.size = 128 * 1024 ∧ b1.sectors = some (probe_sectors 128 1024) := by
  unfold pac55xx_probe at h
  split at h
  · simp at h
  · simp only at h
    split_ifs at h
    split at h
    · simp at h
    · simp only [Option.some.injEq, Prod.mk.injEq] at h
      rw [← h.2]
      exact ⟨rfl, rfl, rfl⟩

/-- C17. Reachable-state invariant of the bank model: in every bank state
reachable from a successful `flash_bank_command` by any sequence of `probe`,
`auto_probe`, `erase`, keyed erase, `mass_erase`, `write`, `protect` and
`protect_check` calls, with any arguments, allocator and target behaviour,
`probed == 1` implies that the sector table exists with exactly `num_pages`
entries (32 for DeviceA, 128 for DeviceB), `sectors[i].offset == i*1024` and
`sectors[i].size == 1024` for every `i`, `bank.base == 0` and
`bank.size == num_pages*1024`. -/
theorem reachable_geometry :
    (∀ b, reachable52 b → ∀ info, b.driver_priv = some info → info.probed = 1 →
      geometry_holds 32 b) ∧
    (∀ b, reachable55 b → ∀ info, b.driver_priv = some info → info.probed = 1 →
      geometry_holds 128 b) := by
  constructor
  · intro b hb
    induction hb with
    | flash_bank_command malloc argc bank0 b h =>
      intro info hi hp
      unfold pac52xx_flash_bank_command at h
      split_ifs at h
      · simp [ERROR_COMMAND_SYNTAX_ERROR, ERROR_OK] at h
      · simp only [Option.some.injEq, Prod.mk.injEq, true_and] at h
        rw [← h] at hi
        simp only [Option.some.injEq] at hi
        rw [← hi] at hp
        simp at hp
    | probe malloc b b1 r _ h _ =>
      intro _ _ _
      obtain ⟨h0, h1, hs⟩ := pac52xx_probe_result malloc b b1 r h
      exact geometry_holds_probe 32 b1 h0 h1 hs
    | auto_probe malloc b b1 r _ h ih =>
      intro info hi hp
      unfold pac52xx_auto_probe at h
      split at h
      · simp at h
      · split_ifs at h
        · simp only [Option.some.injEq, Prod.mk.injEq] at h
          rw [← h.2] at hi ⊢
          exact ih info hi hp
        · obtain ⟨h0, h1, hs⟩ := pac52xx_probe_result malloc b b1 r h
          exact geometry_holds_probe 32 b1 h0 h1 hs
    | erase first last b b1 r _ h ih =>
      intro info hi hp
      obtain ⟨m, hsec, hbase, hsize, _, hpriv⟩ := pac52xx_erase_frame b b1 first last r h
      rw [hpriv] at hi
      exact geometry_holds_mark 32 b b1 first m (ih info hi hp) hbase hsize hsec
    | write malloc buffer offset count b b1 r _ h ih =>
      intro info hi hp
      obtain ⟨t, ht⟩ := pac52xx_write_frame malloc b b1 buffer offset count r h
      subst ht
      exact geometry_holds_of_eq 32 b _ (ih info hi hp) rfl rfl rfl
    | protect set first last b _ ih => exact ih
    | protect_check b _ ih => exact ih
    | target_change t b _ ih =>
      intro info hi hp
      exact geometry_holds_of_eq 32 b _ (ih info hi hp) rfl rfl rfl
  · intro b hb
    induction hb with
    | flash_bank_command malloc argc bank0 b h =>
      intro info hi hp
      unfold pac55xx_flash_bank_command at h
      split_ifs at h
      · simp [ERROR_COMMAND_SYNTAX_ERROR, ERROR_OK] at h
      · simp only [Option.some.injEq, Prod.mk.injEq, true_and] at h
        rw [← h] at hi
        simp only [Option.some.injEq] at hi
        rw [← hi] at hp
        simp at hp
    | probe malloc fuel b b1 r _ h _ =>
      intro _ _ _
      obtain ⟨h0, h1, hs⟩ := pac55xx_probe_result malloc fuel b b1 r h
      exact geometry_holds_probe 128 b1 h0 h1 hs
    | auto_probe malloc fuel b b1 r _ h ih =>
      intro info hi hp
      unfold pac55xx_auto_probe at h
      split at h
      · simp at h
      · split_ifs at h
        · simp only [Option.some.injEq, Prod.mk.injEq] at h
          rw [← h.2] at hi ⊢
          exact ih info hi hp
        · obtain ⟨h0, h1, hs⟩ := pac55xx_probe_result malloc fuel b b1 r h
          exact geometry_holds_probe 128 b1 h0 h1 hs
    | erase first last b b1 r _ h ih =>
      intro info hi hp
      obtain ⟨m, hsec, hbase, hsize, _, hpriv⟩ := pac55xx_erase_frame b b1 first last r h
      rw [hpriv] at hi
      exact geometry_holds_mark 128 b b1 first m (ih info hi hp) hbase hsize hsec
    | erase_key key b b1 r _ h ih =>
      intro info hi hp
      obtain ⟨m, hsec, hbase, hsize, _, hpriv⟩ := pac55xx_erase_key_frame b b1 key r h
      rw [hpriv] at hi
      exact geometry_holds_mark 128 b b1 0 m (ih info hi hp) hbase hsize hsec
    | mass_erase argc gb b b1 r _ h ih =>
      intro info hi hp
      obtain ⟨m, k, hsec, hbase, hsize, _, hpriv⟩ := pac55xx_mass_erase_frame b b1 argc gb r h
      rw [hpriv] at hi
      have g1 : geometry_holds 128
          { b with sectors := b.sectors.map (fun tbl => tbl.mapIdx (mark_erased 0 m)) } :=
        geometry_holds_mark 128 b _ 0 m (ih info hi hp) rfl rfl rfl
      exact geometry_holds_mark 128 _ b1 0 k g1 hbase hsize hsec
    | write buff0 buffer offset count b _ ih =>
      intro info hi hp
      obtain ⟨t, ht⟩ := pac55xx_write_frame buff0 b buffer offset count
      rw [ht] at hi ⊢
      exact geometry_holds_of_eq 128 b _ (ih info hi hp) rfl rfl rfl
    | protect set first last b _ ih => exact ih
    | protect_check b _ ih => exact ih
    | target_change t b _ ih =>
      intro info hi hp
      exact geometry_holds_of_eq 128 b _ (ih info hi hp) rfl rfl rfl

set_option maxRecDepth 8192 in
/-- Instance of `reachable_geometry`: the banks reached by `flash_bank_command`,
`auto_probe` and `erase(3, 5)`. -/
theorem reachable_geometry_witness :
    (∃ b, sample_run52 = some (ERROR_OK, b) ∧ reachable52 b ∧
      b.driver_priv = some { probed := 1 } ∧ geometry_holds 32 b) ∧
    (∃ b, sample_run55 = some (ERROR_OK, b) ∧ reachable55 b ∧
      b.driver_priv = some { probed := 1, user_bank_size := 77 } ∧ geometry_holds 128 b) := by
  have hA : sample_run52 = some (ERROR_OK, (sample_run52.getD
      (0, host_bank pac52xx_flash_bank (const_target TARGET_HALTED 0))).2) := rfl
  have hB : sample_run55 = some (ERROR_OK, (sample_run55.getD
      (0, host_bank pac55xx_flash_bank (const_target TARGET_HALTED 0x01000000))).2) := rfl
  have rA : reachable52 (sample_run52.getD
      (0, host_bank pac52xx_flash_bank (const_target TARGET_HALTED 0))).2 :=
    reachable52.erase 3 5 _ _ ERROR_OK
      (reachable52.auto_probe (fun _ => true) _ _ ERROR_OK
        (reachable52.flash_bank_command (fun _ => true) 6
          (host_bank pac52xx_flash_bank (const_target TARGET_HALTED 0)) _ rfl) rfl) rfl
  have rB : reachable55 (sample_run55.getD
      (0, host_bank pac55xx_flash_bank (const_target TARGET_HALTED 0x01000000))).2 :=
    reachable55.erase 3 5 _ _ ERROR_OK
      (reachable55.auto_probe (fun _ => true) 1 _ _ ERROR_OK
        (reachable55.flash_bank_command (fun _ => true) 6
          (host_bank pac55xx_flash_bank (const_target TARGET_HALTED 0x01000000)) _ rfl) rfl) rfl
  exact ⟨⟨_, hA, rA, rfl, reachable_geometry.1 _ rA _ rfl rfl⟩,
    ⟨_, hB, rB, rfl, reachable_geometry.2 _ rB _ rfl rfl⟩⟩

/-! ### Failing steps -/

/-- Every run of the poll loop ends with a status read; it returns `ERROR_OK`
or that last read is the failing step. -/
theorem wait_loop_end (addr : Nat) (busy : Nat → Bool) (N : Nat) :
    ∀ t : target, ∃ seg,
      (wait_loop addr busy t N).2 = { t with log := t.log ++ seg ++ [Access.read addr] } ∧
      (∀ a, a ∈ seg → a = Access.read addr ∨ a = Access.sleep 1) ∧
      ((wait_loop addr busy t N).1 = ERROR_OK ∨
        step_failed t busy (t.log ++ seg) (Access.read addr) (wait_loop addr busy t N).1) := by
  induction N with
  | zero =>
    intro t
    refine ⟨[], ?_, fun a ha => by simp at ha, ?_⟩
    · unfold wait_loop
      simp only [target_read_u32]
      split_ifs <;> simp
    · unfold wait_loop
      simp only [target_read_u32, List.append_nil, step_failed]
      split_ifs with h1 h2
      · exact Or.inr (Or.inl ⟨rfl, h1⟩)
      · exact Or.inl (not_not.mp h1)
      · exact Or.inr (Or.inr ⟨not_not.mp h1, by simpa using h2, rfl⟩)
  | succ N ih =>
    intro t
    by_cases h1 : (t.on_read t.log addr).1 ≠ ERROR_OK
    · have hval : wait_loop addr busy t (N + 1)
          = ((t.on_read t.log addr).1, { t with log := t.log ++ [Access.read addr] }) := by
        conv => lhs; unfold wait_loop
        simp only [target_read_u32, if_pos h1]
      refine ⟨[], ?_, fun a ha => by simp at ha, ?_⟩
      · rw [hval]
        simp
      · rw [hval, List.append_nil]
        exact Or.inr (Or.inl ⟨rfl, h1⟩)
    · by_cases h2 : busy ((t.on_read t.log addr).2 % 2 ^ 32) = false
      · have hval : wait_loop addr busy t (N + 1)
            = ((t.on_read t.log addr).1, { t with log := t.log ++ [Access.read addr] }) := by
          conv => lhs; unfold wait_loop
          simp only [target_read_u32, if_neg h1, if_pos h2]
        refine ⟨[], ?_, fun a ha => by simp at ha, ?_⟩
        · rw [hval]
          simp
        · rw [hval]
          exact Or.inl (not_not.mp h1)
      · obtain ⟨seg, hseg, hp, hres⟩ := ih (alive_sleep
          { t with log := t.log ++ [Access.read addr] } 1)
        have hrec : wait_loop addr busy t (N + 1)
            = wait_loop addr busy (alive_sleep { t with log := t.log ++ [Access.read addr] } 1)
                N := by
          conv => lhs; unfold wait_loop
          simp only [target_read_u32, if_neg h1, if_neg h2]
        refine ⟨Access.read addr :: Access.sleep 1 :: seg, ?_, ?_, ?_⟩
        · rw [hrec, hseg]
          simp [alive_sleep]
        · intro a ha
          simp only [List.mem_cons] at ha
          rcases ha with ha | ha | ha
          · exact Or.inl ha
          · exact Or.inr ha
          · exact hp a ha
        · rw [hrec]
          rcases hres with hres | hres
          · exact Or.inl hres
          · refine Or.inr ?_
            simp only [step_failed, alive_sleep, List.append_assoc, List.cons_append,
              List.nil_append] at hres ⊢
            exact hres

theorem pac52xx_wait_end (t : target) (timeout : Int) : ∃ seg,
    (pac52xx_wait_status_busy t timeout).2
      = { t with log := t.log ++ seg ++ [Access.read PAC5XXX_MEMCTL_FLASHSTATUS] } ∧
    (∀ a, a ∈ seg → a = Access.read PAC5XXX_MEMCTL_FLASHSTATUS ∨ a = Access.sleep 1) ∧
    ((pac52xx_wait_status_busy t timeout).1 = ERROR_OK ∨
      step_failed t busy52 (t.log ++ seg) (Access.read PAC5XXX_MEMCTL_FLASHSTATUS)
        (pac52xx_wait_status_busy t timeout).1) := by
  rw [pac52xx_wait_status_busy, pac52xx_wait_loop_eq]
  exact wait_loop_end _ _ _ t

theorem pac55xx_wait_end (t : target) (timeout : Int) : ∃ seg,
    (pac55xx_wait_status_busy t timeout).2
      = { t with log := t.log ++ seg ++ [Access.read PAC55XX_MEMSTATUS] } ∧
    (∀ a, a ∈ seg → a = Access.read PAC55XX_MEMSTATUS ∨ a = Access.sleep 1) ∧
    ((pac55xx_wait_status_busy t timeout).1 = ERROR_OK ∨
      step_failed t busy55 (t.log ++ seg) (Access.read PAC55XX_MEMSTATUS)
        (pac55xx_wait_status_busy t timeout).1) := by
  rw [pac55xx_wait_status_busy, pac55xx_wait_loop_eq]
  exact wait_loop_end _ _ _ t

/-- An early return of the erase loop: some `m < n` pages were completed and
marked, the last access is the failing step, and it carries the returned
code. -/
theorem erase_loop_early {P : Type} (lock key page ereg ekey status : Nat)
    (busy : Nat → Bool) (wait : target → Int × target)
    (hw : ∀ t, ∃ seg, (wait t).2 = { t with log := t.log ++ seg ++ [Access.read status] } ∧
      ((wait t).1 = ERROR_OK ∨
        step_failed t busy (t.log ++ seg) (Access.read status) (wait t).1)) (n : Nat) :
    ∀ (bank b1 : flash_bank P) (i : Int) (c : Int),
      erase_loop lock key page ereg ekey wait bank i n = some (Sum.inl (c, b1)) →
      ∃ m, m < n ∧
        b1.sectors = bank.sectors.map (fun tbl => tbl.mapIdx (mark_erased i m)) ∧
        b1.target.on_read = bank.target.on_read ∧
        b1.target.on_write = bank.target.on_write ∧
        ∃ seg a, b1.target.log = bank.target.log ++ seg ++ [a] ∧
          step_failed b1.target busy (bank.target.log ++ seg) a c := by
  induction n with
  | zero =>
    intro bank b1 i c h
    simp [erase_loop] at h
  | succ n ih =>
    intro bank b1 i c h
    have sec0 : bank.sectors
        = bank.sectors.map (fun tbl => tbl.mapIdx (mark_erased i 0)) := by
      cases bank.sectors with
      | none => rfl
      | some tbl => simp [mark_erased_zero]
    rw [erase_loop] at h
    simp only at h
    split_ifs at h with h1 h2 h3 h4
    · simp only [Option.some.injEq, Sum.inl.injEq, Prod.mk.injEq] at h
      obtain ⟨hc, hb⟩ := h
      subst hb
      subst hc
      refine ⟨0, Nat.succ_pos n, sec0, rfl, rfl, [], Access.write lock key, ?_, ?_⟩
      · simp [target_write_u32]
      · simp only [step_failed, List.append_nil]
        exact ⟨rfl, h1⟩
    · simp only [Option.some.injEq, Sum.inl.injEq, Prod.mk.injEq] at h
      obtain ⟨hc, hb⟩ := h
      subst hb
      subst hc
      refine ⟨0, Nat.succ_pos n, sec0, rfl, rfl, [Access.write lock key],
        Access.write page (int_to_u32 i), ?_, ?_⟩
      · simp [target_write_u32]
      · simp only [step_failed]
        exact ⟨rfl, h2⟩
    · simp only [Option.some.injEq, Sum.inl.injEq, Prod.mk.injEq] at h
      obtain ⟨hc, hb⟩ := h
      subst hb
      subst hc
      refine ⟨0, Nat.succ_pos n, sec0, rfl, rfl,
        [Access.write lock key, Access.write page (int_to_u32 i)],
        Access.write ereg ekey, ?_, ?_⟩
      · simp [target_write_u32]
      · simp only [step_failed]
        refine ⟨?_, h3⟩
        simp [target_write_u32]
    · simp only [Option.some.injEq, Sum.inl.injEq, Prod.mk.injEq] at h
      obtain ⟨hc, hb⟩ := h
      subst hb
      obtain ⟨seg, hseg, hres⟩ := hw (target_write_u32 (target_write_u32
        (target_write_u32 bank.target lock key).2 page (int_to_u32 i)).2 ereg ekey).2
      rw [hc] at h4 hres
      rcases hres with hres | hres
      · exact absurd hres h4
      · refine ⟨0, Nat.succ_pos n, sec0, by simp only [hseg]; rfl, by simp only [hseg]; rfl,
          [Access.write lock key, Access.write page (int_to_u32 i), Access.write ereg ekey]
            ++ seg, Access.read status, ?_, ?_⟩
        · simp only [hseg]
          simp [target_write_u32]
        · simp only [hseg]
          simp only [step_failed, target_write_u32, List.append_assoc, List.cons_append,
            List.nil_append] at hres ⊢
          exact hres
    · split at h
      · simp at h
      · rename_i bank1 hset
        obtain ⟨tbl, hs, hi0, hlt, hb1⟩ := set_is_erased_eq _ _ _ hset
        obtain ⟨m, hm, hsec, hor, how, seg1, a, hlog, hfail⟩ := ih bank1 b1 (i + 1) c h
        obtain ⟨seg, hseg, _⟩ := hw (target_write_u32 (target_write_u32
          (target_write_u32 bank.target lock key).2 page (int_to_u32 i)).2 ereg ekey).2
        have hl1 : bank1.target.log = bank.target.log ++
            ([Access.write lock key, Access.write page (int_to_u32 i), Access.write ereg ekey]
              ++ seg ++ [Access.read status]) := by
          rw [hb1]
          simp only [hseg]
          simp [target_write_u32]
        have ho1 : bank1.target.on_read = bank.target.on_read ∧
            bank1.target.on_write = bank.target.on_write := by
          rw [hb1]
          simp only [hseg]
          exact ⟨rfl, rfl⟩
        refine ⟨m + 1, by omega, ?_, by rw [hor, ho1.1], by rw [how, ho1.2],
          [Access.write lock key, Access.write page (int_to_u32 i), Access.write ereg ekey]
            ++ seg ++ [Access.read status] ++ seg1, a, ?_, ?_⟩
        · rw [hsec, hb1]
          simp only at hs
          simp only [hs, Option.map_some', mark_erased_step i m tbl hi0]
        · rw [hlog, hl1]
          simp only [List.append_assoc]
        · rw [hl1] at hfail
          simp only [List.append_assoc] at hfail ⊢
          exact hfail

/-- From the loop lemmas to the statement about page `k = first + m`. -/
theorem partial_progress_of_early {P : Type} (bank b1 : flash_bank P)
    (tbl : List flash_sector) (first last c : Int) (busy : Nat → Bool) (m : Nat)
    (hs : bank.sectors = some tbl) (hm : m < (last + 1 - first).toNat) (hc : c ≠ ERROR_OK)
    (hsec : b1.sectors = bank.sectors.map (fun tbl => tbl.mapIdx (mark_erased first m)))
    (hor : b1.target.on_read = bank.target.on_read)
    (how : b1.target.on_write = bank.target.on_write)
    (hlog : ∃ seg a, b1.target.log = bank.target.log ++ seg ++ [a] ∧
      step_failed b1.target busy (bank.target.log ++ seg) a c) :
    ∃ k : Int, first ≤ k ∧ k ≤ last ∧ c ≠ ERROR_OK ∧
        (∃ tbl1, b1.sectors = some tbl1 ∧ tbl1.length = tbl.length ∧
          ∀ (j : Nat) (s : flash_sector), tbl[j]? = some s →
            tbl1[j]? = some (if first ≤ (j : Int) ∧ (j : Int) < k
              then { s with is_erased := 1 } else s)) ∧
        b1.target.on_read = bank.target.on_read ∧
        b1.target.on_write = bank.target.on_write ∧
        ∃ seg a, b1.target.log = bank.target.log ++ seg ++ [a] ∧
          step_failed b1.target busy (bank.target.log ++ seg) a c := by
  refine ⟨first + m, by omega, by omega, hc, ⟨tbl.mapIdx (mark_erased first m), ?_, ?_, ?_⟩,
    hor, how, hlog⟩
  · rw [hsec, hs]
    rfl
  · simp
  · intro j s0 hj
    rw [List.getElem?_mapIdx, hj]
    rfl

/-- The per-page loop returns whenever the pages it visits are inside the
sector table. -/
theorem erase_loop_total {P : Type} (lock key page ereg ekey : Nat)
    (wait : target → Int × target) (n : Nat) :
    ∀ (bank : flash_bank P) (tbl : List flash_sector) (i : Int),
      bank.sectors = some tbl → 0 ≤ i → i + n ≤ tbl.length →
      ∃ r, erase_loop lock key page ereg ekey wait bank i n = some r := by
  induction n with
  | zero =>
    intro bank tbl i _ _ _
    exact ⟨_, rfl⟩
  | succ n ih =>
    intro bank tbl i hs hi hlen
    rw [erase_loop]
    simp only
    split_ifs
    · exact ⟨_, rfl⟩
    · exact ⟨_, rfl⟩
    · exact ⟨_, rfl⟩
    · exact ⟨_, rfl⟩
    · have hset : set_is_erased
          { bank with target := (wait (target_write_u32 (target_write_u32 (target_write_u32
            bank.target lock key).2 page (int_to_u32 i)).2 ereg ekey).2).2 } i
          = some { bank with
              target := (wait (target_write_u32 (target_write_u32 (target_write_u32
                bank.target lock key).2 page (int_to_u32 i)).2 ereg ekey).2).2,
              sectors := some (tbl.modify (fun s => { s with is_erased := 1 }) i.toNat) } := by
        unfold set_is_erased
        simp only [hs]
        rw [if_pos ⟨hi, by omega⟩]
      simp only [hset]
      exact ih _ (tbl.modify (fun s => { s with is_erased := 1 }) i.toNat) (i + 1) rfl
        (by omega) (by rw [List.length_modify]; omega)

/-- What a non-OK return of the per-page erase tells: on a bank with a sector
table and a halted target, when `pac52xx_erase` returns a code `c` other than
OK, or the page loop of `pac55xx_erase` returns early with `c`, the last access
in the log is a failed step with that code, and for the page `k` in
`first..last` that was being processed, sectors `first..k-1` have
`is_erased == 1` while page `k` and every other sector are as before. With
`0 <= first <= last` inside the table both operations do return. -/
theorem erase_early_return_step {P : Type} (bank b1 : flash_bank P) (tbl : List flash_sector)
    (first last c : Int) (hs : bank.sectors = some tbl)
    (hh : bank.target.state = TARGET_HALTED) :
    (pac52xx_erase bank first last = some (c, b1) → c ≠ ERROR_OK →
      ∃ k : Int, first ≤ k ∧ k ≤ last ∧ c ≠ ERROR_OK ∧
        (∃ tbl1, b1.sectors = some tbl1 ∧ tbl1.length = tbl.length ∧
          ∀ (j : Nat) (s : flash_sector), tbl[j]? = some s →
            tbl1[j]? = some (if first ≤ (j : Int) ∧ (j : Int) < k
              then { s with is_erased := 1 } else s)) ∧
        b1.target.on_read = bank.target.on_read ∧
        b1.target.on_write = bank.target.on_write ∧
        ∃ seg a, b1.target.log = bank.target.log ++ seg ++ [a] ∧
          step_failed b1.target busy52 (bank.target.log ++ seg) a c) ∧
    (pac55xx_erase_loop bank first (last + 1 - first).toNat = some (Sum.inl (c, b1)) →
      pac55xx_erase bank first last = some (c, b1) ∧
      ∃ k : Int, first ≤ k ∧ k ≤ last ∧ c ≠ ERROR_OK ∧
        (∃ tbl1, b1.sectors = some tbl1 ∧ tbl1.length = tbl.length ∧
          ∀ (j : Nat) (s : flash_sector), tbl[j]? = some s →
            tbl1[j]? = some (if first ≤ (j : Int) ∧ (j : Int) < k
              then { s with is_erased := 1 } else s)) ∧
        b1.target.on_read = bank.target.on_read ∧
        b1.target.on_write = bank.target.on_write ∧
        ∃ seg a, b1.target.log = bank.target.log ++ seg ++ [a] ∧
          step_failed b1.target busy55 (bank.target.log ++ seg) a c) ∧
    (0 ≤ first → first ≤ last → last < tbl.length →
      (∃ r, pac52xx_erase bank first last = some r) ∧
      (∃ r, pac55xx_erase bank first last = some r)) := by
  refine ⟨?_, ?_, ?_⟩
  · intro h hc
    unfold pac52xx_erase at h
    rw [if_neg (not_not.mpr hh), pac52xx_erase_loop_eq] at h
    obtain ⟨x, hx, hres⟩ := Option.map_eq_some'.mp h
    cases x with
    | inr b =>
      simp only [loop_result, Prod.mk.injEq] at hres
      exact absurd hres.1.symm hc
    | inl y =>
      simp only [loop_result] at hres
      subst hres
      obtain ⟨m, hm, hsec, hor, how, hlog⟩ := erase_loop_early _ _ _ _ _
        PAC5XXX_MEMCTL_FLASHSTATUS busy52 _
        (fun t => by
          obtain ⟨seg, h1, _, h3⟩ := pac52xx_wait_end t FLASH_ERASE_TIMEOUT
          exact ⟨seg, h1, h3⟩) _ bank b1 first c hx
      exact partial_progress_of_early bank b1 tbl first last c busy52 m hs hm hc hsec hor how
        hlog
  · intro h
    have hx := h
    rw [pac55xx_erase_loop_eq] at hx
    obtain ⟨m, hm, hsec, hor, how, hlog⟩ := erase_loop_early _ _ _ _ _
      PAC55XX_MEMSTATUS busy55 _
      (fun t => by
        obtain ⟨seg, h1, _, h3⟩ := pac55xx_wait_end t FLASH_ERASE_TIMEOUT
        exact ⟨seg, h1, h3⟩) _ bank b1 first c hx
    obtain ⟨_, _, _, hleft, _⟩ := erase_loop_sectors _ _ _ _ _ _ _ bank first _ hx
    have hc : c ≠ ERROR_OK := hleft (c, b1) rfl
    refine ⟨?_, partial_progress_of_early bank b1 tbl first last c busy55 m hs hm hc hsec hor
      how hlog⟩
    unfold pac55xx_erase
    rw [if_neg (not_not.mpr hh), h]
  · intro h0 hfl hl
    have hn : first + ((last + 1 - first).toNat : Int) ≤ (tbl.length : Int) := by omega
    constructor
    · unfold pac52xx_erase
      split_ifs
      · exact ⟨_, rfl⟩
      · rw [pac52xx_erase_loop_eq]
        obtain ⟨r, hr⟩ := erase_loop_total PAC5XXX_MEMCTL_FLASHLOCK
          PAC5XXX_FLASH_LOCK_FLASHWRITE_KEY PAC5XXX_MEMCTL_FLASHPAGE PAC5XXX_MEMCTL_FLASHPERASE
          PAC5XXX_FLASH_LOCK_PERASE_KEY (fun t => pac52xx_wait_status_busy t FLASH_ERASE_TIMEOUT)
          _ bank tbl first hs h0 hn
        rw [hr]
        exact ⟨_, rfl⟩
    · unfold pac55xx_erase
      split_ifs
      · exact ⟨_, rfl⟩
      · rw [pac55xx_erase_loop_eq]
        obtain ⟨r, hr⟩ := erase_loop_total PAC55XX_MEMCTL_FLASHLOCK
          FLASH_LOCK_ALLOW_WRITE_ERASE_FLASH PAC55XX_MEMCTL_FLASHPAGE PAC55XX_MEMCTL_FLASHERASE
          FLASH_START_PAGE_ERASE (fun t => pac55xx_wait_status_busy t FLASH_ERASE_TIMEOUT)
          _ bank tbl first hs h0 hn
        rw [hr]
        cases r with
        | inl x => exact ⟨_, rfl⟩
        | inr b =>
          simp only
          split_ifs
          · exact ⟨_, rfl⟩
          · exact ⟨_, rfl⟩

set_option maxRecDepth 8192 in
/-- Instance of `erase_early_return_step`: `erase(3, 5)` on targets that refuse
the write of page number 4 to the page register; page 3 is marked, pages 4
and 5 are not, and the refused write is the last access. -/
theorem erase_early_return_step_example :
    (∃ b1, pac52xx_erase (sample_bank52 (failing_value_target PAC5XXX_MEMCTL_FLASHPAGE 4 0)) 3 5 = some (ERROR_FAIL, b1) ∧
      b1.sectors.map (fun l => (l.map (fun s => s.is_erased)).take 7)
        = some [-1, -1, -1, 1, -1, -1, -1] ∧
      b1.target.log.getLast? = some (Access.write PAC5XXX_MEMCTL_FLASHPAGE 4) ∧
      (∃ k : Int, (3 : Int) ≤ k ∧ k ≤ 5 ∧ ERROR_FAIL ≠ ERROR_OK ∧
        (∃ tbl1, b1.sectors = some tbl1 ∧ tbl1.length = (sample_table 32).length ∧
          ∀ (j : Nat) (s : flash_sector), (sample_table 32)[j]? = some s →
            tbl1[j]? = some (if (3 : Int) ≤ (j : Int) ∧ (j : Int) < k
              then { s with is_erased := 1 } else s)) ∧
        b1.target.on_read = (sample_bank52 (failing_value_target PAC5XXX_MEMCTL_FLASHPAGE 4 0)).target.on_read ∧
        b1.target.on_write = (sample_bank52 (failing_value_target PAC5XXX_MEMCTL_FLASHPAGE 4 0)).target.on_write ∧
        ∃ seg a, b1.target.log = (sample_bank52 (failing_value_target PAC5XXX_MEMCTL_FLASHPAGE 4 0)).target.log ++ seg ++ [a] ∧
          step_failed b1.target busy52 ((sample_bank52 (failing_value_target PAC5XXX_MEMCTL_FLASHPAGE 4 0)).target.log ++ seg) a ERROR_FAIL)) ∧
    (∃ b1, pac55xx_erase_loop (sample_bank55 (failing_value_target PAC55XX_MEMCTL_FLASHPAGE 4 0)) 3 ((5 : Int) + 1 - 3).toNat
        = some (Sum.inl (ERROR_FAIL, b1)) ∧
      pac55xx_erase (sample_bank55 (failing_value_target PAC55XX_MEMCTL_FLASHPAGE 4 0)) 3 5 = some (ERROR_FAIL, b1) ∧
      b1.sectors.map (fun l => (l.map (fun s => s.is_erased)).take 7)
        = some [-1, -1, -1, 1, -1, -1, -1] ∧
      b1.target.log.getLast? = some (Access.write PAC55XX_MEMCTL_FLASHPAGE 4) ∧
      (∃ k : Int, (3 : Int) ≤ k ∧ k ≤ 5 ∧ ERROR_FAIL ≠ ERROR_OK ∧
        (∃ tbl1, b1.sectors = some tbl1 ∧ tbl1.length = (sample_table 128).length ∧
          ∀ (j : Nat) (s : flash_sector), (sample_table 128)[j]? = some s →
            tbl1[j]? = some (if (3 : Int) ≤ (j : Int) ∧ (j : Int) < k
              then { s with is_erased := 1 } else s)) ∧
        b1.target.on_read = (sample_bank55 (failing_value_target PAC55XX_MEMCTL_FLASHPAGE 4 0)).target.on_read ∧
        b1.target.on_write = (sample_bank55 (failing_value_target PAC55XX_MEMCTL_FLASHPAGE 4 0)).target.on_write ∧
        ∃ seg a, b1.target.log = (sample_bank55 (failing_value_target PAC55XX_MEMCTL_FLASHPAGE 4 0)).target.log ++ seg ++ [a] ∧
          step_failed b1.target busy55 ((sample_bank55 (failing_value_target PAC55XX_MEMCTL_FLASHPAGE 4 0)).target.log ++ seg) a ERROR_FAIL)) := by
  have hA : pac52xx_erase (sample_bank52 (failing_value_target PAC5XXX_MEMCTL_FLASHPAGE 4 0)) 3 5
      = some (ERROR_FAIL, ((pac52xx_erase (sample_bank52 (failing_value_target PAC5XXX_MEMCTL_FLASHPAGE 4 0)) 3 5).getD (0, sample_bank52 (failing_value_target PAC5XXX_MEMCTL_FLASHPAGE 4 0))).2) := rfl
  have hB : pac55xx_erase_loop (sample_bank55 (failing_value_target PAC55XX_MEMCTL_FLASHPAGE 4 0)) 3 ((5 : Int) + 1 - 3).toNat
      = some (Sum.inl (ERROR_FAIL, ((pac55xx_erase (sample_bank55 (failing_value_target PAC55XX_MEMCTL_FLASHPAGE 4 0)) 3 5).getD (0, sample_bank55 (failing_value_target PAC55XX_MEMCTL_FLASHPAGE 4 0))).2)) := rfl
  have tA := (erase_early_return_step (sample_bank52 (failing_value_target PAC5XXX_MEMCTL_FLASHPAGE 4 0)) _ (sample_table 32) 3 5 ERROR_FAIL rfl rfl).1 hA
    (by decide)
  have tB := (erase_early_return_step (sample_bank55 (failing_value_target PAC55XX_MEMCTL_FLASHPAGE 4 0)) _ (sample_table 128) 3 5 ERROR_FAIL rfl rfl).2.1 hB
  exact ⟨⟨_, hA, by decide, by decide, tA⟩, ⟨_, hB, tB.1, by decide, by decide, tB.2⟩⟩

/-! ### Command sequences of the erase operations -/

/-- The erase loop on a target that answers every write with OK and whose
wait returns OK after one poll: `n` pages, each as three writes and a poll,
and the pages marked. -/
theorem erase_loop_trace {P : Type} (lock key page ereg ekey status : Nat)
    (wait : target → Int × target) (n : Nat) :
    ∀ (bank : flash_bank P) (tbl : List flash_sector) (i : Int),
      (∀ l a v, bank.target.on_write l a v = ERROR_OK) →
      (∀ t : target, t.on_read = bank.target.on_read →
        wait t = (ERROR_OK, { t with log := t.log ++ [Access.read status] })) →
      bank.sectors = some tbl → 0 ≤ i → i + n ≤ tbl.length →
      erase_loop lock key page ereg ekey wait bank i n
        = some (Sum.inr { bank with
            target := { bank.target with
              log := bank.target.log ++
                accesses_upto (page_accesses lock key page ereg ekey status i) n },
            sectors := some (tbl.mapIdx (mark_erased i n)) }) := by
  induction n with
  | zero =>
    intro bank tbl i _ _ hs _ _
    obtain ⟨t, ba, sz, ns, sec, dp⟩ := bank
    simp only at hs
    subst hs
    simp [erase_loop, accesses_upto, mark_erased_zero]
  | succ n ih =>
    intro bank tbl i hw hwait hs hi hlen
    rw [erase_loop]
    simp only
    have e1 : (target_write_u32 bank.target lock key).1 = ERROR_OK := hw _ _ _
    have e2 : (target_write_u32 (target_write_u32 bank.target lock key).2 page
        (int_to_u32 i)).1 = ERROR_OK := hw _ _ _
    have e3 : (target_write_u32 (target_write_u32 (target_write_u32 bank.target lock key).2
        page (int_to_u32 i)).2 ereg ekey).1 = ERROR_OK := hw _ _ _
    have e4 := hwait (target_write_u32 (target_write_u32 (target_write_u32 bank.target lock
        key).2 page (int_to_u32 i)).2 ereg ekey).2 rfl
    rw [if_neg (not_not.mpr e1), if_neg (not_not.mpr e2), if_neg (not_not.mpr e3), e4,
      if_neg (not_not.mpr rfl)]
    have hset : set_is_erased
        { bank with target := { (target_write_u32 (target_write_u32 (target_write_u32
            bank.target lock key).2 page (int_to_u32 i)).2 ereg ekey).2 with
          log := (target_write_u32 (target_write_u32 (target_write_u32
            bank.target lock key).2 page (int_to_u32 i)).2 ereg ekey).2.log
              ++ [Access.read status] } } i
        = some { bank with
            target := { bank.target with
              log := bank.target.log ++ page_accesses lock key page ereg ekey status i 0 },
            sectors := some (tbl.modify (fun s => { s with is_erased := 1 }) i.toNat) } := by
      unfold set_is_erased
      simp only [hs]
      rw [if_pos ⟨hi, by omega⟩]
      simp [target_write_u32, page_accesses]
    simp only [hset]
    have hrec := ih
      { bank with
        target := { bank.target with
          log := bank.target.log ++ page_accesses lock key page ereg ekey status i 0 },
        sectors := some (tbl.modify (fun s => { s with is_erased := 1 }) i.toNat) }
      (tbl.modify (fun s => { s with is_erased := 1 }) i.toNat) (i + 1)
      (fun l a v => hw l a v) (fun t ht => hwait t ht) rfl (by omega)
      (by rw [List.length_modify]; omega)
    rw [hrec]
    rw [mark_erased_step i n tbl hi, accesses_upto_succ_front]
    have hf : (fun k => page_accesses lock key page ereg ekey status (i + 1) k)
        = (fun k => page_accesses lock key page ereg ekey status i (k + 1)) := by
      funext k
      simp only [page_accesses]
      have : i + 1 + (k : Int) = i + ((k + 1 : Nat) : Int) := by push_cast; omega
      rw [this]
    simp only [List.append_assoc]
    rw [show page_accesses lock key page ereg ekey status (i + 1)
      = (fun k => page_accesses lock key page ereg ekey status (i + 1) k) from rfl, hf]

theorem int_to_u32_of_nat (i : Int) (h0 : 0 ≤ i) (h1 : i < 2 ^ 32) : int_to_u32 i = i.toNat := by
  unfold int_to_u32
  rw [Int.emod_eq_of_lt h0 h1]

/-- C19. Per-page erase command sequence: on a halted target that answers
every access with OK and an idle status, for `0 <= first <= last` inside the
sector table, the erase operation returns `ERROR_OK` and its accesses are,
for `i = first, ..., last` in ascending order, `LOCK <- unlock key`,
`PAGE <- i`, `ERASE register <- erase key` and one status poll (the whole of
`wait_idle(100)` on an idle status). For DeviceA the triple is
`0x40020000 <- 0xAAAAAAAA`, `0x40020008 <- i`, `0x40020014 <- 0xA5A55A5A` and
nothing follows the loop; for DeviceB it is `0x400D0008 <- 0x43DF140A`,
`0x400D000C <- i`, `0x400D0020 <- 0x8C799CA7` and the loop is followed by
exactly one `0x400D0008 <- 0`. Pages `first..last` end up marked erased. -/
theorem erase_command_sequence {P : Type} (bank : flash_bank P) (tbl : List flash_sector)
    (first last : Int) (hh : bank.target.state = TARGET_HALTED)
    (hw : ∀ l a v, bank.target.on_write l a v = ERROR_OK)
    (hs : bank.sectors = some tbl) (h0 : 0 ≤ first) (hfl : first ≤ last)
    (hl : last < tbl.length) :
    ((∀ l, (bank.target.on_read l PAC5XXX_MEMCTL_FLASHSTATUS).1 = ERROR_OK ∧
        (bank.target.on_read l PAC5XXX_MEMCTL_FLASHSTATUS).2 &&& 0x3 = 0) →
      pac52xx_erase bank first last
        = some (ERROR_OK, { bank with
            target := { bank.target with
              log := bank.target.log ++
                accesses_upto (page_accesses 0x40020000 0xAAAAAAAA 0x40020008 0x40020014
                  0xA5A55A5A 0x40020004 first) (last + 1 - first).toNat },
            sectors := some (tbl.mapIdx (mark_erased first (last + 1 - first).toNat)) })) ∧
    ((∀ l, (bank.target.on_read l PAC55XX_MEMSTATUS).1 = ERROR_OK ∧
        (bank.target.on_read l PAC55XX_MEMSTATUS).2 &&& 0x3 = 0) →
      pac55xx_erase bank first last
        = some (ERROR_OK, { bank with
            target := { bank.target with
              log := bank.target.log ++
                accesses_upto (page_accesses 0x400D0008 0x43DF140A 0x400D000C 0x400D0020
                  0x8C799CA7 0x400D0004 first) (last + 1 - first).toNat ++
                [Access.write 0x400D0008 0] },
            sectors := some (tbl.mapIdx (mark_erased first (last + 1 - first).toNat)) })) ∧
    (∀ k : Nat, first + k ≤ last → last < 2 ^ 32 →
      int_to_u32 (first + k) = (first + k).toNat) := by
  have hn : first + ((last + 1 - first).toNat : Int) ≤ (tbl.length : Int) := by omega
  refine ⟨?_, ?_, ?_⟩
  · intro hr
    unfold pac52xx_erase
    rw [if_neg (not_not.mpr hh), pac52xx_erase_loop_eq,
      erase_loop_trace _ _ _ _ _ PAC5XXX_MEMCTL_FLASHSTATUS _ _ bank tbl first hw
        (fun t ht => pac52xx_wait_idle_now t _ (fun l => by rw [ht]; exact hr l)) hs h0 hn]
    rfl
  · intro hr
    unfold pac55xx_erase
    rw [if_neg (not_not.mpr hh), pac55xx_erase_loop_eq,
      erase_loop_trace _ _ _ _ _ PAC55XX_MEMSTATUS _ _ bank tbl first hw
        (fun t ht => pac55xx_wait_idle_now t _ (fun l => by rw [ht]; exact hr l)) hs h0 hn]
    simp only
    have e : (target_write_u32 { bank.target with
        log := bank.target.log ++ accesses_upto (page_accesses PAC55XX_MEMCTL_FLASHLOCK
          FLASH_LOCK_ALLOW_WRITE_ERASE_FLASH PAC55XX_MEMCTL_FLASHPAGE PAC55XX_MEMCTL_FLASHERASE
          FLASH_START_PAGE_ERASE PAC55XX_MEMSTATUS first) (last + 1 - first).toNat }
        PAC55XX_MEMCTL_FLASHLOCK 0).1 = ERROR_OK := hw _ _ _
    rw [if_neg (not_not.mpr e)]
    rfl
  · intro k hk h32
    exact int_to_u32_of_nat _ (by omega) (by omega)

set_option maxRecDepth 8192 in
/-- Instance of `erase_command_sequence`: `erase(3, 4)` on probed banks of both
devices, with the accesses written out. -/
theorem erase_command_sequence_witness :
    ((pac52xx_erase (sample_bank52 (const_target TARGET_HALTED 0)) 3 4).map
        (fun r => (r.1, r.2.target.log))
      = some (ERROR_OK,
          [Access.write 0x40020000 0xAAAAAAAA, Access.write 0x40020008 3,
            Access.write 0x40020014 0xA5A55A5A, Access.read 0x40020004,
            Access.write 0x40020000 0xAAAAAAAA, Access.write 0x40020008 4,
            Access.write 0x40020014 0xA5A55A5A, Access.read 0x40020004])) ∧
    ((pac55xx_erase (sample_bank55 (const_target TARGET_HALTED 0)) 3 4).map
        (fun r => (r.1, r.2.target.log))
      = some (ERROR_OK,
          [Access.write 0x400D0008 0x43DF140A, Access.write 0x400D000C 3,
            Access.write 0x400D0020 0x8C799CA7, Access.read 0x400D0004,
            Access.write 0x400D0008 0x43DF140A, Access.write 0x400D000C 4,
            Access.write 0x400D0020 0x8C799CA7, Access.read 0x400D0004,
            Access.write 0x400D0008 0])) := by
  have idle : ∀ (st : Nat) (l : List Access),
      ((const_target TARGET_HALTED 0).on_read l st).1 = ERROR_OK ∧
      ((const_target TARGET_HALTED 0).on_read l st).2 &&& 0x3 = 0 :=
    fun _ _ => ⟨rfl, by show (0 : Nat) &&& 0x3 = 0; decide⟩
  have hA := (erase_command_sequence (sample_bank52 (const_target TARGET_HALTED 0))
    (sample_table 32) 3 4 rfl (fun _ _ _ => rfl) rfl (by decide) (by decide) (by decide)).1
    (idle _)
  have hB := (erase_command_sequence (sample_bank55 (const_target TARGET_HALTED 0))
    (sample_table 128) 3 4 rfl (fun _ _ _ => rfl) rfl (by decide) (by decide) (by decide)).2.1
    (idle _)
  constructor
  · rw [hA]
    decide
  · rw [hB]
    decide

/-! ### The keyed erase of DeviceB -/

theorem pac55xx_mark_all_some {P : Type} (n : Nat) :
    ∀ (bank : flash_bank P) (tbl : List flash_sector) (i : Nat),
      bank.sectors = some tbl → i + n ≤ tbl.length →
      pac55xx_mark_all bank i n
        = some { bank with sectors := some (tbl.mapIdx (mark_erased (i : Int) n)) } := by
  induction n with
  | zero =>
    intro bank tbl i hs _
    obtain ⟨t, ba, sz, ns, sec, dp⟩ := bank
    simp only at hs
    subst hs
    simp [pac55xx_mark_all, mark_erased_zero]
  | succ n ih =>
    intro bank tbl i hs hlen
    rw [pac55xx_mark_all]
    have hset : set_is_erased bank (i : Int)
        = some { bank with
            sectors := some (tbl.modify (fun s => { s with is_erased := 1 }) i) } := by
      unfold set_is_erased
      simp only [hs]
      rw [if_pos ⟨by omega, by simp only [Int.toNat_ofNat]; omega⟩]
      simp
    simp only [hset]
    have hrec := ih
      { bank with sectors := some (tbl.modify (fun s => { s with is_erased := 1 }) i) }
      (tbl.modify (fun s => { s with is_erased := 1 }) i) (i + 1) rfl
      (by rw [List.length_modify]; omega)
    rw [hrec]
    have e : (((i + 1 : Nat) : Int)) = (i : Int) + 1 := by push_cast; rfl
    have hm := mark_erased_step (i : Int) n tbl (by omega)
    simp only [Int.toNat_ofNat] at hm
    rw [e, hm]

theorem mark_erased_all (tbl : List flash_sector) (m : Nat) (h : tbl.length ≤ m) :
    tbl.mapIdx (mark_erased 0 m) = all_erased tbl := by
  apply List.ext_getElem?
  intro j
  rw [List.getElem?_mapIdx, all_erased, List.getElem?_map]
  by_cases hj : j < tbl.length
  · rw [List.getElem?_eq_getElem hj]
    simp only [Option.map_some', mark_erased]
    rw [if_pos ⟨by omega, by omega⟩]
  · rw [List.getElem?_eq_none (by omega)]
    rfl

theorem all_erased_idem (tbl : List flash_sector) : all_erased (all_erased tbl) = all_erased tbl := by
  simp [all_erased, List.map_map, Function.comp_def]

theorem all_erased_length (tbl : List flash_sector) : (all_erased tbl).length = tbl.length := by
  simp [all_erased]

theorem all_erased_getElem? (tbl : List flash_sector) (i : Nat) (s : flash_sector)
    (h : (all_erased tbl)[i]? = some s) : s.is_erased = 1 := by
  rw [all_erased, List.getElem?_map] at h
  cases hi : tbl[i]? with
  | none => simp [hi] at h
  | some s0 =>
    simp only [hi, Option.map_some', Option.some.injEq] at h
    rw [← h]

/-- The accesses of `pac55xx_erase_key` on a probed bank whose target answers
every access with OK and an idle status. -/
theorem pac55xx_erase_key_trace {P : Type} (bank : flash_bank P) (tbl : List flash_sector)
    (key : Nat) (hh : bank.target.state = TARGET_HALTED)
    (hw : ∀ l a v, bank.target.on_write l a v = ERROR_OK)
    (hr : ∀ l, (bank.target.on_read l PAC55XX_MEMSTATUS).1 = ERROR_OK ∧
      (bank.target.on_read l PAC55XX_MEMSTATUS).2 &&& 0x3 = 0)
    (hs : bank.sectors = some tbl) (hlen : 128 ≤ tbl.length) :
    pac55xx_erase_key bank key
      = some (ERROR_OK, { bank with
          target := { bank.target with
            log := bank.target.log ++
              [Access.write PAC55XX_MEMCTL_FLASHLOCK 0x43DF140A,
                Access.write PAC55XX_MEMCTL_FLASHERASE key,
                Access.read PAC55XX_MEMSTATUS,
                Access.write PAC55XX_MEMCTL_FLASHLOCK 0] },
          sectors := some (tbl.mapIdx (mark_erased 0 128)) }) := by
  unfold pac55xx_erase_key
  simp only
  have e1 : (target_write_u32 bank.target PAC55XX_MEMCTL_FLASHLOCK
      FLASH_LOCK_ALLOW_WRITE_ERASE_FLASH).1 = ERROR_OK := hw _ _ _
  have e2 : (target_write_u32 (target_write_u32 bank.target PAC55XX_MEMCTL_FLASHLOCK
      FLASH_LOCK_ALLOW_WRITE_ERASE_FLASH).2 PAC55XX_MEMCTL_FLASHERASE key).1 = ERROR_OK :=
    hw _ _ _
  have e3 := pac55xx_wait_idle_now (target_write_u32 (target_write_u32 bank.target
      PAC55XX_MEMCTL_FLASHLOCK FLASH_LOCK_ALLOW_WRITE_ERASE_FLASH).2
      PAC55XX_MEMCTL_FLASHERASE key).2 FLASH_ERASE_TIMEOUT (fun l => hr l)
  rw [if_neg (not_not.mpr hh), if_neg (not_not.mpr e1), if_neg (not_not.mpr e2), e3,
    if_neg (not_not.mpr rfl)]
  have hm := pac55xx_mark_all_some PAC55XX_NUM_FLASH_PAGES
    { bank with target := { (target_write_u32 (target_write_u32 bank.target
        PAC55XX_MEMCTL_FLASHLOCK FLASH_LOCK_ALLOW_WRITE_ERASE_FLASH).2
        PAC55XX_MEMCTL_FLASHERASE key).2 with
      log := (target_write_u32 (target_write_u32 bank.target
        PAC55XX_MEMCTL_FLASHLOCK FLASH_LOCK_ALLOW_WRITE_ERASE_FLASH).2
        PAC55XX_MEMCTL_FLASHERASE key).2.log ++ [Access.read PAC55XX_MEMSTATUS] } }
    tbl 0 hs (by simpa [PAC55XX_NUM_FLASH_PAGES] using hlen)
  simp only [hm]
  have e4 : (target_write_u32 { (target_write_u32 (target_write_u32 bank.target
        PAC55XX_MEMCTL_FLASHLOCK FLASH_LOCK_ALLOW_WRITE_ERASE_FLASH).2
        PAC55XX_MEMCTL_FLASHERASE key).2 with
      log := (target_write_u32 (target_write_u32 bank.target
        PAC55XX_MEMCTL_FLASHLOCK FLASH_LOCK_ALLOW_WRITE_ERASE_FLASH).2
        PAC55XX_MEMCTL_FLASHERASE key).2.log ++ [Access.read PAC55XX_MEMSTATUS] }
      PAC55XX_MEMCTL_FLASHLOCK 0).1 = ERROR_OK := hw _ _ _
  rw [if_neg (not_not.mpr e4)]
  simp [target_write_u32, FLASH_LOCK_ALLOW_WRITE_ERASE_FLASH, PAC55XX_NUM_FLASH_PAGES]

/-- C16. Keyed erase command sequence of DeviceB: on a probed bank whose halted
target answers every access with OK and an idle status,
`pac55xx_erase_key(bank, key)` returns `ERROR_OK` and its accesses are exactly
`FLASHLOCK (0x400D0008) <- 0x43DF140A`, `FLASHERASE (0x400D0020) <- key`, one
status poll, `FLASHLOCK <- 0`; the `mass_erase` command passes
`key = 0x856E0E70`, so its accesses contain exactly one FLASHERASE write, with
that value, and all sectors end up marked erased. -/
theorem keyed_erase_command_sequence {P : Type} (bank : flash_bank P)
    (tbl : List flash_sector) (hh : bank.target.state = TARGET_HALTED)
    (hw : ∀ l a v, bank.target.on_write l a v = ERROR_OK)
    (hr : ∀ l, (bank.target.on_read l PAC55XX_MEMSTATUS).1 = ERROR_OK ∧
      (bank.target.on_read l PAC55XX_MEMSTATUS).2 &&& 0x3 = 0)
    (hs : bank.sectors = some tbl) (hlen : tbl.length = 128) :
    (∀ key, pac55xx_erase_key bank key
      = some (ERROR_OK, { bank with
          target := { bank.target with
            log := bank.target.log ++
              [Access.write 0x400D0008 0x43DF140A, Access.write 0x400D0020 key,
                Access.read 0x400D0004, Access.write 0x400D0008 0] },
          sectors := some (all_erased tbl) })) ∧
    (∀ CMD_ARGC, 1 ≤ CMD_ARGC → bank.num_sectors = 128 →
      pac55xx_handle_mass_erase_command CMD_ARGC ERROR_OK bank
        = some (ERROR_OK, { bank with
            target := { bank.target with
              log := bank.target.log ++
                [Access.write 0x400D0008 0x43DF140A, Access.write 0x400D0020 0x856E0E70,
                  Access.read 0x400D0004, Access.write 0x400D0008 0] },
            sectors := some (all_erased tbl) })) := by
  have hk : ∀ key, pac55xx_erase_key bank key
      = some (ERROR_OK, { bank with
          target := { bank.target with
            log := bank.target.log ++
              [Access.write 0x400D0008 0x43DF140A, Access.write 0x400D0020 key,
                Access.read 0x400D0004, Access.write 0x400D0008 0] },
          sectors := some (all_erased tbl) }) := by
    intro key
    rw [pac55xx_erase_key_trace bank tbl key hh hw hr hs (by omega),
      mark_erased_all tbl 128 (by omega)]
    rfl
  refine ⟨hk, ?_⟩
  intro argc hargc hns
  unfold pac55xx_handle_mass_erase_command
  rw [if_neg (by omega), if_neg (not_not.mpr rfl), hk]
  simp only [if_pos]
  have hm := pac55xx_mark_all_some 128
    { bank with
      target := { bank.target with
        log := bank.target.log ++
          [Access.write 0x400D0008 0x43DF140A,
            Access.write 0x400D0020 FLASH_START_MASS_PROG_INFO_ERASE,
            Access.read 0x400D0004, Access.write 0x400D0008 0] },
      sectors := some (all_erased tbl) }
    (all_erased tbl) 0 rfl (by rw [all_erased_length]; omega)
  have hn : bank.num_sectors.toNat = 128 := by rw [hns]; rfl
  simp only [hn, hm]
  rw [show ((0 : Nat) : Int) = 0 from rfl,
    mark_erased_all (all_erased tbl) 128 (by rw [all_erased_length]; omega), all_erased_idem]
  rfl

set_option maxRecDepth 8192 in
/-- Instance of `keyed_erase_command_sequence`: the `mass_erase` command on a
probed bank, all sectors of unknown state before. -/
theorem keyed_erase_command_sequence_witness :
    (pac55xx_handle_mass_erase_command 1 ERROR_OK
        (sample_bank55 (const_target TARGET_HALTED 0))).map
      (fun r => (r.1, r.2.target.log, r.2.sectors.map (List.map (fun s => s.is_erased))))
      = some (ERROR_OK,
          [Access.write 0x400D0008 0x43DF140A, Access.write 0x400D0020 0x856E0E70,
            Access.read 0x400D0004, Access.write 0x400D0008 0],
          some (List.replicate 128 1)) := by
  rw [(keyed_erase_command_sequence (sample_bank55 (const_target TARGET_HALTED 0))
    (sample_table 128) rfl (fun _ _ _ => rfl)
    (fun _ => ⟨rfl, by show (0 : Nat) &&& 0x3 = 0; decide⟩) rfl (by decide)).2 1
    (by decide) rfl]
  decide

/-- C15. Mass-erase marks all (DeviceB): on a probed bank with a halted target,
for every command key, `pac55xx_erase_key` returns; if it returns OK then
every one of the 128 sectors has `is_erased == 1` afterwards, whatever its
value before; if it returns non-OK then either no sector has changed and the
failing step is not the final re-lock write, or the failing step is the final
write `FLASHLOCK <- 0`, the call returns its status and all 128 sectors
already have `is_erased == 1`. -/
theorem mass_erase_marks_all {P : Type} (bank : flash_bank P) (tbl : List flash_sector)
    (key : Nat) (hh : bank.target.state = TARGET_HALTED)
    (hs : bank.sectors = some tbl) (hlen : tbl.length = 128) :
    ∃ r b1, pac55xx_erase_key bank key = some (r, b1) ∧
      (r = ERROR_OK → b1.sectors = some (all_erased tbl) ∧
        ∀ i, i < 128 → ((all_erased tbl)[i]?).map (fun s => s.is_erased) = some 1) ∧
      (r ≠ ERROR_OK →
        (b1.sectors = some tbl ∧
          b1.target.log.getLast? ≠ some (Access.write PAC55XX_MEMCTL_FLASHLOCK 0)) ∨
        (b1.sectors = some (all_erased tbl) ∧
          ∃ pre, b1.target.log = pre ++ [Access.write PAC55XX_MEMCTL_FLASHLOCK 0] ∧
            bank.target.on_write pre PAC55XX_MEMCTL_FLASHLOCK 0 = r)) := by
  have hall : ∀ i, i < 128 → ((all_erased tbl)[i]?).map (fun s => s.is_erased) = some 1 := by
    intro i hi
    have hi2 : i < (all_erased tbl).length := by rw [all_erased_length]; omega
    rw [List.getElem?_eq_getElem hi2]
    simp only [Option.map_some', Option.some.injEq]
    exact all_erased_getElem? tbl i _ (List.getElem?_eq_getElem hi2)
  unfold pac55xx_erase_key
  simp only
  rw [if_neg (not_not.mpr hh)]
  split_ifs with h1 h2 h3
  · refine ⟨_, _, rfl, fun h => absurd h h1, fun _ => Or.inl ⟨hs, ?_⟩⟩
    simp [target_write_u32, FLASH_LOCK_ALLOW_WRITE_ERASE_FLASH]
  · refine ⟨_, _, rfl, fun h => absurd h h2, fun _ => Or.inl ⟨hs, ?_⟩⟩
    simp [target_write_u32, PAC55XX_MEMCTL_FLASHERASE, PAC55XX_MEMCTL_FLASHLOCK]
  · refine ⟨_, _, rfl, fun h => absurd h h3, fun _ => Or.inl ⟨hs, ?_⟩⟩
    obtain ⟨seg, hlog, _, _⟩ := pac55xx_wait_end (target_write_u32 (target_write_u32
      bank.target PAC55XX_MEMCTL_FLASHLOCK FLASH_LOCK_ALLOW_WRITE_ERASE_FLASH).2
      PAC55XX_MEMCTL_FLASHERASE key).2 FLASH_ERASE_TIMEOUT
    simp only [hlog]
    simp
  · have hm := pac55xx_mark_all_some PAC55XX_NUM_FLASH_PAGES
      { bank with target := (pac55xx_wait_status_busy (target_write_u32 (target_write_u32
        bank.target PAC55XX_MEMCTL_FLASHLOCK FLASH_LOCK_ALLOW_WRITE_ERASE_FLASH).2
        PAC55XX_MEMCTL_FLASHERASE key).2 FLASH_ERASE_TIMEOUT).2 }
      tbl 0 hs (by simp [PAC55XX_NUM_FLASH_PAGES, hlen])
    simp only [hm]
    have hma : tbl.mapIdx (mark_erased ((0 : Nat) : Int) PAC55XX_NUM_FLASH_PAGES)
        = all_erased tbl :=
      mark_erased_all tbl 128 (by omega)
    rw [hma]
    split_ifs with h4
    · refine ⟨_, _, rfl, fun h => absurd h h4, fun _ => Or.inr ⟨rfl, _, rfl, ?_⟩⟩
      obtain ⟨seg, hlog, _, _⟩ := pac55xx_wait_end (target_write_u32 (target_write_u32
        bank.target PAC55XX_MEMCTL_FLASHLOCK FLASH_LOCK_ALLOW_WRITE_ERASE_FLASH).2
        PAC55XX_MEMCTL_FLASHERASE key).2 FLASH_ERASE_TIMEOUT
      have hon : (pac55xx_wait_status_busy (target_write_u32 (target_write_u32
          bank.target PAC55XX_MEMCTL_FLASHLOCK FLASH_LOCK_ALLOW_WRITE_ERASE_FLASH).2
          PAC55XX_MEMCTL_FLASHERASE key).2 FLASH_ERASE_TIMEOUT).2.on_write
          = bank.target.on_write := by
        rw [hlog]
        rfl
      exact (congrFun (congrFun (congrFun hon _) _) _).symm
    · exact ⟨_, _, rfl, fun _ => ⟨rfl, hall⟩, fun h => absurd rfl h⟩

set_option maxRecDepth 8192 in
/-- Instance of `mass_erase_marks_all`: the mass-erase key on a probed bank
whose target refuses only the write `FLASHLOCK <- 0`. -/
theorem mass_erase_marks_all_witness :
    ∃ r b1, pac55xx_erase_key
        (sample_bank55 (failing_value_target PAC55XX_MEMCTL_FLASHLOCK 0 0)) 0x856E0E70
        = some (r, b1) ∧
      (r = ERROR_OK → b1.sectors = some (all_erased (sample_table 128)) ∧
        ∀ i, i < 128 →
          ((all_erased (sample_table 128))[i]?).map (fun s => s.is_erased) = some 1) ∧
      (r ≠ ERROR_OK →
        (b1.sectors = some (sample_table 128) ∧
          b1.target.log.getLast? ≠ some (Access.write PAC55XX_MEMCTL_FLASHLOCK 0)) ∨
        (b1.sectors = some (all_erased (sample_table 128)) ∧
          ∃ pre, b1.target.log = pre ++ [Access.write PAC55XX_MEMCTL_FLASHLOCK 0] ∧
            (sample_bank55 (failing_value_target PAC55XX_MEMCTL_FLASHLOCK 0 0)).target.on_write
              pre PAC55XX_MEMCTL_FLASHLOCK 0 = r)) :=
  mass_erase_marks_all (sample_bank55 (failing_value_target PAC55XX_MEMCTL_FLASHLOCK 0 0))
    (sample_table 128) 0x856E0E70 rfl rfl (by decide)

set_option maxRecDepth 8192 in
/-- On a probed DeviceB bank whose target refuses only the final write
`FLASHLOCK <- 0`, `pac55xx_erase_key` returns `ERROR_FAIL`, not OK, and yet the
`is_erased` flags of all 128 sectors have changed from -1 to 1. -/
theorem pac55xx_erase_key_marks_before_relock :
    (sample_bank55 (failing_value_target PAC55XX_MEMCTL_FLASHLOCK 0 0)).target.state
      = TARGET_HALTED ∧
    (sample_bank55 (failing_value_target PAC55XX_MEMCTL_FLASHLOCK 0 0)).sectors.map
      (List.map (fun s => s.is_erased)) = some (List.replicate 128 (-1)) ∧
    (pac55xx_erase_key (sample_bank55 (failing_value_target PAC55XX_MEMCTL_FLASHLOCK 0 0))
        0x856E0E70).map
      (fun r => (r.1, r.2.target.log, r.2.sectors.map (List.map (fun s => s.is_erased))))
      = some (ERROR_FAIL,
          [Access.write 0x400D0008 0x43DF140A, Access.write 0x400D0020 0x856E0E70,
            Access.read 0x400D0004, Access.write 0x400D0008 0],
          some (List.replicate 128 1)) ∧
    ERROR_FAIL ≠ ERROR_OK := by
  refine ⟨rfl, by decide, by decide, by decide⟩

/-! ### Trace shape and transport errors of the DeviceB write -/

theorem load_u32_ff (b : Nat → Nat) (pos : Nat) (h : ∀ j, b j = 0xFF) :
    load_u32 b pos = 0xFFFFFFFF := by
  simp [load_u32, h]

/-- C18. DeviceB write trace shape: on a halted target that answers every
access with OK and an idle status, `pac55xx_write(buffer, offset, count)`
returns `ERROR_OK` and its accesses are exactly `FLASHLOCK <- 0xD513B490`,
`MEMCTL (0x400D0000) <- 0x00720046`, `FLASHLOCK <- 0x43DF140A`; then
`R = ceil(((offset & 0xF) + count) / 16)` rows, the `j`-th row being four
word writes to `(offset & ~0xF) + 16j + {0,4,8,12}` (mod 2^32) followed by
one status poll; then one 1 ms sleep; then `FLASHLOCK <- 0`. With `count = 0`
an unaligned offset gives one all-0xFF row and an aligned offset gives none. -/
theorem pac55xx_write_trace_shape {P : Type} (buff0 : Nat → Nat) (bank : flash_bank P)
    (buffer : Nat → Nat) (offset count : Nat)
    (hh : bank.target.state = TARGET_HALTED)
    (hw : ∀ l a v, bank.target.on_write l a v = ERROR_OK)
    (hr : ∀ l, (bank.target.on_read l PAC55XX_MEMSTATUS).1 = ERROR_OK ∧
      (bank.target.on_read l PAC55XX_MEMSTATUS).2 &&& 0x3 = 0)
    (hc : count < 2 ^ 32) :
    (pac55xx_write buff0 bank buffer offset count).1 = ERROR_OK ∧
    (pac55xx_write buff0 bank buffer offset count).2.target.log
      = bank.target.log ++
          [Access.write 0x400D0008 0xD513B490, Access.write 0x400D0000 0x00720046,
            Access.write 0x400D0008 0x43DF140A] ++
          accesses_upto
            (pac55xx_row_accesses (offset &&& 0xFFFFFFF0) (row_stream buffer offset count))
            (((offset &&& 0xF) + count + 15) / 16) ++
          [Access.sleep 1, Access.write 0x400D0008 0] ∧
    ((offset &&& 0xF) + count ≤ 16 * (((offset &&& 0xF) + count + 15) / 16) ∧
      16 * (((offset &&& 0xF) + count + 15) / 16) < (offset &&& 0xF) + count + 16) ∧
    (∀ j, ∃ w0 w1 w2 w3,
      pac55xx_row_accesses (offset &&& 0xFFFFFFF0) (row_stream buffer offset count) j
        = [Access.write (((offset &&& 0xFFFFFFF0) + 16 * j) % 2 ^ 32) w0,
            Access.write (((offset &&& 0xFFFFFFF0) + 16 * j + 4) % 2 ^ 32) w1,
            Access.write (((offset &&& 0xFFFFFFF0) + 16 * j + 8) % 2 ^ 32) w2,
            Access.write (((offset &&& 0xFFFFFFF0) + 16 * j + 12) % 2 ^ 32) w3,
            Access.read 0x400D0004]) ∧
    (count = 0 → offset &&& 0xF ≠ 0 →
      (pac55xx_write buff0 bank buffer offset count).2.target.log
        = bank.target.log ++
            [Access.write 0x400D0008 0xD513B490, Access.write 0x400D0000 0x00720046,
              Access.write 0x400D0008 0x43DF140A,
              Access.write (offset &&& 0xFFFFFFF0) 0xFFFFFFFF,
              Access.write ((offset &&& 0xFFFFFFF0) + 4) 0xFFFFFFFF,
              Access.write ((offset &&& 0xFFFFFFF0) + 8) 0xFFFFFFFF,
              Access.write ((offset &&& 0xFFFFFFF0) + 12) 0xFFFFFFFF,
              Access.read 0x400D0004,
              Access.sleep 1, Access.write 0x400D0008 0]) ∧
    (count = 0 → offset &&& 0xF = 0 →
      (pac55xx_write buff0 bank buffer offset count).2.target.log
        = bank.target.log ++
            [Access.write 0x400D0008 0xD513B490, Access.write 0x400D0000 0x00720046,
              Access.write 0x400D0008 0x43DF140A,
              Access.sleep 1, Access.write 0x400D0008 0]) := by
  have ht := pac55xx_write_trace buff0 bank buffer offset count hh hw hr hc
  have hhead : (offset &&& 0xF) < 16 := by
    rw [and15_eq_mod]
    exact Nat.mod_lt _ (by decide)
  have ha0 : (offset &&& 0xFFFFFFF0) ≤ 0xFFFFFFF0 := Nat.and_le_right
  refine ⟨by rw [ht], by rw [ht]; rfl, ⟨by omega, by omega⟩, fun j => ⟨_, _, _, _, rfl⟩, ?_, ?_⟩
  · intro h0 hne
    subst h0
    have hR : ((offset &&& 0xF) + 0 + 15) / 16 = 1 := by omega
    have hff : ∀ j, row_stream buffer offset 0 j = 0xFF := by
      intro j
      unfold row_stream
      split_ifs <;> first | rfl | omega
    rw [ht, hR]
    simp only [accesses_upto, pac55xx_row_accesses, load_u32_ff _ _ hff]
    have e0 : ((offset &&& 0xFFFFFFF0) + 16 * 0) % 2 ^ 32 = (offset &&& 0xFFFFFFF0) := by
      apply Nat.mod_eq_of_lt
      omega
    have e4 : ((offset &&& 0xFFFFFFF0) + 16 * 0 + 4) % 2 ^ 32 = (offset &&& 0xFFFFFFF0) + 4 := by
      apply Nat.mod_eq_of_lt
      omega
    have e8 : ((offset &&& 0xFFFFFFF0) + 16 * 0 + 8) % 2 ^ 32 = (offset &&& 0xFFFFFFF0) + 8 := by
      apply Nat.mod_eq_of_lt
      omega
    have e12 : ((offset &&& 0xFFFFFFF0) + 16 * 0 + 12) % 2 ^ 32
        = (offset &&& 0xFFFFFFF0) + 12 := by
      apply Nat.mod_eq_of_lt
      omega
    rw [e0, e4, e8, e12]
    simp [PAC55XX_MEMCTL_FLASHLOCK, PAC55XX_MEMCTL, PAC55XX_MEMSTATUS]
  · intro h0 he
    subst h0
    have hR : ((offset &&& 0xF) + 0 + 15) / 16 = 0 := by omega
    rw [ht, hR]
    simp [accesses_upto, PAC55XX_MEMCTL_FLASHLOCK, PAC55XX_MEMCTL]

set_option maxRecDepth 8192 in
/-- Instance of `pac55xx_write_trace_shape`: 0x20 bytes `00 01 .. 1F` at offset
0x10 give two rows, at 0x10 and at 0x20, each followed by one status poll. -/
theorem pac55xx_write_trace_shape_witness :
    (pac55xx_write (fun _ => 0) (sample_bank55 (const_target TARGET_HALTED 0))
        (fun i => i) 0x10 0x20).1 = ERROR_OK ∧
    (pac55xx_write (fun _ => 0) (sample_bank55 (const_target TARGET_HALTED 0))
        (fun i => i) 0x10 0x20).2.target.log
      = [Access.write 0x400D0008 0xD513B490, Access.write 0x400D0000 0x00720046,
          Access.write 0x400D0008 0x43DF140A,
          Access.write 0x10 0x03020100, Access.write 0x14 0x07060504,
          Access.write 0x18 0x0B0A0908, Access.write 0x1C 0x0F0E0D0C,
          Access.read 0x400D0004,
          Access.write 0x20 0x13121110, Access.write 0x24 0x17161514,
          Access.write 0x28 0x1B1A1918, Access.write 0x2C 0x1F1E1D1C,
          Access.read 0x400D0004,
          Access.sleep 1, Access.write 0x400D0008 0] :=
  have h := pac55xx_write_trace_shape (fun _ => 0)
    (sample_bank55 (const_target TARGET_HALTED 0)) (fun i => i) 0x10 0x20 rfl
    (fun _ _ _ => rfl) (fun _ => ⟨rfl, by show (0 : Nat) &&& 0x3 = 0; decide⟩) (by decide)
  ⟨h.1, by rw [h.2.1]; decide⟩

set_option maxRecDepth 8192 in
/-- C12. Transport errors in the DeviceB write: on a halted target that refuses
every write to address 4, `pac55xx_write` of the one byte `0xAA` at offset 4
sends the data word to address 4, is answered `ERROR_FAIL`, and still issues
the remaining two data words, the status poll, the sleep and the re-lock, and
returns `ERROR_OK`; the status of a data-word write is not looked at. DeviceA
on the same target returns `ERROR_FAIL` and stops at the refused write. -/
theorem pac55xx_write_drops_data_write_status :
    (sample_bank55 (failing_write_target 4 0)).target.state = TARGET_HALTED ∧
    (failing_write_target 4 0).on_write
        [Access.write 0x400D0008 0xD513B490, Access.write 0x400D0000 0x00720046,
          Access.write 0x400D0008 0x43DF140A, Access.write 0 0xFFFFFFFF] 4 0xFFFFFFAA
      = ERROR_FAIL ∧
    ERROR_FAIL ≠ ERROR_OK ∧
    (pac55xx_write (fun _ => 0) (sample_bank55 (failing_write_target 4 0))
        (fun i => [0xAA].getD i 0) 4 1).1 = ERROR_OK ∧
    (pac55xx_write (fun _ => 0) (sample_bank55 (failing_write_target 4 0))
        (fun i => [0xAA].getD i 0) 4 1).2.target.log
      = [Access.write 0x400D0008 0xD513B490, Access.write 0x400D0000 0x00720046,
          Access.write 0x400D0008 0x43DF140A,
          Access.write 0 0xFFFFFFFF, Access.write 4 0xFFFFFFAA, Access.write 8 0xFFFFFFFF,
          Access.write 12 0xFFFFFFFF, Access.read 0x400D0004,
          Access.sleep 1, Access.write 0x400D0008 0] ∧
    (pac52xx_write (fun _ => true) (sample_bank52 (failing_write_target 4 0))
        (fun i => [0xAA, 0xFF, 0xFF, 0xFF].getD i 0) 4 4).map (fun r => (r.1, r.2.target.log))
      = some (ERROR_FAIL,
          [Access.write 0x40020000 0xAAAAAAAA, Access.write 4 0xFFFFFFAA]) := by
  refine ⟨rfl, by decide, by decide, by decide, by decide, by decide⟩

/-! ### Termination and cost of the status pollers -/

/-- Every run of the poll loop: `k <= N` (poll, sleep) pairs, each poll of
which succeeded with a busy value, then one last poll that decides the
result. -/
theorem wait_loop_run (addr : Nat) (busy : Nat → Bool) (N : Nat) :
    ∀ t : target, ∃ k, k ≤ N ∧
      (wait_loop addr busy t N).2
        = { t with log := t.log ++ poll_pairs addr k ++ [Access.read addr] } ∧
      (∀ i, i < k → (t.on_read (t.log ++ poll_pairs addr i) addr).1 = ERROR_OK ∧
        busy ((t.on_read (t.log ++ poll_pairs addr i) addr).2 % 2 ^ 32) = true) ∧
      poll_outcome t busy addr (t.log ++ poll_pairs addr k) k N (wait_loop addr busy t N).1 := by
  induction N with
  | zero =>
    intro t
    refine ⟨0, Nat.le_refl 0, ?_, fun i hi => absurd hi (Nat.not_lt_zero i), ?_⟩
    · unfold wait_loop
      simp only [target_read_u32, poll_pairs, List.append_nil]
      split_ifs <;> rfl
    · unfold wait_loop poll_outcome
      simp only [target_read_u32, poll_pairs, List.append_nil]
      by_cases h1 : (t.on_read t.log addr).1 = ERROR_OK
      · by_cases h2 : busy ((t.on_read t.log addr).2 % 2 ^ 32) = false
        · right; left
          rw [if_neg (not_not.mpr h1), if_pos h2]
          exact ⟨h1, h2, h1⟩
        · right; right
          rw [if_neg (not_not.mpr h1), if_neg h2]
          exact ⟨h1, by simpa using h2, trivial, rfl⟩
      · left
        rw [if_pos h1]
        exact ⟨h1, rfl⟩
  | succ N ih =>
    intro t
    by_cases h1 : (t.on_read t.log addr).1 = ERROR_OK
    · by_cases h2 : busy ((t.on_read t.log addr).2 % 2 ^ 32) = false
      · refine ⟨0, Nat.zero_le _, ?_, fun i hi => absurd hi (Nat.not_lt_zero i), ?_⟩
        · unfold wait_loop
          simp only [target_read_u32, poll_pairs, List.append_nil]
          rw [if_neg (not_not.mpr h1), if_pos h2]
        · unfold wait_loop poll_outcome
          simp only [target_read_u32, poll_pairs, List.append_nil]
          right; left
          rw [if_neg (not_not.mpr h1), if_pos h2]
          exact ⟨h1, h2, h1⟩
      · have h2t : busy ((t.on_read t.log addr).2 % 2 ^ 32) = true := by simpa using h2
        obtain ⟨k, hk, hlog, hpre, hout⟩ :=
          ih { t with log := t.log ++ [Access.read addr] ++ [Access.sleep 1] }
        have hval : wait_loop addr busy t (N + 1)
            = wait_loop addr busy
                { t with log := t.log ++ [Access.read addr] ++ [Access.sleep 1] } N := by
          conv => lhs; unfold wait_loop
          simp only [target_read_u32, alive_sleep]
          rw [if_neg (not_not.mpr h1), if_neg h2]
        refine ⟨k + 1, Nat.succ_le_succ hk, ?_, ?_, ?_⟩
        · rw [hval, hlog]
          simp [poll_pairs]
        · intro i hi
          cases i with
          | zero =>
            simp only [poll_pairs, List.append_nil]
            exact ⟨h1, h2t⟩
          | succ j =>
            have := hpre j (by omega)
            rw [poll_pairs_succ_append]
            exact this
        · rw [hval, poll_pairs_succ_append]
          unfold poll_outcome at hout ⊢
          rcases hout with h | h | h
          · exact Or.inl h
          · exact Or.inr (Or.inl h)
          · exact Or.inr (Or.inr ⟨h.1, h.2.1, by omega, h.2.2.2⟩)
    · refine ⟨0, Nat.zero_le _, ?_, fun i hi => absurd hi (Nat.not_lt_zero i), ?_⟩
      · unfold wait_loop
        simp only [target_read_u32, poll_pairs, List.append_nil]
        rw [if_pos h1]
      · unfold wait_loop poll_outcome
        simp only [target_read_u32, poll_pairs, List.append_nil]
        left
        rw [if_pos h1]
        exact ⟨h1, rfl⟩

/-- C24. The status poller always terminates: for every integer timeout `N`
(`N <= 0` included) and every behaviour of the target (any values, any
success or failure of each read), `pac52xx_wait_status_busy` and
`pac55xx_wait_status_busy` return after `k` (status read, 1 ms sleep) pairs
and one more status read, for some `k <= max(N, 0)`: at most `max(N, 0) + 1`
reads and at most `max(N, 0)` sleeps. Every read of the `k` pairs succeeded
with a busy value; a failed read is therefore the last access, and its status
is the result. -/
theorem wait_status_busy_terminates (t : target) (N : Int) :
    ((N.toNat : Int) = max N 0) ∧
    (∃ k, k ≤ N.toNat ∧
      (pac52xx_wait_status_busy t N).2
        = { t with log := t.log ++ poll_pairs PAC5XXX_MEMCTL_FLASHSTATUS k
              ++ [Access.read PAC5XXX_MEMCTL_FLASHSTATUS] } ∧
      (∀ i, i < k →
        (t.on_read (t.log ++ poll_pairs PAC5XXX_MEMCTL_FLASHSTATUS i)
          PAC5XXX_MEMCTL_FLASHSTATUS).1 = ERROR_OK ∧
        busy52 ((t.on_read (t.log ++ poll_pairs PAC5XXX_MEMCTL_FLASHSTATUS i)
          PAC5XXX_MEMCTL_FLASHSTATUS).2 % 2 ^ 32) = true) ∧
      poll_outcome t busy52 PAC5XXX_MEMCTL_FLASHSTATUS
        (t.log ++ poll_pairs PAC5XXX_MEMCTL_FLASHSTATUS k) k N.toNat
        (pac52xx_wait_status_busy t N).1) ∧
    (∃ k, k ≤ N.toNat ∧
      (pac55xx_wait_status_busy t N).2
        = { t with log := t.log ++ poll_pairs PAC55XX_MEMSTATUS k
              ++ [Access.read PAC55XX_MEMSTATUS] } ∧
      (∀ i, i < k →
        (t.on_read (t.log ++ poll_pairs PAC55XX_MEMSTATUS i) PAC55XX_MEMSTATUS).1 = ERROR_OK ∧
        busy55 ((t.on_read (t.log ++ poll_pairs PAC55XX_MEMSTATUS i)
          PAC55XX_MEMSTATUS).2 % 2 ^ 32) = true) ∧
      poll_outcome t busy55 PAC55XX_MEMSTATUS
        (t.log ++ poll_pairs PAC55XX_MEMSTATUS k) k N.toNat
        (pac55xx_wait_status_busy t N).1) ∧
    (∀ addr k, count_reads (poll_pairs addr k ++ [Access.read addr]) = k + 1 ∧
      count_sleeps (poll_pairs addr k ++ [Access.read addr]) = k) := by
  refine ⟨Int.toNat_eq_max N, ?_, ?_, ?_⟩
  · rw [pac52xx_wait_status_busy, pac52xx_wait_loop_eq]
    exact wait_loop_run _ _ _ t
  · rw [pac55xx_wait_status_busy, pac55xx_wait_loop_eq]
    exact wait_loop_run _ _ _ t
  · intro addr k
    rw [count_reads_append, count_sleeps_append, count_reads_poll_pairs,
      count_sleeps_poll_pairs]
    exact ⟨rfl, rfl⟩

/-! ### Clock and PLL initialisation of DeviceB -/

theorem and_bit24_mod (x : Nat) : (x % 2 ^ 32) &&& 0x01000000 = x &&& 0x01000000 := by
  have h : x % 2 ^ 32 = x &&& (2 ^ 32 - 1) := (Nat.and_pow_two_sub_one_eq_mod x 32).symm
  have e : (2 ^ 32 - 1) &&& 0x01000000 = 0x01000000 := by decide
  rw [h, Nat.and_assoc, e]

/-- The PLL wait when the lock bit is clear on the first `m` reads and set on
the next one, with fuel for `m + 1` reads. -/
theorem pac55xx_pll_wait_locked (m : Nat) : ∀ (t : target) (fuel : Nat), m < fuel →
    (∀ i, i < m →
      (t.on_read (t.log ++ List.replicate i (Access.read PAC55XX_CCSPLLCTL))
        PAC55XX_CCSPLLCTL).2 &&& 0x01000000 = 0) →
    (t.on_read (t.log ++ List.replicate m (Access.read PAC55XX_CCSPLLCTL))
        PAC55XX_CCSPLLCTL).2 &&& 0x01000000 ≠ 0 →
    pac55xx_pll_wait t fuel
      = some { t with
          log := t.log ++ List.replicate (m + 1) (Access.read PAC55XX_CCSPLLCTL) } := by
  induction m with
  | zero =>
    intro t fuel hf _ hl
    obtain ⟨f, rfl⟩ : ∃ f, fuel = f + 1 := ⟨fuel - 1, by omega⟩
    simp only [List.replicate, List.append_nil] at hl
    rw [pac55xx_pll_wait]
    simp only [target_read_u32, and_bit24_mod]
    rw [if_neg hl]
    rfl
  | succ m ih =>
    intro t fuel hf hn hl
    obtain ⟨f, rfl⟩ : ∃ f, fuel = f + 1 := ⟨fuel - 1, by omega⟩
    have h0 := hn 0 (Nat.succ_pos m)
    simp only [List.replicate, List.append_nil] at h0
    rw [pac55xx_pll_wait]
    simp only [target_read_u32, and_bit24_mod]
    rw [if_pos h0]
    have hrec := ih { t with log := t.log ++ [Access.read PAC55XX_CCSPLLCTL] } f (by omega)
      (fun i hi => by
        have := hn (i + 1) (by omega)
        simpa [List.replicate_succ, List.append_assoc] using this)
      (by simpa [List.replicate_succ, List.append_assoc] using hl)
    rw [hrec]
    simp [List.replicate_succ, List.append_assoc]

theorem writes_ok_append (t : target) (l1 : List Access) :
    ∀ (base l2 : List Access), writes_ok t base l1 → writes_ok t (base ++ l1) l2 →
      writes_ok t base (l1 ++ l2) := by
  induction l1 with
  | nil =>
    intro base l2 _ h2
    simpa using h2
  | cons a l1 ih =>
    intro base l2 h1 h2
    simp only [List.cons_append, writes_ok] at h1 ⊢
    refine ⟨h1.1, ih _ _ h1.2 ?_⟩
    simpa [List.append_assoc] using h2

theorem writes_ok_reads (t : target) (addr : Nat) (m : Nat) :
    ∀ base, writes_ok t base (List.replicate m (Access.read addr)) := by
  induction m with
  | zero => intro base; trivial
  | succ m ih =>
    intro base
    rw [List.replicate_succ]
    exact ⟨trivial, ih _⟩

theorem writes_ok_congr (t t2 : target) (h : t2.on_write = t.on_write) (seg : List Access) :
    ∀ base, writes_ok t2 base seg → writes_ok t base seg := by
  induction seg with
  | nil => intro base _; trivial
  | cons a seg ih =>
    intro base hw
    refine ⟨?_, ih _ hw.2⟩
    have h1 := hw.1
    cases a with
    | write addr v => rw [← h]; exact h1
    | read addr => trivial
    | sleep ms => trivial

/-- The four checked writes that end `pac55xx_init`, from the target `t3` the
PLL wait leaves. -/
theorem pac55xx_init_tail (t3 : target) :
    ∃ r pre a v,
      (let w4 := target_write_u32 t3 PAC55XX_CCSCTL 0x0100F115
       if w4.1 ≠ ERROR_OK then some (w4.1, w4.2) else
       let w5 := target_write_u32 w4.2 PAC55XX_FLASH_LOCK 0xD513B490
       if w5.1 ≠ ERROR_OK then some (w5.1, w5.2) else
       let w6 := target_write_u32 w5.2 PAC55XX_MEMCTL 0x00720046
       if w6.1 ≠ ERROR_OK then some (w6.1, w6.2) else
       let w7 := target_write_u32 w6.2 PAC55XX_FLASH_LOCK 0x00000000
       if w7.1 ≠ ERROR_OK then some (w7.1, w7.2) else
       some (ERROR_OK, w7.2)) = some r ∧
      r.2 = { t3 with log := t3.log ++ pre ++ [Access.write a v] } ∧
      pre ++ [Access.write a v] <+:
        [Access.write 0x400D0400 0x0100F115, Access.write 0x400D0008 0xD513B490,
          Access.write 0x400D0000 0x00720046, Access.write 0x400D0008 0] ∧
      writes_ok t3 t3.log pre ∧
      r.1 = t3.on_write (t3.log ++ pre) a v := by
  simp only
  by_cases e4 : (target_write_u32 t3 PAC55XX_CCSCTL 0x0100F115).1 = ERROR_OK
  · rw [if_neg (not_not.mpr e4)]
    by_cases e5 : (target_write_u32 (target_write_u32 t3 PAC55XX_CCSCTL 0x0100F115).2
        PAC55XX_FLASH_LOCK 0xD513B490).1 = ERROR_OK
    · rw [if_neg (not_not.mpr e5)]
      by_cases e6 : (target_write_u32 (target_write_u32 (target_write_u32 t3 PAC55XX_CCSCTL
          0x0100F115).2 PAC55XX_FLASH_LOCK 0xD513B490).2 PAC55XX_MEMCTL 0x00720046).1
          = ERROR_OK
      · rw [if_neg (not_not.mpr e6)]
        have hres : ∀ x : Int × target, x.1 = (target_write_u32 (target_write_u32
            (target_write_u32 (target_write_u32 t3 PAC55XX_CCSCTL 0x0100F115).2
              PAC55XX_FLASH_LOCK 0xD513B490).2 PAC55XX_MEMCTL 0x00720046).2
            PAC55XX_FLASH_LOCK 0x00000000).1 →
            x.2 = (target_write_u32 (target_write_u32
            (target_write_u32 (target_write_u32 t3 PAC55XX_CCSCTL 0x0100F115).2
              PAC55XX_FLASH_LOCK 0xD513B490).2 PAC55XX_MEMCTL 0x00720046).2
            PAC55XX_FLASH_LOCK 0x00000000).2 →
            x.2 = { t3 with log := t3.log ++
                [Access.write 0x400D0400 0x0100F115, Access.write 0x400D0008 0xD513B490,
                  Access.write 0x400D0000 0x00720046] ++ [Access.write 0x400D0008 0] } ∧
            [Access.write 0x400D0400 0x0100F115, Access.write 0x400D0008 0xD513B490,
                Access.write 0x400D0000 0x00720046] ++ [Access.write 0x400D0008 0] <+:
              [Access.write 0x400D0400 0x0100F115, Access.write 0x400D0008 0xD513B490,
                Access.write 0x400D0000 0x00720046, Access.write 0x400D0008 0] ∧
            writes_ok t3 t3.log [Access.write 0x400D0400 0x0100F115,
              Access.write 0x400D0008 0xD513B490, Access.write 0x400D0000 0x00720046] ∧
            x.1 = t3.on_write (t3.log ++ [Access.write 0x400D0400 0x0100F115,
              Access.write 0x400D0008 0xD513B490, Access.write 0x400D0000 0x00720046])
              0x400D0008 0 := by
          intro x h1 h2
          refine ⟨?_, ⟨[], rfl⟩, ⟨e4, ?_, ?_, trivial⟩, ?_⟩
          · rw [h2]
            simp [target_write_u32, PAC55XX_CCSCTL, PAC55XX_FLASH_LOCK, PAC55XX_MEMCTL]
          · simpa [target_write_u32, PAC55XX_CCSCTL, PAC55XX_FLASH_LOCK, PAC55XX_MEMCTL]
              using e5
          · simpa [target_write_u32, PAC55XX_CCSCTL, PAC55XX_FLASH_LOCK, PAC55XX_MEMCTL]
              using e6
          · rw [h1]
            simp [target_write_u32, PAC55XX_CCSCTL, PAC55XX_FLASH_LOCK, PAC55XX_MEMCTL]
        split_ifs with e7
        · obtain ⟨a, b, c, d⟩ := hres _ rfl rfl
          exact ⟨_, _, _, _, rfl, a, b, c, d⟩
        · obtain ⟨a, b, c, d⟩ := hres (ERROR_OK, _) (not_not.mp e7).symm rfl
          exact ⟨_, _, _, _, rfl, a, b, c, d⟩
      · rw [if_pos e6]
        refine ⟨_, [Access.write 0x400D0400 0x0100F115, Access.write 0x400D0008 0xD513B490],
          0x400D0000, 0x00720046, rfl, ?_, ⟨[Access.write 0x400D0008 0], rfl⟩,
          ⟨e4, ?_, trivial⟩, ?_⟩
        · simp [target_write_u32, PAC55XX_CCSCTL, PAC55XX_FLASH_LOCK, PAC55XX_MEMCTL]
        · simpa [target_write_u32, PAC55XX_CCSCTL, PAC55XX_FLASH_LOCK, PAC55XX_MEMCTL]
            using e5
        · simp [target_write_u32, PAC55XX_CCSCTL, PAC55XX_FLASH_LOCK, PAC55XX_MEMCTL]
    · rw [if_pos e5]
      refine ⟨_, [Access.write 0x400D0400 0x0100F115], 0x400D0008, 0xD513B490, rfl, ?_,
        ⟨[Access.write 0x400D0000 0x00720046, Access.write 0x400D0008 0], rfl⟩,
        ⟨e4, trivial⟩, ?_⟩
      · simp [target_write_u32, PAC55XX_CCSCTL, PAC55XX_FLASH_LOCK]
      · simp [target_write_u32, PAC55XX_CCSCTL, PAC55XX_FLASH_LOCK]
  · rw [if_pos e4]
    refine ⟨_, [], 0x400D0400, 0x0100F115, rfl, ?_,
      ⟨[Access.write 0x400D0008 0xD513B490, Access.write 0x400D0000 0x00720046,
        Access.write 0x400D0008 0], rfl⟩, trivial, ?_⟩
    · simp [target_write_u32, PAC55XX_CCSCTL]
    · simp [target_write_u32, PAC55XX_CCSCTL]

/-- C21. DeviceB clock/PLL init sequence: when the PLL lock bit (bit 24 of the
value read from CCSPLLCTL) is first seen set on the `m`-th read (`m >= 1`),
`pac55xx_init` returns; if every write succeeds it returns `ERROR_OK` and its
accesses are exactly `CCSCTL (0x400D0400) <- 0x0000F105`,
`CCSPLLCTL (0x400D0404) <- 0x00012C45`, `m` reads of CCSPLLCTL,
`CCSCTL <- 0x0100F115`, `FLASHLOCK (0x400D0008) <- 0xD513B490`,
`MEMCTL (0x400D0000) <- 0x00720046`, `FLASHLOCK <- 0`. In every case its
accesses are a prefix of that list that ends with a write, every write before
that last one succeeded, and the result is the status of that last write: a
failing write is the last access and its error is returned. -/
theorem pac55xx_init_sequence (t : target) (m fuel : Nat) (hm : 1 ≤ m) (hfuel : m ≤ fuel)
    (hnot : ∀ i, i + 1 < m →
      (t.on_read (t.log ++ [Access.write 0x400D0400 0x0000F105,
          Access.write 0x400D0404 0x00012C45] ++ List.replicate i (Access.read 0x400D0404))
        0x400D0404).2 &&& 0x01000000 = 0)
    (hlock : (t.on_read (t.log ++ [Access.write 0x400D0400 0x0000F105,
          Access.write 0x400D0404 0x00012C45] ++
            List.replicate (m - 1) (Access.read 0x400D0404))
        0x400D0404).2 &&& 0x01000000 ≠ 0) :
    ((∀ l a v, t.on_write l a v = ERROR_OK) →
      pac55xx_init fuel t
        = some (ERROR_OK, { t with log := t.log ++ pac55xx_init_accesses m })) ∧
    (∃ r pre a v, pac55xx_init fuel t = some r ∧
      r.2 = { t with log := t.log ++ pre ++ [Access.write a v] } ∧
      pre ++ [Access.write a v] <+: pac55xx_init_accesses m ∧
      writes_ok t t.log pre ∧
      r.1 = t.on_write (t.log ++ pre) a v) := by
  obtain ⟨k, rfl⟩ : ∃ k, m = k + 1 := ⟨m - 1, by omega⟩
  have hp := pac55xx_pll_wait_locked k
    (target_write_u32 (target_write_u32 t PAC55XX_CCSCTL 0x0000F105).2
      PAC55XX_CCSPLLCTL 0x00012C45).2 fuel (by omega)
    (fun i hi => by
      have := hnot i (by omega)
      simpa [target_write_u32, List.append_assoc, PAC55XX_CCSCTL, PAC55XX_CCSPLLCTL] using this)
    (by simpa [target_write_u32, List.append_assoc, PAC55XX_CCSCTL, PAC55XX_CCSPLLCTL]
      using hlock)
  constructor
  · intro hw
    unfold pac55xx_init
    simp only
    have e1 : (target_write_u32 t PAC55XX_CCSCTL 0x0000F105).1 = ERROR_OK := hw _ _ _
    have e2 : (target_write_u32 (target_write_u32 t PAC55XX_CCSCTL 0x0000F105).2
        PAC55XX_CCSPLLCTL 0x00012C45).1 = ERROR_OK := hw _ _ _
    rw [if_neg (not_not.mpr e1), if_neg (not_not.mpr e2), hp]
    simp only
    simp only [target_write_u32, hw, ne_eq, not_true_eq_false, if_false]
    simp [pac55xx_init_accesses, PAC55XX_CCSCTL, PAC55XX_CCSPLLCTL, PAC55XX_FLASH_LOCK,
      PAC55XX_MEMCTL, List.append_assoc]
  · unfold pac55xx_init
    simp only
    by_cases e1 : (target_write_u32 t PAC55XX_CCSCTL 0x0000F105).1 = ERROR_OK
    · rw [if_neg (not_not.mpr e1)]
      by_cases e2 : (target_write_u32 (target_write_u32 t PAC55XX_CCSCTL 0x0000F105).2
          PAC55XX_CCSPLLCTL 0x00012C45).1 = ERROR_OK
      · rw [if_neg (not_not.mpr e2), hp]
        simp only
        obtain ⟨r, pre, a, v, hr, hlog, ⟨rest, hrest⟩, hok, hres⟩ := pac55xx_init_tail
          { (target_write_u32 (target_write_u32 t PAC55XX_CCSCTL 0x0000F105).2
              PAC55XX_CCSPLLCTL 0x00012C45).2 with
            log := (target_write_u32 (target_write_u32 t PAC55XX_CCSCTL 0x0000F105).2
              PAC55XX_CCSPLLCTL 0x00012C45).2.log ++
                List.replicate (k + 1) (Access.read PAC55XX_CCSPLLCTL) }
        refine ⟨r, [Access.write 0x400D0400 0x0000F105, Access.write 0x400D0404 0x00012C45] ++
          List.replicate (k + 1) (Access.read 0x400D0404) ++ pre, a, v, hr, ?_, ?_, ?_, ?_⟩
        · rw [hlog]
          simp [target_write_u32, PAC55XX_CCSCTL, PAC55XX_CCSPLLCTL, List.append_assoc]
        · refine ⟨rest, ?_⟩
          rw [pac55xx_init_accesses, ← hrest]
          simp [List.append_assoc]
        · apply writes_ok_append
          · apply writes_ok_append
            · refine ⟨e1, ?_, trivial⟩
              simpa [target_write_u32, PAC55XX_CCSCTL, PAC55XX_CCSPLLCTL] using e2
            · exact writes_ok_reads _ _ _ _
          · have hok2 := writes_ok_congr t _ (by rfl) pre _ hok
            simpa [target_write_u32, PAC55XX_CCSCTL, PAC55XX_CCSPLLCTL, List.append_assoc]
              using hok2
        · rw [hres]
          simp [target_write_u32, PAC55XX_CCSCTL, PAC55XX_CCSPLLCTL, List.append_assoc]
      · rw [if_pos e2]
        refine ⟨_, [Access.write 0x400D0400 0x0000F105], 0x400D0404, 0x00012C45, rfl, ?_, ?_,
          ?_, ?_⟩
        · simp [target_write_u32, PAC55XX_CCSCTL, PAC55XX_CCSPLLCTL]
        · exact ⟨_, by simp [pac55xx_init_accesses]; rfl⟩
        · exact ⟨e1, trivial⟩
        · simp [target_write_u32, PAC55XX_CCSCTL, PAC55XX_CCSPLLCTL]
    · rw [if_pos e1]
      refine ⟨_, [], 0x400D0400, 0x0000F105, rfl, ?_, ?_, trivial, ?_⟩
      · simp [target_write_u32, PAC55XX_CCSCTL]
      · exact ⟨_, by simp [pac55xx_init_accesses]; rfl⟩
      · simp [target_write_u32, PAC55XX_CCSCTL]

/-- Instance of `pac55xx_init_sequence`: the lock bit appears on the third read
of CCSPLLCTL. -/
theorem pac55xx_init_sequence_witness :
    (pac55xx_init 5 (pll_target 2)).map (fun r => (r.1, r.2.log))
      = some (ERROR_OK,
          [Access.write 0x400D0400 0x0000F105, Access.write 0x400D0404 0x00012C45,
            Access.read 0x400D0404, Access.read 0x400D0404, Access.read 0x400D0404,
            Access.write 0x400D0400 0x0100F115, Access.write 0x400D0008 0xD513B490,
            Access.write 0x400D0000 0x00720046, Access.write 0x400D0008 0]) := by
  have h := (pac55xx_init_sequence (pll_target 2) 3 5 (by decide) (by decide)
    (fun i hi => by
      have hi2 : i < 2 := by omega
      interval_cases i <;> decide)
    (by decide)).1 (fun _ _ _ => rfl)
  rw [h]
  decide

/-! ### The timeout counter of the status pollers -/

theorem busy52_mod_u32 (x : Nat) : busy52 (x % 2 ^ 32) = busy52 x := by
  rw [busy52_mod, busy52_iff]

theorem busy55_mod_u32 (x : Nat) : busy55 (x % 2 ^ 32) = busy55 x := by
  rw [busy55_mod, busy55]

/-- The poll loop with timeout `N` on a target whose first `N` samples are
busy: it reads sample `N + 1` and that sample decides the result. -/
theorem wait_loop_counter (addr : Nat) (busy : Nat → Bool) (t : target) (N : Nat)
    (s : Nat → Nat)
    (hr : ∀ i, i ≤ N → t.on_read (t.log ++ poll_pairs addr i) addr = (ERROR_OK, s i))
    (hb : ∀ i, i < N → busy (s i % 2 ^ 32) = true) :
    wait_loop addr busy t N
      = (if busy (s N % 2 ^ 32) = true then ERROR_FAIL else ERROR_OK,
          { t with log := t.log ++ poll_pairs addr N ++ [Access.read addr] }) := by
  by_cases h : busy (s N % 2 ^ 32) = true
  · rw [if_pos h]
    apply wait_loop_stuck addr busy N t s hr
    intro i hi
    rcases Nat.lt_or_eq_of_le hi with h1 | h1
    · exact hb i h1
    · rw [h1]; exact h
  · rw [if_neg h]
    exact wait_loop_idle_at addr busy N t N s (Nat.le_refl N) hr hb (by simpa using h)

/-- C22. Timeout counting: `wait_status_busy(bank, N)` tests its counter at
every non-idle sample and decrements it after the test, so `N` non-idle
samples are tolerated: when the first `N` samples are busy the poller makes
`N` (read, sleep) pairs and reads sample `N + 1`, returning `ERROR_FAIL` if
that one is busy too and `ERROR_OK` if it is idle. On a stuck-busy status it
returns `ERROR_FAIL` upon reading the `(N+1)`-th non-idle sample: `N + 1`
status reads and `N` sleeps, for every `N` (so for every `N >= 1`). Stated for `pac52xx_wait_status_busy` (busy: PERASE
and WRITE both set) and `pac55xx_wait_status_busy` (busy: a bit of `0x3`
set). -/
theorem wait_status_busy_counter (t : target) (N : Nat) (s : Nat → Nat) :
    ((∀ i, i ≤ N →
        t.on_read (t.log ++ poll_pairs PAC5XXX_MEMCTL_FLASHSTATUS i) PAC5XXX_MEMCTL_FLASHSTATUS
          = (ERROR_OK, s i)) →
      (∀ i, i < N → s i &&& PAC5XXX_MEMCTL_FLASHSTATUS_PERASE ≠ 0 ∧
        s i &&& PAC5XXX_MEMCTL_FLASHSTATUS_WRITE ≠ 0) →
      pac52xx_wait_status_busy t (N : Int)
        = (if s N &&& PAC5XXX_MEMCTL_FLASHSTATUS_PERASE ≠ 0 ∧
              s N &&& PAC5XXX_MEMCTL_FLASHSTATUS_WRITE ≠ 0 then ERROR_FAIL else ERROR_OK,
            { t with log := t.log ++ poll_pairs PAC5XXX_MEMCTL_FLASHSTATUS N
                ++ [Access.read PAC5XXX_MEMCTL_FLASHSTATUS] })) ∧
    ((∀ i, i ≤ N →
        t.on_read (t.log ++ poll_pairs PAC55XX_MEMSTATUS i) PAC55XX_MEMSTATUS
          = (ERROR_OK, s i)) →
      (∀ i, i < N → s i &&& 0x3 ≠ 0) →
      pac55xx_wait_status_busy t (N : Int)
        = (if s N &&& 0x3 ≠ 0 then ERROR_FAIL else ERROR_OK,
            { t with log := t.log ++ poll_pairs PAC55XX_MEMSTATUS N
                ++ [Access.read PAC55XX_MEMSTATUS] })) ∧
    (∀ addr, count_reads (poll_pairs addr N ++ [Access.read addr]) = N + 1 ∧
      count_sleeps (poll_pairs addr N ++ [Access.read addr]) = N ∧
      count_reads (poll_pairs addr N ++ [Access.read addr]) ≠ N) := by
  have hb52 : ∀ x : Nat, busy52 (x % 2 ^ 32) = true ↔
      (x &&& PAC5XXX_MEMCTL_FLASHSTATUS_PERASE ≠ 0 ∧
        x &&& PAC5XXX_MEMCTL_FLASHSTATUS_WRITE ≠ 0) := by
    intro x
    rw [busy52_mod_u32]
    simp only [busy52, Bool.and_eq_true, decide_eq_true_eq]
  have hb55 : ∀ x : Nat, busy55 (x % 2 ^ 32) = true ↔ x &&& 0x3 ≠ 0 := by
    intro x
    rw [busy55_mod_u32]
    simp only [busy55, decide_eq_true_eq]
  refine ⟨?_, ?_, ?_⟩
  · intro hr hb
    rw [pac52xx_wait_status_busy, Int.toNat_ofNat, pac52xx_wait_loop_eq,
      wait_loop_counter _ _ t N s hr (fun i hi => (hb52 _).mpr (hb i hi))]
    simp only [hb52]
  · intro hr hb
    rw [pac55xx_wait_status_busy, Int.toNat_ofNat, pac55xx_wait_loop_eq,
      wait_loop_counter _ _ t N s hr (fun i hi => (hb55 _).mpr (hb i hi))]
    simp only [hb55]
  · intro addr
    have h1 : count_reads (poll_pairs addr N ++ [Access.read addr]) = N + 1 := by
      rw [count_reads_append, count_reads_poll_pairs]; rfl
    have h2 : count_sleeps (poll_pairs addr N ++ [Access.read addr]) = N := by
      rw [count_sleeps_append, count_sleeps_poll_pairs]; rfl
    exact ⟨h1, h2, by omega⟩

/-- Instance of `wait_status_busy_counter`: timeout 2 on a status stuck at
`0x3`; three reads, two sleeps. -/
theorem wait_status_busy_counter_witness :
    (pac52xx_wait_status_busy (const_target TARGET_HALTED 3) ((2 : Nat) : Int)).1 = ERROR_FAIL ∧
    (pac52xx_wait_status_busy (const_target TARGET_HALTED 3) ((2 : Nat) : Int)).2.log
      = [Access.read 0x40020004, Access.sleep 1, Access.read 0x40020004, Access.sleep 1,
          Access.read 0x40020004] ∧
    (pac55xx_wait_status_busy (const_target TARGET_HALTED 3) ((2 : Nat) : Int)).1 = ERROR_FAIL ∧
    (pac55xx_wait_status_busy (const_target TARGET_HALTED 3) ((2 : Nat) : Int)).2.log
      = [Access.read 0x400D0004, Access.sleep 1, Access.read 0x400D0004, Access.sleep 1,
          Access.read 0x400D0004] := by
  have h := wait_status_busy_counter (const_target TARGET_HALTED 3) 2 (fun _ => 3)
  have hA := h.1 (fun _ _ => rfl) (fun _ _ =>
    ⟨by show (3 : Nat) &&& PAC5XXX_MEMCTL_FLASHSTATUS_PERASE ≠ 0; decide,
      by show (3 : Nat) &&& PAC5XXX_MEMCTL_FLASHSTATUS_WRITE ≠ 0; decide⟩)
  have hB := h.2.1 (fun _ _ => rfl) (fun _ _ => by show (3 : Nat) &&& 0x3 ≠ 0; decide)
  refine ⟨?_, ?_, ?_, ?_⟩
  · rw [hA]; decide
  · rw [hA]; decide
  · rw [hB]; decide
  · rw [hB]; decide

/-- With timeout 1 on a status stuck busy, both pollers make two status reads,
not one, before they return `ERROR_FAIL`: the first busy sample only
decrements the counter. -/
theorem wait_status_busy_reads_once_more :
    (pac52xx_wait_status_busy (const_target TARGET_HALTED 3) 1).1 = ERROR_FAIL ∧
    (pac52xx_wait_status_busy (const_target TARGET_HALTED 3) 1).2.log
      = [Access.read 0x40020004, Access.sleep 1, Access.read 0x40020004] ∧
    count_reads (pac52xx_wait_status_busy (const_target TARGET_HALTED 3) 1).2.log = 2 ∧
    (pac55xx_wait_status_busy (const_target TARGET_HALTED 1) 1).1 = ERROR_FAIL ∧
    (pac55xx_wait_status_busy (const_target TARGET_HALTED 1) 1).2.log
      = [Access.read 0x400D0004, Access.sleep 1, Access.read 0x400D0004] ∧
    count_reads (pac55xx_wait_status_busy (const_target TARGET_HALTED 1) 1).2.log = 2 := by
  refine ⟨by decide, by decide, by decide, by decide, by decide, by decide⟩

/-! ### Timed-out operations of DeviceB -/

theorem reg_value_no_write (addr : Nat) (seg : List Access) :
    ∀ init, (∀ a, a ∈ seg → ∀ v, a ≠ Access.write addr v) → reg_value addr init seg = init := by
  induction seg with
  | nil => intro init _; rfl
  | cons x seg ih =>
    intro init h
    have hx := h x (List.mem_cons_self _ _)
    have hrest := ih init (fun a ha => h a (List.mem_cons_of_mem _ ha))
    cases x with
    | write a1 v =>
      have hne : a1 ≠ addr := fun e => hx v (by rw [e])
      simp only [reg_value, List.foldl_cons, if_neg hne] at hrest ⊢
      exact hrest
    | read a1 =>
      simp only [reg_value, List.foldl_cons] at hrest ⊢
      exact hrest
    | sleep ms =>
      simp only [reg_value, List.foldl_cons] at hrest ⊢
      exact hrest

/-- After a call that left the controller unlocked, a register that holds the
last value written to FLASHLOCK holds the arming key. -/
theorem left_unlocked_reg (log0 log1 : List Access) (init : Nat)
    (h : left_unlocked log0 log1) :
    reg_value PAC55XX_MEMCTL_FLASHLOCK init log1 = 0x43DF140A := by
  obtain ⟨seg1, seg2, hlog, hno⟩ := h
  rw [hlog, reg_value_append, reg_value_no_write _ seg2 _ hno, reg_value_concat_write]
  rfl

theorem concat_inj (pre l : List Access) (x y : Access) (h : pre ++ [x] = l ++ [y]) :
    pre = l ∧ x = y := by
  have := List.append_inj' h rfl
  exact ⟨this.1, by simpa using this.2⟩

/-- A failing status read that the target answered with OK is a timeout. -/
theorem timeout_of_step (t : target) (busy : Nat → Bool) (pre : List Access) (addr : Nat)
    (c : Int) (h : step_failed t busy pre (Access.read addr) c)
    (hok : (t.on_read pre addr).1 = ERROR_OK) :
    c = ERROR_FAIL ∧ busy ((t.on_read pre addr).2 % 2 ^ 32) = true := by
  simp only [step_failed] at h
  rcases h with h | h
  · exact absurd (h.1.symm.trans hok) h.2
  · exact ⟨h.2.2, h.2.1⟩

/-- An early return of the per-page loop comes after the lock key was written
and before anything else is written to the lock register. -/
theorem erase_loop_unlocked {P : Type} (lock key page ereg ekey status : Nat)
    (wait : target → Int × target) (hp : page ≠ lock) (he : ereg ≠ lock)
    (hw : ∀ t, ∃ seg, (wait t).2 = { t with log := t.log ++ seg } ∧
      ∀ a, a ∈ seg → a = Access.read status ∨ a = Access.sleep 1) (n : Nat) :
    ∀ (bank b1 : flash_bank P) (i : Int) (c : Int),
      erase_loop lock key page ereg ekey wait bank i n = some (Sum.inl (c, b1)) →
      ∃ seg1 seg2, b1.target.log = bank.target.log ++ seg1 ++ [Access.write lock key] ++ seg2 ∧
        ∀ a, a ∈ seg2 → ∀ v, a ≠ Access.write lock v := by
  induction n with
  | zero =>
    intro bank b1 i c h
    simp [erase_loop] at h
  | succ n ih =>
    intro bank b1 i c h
    rw [erase_loop] at h
    simp only at h
    split_ifs at h with h1 h2 h3 h4
    · simp only [Option.some.injEq, Sum.inl.injEq, Prod.mk.injEq] at h
      rw [← h.2]
      refine ⟨[], [], by simp [target_write_u32], fun a ha => absurd ha (List.not_mem_nil a)⟩
    · simp only [Option.some.injEq, Sum.inl.injEq, Prod.mk.injEq] at h
      rw [← h.2]
      refine ⟨[], [Access.write page (int_to_u32 i)], by simp [target_write_u32], ?_⟩
      intro a ha v
      rw [List.mem_singleton.mp ha]
      intro e
      exact hp (Access.write.inj e).1
    · simp only [Option.some.injEq, Sum.inl.injEq, Prod.mk.injEq] at h
      rw [← h.2]
      refine ⟨[], [Access.write page (int_to_u32 i), Access.write ereg ekey],
        by simp [target_write_u32], ?_⟩
      intro a ha v
      simp only [List.mem_cons, List.mem_singleton, List.not_mem_nil, or_false] at ha
      rcases ha with ha | ha
      · rw [ha]; intro e; exact hp (Access.write.inj e).1
      · rw [ha]; intro e; exact he (Access.write.inj e).1
    · simp only [Option.some.injEq, Sum.inl.injEq, Prod.mk.injEq] at h
      rw [← h.2]
      obtain ⟨seg, hseg, hmem⟩ := hw (target_write_u32 (target_write_u32
        (target_write_u32 bank.target lock key).2 page (int_to_u32 i)).2 ereg ekey).2
      refine ⟨[], [Access.write page (int_to_u32 i), Access.write ereg ekey] ++ seg, ?_, ?_⟩
      · simp only [hseg]
        simp [target_write_u32]
      · intro a ha v
        rcases List.mem_append.mp ha with ha | ha
        · simp only [List.mem_cons, List.mem_singleton, List.not_mem_nil, or_false] at ha
          rcases ha with ha | ha
          · rw [ha]; intro e; exact hp (Access.write.inj e).1
          · rw [ha]; intro e; exact he (Access.write.inj e).1
        · rcases hmem a ha with ha | ha
          · rw [ha]; intro e; cases e
          · rw [ha]; intro e; cases e
    · split at h
      · simp at h
      · rename_i bank1 hset
        obtain ⟨tbl, hs, hi0, hlt, hb1⟩ := set_is_erased_eq _ _ _ hset
        obtain ⟨seg1, seg2, hlog, hno⟩ := ih bank1 b1 (i + 1) c h
        obtain ⟨seg, hseg, _⟩ := hw (target_write_u32 (target_write_u32
          (target_write_u32 bank.target lock key).2 page (int_to_u32 i)).2 ereg ekey).2
        have hl1 : bank1.target.log = bank.target.log ++
            ([Access.write lock key, Access.write page (int_to_u32 i), Access.write ereg ekey]
              ++ seg) := by
          rw [hb1]
          simp only [hseg]
          simp [target_write_u32]
        refine ⟨[Access.write lock key, Access.write page (int_to_u32 i),
          Access.write ereg ekey] ++ seg ++ seg1, seg2, ?_, hno⟩
        rw [hlog, hl1]
        simp only [List.append_assoc]

/-- The timed-out poll of `pac55xx_erase`. -/
theorem pac55xx_erase_timeout {P : Type} (bank b1 : flash_bank P) (c : Int)
    (pre : List Access) (first last : Int)
    (hh : bank.target.state = TARGET_HALTED)
    (hlog : b1.target.log = pre ++ [Access.read PAC55XX_MEMSTATUS])
    (hok : (bank.target.on_read pre PAC55XX_MEMSTATUS).1 = ERROR_OK)
    (h : pac55xx_erase bank first last = some (c, b1)) :
    c = ERROR_FAIL ∧
      busy55 ((bank.target.on_read pre PAC55XX_MEMSTATUS).2 % 2 ^ 32) = true ∧
      left_unlocked bank.target.log b1.target.log := by
  unfold pac55xx_erase at h
  rw [if_neg (not_not.mpr hh), pac55xx_erase_loop_eq] at h
  split at h
  · simp at h
  · rename_i r hr
    simp only [Option.some.injEq] at h
    subst h
    obtain ⟨m, _, _, hor, _, seg, a, hl, hfail⟩ := erase_loop_early _ _ _ _ _
      PAC55XX_MEMSTATUS busy55 _
      (fun t => by
        obtain ⟨seg, h1, _, h3⟩ := pac55xx_wait_end t FLASH_ERASE_TIMEOUT
        exact ⟨seg, h1, h3⟩) _ bank b1 first c hr
    rw [hlog] at hl
    obtain ⟨hpre, ha⟩ := concat_inj _ _ _ _ hl
    rw [← ha, ← hpre] at hfail
    have hu := erase_loop_unlocked _ _ _ _ _ PAC55XX_MEMSTATUS _
      (by decide) (by decide) (fun t => pac55xx_wait_log t FLASH_ERASE_TIMEOUT) _ bank b1
      first c hr
    obtain ⟨hc, hb⟩ := timeout_of_step _ _ _ _ _
      (show step_failed bank.target busy55 pre (Access.read PAC55XX_MEMSTATUS) c by
        simpa [step_failed, hor] using hfail) hok
    exact ⟨hc, hb, hu⟩
  · rename_i bm hr
    simp only at h
    split_ifs at h
    all_goals
      simp only [Option.some.injEq, Prod.mk.injEq] at h
      rw [← h.2] at hlog
      simp only [target_write_u32] at hlog
      have := (concat_inj _ _ _ _ hlog).2
      cases this

/-- The timed-out poll of `pac55xx_erase_key`. -/
theorem pac55xx_erase_key_timeout {P : Type} (bank b1 : flash_bank P) (c : Int)
    (pre : List Access) (key : Nat)
    (hh : bank.target.state = TARGET_HALTED)
    (hlog : b1.target.log = pre ++ [Access.read PAC55XX_MEMSTATUS])
    (hok : (bank.target.on_read pre PAC55XX_MEMSTATUS).1 = ERROR_OK)
    (h : pac55xx_erase_key bank key = some (c, b1)) :
    c = ERROR_FAIL ∧
      busy55 ((bank.target.on_read pre PAC55XX_MEMSTATUS).2 % 2 ^ 32) = true ∧
      left_unlocked bank.target.log b1.target.log := by
  unfold pac55xx_erase_key at h
  simp only at h
  rw [if_neg (not_not.mpr hh)] at h
  split_ifs at h with h1 h2 h3
  · simp only [Option.some.injEq, Prod.mk.injEq] at h
    rw [← h.2] at hlog
    simp only [target_write_u32] at hlog
    have := (concat_inj _ _ _ _ hlog).2
    cases this
  · simp only [Option.some.injEq, Prod.mk.injEq] at h
    rw [← h.2] at hlog
    simp only [target_write_u32] at hlog
    have := (concat_inj _ _ _ _ hlog).2
    cases this
  · simp only [Option.some.injEq, Prod.mk.injEq] at h
    obtain ⟨seg, hseg, hmem, hres⟩ := pac55xx_wait_end (target_write_u32 (target_write_u32
      bank.target PAC55XX_MEMCTL_FLASHLOCK FLASH_LOCK_ALLOW_WRITE_ERASE_FLASH).2
      PAC55XX_MEMCTL_FLASHERASE key).2 FLASH_ERASE_TIMEOUT
    rw [h.1] at hres h3
    rcases hres with hres | hres
    · exact absurd hres h3
    · have hb1 : b1.target.log = bank.target.log ++
          [Access.write PAC55XX_MEMCTL_FLASHLOCK FLASH_LOCK_ALLOW_WRITE_ERASE_FLASH,
            Access.write PAC55XX_MEMCTL_FLASHERASE key] ++ seg
            ++ [Access.read PAC55XX_MEMSTATUS] := by
        rw [← h.2]
        simp only [hseg]
        simp [target_write_u32]
      rw [hlog] at hb1
      obtain ⟨hpre, _⟩ := concat_inj _ _ _ _ hb1
      have hfail : step_failed bank.target busy55 pre (Access.read PAC55XX_MEMSTATUS) c := by
        rw [hpre]
        simpa [step_failed, target_write_u32, List.append_assoc] using hres
      obtain ⟨hc, hb⟩ := timeout_of_step _ _ _ _ _ hfail hok
      refine ⟨hc, hb, [], [Access.write PAC55XX_MEMCTL_FLASHERASE key] ++ seg
        ++ [Access.read PAC55XX_MEMSTATUS], ?_, ?_⟩
      · rw [hlog, hb1]
        simp [List.append_assoc]
      · intro a ha v
        simp only [List.mem_append, List.mem_singleton] at ha
        rcases ha with (ha | ha) | ha
        · rw [ha]; intro e
          have := (Access.write.inj e).1
          simp [PAC55XX_MEMCTL_FLASHERASE, PAC55XX_MEMCTL_FLASHLOCK] at this
        · rcases hmem a ha with ha | ha
          · rw [ha]; intro e; cases e
          · rw [ha]; intro e; cases e
        · rw [ha]; intro e; cases e
  · split at h
    · simp at h
    · split_ifs at h
      all_goals
        simp only [Option.some.injEq, Prod.mk.injEq] at h
        rw [← h.2] at hlog
        simp only [target_write_u32] at hlog
        have := (concat_inj _ _ _ _ hlog).2
        cases this

theorem writes_below_append (L : Nat) (l1 l2 : List Access) (h1 : writes_below L l1)
    (h2 : writes_below L l2) : writes_below L (l1 ++ l2) := by
  intro a ha
  rcases List.mem_append.mp ha with ha | ha
  · exact h1 a ha
  · exact h2 a ha

theorem writes_below_polls (L : Nat) (seg : List Access)
    (h : ∀ a, a ∈ seg → a = Access.read PAC55XX_MEMSTATUS ∨ a = Access.sleep 1) :
    writes_below L seg := by
  intro a ha
  rcases h a ha with h | h
  · exact Or.inl h
  · exact Or.inr (Or.inl h)

/-- A row sent to an address with 16 bytes of room below `L` writes below `L`
and advances the address by 16. -/
theorem pac55xx_write_row_below (t : target) (address : Nat) (b : Nat → Nat) (L : Nat)
    (hL : L < 2 ^ 32) (ha : address + 16 ≤ L) :
    ∃ rowseg, pac55xx_write_row t address b
        = ({ t with log := t.log ++ rowseg }, address + 16) ∧ writes_below L rowseg := by
  have e1 : (address + 4) % 2 ^ 32 = address + 4 := Nat.mod_eq_of_lt (by omega)
  have e2 : (address + 4 + 4) % 2 ^ 32 = address + 8 := Nat.mod_eq_of_lt (by omega)
  have e3 : (address + 8 + 4) % 2 ^ 32 = address + 12 := Nat.mod_eq_of_lt (by omega)
  have e4 : (address + 12 + 4) % 2 ^ 32 = address + 16 := Nat.mod_eq_of_lt (by omega)
  rw [pac55xx_write_row_eq, e1, e2, e3, e4]
  refine ⟨_, rfl, ?_⟩
  intro a hmem
  simp only [List.mem_cons, List.mem_singleton, List.not_mem_nil, or_false] at hmem
  rcases hmem with h | h | h | h
  all_goals
    right; right
    exact ⟨_, _, h, by omega⟩

/-- The byte loop of `pac55xx_write` when the bytes still to be written end
below `L`: every row goes below `L`; an early return is a failed poll. -/
theorem pac55xx_write_loop_below (L : Nat) (hL16 : L % 16 = 0) (hL : L < 2 ^ 32)
    (p_src : Nat → Nat) (n : Nat) :
    ∀ s : pac55xx_write_locals, s.address % 16 = 0 → s.buff_index < 16 →
      s.address + s.buff_index + n ≤ L →
      (∀ r, pac55xx_write_loop p_src n s = Except.error r →
        ∃ seg, r.2 = { s.target with
            log := s.target.log ++ seg ++ [Access.read PAC55XX_MEMSTATUS] } ∧
          writes_below L seg ∧
          step_failed s.target busy55 (s.target.log ++ seg) (Access.read PAC55XX_MEMSTATUS)
            r.1) ∧
      (∀ s1, pac55xx_write_loop p_src n s = Except.ok s1 →
        ∃ seg, s1.target = { s.target with log := s.target.log ++ seg } ∧
          writes_below L seg ∧ s1.address % 16 = 0 ∧ s1.buff_index < 16 ∧
          s1.address + s1.buff_index ≤ L) := by
  induction n with
  | zero =>
    intro s h16 hbi hle
    constructor
    · intro r h
      simp [pac55xx_write_loop] at h
    · intro s1 h
      simp only [pac55xx_write_loop, Except.ok.injEq] at h
      subst h
      exact ⟨[], by simp, fun a ha => absurd ha (List.not_mem_nil a), h16, hbi, by omega⟩
  | succ n ih =>
    intro s h16 hbi hle
    rw [pac55xx_write_loop]
    simp only
    by_cases hfull : (s.buff_index + 1) % 256 = 16
    · rw [if_pos hfull]
      have hb15 : s.buff_index = 15 := by omega
      obtain ⟨rowseg, hrow, hrowb⟩ := pac55xx_write_row_below s.target s.address
        (buff_set s.buff s.buff_index (p_src s.src_index)) L hL (by omega)
      rw [hrow]
      simp only
      obtain ⟨seg, hseg, hmem, hres⟩ := pac55xx_wait_end
        { s.target with log := s.target.log ++ rowseg } FLASH_WRITE_TIMEOUT
      by_cases hw : (pac55xx_wait_status_busy { s.target with log := s.target.log ++ rowseg }
          FLASH_WRITE_TIMEOUT).1 = ERROR_OK
      · rw [if_neg (not_not.mpr hw)]
        obtain ⟨ihe, iho⟩ := ih
          { target := (pac55xx_wait_status_busy
              { s.target with log := s.target.log ++ rowseg } FLASH_WRITE_TIMEOUT).2,
            buff := buff_set s.buff s.buff_index (p_src s.src_index), buff_index := 0,
            src_index := (s.src_index + 1) % 2 ^ 32, address := s.address + 16 }
          (by show (s.address + 16) % 16 = 0; omega) (by show (0 : Nat) < 16; omega)
          (by show s.address + 16 + 0 + n ≤ L; omega)
        have hsegb : writes_below L (rowseg ++ seg ++ [Access.read PAC55XX_MEMSTATUS]) :=
          writes_below_append _ _ _
            (writes_below_append _ _ _ hrowb (writes_below_polls _ _ hmem))
            (fun a ha => Or.inl (List.mem_singleton.mp ha))
        constructor
        · intro r h
          obtain ⟨seg2, h1, h2, h3⟩ := ihe r h
          refine ⟨rowseg ++ seg ++ [Access.read PAC55XX_MEMSTATUS] ++ seg2, ?_,
            writes_below_append _ _ _ hsegb h2, ?_⟩
          · rw [h1]
            simp only [hseg]
            simp [List.append_assoc]
          · simp only [hseg] at h3
            simpa [step_failed, List.append_assoc] using h3
        · intro s1 h
          obtain ⟨seg2, h1, h2, h3, h4, h5⟩ := iho s1 h
          refine ⟨rowseg ++ seg ++ [Access.read PAC55XX_MEMSTATUS] ++ seg2, ?_,
            writes_below_append _ _ _ hsegb h2, h3, h4, h5⟩
          rw [h1]
          simp only [hseg]
          simp [List.append_assoc]
      · rw [if_pos hw]
        constructor
        · intro r h
          simp only [Except.error.injEq] at h
          subst h
          rcases hres with hres | hres
          · exact absurd hres hw
          · refine ⟨rowseg ++ seg, ?_,
              writes_below_append _ _ _ hrowb (writes_below_polls _ _ hmem), ?_⟩
            · simp only [hseg]
              simp [List.append_assoc]
            · simpa [step_failed, List.append_assoc] using hres
        · intro s1 h
          simp at h
    · rw [if_neg hfull]
      obtain ⟨ihe, iho⟩ := ih
        { target := s.target, buff := buff_set s.buff s.buff_index (p_src s.src_index),
          buff_index := (s.buff_index + 1) % 256, src_index := (s.src_index + 1) % 2 ^ 32,
          address := s.address }
        h16 (by show (s.buff_index + 1) % 256 < 16; omega)
        (by show s.address + (s.buff_index + 1) % 256 + n ≤ L; omega)
      exact ⟨ihe, iho⟩

theorem writes_below_no_lock (seg : List Access) (h : writes_below 0x400D0000 seg) :
    ∀ a, a ∈ seg → ∀ v, a ≠ Access.write PAC55XX_MEMCTL_FLASHLOCK v := by
  intro a ha v e
  rcases h a ha with h1 | h1 | ⟨addr, x, h1, hlt⟩
  · rw [h1] at e; cases e
  · rw [h1] at e; cases e
  · rw [h1] at e
    have := (Access.write.inj e).1
    rw [this] at hlt
    simp [PAC55XX_MEMCTL_FLASHLOCK] at hlt

/-- The timed-out poll of `pac55xx_write`, for rows below the controller
registers. -/
theorem pac55xx_write_timeout {P : Type} (bank b1 : flash_bank P) (c : Int)
    (pre : List Access) (buff0 buffer : Nat → Nat) (offset count : Nat)
    (hh : bank.target.state = TARGET_HALTED)
    (hlog : b1.target.log = pre ++ [Access.read PAC55XX_MEMSTATUS])
    (hok : (bank.target.on_read pre PAC55XX_MEMSTATUS).1 = ERROR_OK)
    (hrange : offset + count ≤ 0x400D0000)
    (h : pac55xx_write buff0 bank buffer offset count = (c, b1)) :
    c = ERROR_FAIL ∧
      busy55 ((bank.target.on_read pre PAC55XX_MEMSTATUS).2 % 2 ^ 32) = true ∧
      left_unlocked bank.target.log b1.target.log := by
  have hbi : (offset &&& 0xF) < 16 := by
    rw [and15_eq_mod]
    exact Nat.mod_lt _ (by decide)
  have ha16 : (offset &&& 0xFFFFFFF0) % 16 = 0 := by
    have e : (0xFFFFFFF0 &&& 0xF : Nat) = 0 := by decide
    rw [← and15_eq_mod, Nat.and_assoc, e]
    exact Nat.and_zero _
  have hsum : (offset &&& 0xFFFFFFF0) + (offset &&& 0xF) + count ≤ 0x400D0000 := by
    have h1 : (offset &&& 0xFFFFFFF0) ≤ offset := Nat.and_le_left
    have h2 : (offset &&& 0xF) = offset % 16 := and15_eq_mod offset
    omega
  obtain ⟨he, ho⟩ := pac55xx_write_loop_below 0x400D0000 (by decide) (by decide) buffer count
    { target := (target_write_u32 (target_write_u32 (target_write_u32 bank.target
        PAC55XX_FLASH_LOCK 0xD513B490).2 PAC55XX_MEMCTL 0x00720046).2
        PAC55XX_MEMCTL_FLASHLOCK FLASH_LOCK_ALLOW_WRITE_ERASE_FLASH).2,
      buff := buff_fill buff0 0 (offset &&& 0xF), buff_index := offset &&& 0xF,
      src_index := 0, address := offset &&& 0xFFFFFFF0 } ha16 hbi hsum
  unfold pac55xx_write at h
  simp only at h
  rw [if_neg (not_not.mpr hh)] at h
  split_ifs at h with h1 h2 h3
  · rw [← (Prod.mk.inj h).2] at hlog
    simp only [target_write_u32] at hlog
    have := (concat_inj _ _ _ _ hlog).2
    cases this
  · rw [← (Prod.mk.inj h).2] at hlog
    simp only [target_write_u32] at hlog
    have := (concat_inj _ _ _ _ hlog).2
    cases this
  · rw [← (Prod.mk.inj h).2] at hlog
    simp only [target_write_u32] at hlog
    have := (concat_inj _ _ _ _ hlog).2
    cases this
  · split at h
    · rename_i r hr
      obtain ⟨seg, hr2, hbel, hfail⟩ := he r hr
      have hb1 : b1.target.log = bank.target.log ++
          [Access.write PAC55XX_FLASH_LOCK 0xD513B490, Access.write PAC55XX_MEMCTL 0x00720046,
            Access.write PAC55XX_MEMCTL_FLASHLOCK FLASH_LOCK_ALLOW_WRITE_ERASE_FLASH] ++ seg
            ++ [Access.read PAC55XX_MEMSTATUS] := by
        rw [← (Prod.mk.inj h).2]
        simp only [hr2]
        simp [target_write_u32]
      rw [hlog] at hb1
      obtain ⟨hpre, _⟩ := concat_inj _ _ _ _ hb1
      have hfail2 : step_failed bank.target busy55 pre (Access.read PAC55XX_MEMSTATUS) c := by
        rw [hpre, ← (Prod.mk.inj h).1]
        simpa [step_failed, target_write_u32, List.append_assoc] using hfail
      obtain ⟨hc, hb⟩ := timeout_of_step _ _ _ _ _ hfail2 hok
      refine ⟨hc, hb, [Access.write PAC55XX_FLASH_LOCK 0xD513B490,
        Access.write PAC55XX_MEMCTL 0x00720046], seg ++ [Access.read PAC55XX_MEMSTATUS], ?_, ?_⟩
      · rw [hlog, hb1]
        simp [List.append_assoc]
      · exact writes_below_no_lock _ (writes_below_append _ _ _ hbel
          (fun a ha => Or.inl (List.mem_singleton.mp ha)))
    · rename_i s1 hs
      obtain ⟨seg, hst, hbel, hs16, hsbi, hsle⟩ := ho s1 hs
      split at h
      · rename_i r hr
        split_ifs at hr with hb hw
        obtain ⟨rowseg, hrow, hrowb⟩ := pac55xx_write_row_below s1.target s1.address
          (buff_fill s1.buff s1.buff_index 16) 0x400D0000 (by decide) (by omega)
        rw [hrow] at hr hw
        simp only at hr hw
        obtain ⟨wseg, hwseg, hmem, hres⟩ := pac55xx_wait_end
          { s1.target with log := s1.target.log ++ rowseg } FLASH_WRITE_TIMEOUT
        rcases hres with hres | hres
        · exact absurd hres hw
        · have hr1 := Except.error.inj hr
          have hb1 : b1.target.log = bank.target.log ++
              [Access.write PAC55XX_FLASH_LOCK 0xD513B490,
                Access.write PAC55XX_MEMCTL 0x00720046,
                Access.write PAC55XX_MEMCTL_FLASHLOCK FLASH_LOCK_ALLOW_WRITE_ERASE_FLASH] ++
              (seg ++ rowseg ++ wseg) ++ [Access.read PAC55XX_MEMSTATUS] := by
            rw [← (Prod.mk.inj h).2, ← hr1]
            simp only [hwseg]
            simp only [hst]
            simp [target_write_u32, List.append_assoc]
          rw [hlog] at hb1
          obtain ⟨hpre, _⟩ := concat_inj _ _ _ _ hb1
          have hfail2 : step_failed bank.target busy55 pre (Access.read PAC55XX_MEMSTATUS)
              c := by
            rw [hpre, ← (Prod.mk.inj h).1, ← hr1]
            simp only [hst] at hres ⊢
            simpa [step_failed, target_write_u32, List.append_assoc] using hres
          obtain ⟨hc, hbz⟩ := timeout_of_step _ _ _ _ _ hfail2 hok
          refine ⟨hc, hbz, [Access.write PAC55XX_FLASH_LOCK 0xD513B490,
            Access.write PAC55XX_MEMCTL 0x00720046],
            (seg ++ rowseg ++ wseg) ++ [Access.read PAC55XX_MEMSTATUS], ?_, ?_⟩
          · rw [hlog, hb1]
            simp [List.append_assoc]
          · exact writes_below_no_lock _ (writes_below_append _ _ _
              (writes_below_append _ _ _ (writes_below_append _ _ _ hbel hrowb)
                (writes_below_polls _ _ hmem))
              (fun a ha => Or.inl (List.mem_singleton.mp ha)))
      · rename_i t ht
        split_ifs at h
        all_goals
          rw [← (Prod.mk.inj h).2] at hlog
          simp only [target_write_u32] at hlog
          have := (concat_inj _ _ _ _ hlog).2
          cases this

set_option maxRecDepth 8192 in
/-- Why the rows of a write are taken below the controller registers:
`pac55xx_write` does not check `offset`, and a row sent to `0x400D0000` (far
outside the 128 KiB bank) has the write `0x400D0008 <- 0` as its third data
word. Four zero bytes at offset `0x400D0008` on a halted target whose status is
stuck busy time out with `ERROR_FAIL`, with 0 as the last value written to
FLASHLOCK. -/
theorem pac55xx_write_timeout_over_registers :
    (sample_bank55 (const_target TARGET_HALTED 3)).target.state = TARGET_HALTED ∧
    (pac55xx_write (fun _ => 0) (sample_bank55 (const_target TARGET_HALTED 3))
        (fun _ => 0) 0x400D0008 4).1 = ERROR_FAIL ∧
    (pac55xx_write (fun _ => 0) (sample_bank55 (const_target TARGET_HALTED 3))
        (fun _ => 0) 0x400D0008 4).2.target.log
      = [Access.write 0x400D0008 0xD513B490, Access.write 0x400D0000 0x00720046,
          Access.write 0x400D0008 0x43DF140A,
          Access.write 0x400D0000 0xFFFFFFFF, Access.write 0x400D0004 0xFFFFFFFF,
          Access.write 0x400D0008 0, Access.write 0x400D000C 0xFFFFFFFF,
          Access.read 0x400D0004, Access.sleep 1, Access.read 0x400D0004, Access.sleep 1,
          Access.read 0x400D0004, Access.sleep 1, Access.read 0x400D0004, Access.sleep 1,
          Access.read 0x400D0004, Access.sleep 1, Access.read 0x400D0004] ∧
    reg_value 0x400D0008 0x43DF140A
      (pac55xx_write (fun _ => 0) (sample_bank55 (const_target TARGET_HALTED 3))
        (fun _ => 0) 0x400D0008 4).2.target.log = 0 := by
  refine ⟨rfl, by decide, by decide, by decide⟩

/-! ### Sector indexing -/

theorem loop_result_bank {P : Type} (x : (Int × flash_bank P) ⊕ flash_bank P) :
    (loop_result x).2 = loop_bank x := by
  cases x <;> rfl

/-- The per-page loop returns when `first` is not negative and `last` is inside
the table, whatever the order of `first` and `last`, and marks the first `m`
pages of the range. -/
theorem erase_loop_in_range {P : Type} (lock key page ereg ekey : Nat)
    (wait : target → Int × target) (bank : flash_bank P) (tbl : List flash_sector)
    (first last : Int) (hs : bank.sectors = some tbl) (h0 : 0 ≤ first)
    (hl : last < tbl.length) :
    ∃ r m, erase_loop lock key page ereg ekey wait bank first (last + 1 - first).toNat = some r ∧
      m ≤ (last + 1 - first).toNat ∧
      (loop_bank r).sectors = some (tbl.mapIdx (mark_erased first m)) := by
  have htot : ∃ r, erase_loop lock key page ereg ekey wait bank first
      (last + 1 - first).toNat = some r := by
    by_cases hfl : first ≤ last
    · exact erase_loop_total _ _ _ _ _ _ _ bank tbl first hs h0 (by omega)
    · have e : (last + 1 - first).toNat = 0 := by omega
      rw [e]
      exact ⟨_, rfl⟩
  obtain ⟨r, hr⟩ := htot
  obtain ⟨m, hm, _, _, hsec, _⟩ := erase_loop_sectors _ _ _ _ _ _ _ bank first r hr
  refine ⟨r, m, hr, hm, ?_⟩
  rw [hsec, hs]
  rfl

/-- C25. Sector indexing is in range: on a bank whose sector table has
`num_sectors` entries (32 for DeviceA, 128 for DeviceB), with `0 <= first` and
`last < num_sectors`, `pac52xx_erase` and `pac55xx_erase` return (the indexing
that fails outside the table is not reached) and the entries they store to are
the first `m` pages of `first..last` for some `m`, so every stored index `j`
has `first <= j <= last < num_sectors`; `pac55xx_erase_key`, which loops to the
constant 128, returns when `num_sectors` is 128 and stores to indices
`j < 128 = num_sectors` only. -/
theorem sector_indexing_in_range {P : Type} (bank : flash_bank P) (tbl : List flash_sector)
    (first last : Int) (hs : bank.sectors = some tbl)
    (hn : (tbl.length : Int) = bank.num_sectors) (h0 : 0 ≤ first)
    (hl : last < bank.num_sectors) :
    (∃ r b1 m, pac52xx_erase bank first last = some (r, b1) ∧
      m ≤ (last + 1 - first).toNat ∧ b1.sectors = some (tbl.mapIdx (mark_erased first m))) ∧
    (∃ r b1 m, pac55xx_erase bank first last = some (r, b1) ∧
      m ≤ (last + 1 - first).toNat ∧ b1.sectors = some (tbl.mapIdx (mark_erased first m))) ∧
    (bank.num_sectors = 128 → ∀ key, ∃ r b1, pac55xx_erase_key bank key = some (r, b1) ∧
      (b1.sectors = some tbl ∨ b1.sectors = some (tbl.mapIdx (mark_erased 0 128)))) ∧
    (∀ (m j : Nat) (s : flash_sector), m ≤ (last + 1 - first).toNat → tbl[j]? = some s →
      mark_erased first m j s ≠ s →
      first ≤ (j : Int) ∧ (j : Int) ≤ last ∧ (j : Int) < bank.num_sectors) ∧
    (∀ (j : Nat) (s : flash_sector), tbl[j]? = some s → mark_erased 0 128 j s ≠ s →
      j < 128) := by
  have hl2 : last < tbl.length := by omega
  refine ⟨?_, ?_, ?_, ?_, ?_⟩
  · unfold pac52xx_erase
    split_ifs
    · refine ⟨_, _, 0, rfl, Nat.zero_le _, ?_⟩
      rw [hs, mark_erased_zero]
    · obtain ⟨r, m, hr, hm, hsec⟩ := erase_loop_in_range PAC5XXX_MEMCTL_FLASHLOCK
        PAC5XXX_FLASH_LOCK_FLASHWRITE_KEY PAC5XXX_MEMCTL_FLASHPAGE PAC5XXX_MEMCTL_FLASHPERASE
        PAC5XXX_FLASH_LOCK_PERASE_KEY (fun t => pac52xx_wait_status_busy t FLASH_ERASE_TIMEOUT)
        bank tbl first last hs h0 hl2
      rw [pac52xx_erase_loop_eq, hr]
      refine ⟨(loop_result r).1, (loop_result r).2, m, rfl, hm, ?_⟩
      rw [loop_result_bank, hsec]
  · unfold pac55xx_erase
    split_ifs
    · refine ⟨_, _, 0, rfl, Nat.zero_le _, ?_⟩
      rw [hs, mark_erased_zero]
    · obtain ⟨r, m, hr, hm, hsec⟩ := erase_loop_in_range PAC55XX_MEMCTL_FLASHLOCK
        FLASH_LOCK_ALLOW_WRITE_ERASE_FLASH PAC55XX_MEMCTL_FLASHPAGE PAC55XX_MEMCTL_FLASHERASE
        FLASH_START_PAGE_ERASE (fun t => pac55xx_wait_status_busy t FLASH_ERASE_TIMEOUT)
        bank tbl first last hs h0 hl2
      rw [pac55xx_erase_loop_eq, hr]
      cases r with
      | inl x => exact ⟨x.1, x.2, m, rfl, hm, hsec⟩
      | inr b =>
        simp only
        split_ifs
        · exact ⟨_, _, m, rfl, hm, hsec⟩
        · exact ⟨_, _, m, rfl, hm, hsec⟩
  · intro h128 key
    unfold pac55xx_erase_key
    simp only
    split_ifs
    · exact ⟨_, _, rfl, Or.inl hs⟩
    · exact ⟨_, _, rfl, Or.inl hs⟩
    · exact ⟨_, _, rfl, Or.inl hs⟩
    · exact ⟨_, _, rfl, Or.inl hs⟩
    · have hm := pac55xx_mark_all_some PAC55XX_NUM_FLASH_PAGES
        { bank with target := (pac55xx_wait_status_busy (target_write_u32 (target_write_u32
          bank.target PAC55XX_MEMCTL_FLASHLOCK FLASH_LOCK_ALLOW_WRITE_ERASE_FLASH).2
          PAC55XX_MEMCTL_FLASHERASE key).2 FLASH_ERASE_TIMEOUT).2 }
        tbl 0 hs (by simp only [PAC55XX_NUM_FLASH_PAGES]; omega)
      simp only [hm]
      split_ifs
      · exact ⟨_, _, rfl, Or.inr rfl⟩
      · exact ⟨_, _, rfl, Or.inr rfl⟩
  · intro m j s hm hj hne
    have hjl : j < tbl.length := (List.getElem?_eq_some_iff.mp hj).1
    unfold mark_erased at hne
    by_cases hc : first ≤ (j : Int) ∧ (j : Int) < first + m
    · refine ⟨hc.1, by omega, by omega⟩
    · rw [if_neg hc] at hne
      exact absurd rfl hne
  · intro j s hj hne
    unfold mark_erased at hne
    by_cases hc : (0 : Int) ≤ (j : Int) ∧ (j : Int) < 0 + (128 : Nat)
    · omega
    · rw [if_neg hc] at hne
      exact absurd rfl hne

set_option maxRecDepth 8192 in
/-- Instance of `sector_indexing_in_range`: `erase(3, 5)` on probed banks of
both devices and the keyed erase on the DeviceB bank return. Outside the
precondition the indexing does leave the table: `erase(30, 32)` on the
32-entry table, and the keyed erase, which loops to 128, on a 32-entry
table. -/
theorem sector_indexing_in_range_witness :
    (∃ r b1 m, pac52xx_erase (sample_bank52 (const_target TARGET_HALTED 0)) 3 5 = some (r, b1) ∧
      m ≤ ((5 : Int) + 1 - 3).toNat ∧
      b1.sectors = some ((sample_table 32).mapIdx (mark_erased 3 m))) ∧
    (∃ r b1 m, pac55xx_erase (sample_bank55 (const_target TARGET_HALTED 0)) 3 5 = some (r, b1) ∧
      m ≤ ((5 : Int) + 1 - 3).toNat ∧
      b1.sectors = some ((sample_table 128).mapIdx (mark_erased 3 m))) ∧
    (∃ r b1, pac55xx_erase_key (sample_bank55 (const_target TARGET_HALTED 0)) 0x856E0E70
        = some (r, b1) ∧
      (b1.sectors = some (sample_table 128) ∨
        b1.sectors = some ((sample_table 128).mapIdx (mark_erased 0 128)))) ∧
    (pac52xx_erase (sample_bank52 (const_target TARGET_HALTED 0)) 30 32).isNone = true ∧
    (pac55xx_erase (sample_bank55 (const_target TARGET_HALTED 0)) 126 128).isNone = true ∧
    (pac55xx_erase_key (sample_bank52 (const_target TARGET_HALTED 0)) 0x856E0E70).isNone
      = true := by
  have hA := sector_indexing_in_range (sample_bank52 (const_target TARGET_HALTED 0))
    (sample_table 32) 3 5 rfl (by decide) (by decide) (by decide)
  have hB := sector_indexing_in_range (sample_bank55 (const_target TARGET_HALTED 0))
    (sample_table 128) 3 5 rfl (by decide) (by decide) (by decide)
  exact ⟨hA.1, hB.2.1, hB.2.2.1 rfl 0x856E0E70, by decide, by decide, by decide⟩

/-! ### From the behaviour of the target to the result of an operation -/

/-- The poll loop on a target that makes the poll end after `q` busy samples
with the result `res`. -/
theorem wait_loop_of_poll_ends (addr : Nat) (busy : Nat → Bool) (t : target) (N q : Nat)
    (res : Int) (h : poll_ends t busy addr N t.log q res) :
    wait_loop addr busy t N
      = (res, { t with log := t.log ++ poll_pairs addr q ++ [Access.read addr] }) := by
  obtain ⟨hq, hpre, hout⟩ := h
  obtain ⟨k, hk, hlog, hkpre, hkout⟩ := wait_loop_run addr busy N t
  have hkq : k = q := by
    rcases Nat.lt_trichotomy k q with hlt | heq | hgt
    · have hb := hpre k hlt
      unfold poll_outcome at hkout
      rcases hkout with h1 | h1 | h1
      · exact absurd hb.1 h1.1
      · rw [hb.2] at h1
        exact absurd h1.2.1 (by decide)
      · omega
    · exact heq
    · have hb := hkpre q hgt
      unfold poll_outcome at hout
      rcases hout with h1 | h1 | h1
      · exact absurd hb.1 h1.1
      · rw [hb.2] at h1
        exact absurd h1.2.1 (by decide)
      · omega
  subst hkq
  have hres : (wait_loop addr busy t N).1 = res := by
    unfold poll_outcome at hout hkout
    rcases hkout with h1 | h1 | h1
    · rcases hout with h2 | h2 | h2
      · rw [h1.2, h2.2]
      · exact absurd h2.1 h1.1
      · exact absurd h2.1 h1.1
    · rcases hout with h2 | h2 | h2
      · exact absurd h1.1 h2.1
      · rw [h1.2.2, h2.2.2]
      · rw [h1.2.1] at h2
        exact absurd h2.2.1 (by decide)
    · rcases hout with h2 | h2 | h2
      · exact absurd h1.1 h2.1
      · rw [h1.2.1] at h2
        exact absurd h2.2.1 (by decide)
      · rw [h1.2.2.2, h2.2.2.2]
  exact Prod.ext hres hlog

theorem poll_ends_not_ok (t : target) (busy : Nat → Bool) (addr N : Nat) (L : List Access)
    (q : Nat) (c : Int) (hc : c ≠ ERROR_OK) (h : poll_ends t busy addr N L q c) :
    step_failed t busy (L ++ poll_pairs addr q) (Access.read addr) c := by
  obtain ⟨_, _, hout⟩ := h
  unfold poll_outcome at hout
  simp only [step_failed]
  rcases hout with h1 | h1 | h1
  · exact Or.inl ⟨h1.2.symm, hc⟩
  · exact absurd h1.2.2 hc
  · exact Or.inr ⟨h1.1, h1.2.1, h1.2.2.2⟩

theorem wait_loop_of_poll_ends_at (addr : Nat) (busy : Nat → Bool) (t T : target)
    (L : List Access) (N q : Nat) (res : Int) (hr : T.on_read = t.on_read) (hl : T.log = L)
    (h : poll_ends t busy addr N L q res) :
    wait_loop addr busy T N
      = (res, { T with log := L ++ poll_pairs addr q ++ [Access.read addr] }) := by
  have h2 : poll_ends T busy addr N T.log q res := by
    unfold poll_ends poll_outcome at h ⊢
    rw [hr, hl]
    exact h
  rw [wait_loop_of_poll_ends addr busy T N q res h2, hl]

/-- The per-page loop on a target that lets the first `m` pages complete and
makes a step of the next page fail: the loop returns that step's code, its
accesses end with the failing step, and the `m` completed pages are marked. -/
theorem erase_loop_fails_at {P : Type} (lock key page ereg ekey status N : Nat)
    (busy : Nat → Bool) (wait : target → Int × target)
    (hwait : ∀ t, wait t = wait_loop status busy t N) (m : Nat) :
    ∀ (n : Nat) (bank : flash_bank P) (tbl : List flash_sector) (i : Int) (q : Nat → Nat)
      (c : Int) (seg : List Access),
      bank.sectors = some tbl → 0 ≤ i → i + m ≤ tbl.length → m < n →
      (∀ j, j < m → page_completes bank.target busy lock key page ereg ekey status N
        (bank.target.log ++ accesses_upto (page_run lock key page ereg ekey status i q) j)
        (int_to_u32 (i + j)) (q j)) →
      page_fails bank.target busy lock key page ereg ekey status N
        (bank.target.log ++ accesses_upto (page_run lock key page ereg ekey status i q) m)
        (int_to_u32 (i + m)) c seg →
      erase_loop lock key page ereg ekey wait bank i n
        = some (Sum.inl (c, { bank with
            target := { bank.target with
              log := bank.target.log ++
                accesses_upto (page_run lock key page ereg ekey status i q) m ++ seg },
            sectors := some (tbl.mapIdx (mark_erased i m)) })) := by
  induction m with
  | zero =>
    intro n bank tbl i q c seg hs hi hlen hn _ hfail
    obtain ⟨n, rfl⟩ : ∃ k, n = k + 1 := ⟨n - 1, by omega⟩
    obtain ⟨t, ba, sz, ns, sec, dp⟩ := bank
    simp only at hs
    subst hs
    simp only [accesses_upto, List.append_nil, Nat.cast_zero, add_zero] at hfail ⊢
    obtain ⟨hc, hcases⟩ := hfail
    rw [erase_loop]
    simp only [mark_erased_zero]
    rcases hcases with ⟨hseg, h1⟩ | ⟨hseg, h1, h2⟩ | ⟨hseg, h1, h2, h3⟩ | ⟨q0, hseg, h1, h2, h3, hp⟩
    · have e1 : (target_write_u32 t lock key).1 = c := h1
      rw [if_pos (by rw [e1]; exact hc), e1, hseg]
      rfl
    · have e1 : (target_write_u32 t lock key).1 = ERROR_OK := h1
      have e2 : (target_write_u32 (target_write_u32 t lock key).2 page (int_to_u32 i)).1 = c :=
        h2
      rw [if_neg (not_not.mpr e1), if_pos (by rw [e2]; exact hc), e2, hseg]
      simp [target_write_u32]
    · have e1 : (target_write_u32 t lock key).1 = ERROR_OK := h1
      have e2 : (target_write_u32 (target_write_u32 t lock key).2 page (int_to_u32 i)).1
          = ERROR_OK := h2
      have e3 : (target_write_u32 (target_write_u32 (target_write_u32 t lock key).2 page
          (int_to_u32 i)).2 ereg ekey).1 = c := by
        simpa [target_write_u32] using h3
      rw [if_neg (not_not.mpr e1), if_neg (not_not.mpr e2), if_pos (by rw [e3]; exact hc), e3,
        hseg]
      simp [target_write_u32]
    · have e1 : (target_write_u32 t lock key).1 = ERROR_OK := h1
      have e2 : (target_write_u32 (target_write_u32 t lock key).2 page (int_to_u32 i)).1
          = ERROR_OK := h2
      have e3 : (target_write_u32 (target_write_u32 (target_write_u32 t lock key).2 page
          (int_to_u32 i)).2 ereg ekey).1 = ERROR_OK := by
        simpa [target_write_u32] using h3
      have e4 := wait_loop_of_poll_ends_at status busy t
        (target_write_u32 (target_write_u32 (target_write_u32 t lock key).2 page
          (int_to_u32 i)).2 ereg ekey).2 _ N q0 c rfl (by simp [target_write_u32]) hp
      rw [if_neg (not_not.mpr e1), if_neg (not_not.mpr e2), if_neg (not_not.mpr e3), hwait, e4,
        if_pos hc, hseg]
      simp [target_write_u32]
  | succ m ih =>
    intro n bank tbl i q c seg hs hi hlen hn hok hfail
    obtain ⟨n, rfl⟩ : ∃ k, n = k + 1 := ⟨n - 1, by omega⟩
    have h0 := hok 0 (Nat.succ_pos m)
    simp only [accesses_upto, List.append_nil, Nat.cast_zero, add_zero] at h0
    obtain ⟨h1, h2, h3, hp⟩ := h0
    have e1 : (target_write_u32 bank.target lock key).1 = ERROR_OK := h1
    have e2 : (target_write_u32 (target_write_u32 bank.target lock key).2 page
        (int_to_u32 i)).1 = ERROR_OK := h2
    have e3 : (target_write_u32 (target_write_u32 (target_write_u32 bank.target lock key).2
        page (int_to_u32 i)).2 ereg ekey).1 = ERROR_OK := by
      simpa [target_write_u32] using h3
    have e4 := wait_loop_of_poll_ends_at status busy bank.target
      (target_write_u32 (target_write_u32 (target_write_u32 bank.target lock key).2 page
        (int_to_u32 i)).2 ereg ekey).2 _ N (q 0) ERROR_OK rfl (by simp [target_write_u32]) hp
    rw [erase_loop]
    simp only
    rw [if_neg (not_not.mpr e1), if_neg (not_not.mpr e2), if_neg (not_not.mpr e3), hwait, e4,
      if_neg (not_not.mpr rfl)]
    have hset : set_is_erased
        { bank with target := { (target_write_u32 (target_write_u32 (target_write_u32
            bank.target lock key).2 page (int_to_u32 i)).2 ereg ekey).2 with
          log := bank.target.log ++
            [Access.write lock key, Access.write page (int_to_u32 i), Access.write ereg ekey]
            ++ poll_pairs status (q 0) ++ [Access.read status] } } i
        = some { bank with
            target := { bank.target with
              log := bank.target.log ++ page_run lock key page ereg ekey status i q 0 },
            sectors := some (tbl.modify (fun s => { s with is_erased := 1 }) i.toNat) } := by
      unfold set_is_erased
      simp only [hs]
      rw [if_pos ⟨hi, by omega⟩]
      simp [target_write_u32, page_run]
    simp only [hset]
    have hf : (fun k => page_run lock key page ereg ekey status i q (k + 1))
        = page_run lock key page ereg ekey status (i + 1) (fun j => q (j + 1)) := by
      funext k
      simp only [page_run]
      have : i + ((k + 1 : Nat) : Int) = i + 1 + (k : Int) := by push_cast; omega
      rw [this]
    have hup : ∀ j, accesses_upto (page_run lock key page ereg ekey status i q) (j + 1)
        = page_run lock key page ereg ekey status i q 0 ++
          accesses_upto (page_run lock key page ereg ekey status (i + 1)
            (fun j => q (j + 1))) j := by
      intro j
      rw [accesses_upto_succ_front, hf]
    have hrec := ih n
      { bank with
        target := { bank.target with
          log := bank.target.log ++ page_run lock key page ereg ekey status i q 0 },
        sectors := some (tbl.modify (fun s => { s with is_erased := 1 }) i.toNat) }
      (tbl.modify (fun s => { s with is_erased := 1 }) i.toNat) (i + 1)
      (fun j => q (j + 1)) c seg rfl (by omega)
      (by rw [List.length_modify]; omega) (by omega)
      (fun j hj => by
        have := hok (j + 1) (by omega)
        rw [hup j] at this
        have e : i + ((j + 1 : Nat) : Int) = i + 1 + (j : Int) := by push_cast; omega
        rw [e] at this
        simpa [List.append_assoc] using this)
      (by
        have := hfail
        rw [hup m] at this
        have e : i + ((m + 1 : Nat) : Int) = i + 1 + (m : Int) := by push_cast; omega
        rw [e] at this
        simpa [List.append_assoc] using this)
    rw [hrec, mark_erased_step i m tbl hi, hup m]
    simp only [List.append_assoc]

theorem pac52xx_erase_wait_eq (t : target) :
    pac52xx_wait_status_busy t FLASH_ERASE_TIMEOUT
      = wait_loop PAC5XXX_MEMCTL_FLASHSTATUS busy52 t 100 := by
  rw [pac52xx_wait_status_busy, pac52xx_wait_loop_eq]
  rfl

theorem pac55xx_erase_wait_eq (t : target) :
    pac55xx_wait_status_busy t FLASH_ERASE_TIMEOUT
      = wait_loop PAC55XX_MEMSTATUS busy55 t 100 := by
  rw [pac55xx_wait_status_busy, pac55xx_wait_loop_eq]
  rfl

/-- C20. Partial erase progress: on a bank with a sector table and a halted
target, with `0 <= first`, `k = first + m <= last` and `last` inside the table,
when the target lets pages `first .. k-1` complete (their three writes are
answered with OK and their polls end with OK) and makes a step of page `k`
fail with the code `c` (the lock write, the page-number write, the erase-key
write, a status read of the poll, or the poll running out), `pac52xx_erase`
and `pac55xx_erase` return `c`, the accesses of the call are those of the
completed pages followed by the accesses of page `k` up to and including the
failing step, with nothing after it, sectors `first .. k-1` have
`is_erased == 1`, and page `k` and every other sector are as before. -/
theorem erase_partial_progress {P : Type} (bank : flash_bank P) (tbl : List flash_sector)
    (first last : Int) (m : Nat) (q : Nat → Nat) (c : Int) (seg : List Access)
    (hs : bank.sectors = some tbl) (hh : bank.target.state = TARGET_HALTED)
    (h0 : 0 ≤ first) (hk : first + m ≤ last) (hl : last < tbl.length) :
    ((∀ j, j < m → page_completes bank.target busy52 PAC5XXX_MEMCTL_FLASHLOCK
          PAC5XXX_FLASH_LOCK_FLASHWRITE_KEY PAC5XXX_MEMCTL_FLASHPAGE PAC5XXX_MEMCTL_FLASHPERASE
          PAC5XXX_FLASH_LOCK_PERASE_KEY PAC5XXX_MEMCTL_FLASHSTATUS 100
          (bank.target.log ++ accesses_upto (page_run PAC5XXX_MEMCTL_FLASHLOCK
            PAC5XXX_FLASH_LOCK_FLASHWRITE_KEY PAC5XXX_MEMCTL_FLASHPAGE
            PAC5XXX_MEMCTL_FLASHPERASE PAC5XXX_FLASH_LOCK_PERASE_KEY
            PAC5XXX_MEMCTL_FLASHSTATUS first q) j)
          (int_to_u32 (first + j)) (q j)) →
      page_fails bank.target busy52 PAC5XXX_MEMCTL_FLASHLOCK
          PAC5XXX_FLASH_LOCK_FLASHWRITE_KEY PAC5XXX_MEMCTL_FLASHPAGE PAC5XXX_MEMCTL_FLASHPERASE
          PAC5XXX_FLASH_LOCK_PERASE_KEY PAC5XXX_MEMCTL_FLASHSTATUS 100
          (bank.target.log ++ accesses_upto (page_run PAC5XXX_MEMCTL_FLASHLOCK
            PAC5XXX_FLASH_LOCK_FLASHWRITE_KEY PAC5XXX_MEMCTL_FLASHPAGE
            PAC5XXX_MEMCTL_FLASHPERASE PAC5XXX_FLASH_LOCK_PERASE_KEY
            PAC5XXX_MEMCTL_FLASHSTATUS first q) m)
          (int_to_u32 (first + m)) c seg →
      pac52xx_erase bank first last
        = some (c, { bank with
            target := { bank.target with
              log := bank.target.log ++ accesses_upto (page_run PAC5XXX_MEMCTL_FLASHLOCK
                PAC5XXX_FLASH_LOCK_FLASHWRITE_KEY PAC5XXX_MEMCTL_FLASHPAGE
                PAC5XXX_MEMCTL_FLASHPERASE PAC5XXX_FLASH_LOCK_PERASE_KEY
                PAC5XXX_MEMCTL_FLASHSTATUS first q) m ++ seg },
            sectors := some (tbl.mapIdx (mark_erased first m)) })) ∧
    ((∀ j, j < m → page_completes bank.target busy55 PAC55XX_MEMCTL_FLASHLOCK
          FLASH_LOCK_ALLOW_WRITE_ERASE_FLASH PAC55XX_MEMCTL_FLASHPAGE PAC55XX_MEMCTL_FLASHERASE
          FLASH_START_PAGE_ERASE PAC55XX_MEMSTATUS 100
          (bank.target.log ++ accesses_upto (page_run PAC55XX_MEMCTL_FLASHLOCK
            FLASH_LOCK_ALLOW_WRITE_ERASE_FLASH PAC55XX_MEMCTL_FLASHPAGE
            PAC55XX_MEMCTL_FLASHERASE FLASH_START_PAGE_ERASE PAC55XX_MEMSTATUS first q) j)
          (int_to_u32 (first + j)) (q j)) →
      page_fails bank.target busy55 PAC55XX_MEMCTL_FLASHLOCK
          FLASH_LOCK_ALLOW_WRITE_ERASE_FLASH PAC55XX_MEMCTL_FLASHPAGE PAC55XX_MEMCTL_FLASHERASE
          FLASH_START_PAGE_ERASE PAC55XX_MEMSTATUS 100
          (bank.target.log ++ accesses_upto (page_run PAC55XX_MEMCTL_FLASHLOCK
            FLASH_LOCK_ALLOW_WRITE_ERASE_FLASH PAC55XX_MEMCTL_FLASHPAGE
            PAC55XX_MEMCTL_FLASHERASE FLASH_START_PAGE_ERASE PAC55XX_MEMSTATUS first q) m)
          (int_to_u32 (first + m)) c seg →
      pac55xx_erase bank first last
        = some (c, { bank with
            target := { bank.target with
              log := bank.target.log ++ accesses_upto (page_run PAC55XX_MEMCTL_FLASHLOCK
                FLASH_LOCK_ALLOW_WRITE_ERASE_FLASH PAC55XX_MEMCTL_FLASHPAGE
                PAC55XX_MEMCTL_FLASHERASE FLASH_START_PAGE_ERASE PAC55XX_MEMSTATUS first q) m
                ++ seg },
            sectors := some (tbl.mapIdx (mark_erased first m)) })) ∧
    (∀ (j : Nat) (s : flash_sector), tbl[j]? = some s →
      (tbl.mapIdx (mark_erased first m))[j]?
        = some (if first ≤ (j : Int) ∧ (j : Int) < first + m
            then { s with is_erased := 1 } else s)) := by
  have hn : m < (last + 1 - first).toNat := by omega
  have hlen : first + (m : Int) ≤ (tbl.length : Int) := by omega
  refine ⟨?_, ?_, ?_⟩
  · intro hok hfail
    unfold pac52xx_erase
    rw [if_neg (not_not.mpr hh), pac52xx_erase_loop_eq,
      erase_loop_fails_at _ _ _ _ _ PAC5XXX_MEMCTL_FLASHSTATUS 100 busy52 _
        pac52xx_erase_wait_eq m _ bank tbl first q c seg hs h0 hlen hn hok hfail]
    rfl
  · intro hok hfail
    unfold pac55xx_erase
    rw [if_neg (not_not.mpr hh), pac55xx_erase_loop_eq,
      erase_loop_fails_at _ _ _ _ _ PAC55XX_MEMSTATUS 100 busy55 _
        pac55xx_erase_wait_eq m _ bank tbl first q c seg hs h0 hlen hn hok hfail]
  · intro j s hj
    rw [List.getElem?_mapIdx, hj]
    rfl

set_option maxRecDepth 8192 in
/-- Instance of `erase_partial_progress`: `erase(3, 5)` on targets that refuse
the write of page number 4 to the page register: page 3 completes, the second
write of page 4 fails; the call returns `ERROR_FAIL`, the refused write is its
last access, page 3 is marked and pages 4 and 5 are not. -/
theorem erase_partial_progress_witness :
    ((pac52xx_erase
        (sample_bank52 (failing_value_target PAC5XXX_MEMCTL_FLASHPAGE 4 0)) 3 5).map
      (fun r => (r.1, r.2.target.log,
        r.2.sectors.map (fun l => (l.map (fun s => s.is_erased)).take 7)))
      = some (ERROR_FAIL,
          [Access.write 0x40020000 0xAAAAAAAA, Access.write 0x40020008 3,
            Access.write 0x40020014 0xA5A55A5A, Access.read 0x40020004,
            Access.write 0x40020000 0xAAAAAAAA, Access.write 0x40020008 4],
          some [-1, -1, -1, 1, -1, -1, -1])) ∧
    ((pac55xx_erase
        (sample_bank55 (failing_value_target PAC55XX_MEMCTL_FLASHPAGE 4 0)) 3 5).map
      (fun r => (r.1, r.2.target.log,
        r.2.sectors.map (fun l => (l.map (fun s => s.is_erased)).take 7)))
      = some (ERROR_FAIL,
          [Access.write 0x400D0008 0x43DF140A, Access.write 0x400D000C 3,
            Access.write 0x400D0020 0x8C799CA7, Access.read 0x400D0004,
            Access.write 0x400D0008 0x43DF140A, Access.write 0x400D000C 4],
          some [-1, -1, -1, 1, -1, -1, -1])) := by
  have hA := (erase_partial_progress
    (sample_bank52 (failing_value_target PAC5XXX_MEMCTL_FLASHPAGE 4 0)) (sample_table 32)
    3 5 1 (fun _ => 0) ERROR_FAIL
    [Access.write PAC5XXX_MEMCTL_FLASHLOCK PAC5XXX_FLASH_LOCK_FLASHWRITE_KEY,
      Access.write PAC5XXX_MEMCTL_FLASHPAGE 4] rfl rfl (by decide) (by decide) (by decide)).1
    (fun j hj => by
      obtain rfl : j = 0 := by omega
      exact ⟨rfl, rfl, rfl, Nat.zero_le _, fun i hi => absurd hi (Nat.not_lt_zero i),
        Or.inr (Or.inl ⟨rfl, by decide, rfl⟩)⟩)
    ⟨by decide, Or.inr (Or.inl ⟨rfl, rfl, rfl⟩)⟩
  have hB := (erase_partial_progress
    (sample_bank55 (failing_value_target PAC55XX_MEMCTL_FLASHPAGE 4 0)) (sample_table 128)
    3 5 1 (fun _ => 0) ERROR_FAIL
    [Access.write PAC55XX_MEMCTL_FLASHLOCK FLASH_LOCK_ALLOW_WRITE_ERASE_FLASH,
      Access.write PAC55XX_MEMCTL_FLASHPAGE 4] rfl rfl (by decide) (by decide)
      (by decide)).2.1
    (fun j hj => by
      obtain rfl : j = 0 := by omega
      exact ⟨rfl, rfl, rfl, Nat.zero_le _, fun i hi => absurd hi (Nat.not_lt_zero i),
        Or.inr (Or.inl ⟨rfl, by decide, rfl⟩)⟩)
    ⟨by decide, Or.inr (Or.inl ⟨rfl, rfl, rfl⟩)⟩
  constructor
  · rw [hA]
    decide
  · rw [hB]
    decide

/-! ### Operations of DeviceB whose poll times out -/

theorem poll_ends_of_times_out (t : target) (busy : Nat → Bool) (addr N : Nat)
    (L : List Access) (h : poll_times_out t busy addr N L) :
    poll_ends t busy addr N L N ERROR_FAIL :=
  ⟨Nat.le_refl N, fun i hi => h i (Nat.le_of_lt hi),
    Or.inr (Or.inr ⟨(h N (Nat.le_refl N)).1, (h N (Nat.le_refl N)).2, rfl, rfl⟩)⟩

theorem pac55xx_write_wait_eq (t : target) :
    pac55xx_wait_status_busy t FLASH_WRITE_TIMEOUT
      = wait_loop PAC55XX_MEMSTATUS busy55 t 5 := by
  rw [pac55xx_wait_status_busy, pac55xx_wait_loop_eq]
  rfl

/-- One row sent from the buffer: its four writes are the words of row `r` when
the buffer holds bytes `16r .. 16r+15` of `str`. -/
theorem pac55xx_write_row_words (t : target) (a0 r address : Nat) (b str : Nat → Nat)
    (ha : address = (a0 + 16 * r) % 2 ^ 32)
    (hb : ∀ j, j < 16 → b j % 256 = str (16 * r + j) % 256) :
    pac55xx_write_row t address b
      = ({ t with log := t.log ++ pac55xx_row_words a0 str r },
          (a0 + 16 * (r + 1)) % 2 ^ 32) := by
  subst ha
  generalize hadr : (a0 + 16 * r) % 2 ^ 32 = address
  rw [pac55xx_write_row_eq]
  have w0 : load_u32 b 0 = load_u32 str (16 * r) :=
    load_u32_congr b str 0 (16 * r) (fun j hj => by
      have := hb (0 + j) (by omega)
      simpa using this)
  have w1 : load_u32 b 4 = load_u32 str (16 * r + 4) :=
    load_u32_congr b str 4 (16 * r + 4) (fun j hj => by
      have := hb (4 + j) (by omega)
      rw [this]
      congr 2
      omega)
  have w2 : load_u32 b 8 = load_u32 str (16 * r + 8) :=
    load_u32_congr b str 8 (16 * r + 8) (fun j hj => by
      have := hb (8 + j) (by omega)
      rw [this]
      congr 2
      omega)
  have w3 : load_u32 b 12 = load_u32 str (16 * r + 12) :=
    load_u32_congr b str 12 (16 * r + 12) (fun j hj => by
      have := hb (12 + j) (by omega)
      rw [this]
      congr 2
      omega)
  have a1 : (address + 4) % 2 ^ 32 = (a0 + 16 * r + 4) % 2 ^ 32 := by omega
  have a2 : ((address + 4) % 2 ^ 32 + 4) % 2 ^ 32 = (a0 + 16 * r + 8) % 2 ^ 32 := by omega
  have a3 : (((address + 4) % 2 ^ 32 + 4) % 2 ^ 32 + 4) % 2 ^ 32
      = (a0 + 16 * r + 12) % 2 ^ 32 := by omega
  have a4 : ((((address + 4) % 2 ^ 32 + 4) % 2 ^ 32 + 4) % 2 ^ 32 + 4) % 2 ^ 32
      = (a0 + 16 * (r + 1)) % 2 ^ 32 := by omega
  rw [a4, a3, a2, a1, w0, w1, w2, w3]
  simp only [pac55xx_row_words, hadr]

/-- The byte loop of `pac55xx_write` on a target that lets the polls of rows
`0 .. R-1` end with OK and makes the poll of row `R` end with the code `c`:
while the loop has not completed row `R` it goes on as on an idle target, and
when it completes row `R` it returns `c` at the end of that poll. -/
theorem pac55xx_write_loop_run (buffer str : Nat → Nat) (a0 : Nat) (T0 : target)
    (L0 : List Access) (q : Nat → Nat) (R qf : Nat) (c : Int) (hc : c ≠ ERROR_OK)
    (hrows : ∀ r, r < R → poll_ends T0 busy55 PAC55XX_MEMSTATUS 5
      (L0 ++ accesses_upto (pac55xx_row_run a0 str q) r ++ pac55xx_row_words a0 str r)
      (q r) ERROR_OK)
    (hfail : poll_ends T0 busy55 PAC55XX_MEMSTATUS 5
      (L0 ++ accesses_upto (pac55xx_row_run a0 str q) R ++ pac55xx_row_words a0 str R)
      qf c)
    (n : Nat) :
    ∀ (s : pac55xx_write_locals) (p : Nat),
      s.target = { T0 with log := L0 ++ accesses_upto (pac55xx_row_run a0 str q) (p / 16) } →
      p / 16 ≤ R →
      s.buff_index = p % 16 →
      (∀ j, j < p % 16 → s.buff j % 256 = str (16 * (p / 16) + j) % 256) →
      (∀ i, i < n → buffer (s.src_index + i) % 256 = str (p + i) % 256) →
      s.src_index + n < 2 ^ 32 →
      s.address = (a0 + 16 * (p / 16)) % 2 ^ 32 →
      ((p + n) / 16 ≤ R →
        ∃ s1, pac55xx_write_loop buffer n s = Except.ok s1 ∧
          s1.buff_index = (p + n) % 16 ∧
          (∀ j, j < (p + n) % 16 → s1.buff j % 256 = str (16 * ((p + n) / 16) + j) % 256) ∧
          s1.address = (a0 + 16 * ((p + n) / 16)) % 2 ^ 32 ∧
          s1.target = { T0 with
            log := L0 ++ accesses_upto (pac55xx_row_run a0 str q) ((p + n) / 16) }) ∧
      (R < (p + n) / 16 →
        pac55xx_write_loop buffer n s
          = Except.error (c, { T0 with
              log := L0 ++ accesses_upto (pac55xx_row_run a0 str q) R
                ++ pac55xx_row_words a0 str R ++ poll_pairs PAC55XX_MEMSTATUS qf
                ++ [Access.read PAC55XX_MEMSTATUS] })) := by
  induction n with
  | zero =>
    intro s p hT hpR hbi hbuf _ _ haddr
    constructor
    · intro _
      exact ⟨s, rfl, hbi, hbuf, haddr, hT⟩
    · intro h
      omega
  | succ n ih =>
    intro s p hT hpR hbi hbuf hsrc hlen haddr
    rw [pac55xx_write_loop]
    simp only
    have hsrc0 : buffer s.src_index % 256 = str p % 256 := by
      have := hsrc 0 (Nat.succ_pos n)
      simpa using this
    have hsi : (s.src_index + 1) % 2 ^ 32 = s.src_index + 1 := by
      apply Nat.mod_eq_of_lt
      omega
    have hbi1 : (s.buff_index + 1) % 256 = p % 16 + 1 := by
      rw [hbi]
      omega
    have hnew : ∀ j, j < p % 16 + 1 →
        buff_set s.buff s.buff_index (buffer s.src_index) j % 256
          = str (16 * (p / 16) + j) % 256 := by
      intro j hj
      unfold buff_set
      by_cases hjb : j = s.buff_index
      · rw [if_pos hjb, Nat.mod_mod, hsrc0]
        congr 2
        omega
      · rw [if_neg hjb]
        exact hbuf j (by omega)
    have e : p + (n + 1) = p + 1 + n := by omega
    rw [hsi, hbi1, e]
    by_cases h16 : p % 16 + 1 = 16
    · rw [if_pos h16]
      have hrow := pac55xx_write_row_words s.target a0 (p / 16) s.address
        (buff_set s.buff s.buff_index (buffer s.src_index)) str haddr
        (fun j hj => hnew j (by omega))
      rw [hrow]
      simp only
      rw [hT]
      simp only
      have hq : (p + 1) / 16 = p / 16 + 1 := by omega
      rw [pac55xx_write_wait_eq]
      rcases Nat.lt_or_eq_of_le hpR with hlt | heq
      · have hw := wait_loop_of_poll_ends_at PAC55XX_MEMSTATUS busy55 T0
          { T0 with log := L0 ++ accesses_upto (pac55xx_row_run a0 str q) (p / 16)
              ++ pac55xx_row_words a0 str (p / 16) }
          (L0 ++ accesses_upto (pac55xx_row_run a0 str q) (p / 16)
              ++ pac55xx_row_words a0 str (p / 16))
          5 (q (p / 16)) ERROR_OK rfl rfl (hrows (p / 16) hlt)
        rw [hw]
        rw [if_neg (not_not.mpr rfl)]
        simp only
        exact ih
          { target := { T0 with
              log := L0 ++ accesses_upto (pac55xx_row_run a0 str q) (p / 16)
                ++ pac55xx_row_words a0 str (p / 16)
                ++ poll_pairs PAC55XX_MEMSTATUS (q (p / 16))
                ++ [Access.read PAC55XX_MEMSTATUS] },
            buff := buff_set s.buff s.buff_index (buffer s.src_index),
            buff_index := 0, src_index := s.src_index + 1,
            address := (a0 + 16 * (p / 16 + 1)) % 2 ^ 32 }
          (p + 1)
          (by
            simp only [hq, accesses_upto, pac55xx_row_run, List.append_assoc])
          (by omega) (by simp only; omega)
          (fun j hj => by omega)
          (fun i hi => by
            have := hsrc (i + 1) (by omega)
            simp only
            rw [show s.src_index + 1 + i = s.src_index + (i + 1) by omega,
              show p + 1 + i = p + (i + 1) by omega]
            exact this)
          (by simp only; omega)
          (by simp only; rw [hq])
      · have hw := wait_loop_of_poll_ends_at PAC55XX_MEMSTATUS busy55 T0
          { T0 with log := L0 ++ accesses_upto (pac55xx_row_run a0 str q) R
              ++ pac55xx_row_words a0 str R }
          (L0 ++ accesses_upto (pac55xx_row_run a0 str q) R
              ++ pac55xx_row_words a0 str R)
          5 qf c rfl rfl hfail
        rw [heq, hw]
        rw [if_pos hc]
        constructor
        · intro h
          omega
        · intro _
          rfl
    · rw [if_neg h16]
      have hq : (p + 1) / 16 = p / 16 := by omega
      exact ih
        { target := s.target, buff := buff_set s.buff s.buff_index (buffer s.src_index),
          buff_index := p % 16 + 1, src_index := s.src_index + 1, address := s.address }
        (p + 1)
        (by simp only; rw [hq]; exact hT)
        (by omega) (by simp only; omega)
        (fun j hj => by
          simp only
          rw [hq]
          exact hnew j (by omega))
        (fun i hi => by
          have := hsrc (i + 1) (by omega)
          simp only
          rw [show s.src_index + 1 + i = s.src_index + (i + 1) by omega,
            show p + 1 + i = p + (i + 1) by omega]
          exact this)
        (by simp only; omega)
        (by simp only; rw [hq]; exact haddr)

/-- `pac55xx_write` on a halted target that accepts the three control writes,
lets the polls of rows `0 .. R-1` end with OK and makes the poll of row `R`
end with the code `c`: the call returns `c` and its last access is the status
read that ended that poll. -/
theorem pac55xx_write_fails_at {P : Type} (buff0 : Nat → Nat) (bank : flash_bank P)
    (buffer : Nat → Nat) (offset count : Nat) (q : Nat → Nat) (R qf : Nat) (c : Int)
    (hc : c ≠ ERROR_OK)
    (hh : bank.target.state = TARGET_HALTED)
    (hcount : count < 2 ^ 32)
    (hw1 : bank.target.on_write bank.target.log PAC55XX_MEMCTL_FLASHLOCK 0xD513B490
      = ERROR_OK)
    (hw2 : bank.target.on_write
      (bank.target.log ++ [Access.write PAC55XX_MEMCTL_FLASHLOCK 0xD513B490])
      PAC55XX_MEMCTL 0x00720046 = ERROR_OK)
    (hw3 : bank.target.on_write
      (bank.target.log ++ [Access.write PAC55XX_MEMCTL_FLASHLOCK 0xD513B490,
        Access.write PAC55XX_MEMCTL 0x00720046])
      PAC55XX_MEMCTL_FLASHLOCK 0x43DF140A = ERROR_OK)
    (hR : R < ((offset &&& 0xF) + count + 15) / 16)
    (hrows : ∀ r, r < R → poll_ends bank.target busy55 PAC55XX_MEMSTATUS 5
      (bank.target.log ++
        [Access.write PAC55XX_MEMCTL_FLASHLOCK 0xD513B490,
          Access.write PAC55XX_MEMCTL 0x00720046,
          Access.write PAC55XX_MEMCTL_FLASHLOCK 0x43DF140A] ++
        accesses_upto (pac55xx_row_run (offset &&& 0xFFFFFFF0)
          (row_stream buffer offset count) q) r ++
        pac55xx_row_words (offset &&& 0xFFFFFFF0) (row_stream buffer offset count) r)
      (q r) ERROR_OK)
    (hfail : poll_ends bank.target busy55 PAC55XX_MEMSTATUS 5
      (bank.target.log ++
        [Access.write PAC55XX_MEMCTL_FLASHLOCK 0xD513B490,
          Access.write PAC55XX_MEMCTL 0x00720046,
          Access.write PAC55XX_MEMCTL_FLASHLOCK 0x43DF140A] ++
        accesses_upto (pac55xx_row_run (offset &&& 0xFFFFFFF0)
          (row_stream buffer offset count) q) R ++
        pac55xx_row_words (offset &&& 0xFFFFFFF0) (row_stream buffer offset count) R)
      qf c) :
    pac55xx_write buff0 bank buffer offset count
      = (c, { bank with target := { bank.target with
          log := bank.target.log ++
            [Access.write PAC55XX_MEMCTL_FLASHLOCK 0xD513B490,
              Access.write PAC55XX_MEMCTL 0x00720046,
              Access.write PAC55XX_MEMCTL_FLASHLOCK 0x43DF140A] ++
            accesses_upto (pac55xx_row_run (offset &&& 0xFFFFFFF0)
              (row_stream buffer offset count) q) R ++
            pac55xx_row_words (offset &&& 0xFFFFFFF0) (row_stream buffer offset count) R ++
            poll_pairs PAC55XX_MEMSTATUS qf ++ [Access.read PAC55XX_MEMSTATUS] } }) := by
  have hhead : (offset &&& 0xF) < 16 := by
    rw [and15_eq_mod]
    exact Nat.mod_lt _ (by decide)
  have ha0 : (offset &&& 0xFFFFFFF0) < 2 ^ 32 :=
    Nat.lt_of_le_of_lt Nat.and_le_right (by decide)
  have e1 : (target_write_u32 bank.target PAC55XX_FLASH_LOCK 0xD513B490).1 = ERROR_OK := hw1
  have e2 : (target_write_u32 (target_write_u32 bank.target PAC55XX_FLASH_LOCK 0xD513B490).2
      PAC55XX_MEMCTL 0x00720046).1 = ERROR_OK := hw2
  have e3 : (target_write_u32 (target_write_u32 (target_write_u32 bank.target
      PAC55XX_FLASH_LOCK 0xD513B490).2 PAC55XX_MEMCTL 0x00720046).2
      PAC55XX_MEMCTL_FLASHLOCK FLASH_LOCK_ALLOW_WRITE_ERASE_FLASH).1 = ERROR_OK := by
    simp only [target_write_u32, List.append_assoc, List.cons_append, List.nil_append]
    exact hw3
  obtain ⟨hA, hB⟩ := pac55xx_write_loop_run buffer
    (row_stream buffer offset count) (offset &&& 0xFFFFFFF0) bank.target
    (bank.target.log ++
      [Access.write PAC55XX_MEMCTL_FLASHLOCK 0xD513B490,
        Access.write PAC55XX_MEMCTL 0x00720046,
        Access.write PAC55XX_MEMCTL_FLASHLOCK 0x43DF140A]) q R qf c hc hrows hfail count
    { target := (target_write_u32 (target_write_u32 (target_write_u32 bank.target
          PAC55XX_FLASH_LOCK 0xD513B490).2 PAC55XX_MEMCTL 0x00720046).2
          PAC55XX_MEMCTL_FLASHLOCK FLASH_LOCK_ALLOW_WRITE_ERASE_FLASH).2,
      buff := buff_fill buff0 0 (offset &&& 0xF), buff_index := offset &&& 0xF,
      src_index := 0, address := offset &&& 0xFFFFFFF0 }
    (offset &&& 0xF)
    (by
      have hq : (offset &&& 0xF) / 16 = 0 := by omega
      simp only [hq, accesses_upto, List.append_nil, target_write_u32, PAC55XX_FLASH_LOCK,
        PAC55XX_MEMCTL_FLASHLOCK, FLASH_LOCK_ALLOW_WRITE_ERASE_FLASH, List.append_assoc,
        List.cons_append, List.nil_append])
    (by omega)
    (by simp only; omega)
    (fun j hj => by
      have hj1 : j < (offset &&& 0xF) := by omega
      have hq : (offset &&& 0xF) / 16 = 0 := by omega
      simp only [buff_fill_apply, hq, Nat.mul_zero, Nat.zero_add, row_stream, if_pos hj1]
      rw [if_pos ⟨Nat.zero_le _, hj1⟩])
    (fun i hi => by
      have h1 : ¬ ((offset &&& 0xF) + i < (offset &&& 0xF)) := by omega
      have h2 : (offset &&& 0xF) + i < (offset &&& 0xF) + count := by omega
      simp only [Nat.zero_add, row_stream, if_neg h1, if_pos h2, Nat.mod_mod,
        Nat.add_sub_cancel_left])
    (by simp only; omega)
    (by
      have hq : (offset &&& 0xF) / 16 = 0 := by omega
      simp only [hq]
      omega)
  unfold pac55xx_write
  rw [if_neg (not_not.mpr hh)]
  simp only
  rw [if_neg (not_not.mpr e1), if_neg (not_not.mpr e2), if_neg (not_not.mpr e3)]
  by_cases hlt : R < ((offset &&& 0xF) + count) / 16
  · rw [hB hlt]
  · have hRe : ((offset &&& 0xF) + count) / 16 = R := by omega
    have hne : ((offset &&& 0xF) + count) % 16 ≠ 0 := by omega
    obtain ⟨s1, h1, h2, h3, h4, h5⟩ := hA (by omega)
    rw [hRe] at h3 h4 h5
    rw [h1]
    simp only
    have hbi : s1.buff_index ≠ 0 := by
      rw [h2]
      exact hne
    have hrow := pac55xx_write_row_words s1.target (offset &&& 0xFFFFFFF0) R s1.address
      (buff_fill s1.buff s1.buff_index 16) (row_stream buffer offset count) h4
      (fun j hj => by
        rw [buff_fill_apply]
        by_cases hj1 : s1.buff_index ≤ j ∧ j < 16
        · have g1 : ¬ (16 * R + j < (offset &&& 0xF)) := by
            omega
          have g2 : ¬ (16 * R + j < (offset &&& 0xF) + count) := by omega
          rw [if_pos hj1]
          simp only [row_stream, if_neg g1, if_neg g2]
        · rw [if_neg hj1]
          exact h3 j (by omega))
    have hw := wait_loop_of_poll_ends_at PAC55XX_MEMSTATUS busy55 bank.target
      { bank.target with
          log := (bank.target.log ++
            [Access.write PAC55XX_MEMCTL_FLASHLOCK 0xD513B490,
              Access.write PAC55XX_MEMCTL 0x00720046,
              Access.write PAC55XX_MEMCTL_FLASHLOCK 0x43DF140A] ++
            accesses_upto (pac55xx_row_run (offset &&& 0xFFFFFFF0)
              (row_stream buffer offset count) q) R ++
            pac55xx_row_words (offset &&& 0xFFFFFFF0) (row_stream buffer offset count) R) }
      _ 5 qf c rfl rfl hfail
    rw [if_pos hbi, hrow, pac55xx_write_wait_eq]
    simp only
    rw [h5]
    simp only
    rw [hw, if_pos hc]

/-- `pac55xx_erase` on a halted target that lets pages `first .. first+m-1`
complete and makes a step of page `first + m` fail with the code `c`. -/
theorem pac55xx_erase_fails_at {P : Type} (bank : flash_bank P) (tbl : List flash_sector)
    (first last : Int) (m : Nat) (q : Nat → Nat) (c : Int) (seg : List Access)
    (hs : bank.sectors = some tbl) (hh : bank.target.state = TARGET_HALTED)
    (h0 : 0 ≤ first) (hk : first + m ≤ last) (hl : last < tbl.length)
    (hok : ∀ j, j < m → page_completes bank.target busy55 PAC55XX_MEMCTL_FLASHLOCK
      FLASH_LOCK_ALLOW_WRITE_ERASE_FLASH PAC55XX_MEMCTL_FLASHPAGE PAC55XX_MEMCTL_FLASHERASE
      FLASH_START_PAGE_ERASE PAC55XX_MEMSTATUS 100
      (bank.target.log ++ accesses_upto (page_run PAC55XX_MEMCTL_FLASHLOCK
        FLASH_LOCK_ALLOW_WRITE_ERASE_FLASH PAC55XX_MEMCTL_FLASHPAGE
        PAC55XX_MEMCTL_FLASHERASE FLASH_START_PAGE_ERASE PAC55XX_MEMSTATUS first q) j)
      (int_to_u32 (first + j)) (q j))
    (hfail : page_fails bank.target busy55 PAC55XX_MEMCTL_FLASHLOCK
      FLASH_LOCK_ALLOW_WRITE_ERASE_FLASH PAC55XX_MEMCTL_FLASHPAGE PAC55XX_MEMCTL_FLASHERASE
      FLASH_START_PAGE_ERASE PAC55XX_MEMSTATUS 100
      (bank.target.log ++ accesses_upto (page_run PAC55XX_MEMCTL_FLASHLOCK
        FLASH_LOCK_ALLOW_WRITE_ERASE_FLASH PAC55XX_MEMCTL_FLASHPAGE
        PAC55XX_MEMCTL_FLASHERASE FLASH_START_PAGE_ERASE PAC55XX_MEMSTATUS first q) m)
      (int_to_u32 (first + m)) c seg) :
    pac55xx_erase bank first last
      = some (c, { bank with
          target := { bank.target with
            log := bank.target.log ++ accesses_upto (page_run PAC55XX_MEMCTL_FLASHLOCK
              FLASH_LOCK_ALLOW_WRITE_ERASE_FLASH PAC55XX_MEMCTL_FLASHPAGE
              PAC55XX_MEMCTL_FLASHERASE FLASH_START_PAGE_ERASE PAC55XX_MEMSTATUS first q) m
              ++ seg },
          sectors := some (tbl.mapIdx (mark_erased first m)) }) := by
  have hn : m < (last + 1 - first).toNat := by omega
  have hlen : first + (m : Int) ≤ (tbl.length : Int) := by omega
  unfold pac55xx_erase
  rw [if_neg (not_not.mpr hh), pac55xx_erase_loop_eq,
    erase_loop_fails_at _ _ _ _ _ PAC55XX_MEMSTATUS 100 busy55 _
      pac55xx_erase_wait_eq m _ bank tbl first q c seg hs h0 hlen hn hok hfail]

/-- `pac55xx_erase_key` on a halted target that accepts the arming write and
the erase-key write and makes the poll end with the code `c`. -/
theorem pac55xx_erase_key_fails_at {P : Type} (bank : flash_bank P) (key qf : Nat) (c : Int)
    (hc : c ≠ ERROR_OK) (hh : bank.target.state = TARGET_HALTED)
    (hw1 : bank.target.on_write bank.target.log PAC55XX_MEMCTL_FLASHLOCK 0x43DF140A
      = ERROR_OK)
    (hw2 : bank.target.on_write
      (bank.target.log ++ [Access.write PAC55XX_MEMCTL_FLASHLOCK 0x43DF140A])
      PAC55XX_MEMCTL_FLASHERASE key = ERROR_OK)
    (hfail : poll_ends bank.target busy55 PAC55XX_MEMSTATUS 100
      (bank.target.log ++ [Access.write PAC55XX_MEMCTL_FLASHLOCK 0x43DF140A,
        Access.write PAC55XX_MEMCTL_FLASHERASE key]) qf c) :
    pac55xx_erase_key bank key
      = some (c, { bank with target := { bank.target with
          log := bank.target.log ++ [Access.write PAC55XX_MEMCTL_FLASHLOCK 0x43DF140A,
            Access.write PAC55XX_MEMCTL_FLASHERASE key] ++
            poll_pairs PAC55XX_MEMSTATUS qf ++ [Access.read PAC55XX_MEMSTATUS] } }) := by
  have e1 : (target_write_u32 bank.target PAC55XX_MEMCTL_FLASHLOCK
      FLASH_LOCK_ALLOW_WRITE_ERASE_FLASH).1 = ERROR_OK := hw1
  have e2 : (target_write_u32 (target_write_u32 bank.target PAC55XX_MEMCTL_FLASHLOCK
      FLASH_LOCK_ALLOW_WRITE_ERASE_FLASH).2 PAC55XX_MEMCTL_FLASHERASE key).1 = ERROR_OK := hw2
  have hw := wait_loop_of_poll_ends_at PAC55XX_MEMSTATUS busy55 bank.target
    (target_write_u32 (target_write_u32 bank.target PAC55XX_MEMCTL_FLASHLOCK
      FLASH_LOCK_ALLOW_WRITE_ERASE_FLASH).2 PAC55XX_MEMCTL_FLASHERASE key).2
    _ 100 qf c rfl
    (by
      simp only [target_write_u32, List.append_assoc, List.cons_append, List.nil_append]
      rfl)
    hfail
  unfold pac55xx_erase_key
  rw [if_neg (not_not.mpr hh)]
  simp only
  rw [if_neg (not_not.mpr e1), if_neg (not_not.mpr e2), pac55xx_erase_wait_eq, hw,
    if_pos hc]
  rfl

/-- C23. A timed-out DeviceB operation leaves the controller unlocked. On a
halted target:
* `pac55xx_erase` (bank with a sector table, `0 <= first`, `first + m <= last`,
  `last` inside the table): when the target lets pages `first .. first+m-1`
  complete, accepts the three writes of page `first + m` and answers all 101
  status reads of that page's poll with OK and a busy value;
* `pac55xx_erase_key`: when the target accepts the arming write and the
  erase-key write and answers all 101 status reads of the poll with OK and a
  busy value;
* `pac55xx_write` (`count` a `uint32_t`, rows below the controller registers,
  `offset + count <= 0x400D0000`, which holds for every write inside the
  128 KiB bank): when the target accepts the three control writes, lets the
  polls of rows `0 .. R-1` end with OK and answers all 6 status reads of the
  poll of row `R` (one of the rows of the write) with OK and a busy value;
the call returns `ERROR_FAIL`, its last access is the last status read of the
timed-out poll (nothing follows it: no `FLASHLOCK <- 0`, and for the erases no
sector is marked beyond the completed pages), the accesses of the call contain
the arming write `FLASHLOCK <- 0x43DF140A` with no write to FLASHLOCK after it,
and the last value written to FLASHLOCK (0x400D0008) is `0x43DF140A`. -/
theorem timed_out_leaves_unlocked {P : Type} (bank : flash_bank P) (init : Nat)
    (hh : bank.target.state = TARGET_HALTED) :
    (∀ (tbl : List flash_sector) (first last : Int) (m : Nat) (q : Nat → Nat),
      bank.sectors = some tbl → 0 ≤ first → first + m ≤ last → last < tbl.length →
      (∀ j, j < m → page_completes bank.target busy55 PAC55XX_MEMCTL_FLASHLOCK
        FLASH_LOCK_ALLOW_WRITE_ERASE_FLASH PAC55XX_MEMCTL_FLASHPAGE PAC55XX_MEMCTL_FLASHERASE
        FLASH_START_PAGE_ERASE PAC55XX_MEMSTATUS 100
        (bank.target.log ++ accesses_upto (page_run PAC55XX_MEMCTL_FLASHLOCK
          FLASH_LOCK_ALLOW_WRITE_ERASE_FLASH PAC55XX_MEMCTL_FLASHPAGE
          PAC55XX_MEMCTL_FLASHERASE FLASH_START_PAGE_ERASE PAC55XX_MEMSTATUS first q) j)
        (int_to_u32 (first + j)) (q j)) →
      bank.target.on_write
        (bank.target.log ++ accesses_upto (page_run PAC55XX_MEMCTL_FLASHLOCK
          FLASH_LOCK_ALLOW_WRITE_ERASE_FLASH PAC55XX_MEMCTL_FLASHPAGE
          PAC55XX_MEMCTL_FLASHERASE FLASH_START_PAGE_ERASE PAC55XX_MEMSTATUS first q) m)
        PAC55XX_MEMCTL_FLASHLOCK 0x43DF140A = ERROR_OK →
      bank.target.on_write
        (bank.target.log ++ accesses_upto (page_run PAC55XX_MEMCTL_FLASHLOCK
          FLASH_LOCK_ALLOW_WRITE_ERASE_FLASH PAC55XX_MEMCTL_FLASHPAGE
          PAC55XX_MEMCTL_FLASHERASE FLASH_START_PAGE_ERASE PAC55XX_MEMSTATUS first q) m
          ++ [Access.write PAC55XX_MEMCTL_FLASHLOCK 0x43DF140A])
        PAC55XX_MEMCTL_FLASHPAGE (int_to_u32 (first + m)) = ERROR_OK →
      bank.target.on_write
        (bank.target.log ++ accesses_upto (page_run PAC55XX_MEMCTL_FLASHLOCK
          FLASH_LOCK_ALLOW_WRITE_ERASE_FLASH PAC55XX_MEMCTL_FLASHPAGE
          PAC55XX_MEMCTL_FLASHERASE FLASH_START_PAGE_ERASE PAC55XX_MEMSTATUS first q) m
          ++ [Access.write PAC55XX_MEMCTL_FLASHLOCK 0x43DF140A,
            Access.write PAC55XX_MEMCTL_FLASHPAGE (int_to_u32 (first + m))])
        PAC55XX_MEMCTL_FLASHERASE 0x8C799CA7 = ERROR_OK →
      poll_times_out bank.target busy55 PAC55XX_MEMSTATUS 100
        (bank.target.log ++ accesses_upto (page_run PAC55XX_MEMCTL_FLASHLOCK
          FLASH_LOCK_ALLOW_WRITE_ERASE_FLASH PAC55XX_MEMCTL_FLASHPAGE
          PAC55XX_MEMCTL_FLASHERASE FLASH_START_PAGE_ERASE PAC55XX_MEMSTATUS first q) m
          ++ [Access.write PAC55XX_MEMCTL_FLASHLOCK 0x43DF140A,
            Access.write PAC55XX_MEMCTL_FLASHPAGE (int_to_u32 (first + m)),
            Access.write PAC55XX_MEMCTL_FLASHERASE 0x8C799CA7]) →
      ∃ b1, pac55xx_erase bank first last = some (ERROR_FAIL, b1) ∧
        b1 = { bank with
          target := { bank.target with
            log := bank.target.log ++ accesses_upto (page_run PAC55XX_MEMCTL_FLASHLOCK
              FLASH_LOCK_ALLOW_WRITE_ERASE_FLASH PAC55XX_MEMCTL_FLASHPAGE
              PAC55XX_MEMCTL_FLASHERASE FLASH_START_PAGE_ERASE PAC55XX_MEMSTATUS first q) m
              ++ [Access.write PAC55XX_MEMCTL_FLASHLOCK 0x43DF140A,
                Access.write PAC55XX_MEMCTL_FLASHPAGE (int_to_u32 (first + m)),
                Access.write PAC55XX_MEMCTL_FLASHERASE 0x8C799CA7]
              ++ poll_pairs PAC55XX_MEMSTATUS 100 ++ [Access.read PAC55XX_MEMSTATUS] },
          sectors := some (tbl.mapIdx (mark_erased first m)) } ∧
        left_unlocked bank.target.log b1.target.log ∧
        reg_value 0x400D0008 init b1.target.log = 0x43DF140A) ∧
    (∀ key : Nat,
      bank.target.on_write bank.target.log PAC55XX_MEMCTL_FLASHLOCK 0x43DF140A = ERROR_OK →
      bank.target.on_write
        (bank.target.log ++ [Access.write PAC55XX_MEMCTL_FLASHLOCK 0x43DF140A])
        PAC55XX_MEMCTL_FLASHERASE key = ERROR_OK →
      poll_times_out bank.target busy55 PAC55XX_MEMSTATUS 100
        (bank.target.log ++ [Access.write PAC55XX_MEMCTL_FLASHLOCK 0x43DF140A,
          Access.write PAC55XX_MEMCTL_FLASHERASE key]) →
      ∃ b1, pac55xx_erase_key bank key = some (ERROR_FAIL, b1) ∧
        b1 = { bank with target := { bank.target with
          log := bank.target.log ++ [Access.write PAC55XX_MEMCTL_FLASHLOCK 0x43DF140A,
            Access.write PAC55XX_MEMCTL_FLASHERASE key] ++
            poll_pairs PAC55XX_MEMSTATUS 100 ++ [Access.read PAC55XX_MEMSTATUS] } } ∧
        left_unlocked bank.target.log b1.target.log ∧
        reg_value 0x400D0008 init b1.target.log = 0x43DF140A) ∧
    (∀ (buff0 buffer : Nat → Nat) (offset count : Nat) (q : Nat → Nat) (R : Nat),
      count < 2 ^ 32 → offset + count ≤ 0x400D0000 →
      bank.target.on_write bank.target.log PAC55XX_MEMCTL_FLASHLOCK 0xD513B490 = ERROR_OK →
      bank.target.on_write
        (bank.target.log ++ [Access.write PAC55XX_MEMCTL_FLASHLOCK 0xD513B490])
        PAC55XX_MEMCTL 0x00720046 = ERROR_OK →
      bank.target.on_write
        (bank.target.log ++ [Access.write PAC55XX_MEMCTL_FLASHLOCK 0xD513B490,
          Access.write PAC55XX_MEMCTL 0x00720046])
        PAC55XX_MEMCTL_FLASHLOCK 0x43DF140A = ERROR_OK →
      R < ((offset &&& 0xF) + count + 15) / 16 →
      (∀ r, r < R → poll_ends bank.target busy55 PAC55XX_MEMSTATUS 5
        (bank.target.log ++
          [Access.write PAC55XX_MEMCTL_FLASHLOCK 0xD513B490,
            Access.write PAC55XX_MEMCTL 0x00720046,
            Access.write PAC55XX_MEMCTL_FLASHLOCK 0x43DF140A] ++
          accesses_upto (pac55xx_row_run (offset &&& 0xFFFFFFF0)
            (row_stream buffer offset count) q) r ++
          pac55xx_row_words (offset &&& 0xFFFFFFF0) (row_stream buffer offset count) r)
        (q r) ERROR_OK) →
      poll_times_out bank.target busy55 PAC55XX_MEMSTATUS 5
        (bank.target.log ++
          [Access.write PAC55XX_MEMCTL_FLASHLOCK 0xD513B490,
            Access.write PAC55XX_MEMCTL 0x00720046,
            Access.write PAC55XX_MEMCTL_FLASHLOCK 0x43DF140A] ++
          accesses_upto (pac55xx_row_run (offset &&& 0xFFFFFFF0)
            (row_stream buffer offset count) q) R ++
          pac55xx_row_words (offset &&& 0xFFFFFFF0) (row_stream buffer offset count) R) →
      ∃ b1, pac55xx_write buff0 bank buffer offset count = (ERROR_FAIL, b1) ∧
        b1 = { bank with target := { bank.target with
          log := bank.target.log ++
            [Access.write PAC55XX_MEMCTL_FLASHLOCK 0xD513B490,
              Access.write PAC55XX_MEMCTL 0x00720046,
              Access.write PAC55XX_MEMCTL_FLASHLOCK 0x43DF140A] ++
            accesses_upto (pac55xx_row_run (offset &&& 0xFFFFFFF0)
              (row_stream buffer offset count) q) R ++
            pac55xx_row_words (offset &&& 0xFFFFFFF0) (row_stream buffer offset count) R ++
            poll_pairs PAC55XX_MEMSTATUS 5 ++ [Access.read PAC55XX_MEMSTATUS] } } ∧
        left_unlocked bank.target.log b1.target.log ∧
        reg_value 0x400D0008 init b1.target.log = 0x43DF140A) := by
  refine ⟨?_, ?_, ?_⟩
  · intro tbl first last m q hs h0 hk hl hok hw1 hw2 hw3 hto
    have hcall := pac55xx_erase_fails_at bank tbl first last m q ERROR_FAIL
      ([Access.write PAC55XX_MEMCTL_FLASHLOCK FLASH_LOCK_ALLOW_WRITE_ERASE_FLASH,
          Access.write PAC55XX_MEMCTL_FLASHPAGE (int_to_u32 (first + m)),
          Access.write PAC55XX_MEMCTL_FLASHERASE FLASH_START_PAGE_ERASE]
        ++ poll_pairs PAC55XX_MEMSTATUS 100 ++ [Access.read PAC55XX_MEMSTATUS])
      hs hh h0 hk hl hok
      ⟨by decide, Or.inr (Or.inr (Or.inr ⟨100, rfl, hw1, hw2, hw3,
        poll_ends_of_times_out _ _ _ _ _ hto⟩))⟩
    have hu := pac55xx_erase_timeout bank _ ERROR_FAIL
      (bank.target.log ++ accesses_upto (page_run PAC55XX_MEMCTL_FLASHLOCK
          FLASH_LOCK_ALLOW_WRITE_ERASE_FLASH PAC55XX_MEMCTL_FLASHPAGE
          PAC55XX_MEMCTL_FLASHERASE FLASH_START_PAGE_ERASE PAC55XX_MEMSTATUS first q) m
          ++ [Access.write PAC55XX_MEMCTL_FLASHLOCK 0x43DF140A,
            Access.write PAC55XX_MEMCTL_FLASHPAGE (int_to_u32 (first + m)),
            Access.write PAC55XX_MEMCTL_FLASHERASE 0x8C799CA7]
          ++ poll_pairs PAC55XX_MEMSTATUS 100)
      first last hh
      (by
        simp only [List.append_assoc]
        rfl)
      (hto 100 (Nat.le_refl _)).1 hcall
    refine ⟨_, hcall, ?_, hu.2.2, left_unlocked_reg _ _ init hu.2.2⟩
    simp only [List.append_assoc]
    rfl
  · intro key hw1 hw2 hto
    have hcall := pac55xx_erase_key_fails_at bank key 100 ERROR_FAIL (by decide) hh hw1 hw2
      (poll_ends_of_times_out _ _ _ _ _ hto)
    have hu := pac55xx_erase_key_timeout bank _ ERROR_FAIL
      (bank.target.log ++ [Access.write PAC55XX_MEMCTL_FLASHLOCK 0x43DF140A,
          Access.write PAC55XX_MEMCTL_FLASHERASE key] ++ poll_pairs PAC55XX_MEMSTATUS 100)
      key hh rfl (hto 100 (Nat.le_refl _)).1 hcall
    exact ⟨_, hcall, rfl, hu.2.2, left_unlocked_reg _ _ init hu.2.2⟩
  · intro buff0 buffer offset count q R hcount hrange hw1 hw2 hw3 hR hrows hto
    have hcall := pac55xx_write_fails_at buff0 bank buffer offset count q R 5 ERROR_FAIL
      (by decide) hh hcount hw1 hw2 hw3 hR hrows (poll_ends_of_times_out _ _ _ _ _ hto)
    have hu := pac55xx_write_timeout bank _ ERROR_FAIL
      (bank.target.log ++
          [Access.write PAC55XX_MEMCTL_FLASHLOCK 0xD513B490,
            Access.write PAC55XX_MEMCTL 0x00720046,
            Access.write PAC55XX_MEMCTL_FLASHLOCK 0x43DF140A] ++
          accesses_upto (pac55xx_row_run (offset &&& 0xFFFFFFF0)
            (row_stream buffer offset count) q) R ++
          pac55xx_row_words (offset &&& 0xFFFFFFF0) (row_stream buffer offset count) R ++
          poll_pairs PAC55XX_MEMSTATUS 5)
      buff0 buffer offset count hh rfl (hto 5 (Nat.le_refl _)).1 hrange hcall
    exact ⟨_, hcall, rfl, hu.2.2, left_unlocked_reg _ _ init hu.2.2⟩

set_option maxRecDepth 8192 in
/-- Instance of `timed_out_leaves_unlocked`: on a halted target whose status
register is stuck at `0x3`, the write of the byte `0xAA` at offset 4, the mass
erase and the erase of pages 3 to 5 each end at the last status read of their
first poll with `ERROR_FAIL`, the arming key being the last value written to
FLASHLOCK. -/
theorem timed_out_leaves_unlocked_witness :
    (∃ b1, pac55xx_write (fun _ => 0) (sample_bank55 (const_target TARGET_HALTED 3))
        (fun _ => 0xAA) 4 1 = (ERROR_FAIL, b1) ∧
      b1.target.log
        = [Access.write 0x400D0008 0xD513B490, Access.write 0x400D0000 0x00720046,
            Access.write 0x400D0008 0x43DF140A,
            Access.write 0 0xFFFFFFFF, Access.write 4 0xFFFFFFAA, Access.write 8 0xFFFFFFFF,
            Access.write 12 0xFFFFFFFF,
            Access.read 0x400D0004, Access.sleep 1, Access.read 0x400D0004, Access.sleep 1,
            Access.read 0x400D0004, Access.sleep 1, Access.read 0x400D0004, Access.sleep 1,
            Access.read 0x400D0004, Access.sleep 1, Access.read 0x400D0004] ∧
      reg_value 0x400D0008 0 b1.target.log = 0x43DF140A) ∧
    (∃ b1, pac55xx_erase_key (sample_bank55 (const_target TARGET_HALTED 3)) 0x1234
        = some (ERROR_FAIL, b1) ∧
      b1.target.log
        = [Access.write 0x400D0008 0x43DF140A, Access.write 0x400D0020 0x1234]
            ++ poll_pairs 0x400D0004 100 ++ [Access.read 0x400D0004] ∧
      b1.sectors = some (sample_table 128) ∧
      reg_value 0x400D0008 0 b1.target.log = 0x43DF140A) ∧
    (∃ b1, pac55xx_erase (sample_bank55 (const_target TARGET_HALTED 3)) 3 5
        = some (ERROR_FAIL, b1) ∧
      b1.target.log
        = [Access.write 0x400D0008 0x43DF140A, Access.write 0x400D000C 3,
            Access.write 0x400D0020 0x8C799CA7]
            ++ poll_pairs 0x400D0004 100 ++ [Access.read 0x400D0004] ∧
      reg_value 0x400D0008 0 b1.target.log = 0x43DF140A) := by
  have hstuck : ∀ (N : Nat) (L : List Access),
      poll_times_out (sample_bank55 (const_target TARGET_HALTED 3)).target busy55
        PAC55XX_MEMSTATUS N L :=
    fun _ _ _ _ => ⟨rfl, by show busy55 (3 % 2 ^ 32) = true; decide⟩
  obtain ⟨bw, hw1, hw2, _, hw4⟩ :=
    (timed_out_leaves_unlocked (sample_bank55 (const_target TARGET_HALTED 3)) 0 rfl).2.2
      (fun _ => 0) (fun _ => 0xAA) 4 1 (fun _ => 0) 0 (by decide) (by decide) rfl rfl rfl
      (by decide) (fun r hr => absurd hr (Nat.not_lt_zero r)) (hstuck _ _)
  obtain ⟨bk, hk1, hk2, _, hk4⟩ :=
    (timed_out_leaves_unlocked (sample_bank55 (const_target TARGET_HALTED 3)) 0 rfl).2.1
      0x1234 rfl rfl (hstuck _ _)
  obtain ⟨be, he1, he2, _, he4⟩ :=
    (timed_out_leaves_unlocked (sample_bank55 (const_target TARGET_HALTED 3)) 0 rfl).1
      (sample_table 128) 3 5 0 (fun _ => 0) rfl (by decide) (by decide) (by decide)
      (fun j hj => absurd hj (Nat.not_lt_zero j)) rfl rfl rfl (hstuck _ _)
  refine ⟨⟨bw, hw1, ?_, hw4⟩, ⟨bk, hk1, ?_, ?_, hk4⟩, ⟨be, he1, ?_, he4⟩⟩
  · rw [hw2]
    decide
  · rw [hk2]
    rfl
  · rw [hk2]
    rfl
  · rw [he2]
    rfl

end Pac5xxx
